import Mathlib

/-!
Shader binary caches of the Intel Vulkan (anv) and Gallium (iris) drivers.

A shallow embedding of `src/intel/vulkan/anv_pipeline_cache.c` and
`src/gallium/drivers/iris/iris_program_cache.c`.

Conventions of the embedding.

* A byte is a `Nat`; a region of memory reachable from a C pointer is a
  `List Nat`.  A pair `(pointer, size)` of the C code is a pair
  `(List Nat, Nat)`, and `memcpy (dst, src, n)` yields `src.take n`.
* A `struct anv_shader_bin *` is an index into `anv_device.bins`, the heap of
  shader binaries of the device.  Heap cells are never reused.  In the same
  way a `struct iris_compiled_shader *` is an index into
  `iris_context.compiled`.
* Stateful functions take the state they touch and return the new state next
  to their C result.  A C `NULL` result is `none`.
* Sizes are `size_t` on an LP64 target; products such as
  `nr_params * sizeof (uint32_t)` therefore do not wrap and are plain `Nat`
  products.  The 32 bit reference counter is a `Nat`.
* A pointer stored in a structure is held as the memory behind it, in a field
  of its own: `prog_data->param` is `anv_shader_bin.prog_data_param`, next to
  the bytes `prog_data` of the structure.  The bytes of `prog_data` include
  those of the pointer field `param`: `anv_shader_bin_create` stores there the
  host address of the parameter array of the new binary, which the
  environment gives as `mesa_env.prog_data_param_address`.
-/

/-! ## Declarations taken from headers that are not part of the sources -/

/-- Modelled from the spec: the constants and helpers that the two cache files
take from headers and libraries outside the sources (`util/hash_table.h`,
`intel/compiler/brw_compiler.h`, `nir/nir_xfb_info.h`, `anv_private.h`).
`hash_data` is `_mesa_hash_data` seen as a function of the hashed byte string
(spec 4.1: "combine the tag discriminant and the full key byte range into one
hash"); `prog_data_param_address` is the choice of the host allocator; the
other fields are structure layout constants. -/
structure mesa_env where
  /-- The function `_mesa_hash_data`, applied to the bytes it covers. -/
  hash_data : List Nat → Nat
  /-- The constant `offsetof (struct brw_stage_prog_data, nr_params)`. -/
  nr_params_offset : Nat
  /-- The constant `sizeof (struct anv_pipeline_binding)`. -/
  sizeof_pipeline_binding : Nat
  /-- The constant `sizeof (nir_xfb_info)`. -/
  sizeof_xfb_info : Nat
  /-- The constant `sizeof (nir_xfb_output_info)`. -/
  sizeof_xfb_output_info : Nat
  /-- The constant `offsetof (nir_xfb_info, output_count)`. -/
  output_count_offset : Nat
  /-- The constant `offsetof (struct brw_stage_prog_data, program_size)`. -/
  program_size_offset : Nat
  /-- The constant `offsetof (struct brw_stage_prog_data, param)`. -/
  param_offset : Nat
  /-- The constant `sizeof (uint32_t *)`. -/
  sizeof_pointer : Nat
  /-- The host address at which the allocation behind `anv_multialloc_alloc`
  places the parameter array of the shader binary with the heap index `p`. -/
  prog_data_param_address : Nat → Nat

/-- The call `memcpy (dst, src, n)`: the `n` bytes that end up in `dst`. -/
def memcpy (src : List Nat) (n : Nat) : List Nat := src.take n

/-- The test `memcmp (a, b, n) == 0`. -/
def memcmp_eq (a b : List Nat) (n : Nat) : Bool := a.take n == b.take n

/-- A little-endian `uint32_t` load from memory `m` at byte offset `off`.
Bytes that the memory region does not hold read as zero. -/
def load_uint32 (m : List Nat) (off : Nat) : Nat :=
  m.getD off 0 + 256 * m.getD (off + 1) 0 + 65536 * m.getD (off + 2) 0
    + 16777216 * m.getD (off + 3) 0

/-- A little-endian `uint16_t` load from memory `m` at byte offset `off`. -/
def load_uint16 (m : List Nat) (off : Nat) : Nat :=
  m.getD off 0 + 256 * m.getD (off + 1) 0

/-- The little-endian bytes of a `uint32_t`. -/
def uint32_bytes (v : Nat) : List Nat :=
  [v % 256, v / 256 % 256, v / 65536 % 256, v / 16777216 % 256]

/-- The little-endian bytes of a pointer of `n` bytes that holds the address
`p`. -/
def pointer_bytes (n p : Nat) : List Nat :=
  (List.range n).map (fun i => p / 256 ^ i % 256)

/-- A store of the bytes `v` at the byte offset `off` of the memory `m`: the
memory after the store.  Bytes of `v` that would land behind the end of `m`
are not part of the result. -/
def store_bytes (m : List Nat) (off : Nat) (v : List Nat) : List Nat :=
  m.take off ++ v.take (m.length - off) ++ m.drop (off + v.length)

/-- The helper `nir_xfb_info_size (output_count)` of `nir_xfb_info.h`. -/
def nir_xfb_info_size (E : mesa_env) (output_count : Nat) : Nat :=
  E.sizeof_xfb_info + E.sizeof_xfb_output_info * output_count

/-! ## The hash table of `util/hash_table.h` -/

/-- One `struct hash_entry`: a key and the data stored under it. -/
structure hash_entry (κ δ : Type) where
  key : κ
  data : δ
deriving DecidableEq, Repr

/-- The test that the table applies to a candidate entry key `k` during a
probe for `key`: `entry->hash == hash && key_equals_function (key, entry->key)`.
The stored hash of an entry is the hash of its key. -/
def hash_entry_matches {κ : Type} (hf : κ → Nat) (eq : κ → κ → Bool)
    (key k : κ) : Bool :=
  hf k == hf key && eq key k

/-- Modelled from the spec: `_mesa_hash_table_search` of `util/hash_table.c`,
which is not among the sources.  The table is the list of its live entries;
the search returns the first entry that matches the key and does not change
the table (spec 4.1: "lookup ... Never mutates"). -/
def _mesa_hash_table_search {κ δ : Type} (hf : κ → Nat) (eq : κ → κ → Bool)
    (ht : List (hash_entry κ δ)) (key : κ) : Option (hash_entry κ δ) :=
  ht.find? (fun e => hash_entry_matches hf eq key e.key)

/-- Modelled from the spec: `_mesa_hash_table_insert` of `util/hash_table.c`,
which is not among the sources.  A key maps to at most one entry (spec 3: "A
key maps to at most one artifact in the table at any time"): when the probe
meets an entry that matches the key, that entry takes the new key and data;
otherwise a new entry is added. -/
def _mesa_hash_table_insert {κ δ : Type} (hf : κ → Nat) (eq : κ → κ → Bool) :
    List (hash_entry κ δ) → κ → δ → List (hash_entry κ δ)
  | [], key, data => [⟨key, data⟩]
  | e :: es, key, data =>
    if hash_entry_matches hf eq key e.key then ⟨key, data⟩ :: es
    else e :: _mesa_hash_table_insert hf eq es key data

/-! ## Data model of the anv pipeline cache -/

/-- The `struct anv_shader_bin_key`: a size and `size` bytes of data. -/
structure anv_shader_bin_key where
  size : Nat
  data : List Nat
deriving DecidableEq, Repr

/-- The `struct anv_state`: a region handed out by a state pool and the bytes
written through its `map` pointer. -/
structure anv_state where
  offset : Nat
  alloc_size : Nat
  map : List Nat
deriving DecidableEq, Repr

/-- The constant `ANV_STATE_NULL`. -/
def ANV_STATE_NULL : anv_state := { offset := 0, alloc_size := 0, map := [] }

/-- The `struct anv_pipeline_bind_map` with the memory behind its two arrays. -/
structure anv_pipeline_bind_map where
  surface_count : Nat
  sampler_count : Nat
  surface_to_descriptor : List Nat
  sampler_to_descriptor : List Nat
deriving DecidableEq, Repr

/-- A `struct brw_stage_prog_data *` argument: the bytes of the structure and
the memory behind its `param` pointer. -/
structure brw_stage_prog_data where
  bytes : List Nat
  param : List Nat
deriving DecidableEq, Repr

/-- The `struct anv_shader_bin`. -/
structure anv_shader_bin where
  ref_cnt : Nat
  key : anv_shader_bin_key
  kernel : anv_state
  kernel_size : Nat
  constant_data : anv_state
  constant_data_size : Nat
  prog_data : List Nat
  prog_data_size : Nat
  prog_data_param : List Nat
  xfb_info : Option (List Nat)
  bind_map : anv_pipeline_bind_map
deriving DecidableEq, Repr

/-- The parts of `struct anv_device` (and of its physical device) that the
cache uses.  `alloc` lists the outcomes of the coming host allocations
(`true` is success; host allocation succeeds once the list is used up).  The
two state pools are bump allocators, held as their next free offset.
`destroyed` is the record of the calls of `anv_shader_bin_destroy`: the
addresses of the destroyed binaries, in the order of their destruction.
`out_of_bounds` is the record of the stores that did not fit into the object
they were aimed at: the address of each binary whose program data is too
small to hold the pointer field `param` that `anv_shader_bin_create` writes. -/
structure anv_device where
  chipset_id : Nat
  pipeline_cache_uuid : List Nat
  alloc : List Bool
  instruction_state_pool : Nat
  dynamic_state_pool : Nat
  bins : List anv_shader_bin
  destroyed : List Nat := []
  out_of_bounds : List Nat := []
deriving DecidableEq, Repr

/-- The `struct serialized_nir`. -/
structure serialized_nir where
  sha1_key : List Nat
  size : Nat
  data : List Nat
deriving DecidableEq, Repr

/-- The `struct anv_pipeline_cache`: the two tables, `NULL` when the cache is
disabled.  The `device` back pointer is passed next to the cache. -/
structure anv_pipeline_cache where
  cache : Option (List (hash_entry anv_shader_bin_key Nat))
  nir_cache : Option (List (hash_entry (List Nat) serialized_nir))
deriving DecidableEq, Repr

/-- Rounding `v` up to a multiple of `a`, the macro `ALIGN`. -/
def ALIGN (v a : Nat) : Nat := (v + a - 1) / a * a

/-- Modelled from the spec: `anv_state_pool_alloc`, which is not among the
sources, as the bump allocator of the glossary ("bump allocator producing
stable offsets within a larger backing resource").  It returns the new region
and the pool after the allocation. -/
def anv_state_pool_alloc (pool : Nat) (size align : Nat) : anv_state × Nat :=
  ({ offset := ALIGN pool align, alloc_size := size, map := [] },
   ALIGN pool align + size)

/-- Modelled from the spec: `anv_multialloc_alloc`, which is not among the
sources: the next outcome of the host allocator, and the allocator after it. -/
def anv_multialloc_alloc (alloc : List Bool) : Bool × List Bool :=
  match alloc with
  | [] => (true, [])
  | ok :: rest => (ok, rest)

/-- Modelled from the spec: `anv_shader_bin_ref` of `anv_private.h`, which is
not among the sources: one more reference on the shader binary ("increments
artifact refcount"). -/
def anv_shader_bin_ref (device : anv_device) (shader : Nat) : anv_device :=
  { device with
    bins := device.bins.modify (fun b => { b with ref_cnt := b.ref_cnt + 1 }) shader }

/-! ## Shader binaries -/

/-- The function `anv_shader_bin_create`: one host allocation for the binary
and its arrays, one instruction pool region for the kernel, one dynamic pool
region for the constant data when there is any.  The copied program data
gets the address of the copied parameter array in its field `param`; when the
`prog_data_size` bytes do not hold that field the store is recorded in
`out_of_bounds`.  The result is the address of the new binary, or `NULL` when
the host allocation fails. -/
def anv_shader_bin_create (E : mesa_env) (device : anv_device)
    (key_data : List Nat) (key_size : Nat)
    (kernel_data : List Nat) (kernel_size : Nat)
    (constant_data : List Nat) (constant_data_size : Nat)
    (prog_data_in : List Nat) (prog_data_size : Nat)
    (prog_data_param_in : List Nat)
    (xfb_info_in : Option (List Nat))
    (bind_map : anv_pipeline_bind_map) : Option Nat × anv_device :=
  match anv_multialloc_alloc device.alloc with
  | (false, alloc) => (none, { device with alloc := alloc })
  | (true, alloc) =>
    let key : anv_shader_bin_key :=
      { size := key_size, data := memcpy key_data key_size }
    let kernel := anv_state_pool_alloc device.instruction_state_pool kernel_size 64
    let constant : anv_state × Nat :=
      if constant_data_size ≠ 0 then
        let c := anv_state_pool_alloc device.dynamic_state_pool constant_data_size 32
        ({ c.1 with map := memcpy constant_data constant_data_size }, c.2)
      else (ANV_STATE_NULL, device.dynamic_state_pool)
    let prog_data := memcpy prog_data_in prog_data_size
    let prog_data_param :=
      memcpy prog_data_param_in (load_uint32 prog_data E.nr_params_offset * 4)
    let prog_data := store_bytes prog_data E.param_offset
      (pointer_bytes E.sizeof_pointer (E.prog_data_param_address device.bins.length))
    let xfb_info : Option (List Nat) :=
      match xfb_info_in with
      | some x =>
        some (memcpy x (nir_xfb_info_size E (load_uint16 x E.output_count_offset)))
      | none => none
    let shader : anv_shader_bin :=
      { ref_cnt := 1
        key := key
        kernel := { kernel.1 with map := memcpy kernel_data kernel_size }
        kernel_size := kernel_size
        constant_data := constant.1
        constant_data_size := constant_data_size
        prog_data := prog_data
        prog_data_size := prog_data_size
        prog_data_param := prog_data_param
        xfb_info := xfb_info
        bind_map :=
          { surface_count := bind_map.surface_count
            sampler_count := bind_map.sampler_count
            surface_to_descriptor :=
              memcpy bind_map.surface_to_descriptor
                (bind_map.surface_count * E.sizeof_pipeline_binding)
            sampler_to_descriptor :=
              memcpy bind_map.sampler_to_descriptor
                (bind_map.sampler_count * E.sizeof_pipeline_binding) } }
    (some device.bins.length,
     { device with
       alloc := alloc
       instruction_state_pool := kernel.2
       dynamic_state_pool := constant.2
       bins := device.bins ++ [shader]
       out_of_bounds :=
         if E.param_offset + E.sizeof_pointer ≤ prog_data_size then device.out_of_bounds
         else device.out_of_bounds ++ [device.bins.length] })

/-! ## The blob reader of `compiler/blob.h` -/

/-- The `struct blob_reader`: the memory at `data`, the offsets `end` and
`current` from `data`, and the sticky `overrun` flag. -/
structure blob_reader where
  data : List Nat
  end_ : Nat
  current : Nat
  overrun : Bool
deriving DecidableEq, Repr

/-- Modelled from the spec: `blob_reader_init` of `compiler/blob.c`, which is
not among the sources. -/
def blob_reader_init (data : List Nat) (size : Nat) : blob_reader :=
  { data := data, end_ := size, current := 0, overrun := false }

/-- Modelled from the spec: the bounds check of the blob reader
(`compiler/blob.c`, not among the sources): a read of `size` bytes is allowed
when no earlier read overran and the bytes lie before `end`; a refused read
sets `overrun` ("a truncated/overrun entry"). -/
def ensure_can_read (blob : blob_reader) (size : Nat) : Bool × blob_reader :=
  if blob.overrun then (false, blob)
  else if blob.current ≤ blob.end_ ∧ size ≤ blob.end_ - blob.current then (true, blob)
  else (false, { blob with overrun := true })

/-- Modelled from the spec: `blob_read_bytes` of `compiler/blob.c`, which is
not among the sources: the offset of the bytes inside the buffer, or `NULL`
when the read is refused. -/
def blob_read_bytes (blob : blob_reader) (size : Nat) : Option Nat × blob_reader :=
  match ensure_can_read blob size with
  | (false, blob1) => (none, blob1)
  | (true, blob1) => (some blob1.current, { blob1 with current := blob1.current + size })

/-- Modelled from the spec: `blob_copy_bytes` of `compiler/blob.c`, which is
not among the sources: the bytes copied to the destination, none when the
read is refused. -/
def blob_copy_bytes (blob : blob_reader) (size : Nat) : List Nat × blob_reader :=
  match blob_read_bytes blob size with
  | (none, blob1) => ([], blob1)
  | (some off, blob1) => (memcpy (blob.data.drop off) size, blob1)

/-- Modelled from the spec: `blob_read_uint32` of `compiler/blob.c`, which is
not among the sources: the reader is first aligned to four bytes; a refused
read yields zero. -/
def blob_read_uint32 (blob : blob_reader) : Nat × blob_reader :=
  let blob0 := { blob with current := ALIGN blob.current 4 }
  match ensure_can_read blob0 4 with
  | (false, blob1) => (0, blob1)
  | (true, blob1) =>
    (load_uint32 blob1.data blob1.current, { blob1 with current := blob1.current + 4 })

/-- The memory behind a pointer that `blob_read_bytes` returned. -/
def blob_mem (blob : blob_reader) (p : Option Nat) : List Nat :=
  match p with
  | some off => blob.data.drop off
  | none => []

/-- The function `anv_shader_bin_create_from_blob`.  The reader after each
read is named `b1`, `b2`, and so on; the memory of the buffer is that of
`blob` throughout. -/
def anv_shader_bin_create_from_blob (E : mesa_env) (device : anv_device)
    (blob : blob_reader) : Option Nat × anv_device × blob_reader :=
  match blob_read_uint32 blob with
  | (key_size, b1) =>
  match blob_read_bytes b1 key_size with
  | (key_data, b2) =>
  match blob_read_uint32 b2 with
  | (kernel_size, b3) =>
  match blob_read_bytes b3 kernel_size with
  | (kernel_data, b4) =>
  match blob_read_uint32 b4 with
  | (constant_data_size, b5) =>
  match blob_read_bytes b5 constant_data_size with
  | (constant_data, b6) =>
  match blob_read_uint32 b6 with
  | (prog_data_size, b7) =>
  match blob_read_bytes b7 prog_data_size with
  | (prog_data, b8) =>
  if b8.overrun then (none, device, b8)
  else
    match blob_read_bytes b8
      (load_uint32 (blob_mem blob prog_data) E.nr_params_offset * 4) with
    | (prog_data_param, b9) =>
    match blob_read_uint32 b9 with
    | (xfb_size, b10) =>
    match (if xfb_size ≠ 0 then blob_read_bytes b10 xfb_size else (none, b10)) with
    | (xfb_info, b11) =>
    match blob_read_uint32 b11 with
    | (surface_count, b12) =>
    match blob_read_uint32 b12 with
    | (sampler_count, b13) =>
    match blob_read_bytes b13 (surface_count * E.sizeof_pipeline_binding) with
    | (surface_to_descriptor, b14) =>
    match blob_read_bytes b14 (sampler_count * E.sizeof_pipeline_binding) with
    | (sampler_to_descriptor, b15) =>
    if b15.overrun then (none, device, b15)
    else
      let r := anv_shader_bin_create E device
        (blob_mem blob key_data) key_size
        (blob_mem blob kernel_data) kernel_size
        (blob_mem blob constant_data) constant_data_size
        (blob_mem blob prog_data) prog_data_size
        (blob_mem blob prog_data_param)
        (match xfb_info with
         | some off => some (blob.data.drop off)
         | none => none)
        { surface_count := surface_count
          sampler_count := sampler_count
          surface_to_descriptor := blob_mem blob surface_to_descriptor
          sampler_to_descriptor := blob_mem blob sampler_to_descriptor }
      (r.1, r.2, b15)

/-! ## The pipeline cache -/

/-- The function `shader_bin_key_hash_func`. -/
def shader_bin_key_hash_func (E : mesa_env) (key : anv_shader_bin_key) : Nat :=
  E.hash_data (key.data.take key.size)

/-- The function `shader_bin_key_compare_func`. -/
def shader_bin_key_compare_func (a b : anv_shader_bin_key) : Bool :=
  if a.size ≠ b.size then false
  else memcmp_eq a.data b.data a.size

/-- The function `anv_pipeline_cache_init`. -/
def anv_pipeline_cache_init (cache_enabled : Bool) : anv_pipeline_cache :=
  if cache_enabled then { cache := some [], nir_cache := some [] }
  else { cache := none, nir_cache := none }

/-- The function `anv_pipeline_cache_search_locked`.  Its callers hold a
cache whose table is not `NULL`. -/
def anv_pipeline_cache_search_locked (E : mesa_env) (cache : anv_pipeline_cache)
    (key_data : List Nat) (key_size : Nat) : Option Nat :=
  let key : anv_shader_bin_key :=
    { size := key_size, data := memcpy key_data key_size }
  match cache.cache with
  | none => none
  | some ht =>
    match _mesa_hash_table_search (shader_bin_key_hash_func E)
        shader_bin_key_compare_func ht key with
    | some entry => some entry.data
    | none => none

/-- The function `anv_pipeline_cache_search`. -/
def anv_pipeline_cache_search (E : mesa_env) (device : anv_device)
    (cache : anv_pipeline_cache) (key_data : List Nat) (key_size : Nat) :
    Option Nat × anv_device × anv_pipeline_cache :=
  match cache.cache with
  | none => (none, device, cache)
  | some _ =>
    match anv_pipeline_cache_search_locked E cache key_data key_size with
    | some shader => (some shader, anv_shader_bin_ref device shader, cache)
    | none => (none, device, cache)

/-- The function `anv_pipeline_cache_add_shader_bin`.  The argument `bin` is
the address of a live shader binary. -/
def anv_pipeline_cache_add_shader_bin (E : mesa_env) (device : anv_device)
    (cache : anv_pipeline_cache) (bin : Nat) : anv_device × anv_pipeline_cache :=
  match cache.cache with
  | none => (device, cache)
  | some ht =>
    match device.bins[bin]? with
    | none => (device, cache)
    | some b =>
      match _mesa_hash_table_search (shader_bin_key_hash_func E)
          shader_bin_key_compare_func ht b.key with
      | none =>
        (anv_shader_bin_ref device bin,
         { cache with
           cache := some (_mesa_hash_table_insert (shader_bin_key_hash_func E)
             shader_bin_key_compare_func ht b.key bin) })
      | some _ => (device, cache)

/-- The function `anv_pipeline_cache_add_shader_locked`. -/
def anv_pipeline_cache_add_shader_locked (E : mesa_env) (device : anv_device)
    (cache : anv_pipeline_cache)
    (key_data : List Nat) (key_size : Nat)
    (kernel_data : List Nat) (kernel_size : Nat)
    (constant_data : List Nat) (constant_data_size : Nat)
    (prog_data : List Nat) (prog_data_size : Nat)
    (prog_data_param : List Nat)
    (xfb_info : Option (List Nat))
    (bind_map : anv_pipeline_bind_map) :
    Option Nat × anv_device × anv_pipeline_cache :=
  match anv_pipeline_cache_search_locked E cache key_data key_size with
  | some shader => (some shader, device, cache)
  | none =>
    match anv_shader_bin_create E device key_data key_size kernel_data kernel_size
        constant_data constant_data_size prog_data prog_data_size prog_data_param
        xfb_info bind_map with
    | (none, device1) => (none, device1, cache)
    | (some bin, device1) =>
      match cache.cache, device1.bins[bin]? with
      | some ht, some b =>
        (some bin, device1,
         { cache with
           cache := some (_mesa_hash_table_insert (shader_bin_key_hash_func E)
             shader_bin_key_compare_func ht b.key bin) })
      | _, _ => (some bin, device1, cache)

/-- The function `anv_pipeline_cache_upload_kernel`. -/
def anv_pipeline_cache_upload_kernel (E : mesa_env) (device : anv_device)
    (cache : anv_pipeline_cache)
    (key_data : List Nat) (key_size : Nat)
    (kernel_data : List Nat) (kernel_size : Nat)
    (constant_data : List Nat) (constant_data_size : Nat)
    (prog_data : brw_stage_prog_data) (prog_data_size : Nat)
    (xfb_info : Option (List Nat))
    (bind_map : anv_pipeline_bind_map) :
    Option Nat × anv_device × anv_pipeline_cache :=
  match cache.cache with
  | some _ =>
    match anv_pipeline_cache_add_shader_locked E device cache key_data key_size
        kernel_data kernel_size constant_data constant_data_size
        prog_data.bytes prog_data_size prog_data.param xfb_info bind_map with
    | (some bin, device1, cache1) => (some bin, anv_shader_bin_ref device1 bin, cache1)
    | (none, device1, cache1) => (none, device1, cache1)
  | none =>
    let r := anv_shader_bin_create E device key_data key_size kernel_data kernel_size
      constant_data constant_data_size prog_data.bytes prog_data_size
      prog_data.param xfb_info bind_map
    (r.1, r.2, cache)

/-- The constant `VK_PIPELINE_CACHE_HEADER_VERSION_ONE`. -/
def VK_PIPELINE_CACHE_HEADER_VERSION_ONE : Nat := 1

/-- The constant `VK_UUID_SIZE`. -/
def VK_UUID_SIZE : Nat := 16

/-- The `struct cache_header`, 32 bytes. -/
structure cache_header where
  header_size : Nat
  header_version : Nat
  vendor_id : Nat
  device_id : Nat
  uuid : List Nat
deriving DecidableEq, Repr

/-- The value `sizeof (struct cache_header)`. -/
def sizeof_cache_header : Nat := 32

/-- The fields of a `struct cache_header` held in 32 bytes of memory. -/
def cache_header_of_bytes (m : List Nat) : cache_header :=
  { header_size := load_uint32 m 0
    header_version := load_uint32 m 4
    vendor_id := load_uint32 m 8
    device_id := load_uint32 m 12
    uuid := (m.drop 16).take VK_UUID_SIZE }

/-- The entry loop of `anv_pipeline_cache_load`, run for `count` rounds: each
round creates a binary from the blob and inserts it; the loop stops at the
first binary that cannot be created. -/
def anv_pipeline_cache_load_loop (E : mesa_env) :
    Nat → anv_device → List (hash_entry anv_shader_bin_key Nat) → blob_reader →
    anv_device × List (hash_entry anv_shader_bin_key Nat)
  | 0, device, ht, _ => (device, ht)
  | count + 1, device, ht, blob =>
    match anv_shader_bin_create_from_blob E device blob with
    | (none, device1, _) => (device1, ht)
    | (some bin, device1, blob1) =>
      match device1.bins[bin]? with
      | none => (device1, ht)
      | some b =>
        anv_pipeline_cache_load_loop E count device1
          (_mesa_hash_table_insert (shader_bin_key_hash_func E)
            shader_bin_key_compare_func ht b.key bin) blob1

/-- The function `anv_pipeline_cache_load`. -/
def anv_pipeline_cache_load (E : mesa_env) (device : anv_device)
    (cache : anv_pipeline_cache) (data : List Nat) (size : Nat) :
    anv_device × anv_pipeline_cache :=
  match cache.cache with
  | none => (device, cache)
  | some ht =>
    let blob := blob_reader_init data size
    let hdr := blob_copy_bytes blob sizeof_cache_header
    let header := cache_header_of_bytes hdr.1
    let count := blob_read_uint32 hdr.2
    if count.2.overrun then (device, cache)
    else if header.header_size < sizeof_cache_header then (device, cache)
    else if header.header_version ≠ VK_PIPELINE_CACHE_HEADER_VERSION_ONE then
      (device, cache)
    else if header.vendor_id ≠ 32902 then (device, cache)
    else if header.device_id ≠ device.chipset_id then (device, cache)
    else if ¬ memcmp_eq header.uuid device.pipeline_cache_uuid VK_UUID_SIZE then
      (device, cache)
    else
      let r := anv_pipeline_cache_load_loop E count.1 device ht count.2
      (r.1, { cache with cache := some r.2 })

/-! ## Several caches of one device -/

/-- A device and the pipeline caches created on it.  A `VkPipelineCache`
handle is an index into `caches`. -/
structure anv_world where
  device : anv_device
  caches : List anv_pipeline_cache
deriving DecidableEq, Repr

/-- The body of the inner loop of `anv_MergePipelineCaches` for one entry of a
source table: the binary is added to the destination table, with one more
reference, unless the destination holds its key. -/
def anv_merge_entry (E : mesa_env)
    (st : anv_device × List (hash_entry anv_shader_bin_key Nat))
    (entry : hash_entry anv_shader_bin_key Nat) :
    anv_device × List (hash_entry anv_shader_bin_key Nat) :=
  match st.1.bins[entry.data]? with
  | none => st
  | some bin =>
    match _mesa_hash_table_search (shader_bin_key_hash_func E)
        shader_bin_key_compare_func st.2 bin.key with
    | some _ => st
    | none =>
      (anv_shader_bin_ref st.1 entry.data,
       _mesa_hash_table_insert (shader_bin_key_hash_func E)
         shader_bin_key_compare_func st.2 bin.key entry.data)

/-- The body of the outer loop of `anv_MergePipelineCaches` for the source
handle `srcCache`: a disabled source is skipped, an enabled one is walked
entry by entry.  The walk goes over the entries that the source holds when
the walk starts. -/
def anv_merge_source (E : mesa_env) (destCache : Nat) (w : anv_world)
    (srcCache : Nat) : anv_world :=
  match w.caches[destCache]?, w.caches[srcCache]? with
  | some dst, some src =>
    match dst.cache, src.cache with
    | some dht, some sht =>
      let r := sht.foldl (anv_merge_entry E) (w.device, dht)
      { device := r.1
        caches := w.caches.set destCache { dst with cache := some r.2 } }
    | _, _ => w
  | _, _ => w

/-- The function `anv_MergePipelineCaches`; its result is always
`VK_SUCCESS`, so the embedding returns the state only. -/
def anv_MergePipelineCaches (E : mesa_env) (w : anv_world) (destCache : Nat)
    (srcCacheCount : Nat) (pSrcCaches : List Nat) : anv_world :=
  match w.caches[destCache]? with
  | none => w
  | some dst =>
    match dst.cache with
    | none => w
    | some _ => (pSrcCaches.take srcCacheCount).foldl (anv_merge_source E destCache) w

/-- One call into the cache interface of `anv_pipeline_cache.c`, with the
arguments of the C function; the cache arguments are handles. -/
inductive anv_call where
  | init (cache_enabled : Bool)
  | search (cache : Nat) (key_data : List Nat) (key_size : Nat)
  | upload_kernel (cache : Nat) (key_data : List Nat) (key_size : Nat)
      (kernel_data : List Nat) (kernel_size : Nat)
      (constant_data : List Nat) (constant_data_size : Nat)
      (prog_data : brw_stage_prog_data) (prog_data_size : Nat)
      (xfb_info : Option (List Nat)) (bind_map : anv_pipeline_bind_map)
  | add_shader_bin (cache : Nat) (bin : Nat)
  | load (cache : Nat) (data : List Nat) (size : Nat)
  | merge (destCache : Nat) (srcCacheCount : Nat) (pSrcCaches : List Nat)
deriving DecidableEq, Repr

/-- The state after one call.  A call of `init` sets up a new cache, whose
handle is the next free index; a call on a handle that names no cache leaves
the state as it is. -/
def anv_call_step (E : mesa_env) (w : anv_world) : anv_call → anv_world
  | .init cache_enabled =>
    { w with caches := w.caches ++ [anv_pipeline_cache_init cache_enabled] }
  | .search cache key_data key_size =>
    match w.caches[cache]? with
    | none => w
    | some c =>
      let r := anv_pipeline_cache_search E w.device c key_data key_size
      { device := r.2.1, caches := w.caches.set cache r.2.2 }
  | .upload_kernel cache key_data key_size kernel_data kernel_size constant_data
      constant_data_size prog_data prog_data_size xfb_info bind_map =>
    match w.caches[cache]? with
    | none => w
    | some c =>
      let r := anv_pipeline_cache_upload_kernel E w.device c key_data key_size
        kernel_data kernel_size constant_data constant_data_size prog_data
        prog_data_size xfb_info bind_map
      { device := r.2.1, caches := w.caches.set cache r.2.2 }
  | .add_shader_bin cache bin =>
    match w.caches[cache]? with
    | none => w
    | some c =>
      let r := anv_pipeline_cache_add_shader_bin E w.device c bin
      { device := r.1, caches := w.caches.set cache r.2 }
  | .load cache data size =>
    match w.caches[cache]? with
    | none => w
    | some c =>
      let r := anv_pipeline_cache_load E w.device c data size
      { device := r.1, caches := w.caches.set cache r.2 }
  | .merge destCache srcCacheCount pSrcCaches =>
    anv_MergePipelineCaches E w destCache srcCacheCount pSrcCaches

/-- The state after a sequence of calls. -/
def anv_run (E : mesa_env) (w : anv_world) (calls : List anv_call) : anv_world :=
  calls.foldl (anv_call_step E) w

/-- A call of `anv_pipeline_cache_search` or `anv_pipeline_cache_upload_kernel`. -/
def anv_call.is_search_or_upload : anv_call → Bool
  | .search _ _ _ => true
  | .upload_kernel _ _ _ _ _ _ _ _ _ _ _ => true
  | _ => false

/-- Every entry of the table of `cache` holds the address of a live shader
binary and is keyed by the key stored in that binary. -/
def anv_entries_keyed_by_bin (device : anv_device) (cache : anv_pipeline_cache) : Prop :=
  ∀ ht, cache.cache = some ht →
    ∀ e ∈ ht, ∃ b, device.bins[e.data]? = some b ∧ b.key = e.key

/-- No two entries of the table of `cache` have keys that the compare function
of the table takes for equal. -/
def anv_keys_distinct (cache : anv_pipeline_cache) : Prop :=
  ∀ ht, cache.cache = some ht →
    ht.Pairwise (fun e1 e2 => shader_bin_key_compare_func e1.key e2.key = false)

/-- Every live shader binary of `d` is live in `d1` with the same key. -/
def anv_heap_keeps_keys (d d1 : anv_device) : Prop :=
  ∀ (p : Nat) (b : anv_shader_bin), d.bins[p]? = some b →
    ∃ b1 : anv_shader_bin, d1.bins[p]? = some b1 ∧ b1.key = b.key

/-- The two parts of the table invariant for one table: no two entries have
keys that compare equal, and every entry is keyed by the key of the live
binary it holds. -/
def anv_table_ok (d : anv_device)
    (ht : List (hash_entry anv_shader_bin_key Nat)) : Prop :=
  ht.Pairwise (fun e1 e2 => shader_bin_key_compare_func e1.key e2.key = false) ∧
  ∀ e ∈ ht, ∃ b, d.bins[e.data]? = some b ∧ b.key = e.key

/-- The table invariant for a cache: it holds of the table when there is one. -/
def anv_cache_ok (d : anv_device) (c : anv_pipeline_cache) : Prop :=
  ∀ ht, c.cache = some ht → anv_table_ok d ht

/-- The table invariant for a world: it holds of every cache of the device. -/
def anv_world_ok (w : anv_world) : Prop :=
  ∀ c ∈ w.caches, anv_cache_ok w.device c

/-! ## The key box of the iris program cache -/

/-- The `enum iris_program_cache_id`. -/
inductive iris_program_cache_id where
  | IRIS_CACHE_VS
  | IRIS_CACHE_TCS
  | IRIS_CACHE_TES
  | IRIS_CACHE_GS
  | IRIS_CACHE_FS
  | IRIS_CACHE_CS
  | IRIS_CACHE_BLORP
deriving DecidableEq, Repr

/-- The numeric value of a cache id: the shader stage, then `IRIS_CACHE_BLORP`. -/
def iris_program_cache_id.toNat : iris_program_cache_id → Nat
  | .IRIS_CACHE_VS => 0
  | .IRIS_CACHE_TCS => 1
  | .IRIS_CACHE_TES => 2
  | .IRIS_CACHE_GS => 3
  | .IRIS_CACHE_FS => 4
  | .IRIS_CACHE_CS => 5
  | .IRIS_CACHE_BLORP => 6

/-- The `struct keybox`: a 16 bit size, the cache id, and the key bytes that
follow the structure. -/
structure keybox where
  size : Nat
  cache_id : iris_program_cache_id
  data : List Nat
deriving DecidableEq, Repr

/-- The function `make_keybox`: `key_size` bytes are copied behind the
structure, and `key_size`, a `uint32_t`, is stored in the `uint16_t` field
`size`. -/
def make_keybox (cache_id : iris_program_cache_id) (key : List Nat)
    (key_size : Nat) : keybox :=
  { cache_id := cache_id
    size := key_size % 65536
    data := memcpy key key_size }

/-- The function `keybox_hash`: the hash of the four bytes of `cache_id`
followed by `size` bytes of data. -/
def keybox_hash (E : mesa_env) (key : keybox) : Nat :=
  E.hash_data (uint32_bytes key.cache_id.toNat ++ key.data.take key.size)

/-- The function `keybox_equals`. -/
def keybox_equals (a b : keybox) : Bool :=
  if a.size ≠ b.size then false
  else memcmp_eq a.data b.data a.size

/-! ## Release of references -/

/-- Modelled from the spec: `anv_state_pool_free`, which is not among the
sources.  The pools are bump allocators ("bump allocator producing stable
offsets"): a freed region is not handed out again and the pool is as before. -/
def anv_state_pool_free (pool : Nat) (_state : anv_state) : Nat := pool

/-- The function `anv_shader_bin_destroy`.  The result is `none` when the
assertion `shader->ref_cnt == 0` fails or `shader` is not the address of a
binary; otherwise the two regions are freed and the destruction is recorded. -/
def anv_shader_bin_destroy (device : anv_device) (shader : Nat) : Option anv_device :=
  match device.bins[shader]? with
  | none => none
  | some b =>
    if b.ref_cnt = 0 then
      some { device with
        instruction_state_pool :=
          anv_state_pool_free device.instruction_state_pool b.kernel
        dynamic_state_pool :=
          anv_state_pool_free device.dynamic_state_pool b.constant_data
        destroyed := device.destroyed ++ [shader] }
    else none

/-- Modelled from the spec: `anv_shader_bin_unref` of `anv_private.h`, which
is not among the sources ("`ref()`/`unref()`/`ref_count() == 0 => free`"): the
assertion `shader && shader->ref_cnt >= 1`, one reference less, and the
destruction of the binary when the count reaches zero.  The result is `none`
when an assertion fails. -/
def anv_shader_bin_unref (device : anv_device) (shader : Nat) : Option anv_device :=
  match device.bins[shader]? with
  | none => none
  | some b =>
    if 1 ≤ b.ref_cnt then
      if b.ref_cnt - 1 = 0 then
        anv_shader_bin_destroy
          { device with
            bins := device.bins.modify (fun x => { x with ref_cnt := x.ref_cnt - 1 }) shader }
          shader
      else
        some { device with
          bins := device.bins.modify (fun x => { x with ref_cnt := x.ref_cnt - 1 }) shader }
    else none

/-- The loop `hash_table_foreach (cache->cache, entry) anv_shader_bin_unref
(cache->device, entry->data)` of `anv_pipeline_cache_finish`. -/
def anv_pipeline_cache_finish_loop :
    List (hash_entry anv_shader_bin_key Nat) → anv_device → Option anv_device
  | [], device => some device
  | entry :: rest, device =>
    match anv_shader_bin_unref device entry.data with
    | none => none
    | some device1 => anv_pipeline_cache_finish_loop rest device1

/-- The function `anv_pipeline_cache_finish`.  The tables are destroyed, so
the cache is no longer part of the state; the serialised shaders of the second
table are not objects of the device heap.  The result is `none` when an
assertion fails. -/
def anv_pipeline_cache_finish (device : anv_device) (cache : anv_pipeline_cache) :
    Option anv_device :=
  match cache.cache with
  | some ht => anv_pipeline_cache_finish_loop ht device
  | none => some device

/-- One release of a reference on a shader binary: by a caller that holds a
reference, or by the cache when it is finished. -/
inductive anv_release where
  | unref (shader : Nat)
  | finish
deriving DecidableEq, Repr

/-- The state after one release; `cache` is the cache that `finish` ends. -/
def anv_release_step (cache : anv_pipeline_cache) (device : Option anv_device) :
    anv_release → Option anv_device
  | .unref shader =>
    match device with
    | none => none
    | some d => anv_shader_bin_unref d shader
  | .finish =>
    match device with
    | none => none
    | some d => anv_pipeline_cache_finish d cache

/-- The state after a sequence of releases. -/
def anv_release_run (cache : anv_pipeline_cache) (device : anv_device)
    (ops : List anv_release) : Option anv_device :=
  ops.foldl (anv_release_step cache) (some device)

/-- The device and the results after `n` calls of `anv_pipeline_cache_search`
with one key. -/
def anv_search_times (E : mesa_env) (cache : anv_pipeline_cache) (key_data : List Nat)
    (key_size : Nat) : Nat → anv_device → anv_device
  | 0, device => device
  | n + 1, device =>
    anv_search_times E cache key_data key_size n
      (anv_pipeline_cache_search E device cache key_data key_size).2.1

/-! ## The blob writer of `compiler/blob.h` -/

/-- The constant `SIZE_MAX` of an LP64 target. -/
def SIZE_MAX : Nat := 18446744073709551615

/-- The `struct blob`.  `data` holds the bytes below `size` (the size is the
length of the list); the bytes of the buffer above `size` are not part of a
result.  For a blob without a buffer (`data` is `NULL`) the list holds the
bytes that a buffer would have received; only its length is observable. -/
structure blob where
  data : List Nat
  allocated : Nat
  fixed_allocation : Bool
  out_of_memory : Bool
deriving DecidableEq, Repr

/-- The field `size` of a `struct blob`. -/
def blob.size (b : blob) : Nat := b.data.length

/-- Modelled from the spec: `blob_init_fixed` of `compiler/blob.c`, which is
not among the sources: an empty blob over a caller-supplied buffer of `size`
bytes ("a caller-supplied fixed-size output buffer"). -/
def blob_init_fixed (size : Nat) : blob :=
  { data := [], allocated := size, fixed_allocation := true, out_of_memory := false }

/-- Modelled from the spec: `grow_to_fit` of `compiler/blob.c`, which is not
among the sources: a write of `additional` bytes is refused once a write was
refused, and when it "would overflow a caller-supplied fixed-size output
buffer"; a refusal sets `out_of_memory`.  A blob that owns its buffer grows. -/
def grow_to_fit (b : blob) (additional : Nat) : Bool × blob :=
  if b.out_of_memory then (false, b)
  else if b.size + additional ≤ b.allocated then (true, b)
  else if b.fixed_allocation then (false, { b with out_of_memory := true })
  else
    (true, { b with
      allocated := max (if b.allocated = 0 then 4096 else b.allocated * 2)
        (b.allocated + additional) })

/-- Modelled from the spec: `align_blob` of `compiler/blob.c`, which is not
among the sources: zero bytes up to the next multiple of `alignment`. -/
def align_blob (b : blob) (alignment : Nat) : Bool × blob :=
  if b.size < ALIGN b.size alignment then
    match grow_to_fit b (ALIGN b.size alignment - b.size) with
    | (false, b1) => (false, b1)
    | (true, b1) =>
      (true, { b1 with
        data := b1.data ++ List.replicate (ALIGN b.size alignment - b.size) 0 })
  else (true, b)

/-- The `to_write` bytes that a write takes from the memory `bytes`; bytes that
the memory region does not hold read as zero. -/
def blob_source (bytes : List Nat) (to_write : Nat) : List Nat :=
  memcpy bytes to_write ++ List.replicate (to_write - bytes.length) 0

/-- Modelled from the spec: `blob_write_bytes` of `compiler/blob.c`, which is
not among the sources: the bytes are appended unless the write is refused. -/
def blob_write_bytes (b : blob) (bytes : List Nat) (to_write : Nat) : Bool × blob :=
  match grow_to_fit b to_write with
  | (false, b1) => (false, b1)
  | (true, b1) => (true, { b1 with data := b1.data ++ blob_source bytes to_write })

/-- Modelled from the spec: `blob_reserve_bytes` of `compiler/blob.c`, which is
not among the sources: room for `to_write` bytes, filled later; the result is
the offset of the room, or `-1` (here `none`) when the write is refused. -/
def blob_reserve_bytes (b : blob) (to_write : Nat) : Option Nat × blob :=
  match grow_to_fit b to_write with
  | (false, b1) => (none, b1)
  | (true, b1) => (some b1.size, { b1 with data := b1.data ++ List.replicate to_write 0 })

/-- Modelled from the spec: `blob_reserve_uint32` of `compiler/blob.c`, which
is not among the sources ("a placeholder entry count"). -/
def blob_reserve_uint32 (b : blob) : Option Nat × blob :=
  blob_reserve_bytes (align_blob b 4).2 4

/-- Modelled from the spec: `blob_overwrite_bytes` of `compiler/blob.c`, which
is not among the sources: bytes below `size` are replaced; a range that goes
beyond `size` is refused. -/
def blob_overwrite_bytes (b : blob) (offset : Nat) (bytes : List Nat) (to_write : Nat) :
    Bool × blob :=
  if b.size < offset + to_write then (false, b)
  else
    (true, { b with
      data := b.data.take offset ++ blob_source bytes to_write ++
        b.data.drop (offset + to_write) })

/-- Modelled from the spec: `blob_overwrite_uint32` of `compiler/blob.c`, which
is not among the sources. -/
def blob_overwrite_uint32 (b : blob) (offset : Nat) (value : Nat) : Bool × blob :=
  blob_overwrite_bytes b offset (uint32_bytes value) 4

/-- Modelled from the spec: `blob_write_uint32` of `compiler/blob.c`, which is
not among the sources: the blob is first aligned to four bytes. -/
def blob_write_uint32 (b : blob) (value : Nat) : Bool × blob :=
  blob_write_bytes (align_blob b 4).2 (uint32_bytes value) 4

/-! ## Serialisation of the pipeline cache -/

/-- The function `anv_shader_bin_write_to_blob`.  The blob after each write is
named `b1`, `b2`, and so on. -/
def anv_shader_bin_write_to_blob (E : mesa_env) (shader : anv_shader_bin) (b : blob) :
    Bool × blob :=
  let b1 := (blob_write_uint32 b shader.key.size).2
  let b2 := (blob_write_bytes b1 shader.key.data shader.key.size).2
  let b3 := (blob_write_uint32 b2 shader.kernel_size).2
  let b4 := (blob_write_bytes b3 shader.kernel.map shader.kernel_size).2
  let b5 := (blob_write_uint32 b4 shader.constant_data_size).2
  let b6 := (blob_write_bytes b5 shader.constant_data.map shader.constant_data_size).2
  let b7 := (blob_write_uint32 b6 shader.prog_data_size).2
  let b8 := (blob_write_bytes b7 shader.prog_data shader.prog_data_size).2
  let b9 := (blob_write_bytes b8 shader.prog_data_param
    (load_uint32 shader.prog_data E.nr_params_offset * 4)).2
  let b10 :=
    match shader.xfb_info with
    | some x =>
      (blob_write_bytes
        (blob_write_uint32 b9
          (nir_xfb_info_size E (load_uint16 x E.output_count_offset) % 4294967296)).2 x
        (nir_xfb_info_size E (load_uint16 x E.output_count_offset) % 4294967296)).2
    | none => (blob_write_uint32 b9 0).2
  let b11 := (blob_write_uint32 b10 shader.bind_map.surface_count).2
  let b12 := (blob_write_uint32 b11 shader.bind_map.sampler_count).2
  let b13 := (blob_write_bytes b12 shader.bind_map.surface_to_descriptor
    (shader.bind_map.surface_count * E.sizeof_pipeline_binding)).2
  let b14 := (blob_write_bytes b13 shader.bind_map.sampler_to_descriptor
    (shader.bind_map.sampler_count * E.sizeof_pipeline_binding)).2
  (!b14.out_of_memory, b14)

/-- The `VkResult` values that `anv_GetPipelineCacheData` returns. -/
inductive VkResult where
  | VK_SUCCESS
  | VK_INCOMPLETE
deriving DecidableEq, Repr

/-- The 32 bytes of a `struct cache_header`. -/
def cache_header_bytes (h : cache_header) : List Nat :=
  uint32_bytes h.header_size ++ uint32_bytes h.header_version ++
    uint32_bytes h.vendor_id ++ uint32_bytes h.device_id ++ h.uuid

/-- The entry loop of `anv_GetPipelineCacheData`: each entry is written whole,
or the blob is set back to its size before the entry and the loop stops with
`VK_INCOMPLETE`.  The result holds the blob and the 32 bit entry count.  An
entry whose data is not the address of a binary is passed over. -/
def anv_GetPipelineCacheData_loop (E : mesa_env) (device : anv_device) :
    List (hash_entry anv_shader_bin_key Nat) → blob → Nat → VkResult × blob × Nat
  | [], b, count => (.VK_SUCCESS, b, count)
  | entry :: rest, b, count =>
    match device.bins[entry.data]? with
    | none => anv_GetPipelineCacheData_loop E device rest b count
    | some shader =>
      match anv_shader_bin_write_to_blob E shader b with
      | (false, b1) => (.VK_INCOMPLETE, { b1 with data := b1.data.take b.size }, count)
      | (true, b1) =>
        anv_GetPipelineCacheData_loop E device rest b1 ((count + 1) % 4294967296)

/-- The function `anv_GetPipelineCacheData`.  The argument `pDataSize` is the
value of `*pDataSize` at the call and `pData` tells whether the buffer pointer
is not `NULL`; the result holds the `VkResult`, the value of `*pDataSize` at
the return and the first `*pDataSize` bytes of the buffer. -/
def anv_GetPipelineCacheData (E : mesa_env) (device : anv_device)
    (cache : anv_pipeline_cache) (pDataSize : Nat) (pData : Bool) :
    VkResult × Nat × List Nat :=
  let b0 := if pData then blob_init_fixed pDataSize else blob_init_fixed SIZE_MAX
  let header : cache_header :=
    { header_size := sizeof_cache_header
      header_version := VK_PIPELINE_CACHE_HEADER_VERSION_ONE
      vendor_id := 32902
      device_id := device.chipset_id
      uuid := memcpy device.pipeline_cache_uuid VK_UUID_SIZE }
  let b1 := (blob_write_bytes b0 (cache_header_bytes header) sizeof_cache_header).2
  match blob_reserve_uint32 b1 with
  | (none, _) => (.VK_INCOMPLETE, 0, [])
  | (some count_offset, b2) =>
    match (match cache.cache with
      | some ht => anv_GetPipelineCacheData_loop E device ht b2 0
      | none => (.VK_SUCCESS, b2, 0)) with
    | (result, b3, count) =>
      (result, (blob_overwrite_uint32 b3 count_offset count).2.size,
       if pData then (blob_overwrite_uint32 b3 count_offset count).2.data else [])

/-- A shader binary as the C types describe it: every array holds as many
bytes as its size field says, the size fields are 32 bit values, the program
data holds the field `nr_params`, and the transform feedback data, when
present, has the size that its `output_count` gives.  The program data holds
its pointer field `param` as well. -/
def anv_shader_bin_wf (E : mesa_env) (s : anv_shader_bin) : Prop :=
  s.key.data.length = s.key.size ∧ s.key.size < 4294967296 ∧
  s.kernel.map.length = s.kernel_size ∧ s.kernel_size < 4294967296 ∧
  s.constant_data.map.length = s.constant_data_size ∧
  s.constant_data_size < 4294967296 ∧
  s.prog_data.length = s.prog_data_size ∧ s.prog_data_size < 4294967296 ∧
  E.nr_params_offset + 4 ≤ s.prog_data_size ∧
  s.prog_data_param.length = load_uint32 s.prog_data E.nr_params_offset * 4 ∧
  (∀ x, s.xfb_info = some x →
    x.length = nir_xfb_info_size E (load_uint16 x E.output_count_offset) ∧
    nir_xfb_info_size E (load_uint16 x E.output_count_offset) < 4294967296) ∧
  s.bind_map.surface_count < 4294967296 ∧
  s.bind_map.sampler_count < 4294967296 ∧
  s.bind_map.surface_to_descriptor.length =
    s.bind_map.surface_count * E.sizeof_pipeline_binding ∧
  s.bind_map.sampler_to_descriptor.length =
    s.bind_map.sampler_count * E.sizeof_pipeline_binding ∧
  E.param_offset + E.sizeof_pointer ≤ s.prog_data_size

/-- The layout constants as the C structures fix them: the field
`output_count` lies inside `nir_xfb_info`. -/
def mesa_env_wf (E : mesa_env) : Prop :=
  E.output_count_offset + 2 ≤ E.sizeof_xfb_info

/-- Two shader binaries with the same key, code, constant data, parameters,
transform feedback data and binding map, and with the same program data
outside the pointer field `param`, which holds the address of the parameter
array of each binary; the reference count and the placement of the two state
regions are left out. -/
def anv_shader_bin_same_contents (E : mesa_env) (a b : anv_shader_bin) : Prop :=
  a.key = b.key ∧ a.kernel.map = b.kernel.map ∧ a.kernel_size = b.kernel_size ∧
  a.constant_data.map = b.constant_data.map ∧
  a.constant_data_size = b.constant_data_size ∧
  (a.prog_data.length = b.prog_data.length ∧
    a.prog_data.take E.param_offset = b.prog_data.take E.param_offset ∧
    a.prog_data.drop (E.param_offset + E.sizeof_pointer) =
      b.prog_data.drop (E.param_offset + E.sizeof_pointer)) ∧
  a.prog_data_size = b.prog_data_size ∧
  a.prog_data_param = b.prog_data_param ∧ a.xfb_info = b.xfb_info ∧
  a.bind_map = b.bind_map

/-! ## Concrete inputs -/

/-- A concrete environment: the hash is the sum of the hashed bytes, the
layout constants are those of a 64 bit build. -/
def example_env : mesa_env :=
  { hash_data := fun l => l.sum
    nr_params_offset := 24
    sizeof_pipeline_binding := 8
    sizeof_xfb_info := 32
    sizeof_xfb_output_info := 8
    output_count_offset := 28
    program_size_offset := 44
    param_offset := 16
    sizeof_pointer := 8
    prog_data_param_address := fun p => 4096 * (p + 1) }

/-- A device with an empty heap whose host allocator never fails. -/
def example_device : anv_device :=
  { chipset_id := 16027
    pipeline_cache_uuid := List.replicate 16 5
    alloc := []
    instruction_state_pool := 0
    dynamic_state_pool := 0
    bins := [] }

/-- An empty binding map. -/
def example_bind_map : anv_pipeline_bind_map :=
  { surface_count := 0, sampler_count := 0
    surface_to_descriptor := [], sampler_to_descriptor := [] }

/-- A program data structure of no bytes. -/
def example_prog_data : brw_stage_prog_data := { bytes := [], param := [] }

/-- Program data of 28 bytes as a caller hands them over: the field `param`
(bytes 16 to 23) holds the address 512 of the caller's parameter array, the
field `nr_params` (bytes 24 to 27) is 1, and the parameter array holds the one
parameter 5. -/
def example_prog_data_one_param : brw_stage_prog_data :=
  { bytes := List.replicate 16 0 ++ [0, 2, 0, 0, 0, 0, 0, 0] ++ [1, 0, 0, 0]
    param := [5, 0, 0, 0] }

/-- The artifact that an upload of the key `1 2 3` with the code `9 9` and the
program data `example_prog_data_one_param` creates on the example device, at
address 0: the field `param` of its program data holds the address 4096 of its
own parameter array. -/
def example_bin_uploaded : anv_shader_bin :=
  { ref_cnt := 1
    key := ⟨3, [1, 2, 3]⟩
    kernel := { offset := 0, alloc_size := 2, map := [9, 9] }
    kernel_size := 2
    constant_data := ANV_STATE_NULL
    constant_data_size := 0
    prog_data := List.replicate 16 0 ++ [0, 16, 0, 0, 0, 0, 0, 0] ++ [1, 0, 0, 0]
    prog_data_size := 28
    prog_data_param := [5, 0, 0, 0]
    xfb_info := none
    bind_map := example_bind_map }

/-- The example device after the upload that creates `example_bin_uploaded`:
the artifact lies at address 0 and its code fills the first two bytes of the
instruction pool. -/
def example_device_uploaded : anv_device :=
  { example_device with bins := [example_bin_uploaded], instruction_state_pool := 2 }

/-- The result of the upload of the key `1 2 3` with the code `9 9` and the
program data `example_prog_data_one_param` into a freshly initialised enabled
cache of the example device: the address 0, the device and the cache after
the upload. -/
def example_upload_one : Option Nat × anv_device × anv_pipeline_cache :=
  anv_pipeline_cache_upload_kernel example_env example_device
    (anv_pipeline_cache_init true) [1, 2, 3] 3 [9, 9] 2 [] 0
    example_prog_data_one_param 28 none example_bind_map

/-- The result of a second upload after `example_upload_one`, of the key `5`
with the code `6` and the same program data: the address 1, the device and the
cache after the two uploads. -/
def example_upload_two : Option Nat × anv_device × anv_pipeline_cache :=
  anv_pipeline_cache_upload_kernel example_env example_upload_one.2.1
    example_upload_one.2.2 [5] 1 [6] 1 [] 0
    example_prog_data_one_param 28 none example_bind_map

/-- The example device with one enabled cache, handle 0. -/
def example_world : anv_world :=
  { device := example_device, caches := [anv_pipeline_cache_init true] }

/-- The example world after the upload of the code `9 9` under the key
`1 2 3` into cache 0. -/
def example_world_one : anv_world :=
  anv_call_step example_env example_world
    (.upload_kernel 0 [1, 2, 3] 3 [9, 9] 2 [] 0 example_prog_data 0 none
      example_bind_map)

/-- The cache 0 of `example_world_one`: one entry, the key `1 2 3` for the
artifact at address 0. -/
def example_cache_one : anv_pipeline_cache :=
  { cache := some [⟨⟨3, [1, 2, 3]⟩, 0⟩], nir_cache := some [] }

/-- The artifact at address 0 of `example_world_one`: one reference of the
cache and one of the caller. -/
def example_bin : anv_shader_bin :=
  { ref_cnt := 2
    key := ⟨3, [1, 2, 3]⟩
    kernel := { offset := 0, alloc_size := 2, map := [9, 9] }
    kernel_size := 2
    constant_data := ANV_STATE_NULL
    constant_data_size := 0
    prog_data := []
    prog_data_size := 0
    prog_data_param := []
    xfb_info := none
    bind_map := example_bind_map }

/-- A serialised cache for the example device: the header, the count 2, and
two entries under the same key `1 2 3 4`, the first with the code `9 9 9 9`
and the second with the code `8 8 8 8`; each entry has no constant data, 28
zero bytes of program data, no transform feedback data and no bindings. -/
def example_blob : List Nat :=
  [32, 0, 0, 0, 1, 0, 0, 0, 134, 128, 0, 0, 155, 62, 0, 0] ++ List.replicate 16 5 ++
  [2, 0, 0, 0] ++
  ([4, 0, 0, 0, 1, 2, 3, 4, 4, 0, 0, 0, 9, 9, 9, 9, 0, 0, 0, 0, 28, 0, 0, 0] ++
    List.replicate 28 0 ++ [0, 0, 0, 0, 0, 0, 0, 0, 0, 0, 0, 0]) ++
  ([4, 0, 0, 0, 1, 2, 3, 4, 4, 0, 0, 0, 8, 8, 8, 8, 0, 0, 0, 0, 28, 0, 0, 0] ++
    List.replicate 28 0 ++ [0, 0, 0, 0, 0, 0, 0, 0, 0, 0, 0, 0])

/-- Calls that set up one enabled cache, upload the key `1 2 3` into it and
load `example_blob` into it. -/
def example_calls : List anv_call :=
  [.init true,
   .upload_kernel 0 [1, 2, 3] 3 [9, 9] 2 [] 0 example_prog_data 0 none example_bind_map,
   .load 0 example_blob 164]

/-- The cache that `example_calls` leaves: the key `1 2 3` for the uploaded
artifact and the key `1 2 3 4` for the second loaded artifact. -/
def example_cache_loaded : anv_pipeline_cache :=
  { cache := some [⟨⟨3, [1, 2, 3]⟩, 0⟩, ⟨⟨4, [1, 2, 3, 4]⟩, 2⟩], nir_cache := some [] }

/-- Calls that set up two enabled caches and upload the key `1 2 3` into each
of them, with different code, and the key `5` into the second. -/
def example_calls_two : List anv_call :=
  [.init true,
   .init true,
   .upload_kernel 0 [1, 2, 3] 3 [9, 9] 2 [] 0 example_prog_data 0 none example_bind_map,
   .upload_kernel 1 [1, 2, 3] 3 [7, 7] 2 [] 0 example_prog_data 0 none example_bind_map,
   .upload_kernel 1 [5] 1 [6] 1 [] 0 example_prog_data 0 none example_bind_map]

/-- The buffer `example_blob` with a changed byte in `vendor_id`. -/
def example_blob_bad_vendor : List Nat := example_blob.set 8 135

/-- The buffer `example_blob` with `header_size = 33`. -/
def example_blob_header_33 : List Nat := example_blob.set 0 33

/-- The buffer `example_blob` with `header_size = 31`. -/
def example_blob_header_31 : List Nat := example_blob.set 0 31

/-- The example world after `example_calls`. -/
def example_world_loaded : anv_world :=
  anv_run example_env { device := example_device, caches := [] } example_calls

/-- The test that the cache with the handle `h` is enabled and its table has
an entry that a search of `K` finds. -/
def anv_world_holds (E : mesa_env) (w : anv_world) (h : Nat)
    (K : anv_shader_bin_key) : Bool :=
  match w.caches[h]? with
  | none => false
  | some c =>
    match c.cache with
    | none => false
    | some ht =>
      (_mesa_hash_table_search (shader_bin_key_hash_func E)
        shader_bin_key_compare_func ht K).isSome

/-- The example world after `example_calls_two`: cache 0 holds the key `1 2 3`
for artifact 0, cache 1 holds the key `1 2 3` for artifact 1 and the key `5`
for artifact 2. -/
def example_world_two : anv_world :=
  anv_run example_env { device := example_device, caches := [] } example_calls_two

/-- A shader binary that satisfies `anv_shader_bin_wf example_env`: the key
`1 2 3`, the code `9 9`, no constant data, 28 zero bytes of program data (so
no parameters), no transform feedback data and no bindings. -/
def example_bin_wf : anv_shader_bin :=
  { ref_cnt := 2
    key := ⟨3, [1, 2, 3]⟩
    kernel := { offset := 0, alloc_size := 2, map := [9, 9] }
    kernel_size := 2
    constant_data := ANV_STATE_NULL
    constant_data_size := 0
    prog_data := List.replicate 28 0
    prog_data_size := 28
    prog_data_param := []
    xfb_info := none
    bind_map := example_bind_map }

/-- The binary of the first entry of `example_blob`: the key `1 2 3 4`, the
code `9 9 9 9`, no constant data, 28 zero bytes of program data, no transform
feedback data and no bindings. -/
def example_entry_bin : anv_shader_bin :=
  { ref_cnt := 1
    key := ⟨4, [1, 2, 3, 4]⟩
    kernel := { offset := 0, alloc_size := 4, map := [9, 9, 9, 9] }
    kernel_size := 4
    constant_data := ANV_STATE_NULL
    constant_data_size := 0
    prog_data := List.replicate 28 0
    prog_data_size := 28
    prog_data_param := []
    xfb_info := none
    bind_map := example_bind_map }

/-- A blob that holds the 36 bytes of header and entry count of
`example_blob`, in a buffer of 200 bytes. -/
def example_blob_36 : blob :=
  { data := example_blob.take 36, allocated := 200, fixed_allocation := true,
    out_of_memory := false }

/-- The example device with two well formed binaries on its heap. -/
def example_device_wf : anv_device :=
  { example_device with bins := [example_bin_wf, example_entry_bin] }

/-- An enabled cache on `example_device_wf`: the key `1 2 3` for the binary
at address 0 and the key `1 2 3 4` for the binary at address 1. -/
def example_cache_wf : anv_pipeline_cache :=
  { cache := some [⟨⟨3, [1, 2, 3]⟩, 0⟩, ⟨⟨4, [1, 2, 3, 4]⟩, 1⟩], nir_cache := some [] }

/-! ## The serialised format -/

/-- The bytes of a 32 bit field that starts at the offset `off` of the output:
zero bytes up to the next multiple of four, then the value. -/
def serialised_uint32 (off v : Nat) : List Nat :=
  List.replicate (ALIGN off 4 - off) 0 ++ uint32_bytes v

/-- The bytes of one entry of the serialised cache that starts at the offset
`off` of the output, field by field in the order of the format: key size and
key, code size and code, constant data size and constant data, program data
size, program data and parameter array, transform feedback size (0 when there
is none) and data, surface count, sampler count, surface array and sampler
array.  A byte field is the given number of bytes behind its pointer. -/
def serialised_entry (E : mesa_env) (s : anv_shader_bin) (off : Nat) : List Nat :=
  let f1 := serialised_uint32 off s.key.size ++ blob_source s.key.data s.key.size
  let f2 := f1 ++ serialised_uint32 (off + f1.length) s.kernel_size ++
    blob_source s.kernel.map s.kernel_size
  let f3 := f2 ++ serialised_uint32 (off + f2.length) s.constant_data_size ++
    blob_source s.constant_data.map s.constant_data_size
  let f4 := f3 ++ serialised_uint32 (off + f3.length) s.prog_data_size ++
    blob_source s.prog_data s.prog_data_size ++
    blob_source s.prog_data_param (load_uint32 s.prog_data E.nr_params_offset * 4)
  let f5 := f4 ++
    (match s.xfb_info with
     | some x =>
       serialised_uint32 (off + f4.length)
         (nir_xfb_info_size E (load_uint16 x E.output_count_offset) % 4294967296) ++
       blob_source x
         (nir_xfb_info_size E (load_uint16 x E.output_count_offset) % 4294967296)
     | none => serialised_uint32 (off + f4.length) 0)
  let f6 := f5 ++ serialised_uint32 (off + f5.length) s.bind_map.surface_count
  let f7 := f6 ++ serialised_uint32 (off + f6.length) s.bind_map.sampler_count
  f7 ++
    blob_source s.bind_map.surface_to_descriptor
      (s.bind_map.surface_count * E.sizeof_pipeline_binding) ++
    blob_source s.bind_map.sampler_to_descriptor
      (s.bind_map.sampler_count * E.sizeof_pipeline_binding)

/-- The bytes of a sequence of entries, the first of which starts at the
offset `off` of the output. -/
def serialised_entries (E : mesa_env) : List anv_shader_bin → Nat → List Nat
  | [], _ => []
  | s :: ss, off =>
    serialised_entry E s off ++
      serialised_entries E ss (off + (serialised_entry E s off).length)

/-- The header that `anv_GetPipelineCacheData` writes for a device. -/
def anv_cache_header (device : anv_device) : cache_header :=
  { header_size := 32
    header_version := VK_PIPELINE_CACHE_HEADER_VERSION_ONE
    vendor_id := 32902
    device_id := device.chipset_id
    uuid := device.pipeline_cache_uuid }

/-- The serialised cache with the entries of the binaries `ss`: the 32 byte
header, the entry count, the entries. -/
def serialised_cache (E : mesa_env) (device : anv_device) (ss : List anv_shader_bin) :
    List Nat :=
  cache_header_bytes (anv_cache_header device) ++ uint32_bytes ss.length ++
    serialised_entries E ss 36

/-- The binaries of the live entries of a cache, in the order of its table;
none for a disabled cache. -/
def anv_cache_bins (device : anv_device) (cache : anv_pipeline_cache) :
    List anv_shader_bin :=
  match cache.cache with
  | some ht => ht.filterMap (fun e => device.bins[e.data]?)
  | none => []

/-- The state of a blob `c` over a buffer of `n` bytes after writes that
produce the bytes `out` in a buffer without bound: the blob holds `out` while
`out` fits in `n` bytes; from then on it is out of memory and holds some of
the first bytes of `out`. -/
def blob_tracks (n : Nat) (out : List Nat) (c : blob) : Prop :=
  c.allocated = n ∧ c.fixed_allocation = true ∧
  ((out.length ≤ n ∧ c.data = out ∧ c.out_of_memory = false) ∨
   (n < out.length ∧ c.out_of_memory = true ∧ c.data <+: out))

/-! ## The iris program cache -/

/-- The `struct iris_state_ref` of `iris_context.h`: the handle of a
`struct pipe_resource` (`NULL` is `none`) and an offset into the resource. -/
structure iris_state_ref where
  offset : Nat
  res : Option Nat
deriving DecidableEq, Repr

/-- The `struct iris_compiled_shader` of `iris_context.h`, with the memory
behind each of its pointers: `map` holds the bytes of the assembly in the
mapping of the resource, `prog_data`, `system_values` and `streamout` hold
what the caller passed, `derived_data` holds the bytes that follow the
structure. -/
structure iris_compiled_shader where
  assembly : iris_state_ref
  map : List Nat
  prog_data : brw_stage_prog_data
  system_values : Option (List Nat)
  num_system_values : Nat
  num_cbufs : Nat
  streamout : Option (List Nat)
  derived_data : List Nat
deriving DecidableEq, Repr

/-- Modelled from the spec: the `struct u_upload_mgr` of `util/u_upload_mgr.h`,
which is not among the sources, as the bump allocator of the glossary
("bump allocator producing stable offsets within a larger backing resource"):
the handle of the backing resource and the next free offset in it. -/
structure u_upload_mgr where
  buffer : Nat
  offset : Nat
deriving DecidableEq, Repr

/-- Modelled from the spec: `u_upload_create` of `util/u_upload_mgr.c`, which
is not among the sources: an uploader with nothing allocated. -/
def u_upload_create : u_upload_mgr := { buffer := 0, offset := 0 }

/-- Modelled from the spec: `u_upload_alloc` of `util/u_upload_mgr.c`, which is
not among the sources ("alloc(size, alignment) -> (resource_handle, offset,
cpu_pointer)"): the new region starts at the next free offset that is a
multiple of `alignment` and not below `min_out_offset`.  The result holds the
resource and the offset of the region and the uploader after the allocation;
the memory behind the returned pointer is the region. -/
def u_upload_alloc (upload : u_upload_mgr) (min_out_offset size alignment : Nat) :
    iris_state_ref × u_upload_mgr :=
  ({ offset := max (ALIGN upload.offset alignment) (ALIGN min_out_offset alignment)
     res := some upload.buffer },
   { upload with
     offset := max (ALIGN upload.offset alignment) (ALIGN min_out_offset alignment) + size })

/-- The two entries of `ice->vtbl` that the program cache calls.  The functions
behind them are in `iris_state.c`, which is not among the sources;
`store_derived_program_state` gives the bytes that the call leaves in the
`derived_data` of the shader that it is given. -/
structure iris_vtbl where
  derived_program_state_size : iris_program_cache_id → Nat
  store_derived_program_state : iris_program_cache_id → iris_compiled_shader → List Nat

/-- The parts of `struct iris_context` that the program cache uses: the table
`shaders.cache`, whose entries hold the address of a compiled shader, the
uploader `shaders.uploader`, and the memory allocated with `ralloc` under the
table: the compiled shaders (the address of a shader is its index in
`compiled`) and the live key boxes (the address of a key box is its index in
`keyboxes`).  The reference counts of the pipe resources are not part of the
model: `pipe_resource_reference` is the assignment of the handle. -/
structure iris_context where
  shaders_cache : List (hash_entry keybox Nat)
  shaders_uploader : u_upload_mgr
  compiled : List iris_compiled_shader
  keyboxes : List keybox
deriving DecidableEq, Repr

/-- The function `iris_init_program_cache`. -/
def iris_init_program_cache : iris_context :=
  { shaders_cache := []
    shaders_uploader := u_upload_create
    compiled := []
    keyboxes := [] }

/-- The function `iris_find_cached_shader`: a key box is allocated under the
table, the table is searched with it, and the key box is freed. -/
def iris_find_cached_shader (E : mesa_env) (ice : iris_context)
    (cache_id : iris_program_cache_id) (key_size : Nat) (key : List Nat) :
    Option Nat × iris_context :=
  let keybox := make_keybox cache_id key key_size
  let ice1 : iris_context := { ice with keyboxes := ice.keyboxes ++ [keybox] }
  let entry := _mesa_hash_table_search (keybox_hash E) keybox_equals ice1.shaders_cache keybox
  (entry.map (fun e => e.data),
   { ice1 with keyboxes := ice1.keyboxes.eraseIdx ice.keyboxes.length })

/-- The function `find_existing_assembly`, over the entries of the table in
their order; `compiled` is the memory that holds the shaders.  An entry whose
data is not the address of a shader is passed over. -/
def find_existing_assembly (E : mesa_env) (compiled : List iris_compiled_shader) :
    List (hash_entry keybox Nat) → List Nat → Nat → Option Nat
  | [], _, _ => none
  | entry :: rest, assembly, assembly_size =>
    match compiled[entry.data]? with
    | none => find_existing_assembly E compiled rest assembly assembly_size
    | some existing =>
      if load_uint32 existing.prog_data.bytes E.program_size_offset = assembly_size ∧
          memcmp_eq existing.map assembly assembly_size = true then
        some entry.data
      else find_existing_assembly E compiled rest assembly assembly_size

/-- The function `iris_upload_shader`.  The result holds the address of the new
shader and the context after the call.  The allocations with `ralloc` do not
fail. -/
def iris_upload_shader (E : mesa_env) (vtbl : iris_vtbl) (ice : iris_context)
    (cache_id : iris_program_cache_id) (key_size : Nat) (key : List Nat)
    (assembly : List Nat) (prog_data : brw_stage_prog_data)
    (streamout : Option (List Nat)) (system_values : Option (List Nat))
    (num_system_values num_cbufs : Nat) : Nat × iris_context :=
  let shader := ice.compiled.length
  let program_size := load_uint32 prog_data.bytes E.program_size_offset
  let placed : iris_state_ref × List Nat × u_upload_mgr :=
    match (find_existing_assembly E ice.compiled ice.shaders_cache assembly
        program_size).bind (fun p => ice.compiled[p]?) with
    | some existing => (existing.assembly, existing.map, ice.shaders_uploader)
    | none =>
      ((u_upload_alloc ice.shaders_uploader 0 program_size 64).1,
       memcpy assembly program_size,
       (u_upload_alloc ice.shaders_uploader 0 program_size 64).2)
  let filled : iris_compiled_shader :=
    { assembly := placed.1
      map := placed.2.1
      prog_data := prog_data
      system_values := system_values
      num_system_values := num_system_values
      num_cbufs := num_cbufs
      streamout := streamout
      derived_data := List.replicate (vtbl.derived_program_state_size cache_id) 0 }
  let keybox := make_keybox cache_id key key_size
  (shader,
   { shaders_cache :=
       _mesa_hash_table_insert (keybox_hash E) keybox_equals ice.shaders_cache keybox shader
     shaders_uploader := placed.2.2
     compiled := ice.compiled ++
       [{ filled with derived_data := vtbl.store_derived_program_state cache_id filled }]
     keyboxes := ice.keyboxes ++ [keybox] })

/-- A concrete `vtbl`: no derived program state. -/
def example_vtbl : iris_vtbl :=
  { derived_program_state_size := fun _ => 0
    store_derived_program_state := fun _ _ => [] }

/-- A program data structure of 48 bytes for `example_env` with the given
`program_size` and the given memory behind `param`. -/
def example_iris_prog_data (program_size : Nat) (param : List Nat) : brw_stage_prog_data :=
  { bytes := List.replicate 44 0 ++ uint32_bytes program_size, param := param }

/-- The context after `iris_init_program_cache` and the upload of the assembly
`9 9 9 9` under the key `1` of `IRIS_CACHE_VS`: the shader at address 0. -/
def example_ice_one : iris_context :=
  (iris_upload_shader example_env example_vtbl iris_init_program_cache .IRIS_CACHE_VS 1 [1]
    [9, 9, 9, 9] (example_iris_prog_data 4 []) none none 0 0).2

/-- The context `example_ice_one` after a second upload under the key `1` of
`IRIS_CACHE_VS`, with the assembly `8 8 8 8`: the shader at address 1. -/
def example_ice_two : iris_context :=
  (iris_upload_shader example_env example_vtbl example_ice_one .IRIS_CACHE_VS 1 [1]
    [8, 8, 8, 8] (example_iris_prog_data 4 []) none none 0 0).2

/-- A serialised cache of 68 bytes for the example device: the header, the
count 1, and one entry with the key `7`, no code, no constant data and
`prog_data_size = 0`; the entry ends with the transform feedback size 0 and
the two binding counts 0.  The program data starts at the offset 56 and has
no byte, so its field `nr_params` (offset 24 in `example_env`) lies at the
offsets 80 to 83. -/
def example_blob_no_prog_data : List Nat :=
  [32, 0, 0, 0, 1, 0, 0, 0, 134, 128, 0, 0, 155, 62, 0, 0] ++ List.replicate 16 5 ++
  [1, 0, 0, 0] ++
  [1, 0, 0, 0, 7, 0, 0, 0, 0, 0, 0, 0, 0, 0, 0, 0, 0, 0, 0, 0] ++
  [0, 0, 0, 0, 0, 0, 0, 0, 0, 0, 0, 0]

/-- A serialised cache of 100 bytes for the example device: the header, the
count 1, and one entry with the key `7`, no code, no constant data, 28 zero
bytes of program data, and transform feedback data of 4 bytes `1 1 1 1`,
followed by the two binding counts 0.  The transform feedback data starts at
the offset 88; its field `output_count` (offset 28 in `example_env`) lies at
the offsets 116 and 117. -/
def example_blob_short_xfb : List Nat :=
  [32, 0, 0, 0, 1, 0, 0, 0, 134, 128, 0, 0, 155, 62, 0, 0] ++ List.replicate 16 5 ++
  [1, 0, 0, 0] ++
  [1, 0, 0, 0, 7, 0, 0, 0, 0, 0, 0, 0, 0, 0, 0, 0, 28, 0, 0, 0] ++
  List.replicate 28 0 ++
  [4, 0, 0, 0, 1, 1, 1, 1, 0, 0, 0, 0, 0, 0, 0, 0]

/-! ## The device level search and the table of serialised NIR -/

/-- The offsets of the field `program_string_id` in the key structures
`brw_vs_prog_key`, `brw_tcs_prog_key`, `brw_tes_prog_key`, `brw_gs_prog_key`,
`brw_cs_prog_key` and `brw_wm_prog_key` of `intel/compiler/brw_compiler.h`,
which is not among the sources. -/
structure brw_prog_key_layout where
  vs : Nat
  tcs : Nat
  tes : Nat
  gs : Nat
  cs : Nat
  wm : Nat

/-- The function `get_program_string_id`; the result is `none` where the C
function reaches `unreachable`. -/
def get_program_string_id (L : brw_prog_key_layout) (cache_id : iris_program_cache_id)
    (key : List Nat) : Option Nat :=
  match cache_id with
  | .IRIS_CACHE_VS => some (load_uint32 key L.vs)
  | .IRIS_CACHE_TCS => some (load_uint32 key L.tcs)
  | .IRIS_CACHE_TES => some (load_uint32 key L.tes)
  | .IRIS_CACHE_GS => some (load_uint32 key L.gs)
  | .IRIS_CACHE_CS => some (load_uint32 key L.cs)
  | .IRIS_CACHE_FS => some (load_uint32 key L.wm)
  | .IRIS_CACHE_BLORP => none

/-- The function `iris_find_previous_compile`, over the entries of the table
in their order.  The result is `none` when the call reaches `unreachable`;
otherwise it holds the pointer that the C function returns, as the key bytes
behind it, `NULL` being `none`. -/
def iris_find_previous_compile (L : brw_prog_key_layout) :
    List (hash_entry keybox Nat) → iris_program_cache_id → Nat → Option (Option (List Nat))
  | [], _, _ => some none
  | entry :: rest, cache_id, program_string_id =>
    if entry.key.cache_id = cache_id then
      match get_program_string_id L cache_id entry.key.data with
      | none => none
      | some id =>
        if id = program_string_id then some (some entry.key.data)
        else iris_find_previous_compile L rest cache_id program_string_id
    else iris_find_previous_compile L rest cache_id program_string_id

/-- A table of the iris program cache with one entry of `IRIS_CACHE_BLORP`. -/
def example_table_blorp : List (hash_entry keybox Nat) :=
  [⟨make_keybox .IRIS_CACHE_BLORP [1, 0, 0, 0] 4, 0⟩]

/-- A layout with the field `program_string_id` at the start of every key. -/
def example_key_layout : brw_prog_key_layout :=
  { vs := 0, tcs := 0, tes := 0, gs := 0, cs := 0, wm := 0 }

/-! ## Lemmas on stores into memory -/

/-- A pointer of `n` bytes has `n` bytes. -/
theorem pointer_bytes_length (n p : Nat) : (pointer_bytes n p).length = n := by
  simp [pointer_bytes]

/-- A store does not change the size of the memory. -/
theorem store_bytes_length (m : List Nat) (off : Nat) (v : List Nat) :
    (store_bytes m off v).length = m.length := by
  simp only [store_bytes, List.length_append, List.length_take, List.length_drop]
  omega

/-- A store leaves the bytes before its offset as they are. -/
theorem store_bytes_take (m : List Nat) (off : Nat) (v : List Nat) :
    (store_bytes m off v).take off = m.take off := by
  unfold store_bytes
  rw [List.append_assoc, List.take_append_eq_append_take, List.take_take, Nat.min_self,
    List.length_take]
  by_cases h : off ≤ m.length
  · rw [Nat.min_eq_left h, Nat.sub_self, List.take_zero, List.append_nil]
  · have h1 : m.length - off = 0 := by omega
    have h2 : m.drop (off + v.length) = [] := List.drop_eq_nil_of_le (by omega)
    rw [h1, h2]
    simp

/-- A store leaves the bytes behind the stored value as they are. -/
theorem store_bytes_drop (m : List Nat) (off : Nat) (v : List Nat) :
    (store_bytes m off v).drop (off + v.length) = m.drop (off + v.length) := by
  unfold store_bytes
  by_cases h : off + v.length ≤ m.length
  · have h1 : (m.take off ++ v.take (m.length - off)).length = off + v.length := by
      simp only [List.length_append, List.length_take]
      omega
    rw [List.drop_append_eq_append_drop, h1, Nat.sub_self, List.drop_zero,
      List.drop_eq_nil_of_le (Nat.le_of_eq h1), List.nil_append]
  · have h2 : m.drop (off + v.length) = [] := List.drop_eq_nil_of_le (by omega)
    rw [h2, List.append_nil]
    apply List.drop_eq_nil_of_le
    simp only [List.length_append, List.length_take]
    omega

/-! ## Lemmas on the hash table -/

section hash_table_lemmas

variable {κ δ : Type} (hf : κ → Nat) (eq : κ → κ → Bool)

theorem hash_table_search_nil (key : κ) :
    _mesa_hash_table_search hf eq ([] : List (hash_entry κ δ)) key = none := rfl

theorem hash_table_search_cons (e : hash_entry κ δ) (es : List (hash_entry κ δ))
    (key : κ) :
    _mesa_hash_table_search hf eq (e :: es) key =
      if hash_entry_matches hf eq key e.key then some e
      else _mesa_hash_table_search hf eq es key := by
  unfold _mesa_hash_table_search
  rw [List.find?_cons]
  cases hash_entry_matches hf eq key e.key <;> rfl

theorem hash_table_search_mem {ht : List (hash_entry κ δ)} {key : κ}
    {e : hash_entry κ δ} (h : _mesa_hash_table_search hf eq ht key = some e) :
    e ∈ ht ∧ hash_entry_matches hf eq key e.key = true := by
  unfold _mesa_hash_table_search at h
  exact ⟨List.mem_of_find?_eq_some h, by simpa using List.find?_some h⟩

theorem hash_table_search_none_iff (ht : List (hash_entry κ δ)) (key : κ) :
    _mesa_hash_table_search hf eq ht key = none ↔
      ∀ e ∈ ht, hash_entry_matches hf eq key e.key = false := by
  unfold _mesa_hash_table_search
  simp [List.find?_eq_none]

theorem hash_table_insert_of_search_none {ht : List (hash_entry κ δ)} {key : κ}
    (data : δ) (h : _mesa_hash_table_search hf eq ht key = none) :
    _mesa_hash_table_insert hf eq ht key data = ht ++ [⟨key, data⟩] := by
  induction ht with
  | nil => rfl
  | cons e es ih =>
    rw [hash_table_search_cons] at h
    by_cases hm : hash_entry_matches hf eq key e.key = true
    · simp [hm] at h
    · simp only [hm] at h
      simp only [_mesa_hash_table_insert, hm]
      simp [ih h]

theorem hash_table_search_append_of_some {ht : List (hash_entry κ δ)} {key : κ}
    {e : hash_entry κ δ} (x : hash_entry κ δ)
    (h : _mesa_hash_table_search hf eq ht key = some e) :
    _mesa_hash_table_search hf eq (ht ++ [x]) key = some e := by
  unfold _mesa_hash_table_search at h ⊢
  rw [List.find?_append, h]
  rfl

theorem hash_table_search_append_of_none {ht : List (hash_entry κ δ)} {key : κ}
    (x : hash_entry κ δ)
    (h : _mesa_hash_table_search hf eq ht key = none) :
    _mesa_hash_table_search hf eq (ht ++ [x]) key =
      if hash_entry_matches hf eq key x.key then some x else none := by
  unfold _mesa_hash_table_search at h ⊢
  rw [List.find?_append, h]
  simp [List.find?_cons]
  cases hash_entry_matches hf eq key x.key <;> rfl

theorem hash_table_search_insert_self (hrefl : ∀ k, hash_entry_matches hf eq k k = true)
    (ht : List (hash_entry κ δ)) (key : κ) (data : δ) :
    _mesa_hash_table_search hf eq (_mesa_hash_table_insert hf eq ht key data) key =
      some ⟨key, data⟩ := by
  induction ht with
  | nil => simp [_mesa_hash_table_insert, hash_table_search_cons, hrefl]
  | cons e es ih =>
    by_cases hm : hash_entry_matches hf eq key e.key = true
    · simp [_mesa_hash_table_insert, hm, hash_table_search_cons, hrefl]
    · simp [_mesa_hash_table_insert, hm, hash_table_search_cons, ih]

theorem hash_table_mem_insert {ht : List (hash_entry κ δ)} {key : κ} {data : δ}
    {x : hash_entry κ δ} (h : x ∈ _mesa_hash_table_insert hf eq ht key data) :
    x ∈ ht ∨ x = ⟨key, data⟩ := by
  induction ht with
  | nil =>
    simp only [_mesa_hash_table_insert, List.mem_singleton] at h
    exact Or.inr h
  | cons e es ih =>
    by_cases hm : hash_entry_matches hf eq key e.key = true
    · rw [_mesa_hash_table_insert, if_pos hm, List.mem_cons] at h
      rcases h with h | h
      · exact Or.inr h
      · exact Or.inl (List.mem_cons_of_mem _ h)
    · rw [_mesa_hash_table_insert, if_neg hm, List.mem_cons] at h
      rcases h with h | h
      · exact Or.inl (by simp [h])
      · rcases ih h with h1 | h1
        · exact Or.inl (List.mem_cons_of_mem _ h1)
        · exact Or.inr h1

end hash_table_lemmas

/-! ## Lemmas on the keys of the pipeline cache -/

theorem shader_bin_key_compare_func_iff (a b : anv_shader_bin_key) :
    shader_bin_key_compare_func a b = true ↔
      a.size = b.size ∧ a.data.take a.size = b.data.take a.size := by
  unfold shader_bin_key_compare_func memcmp_eq
  by_cases h : a.size = b.size
  · simp [h]
  · simp [h]

theorem anv_matches_iff (E : mesa_env) (a b : anv_shader_bin_key) :
    hash_entry_matches (shader_bin_key_hash_func E) shader_bin_key_compare_func a b = true ↔
      shader_bin_key_compare_func a b = true := by
  unfold hash_entry_matches
  constructor
  · intro h
    simp only [Bool.and_eq_true] at h
    exact h.2
  · intro h
    have h1 := (shader_bin_key_compare_func_iff a b).1 h
    simp only [Bool.and_eq_true, beq_iff_eq]
    refine ⟨?_, h⟩
    unfold shader_bin_key_hash_func
    rw [h1.2, h1.1]

theorem anv_matches_refl (E : mesa_env) (k : anv_shader_bin_key) :
    hash_entry_matches (shader_bin_key_hash_func E) shader_bin_key_compare_func k k = true :=
  (anv_matches_iff E k k).2 ((shader_bin_key_compare_func_iff k k).2 ⟨rfl, rfl⟩)

theorem shader_bin_key_compare_func_symm {a b : anv_shader_bin_key}
    (h : shader_bin_key_compare_func a b = true) :
    shader_bin_key_compare_func b a = true := by
  rw [shader_bin_key_compare_func_iff] at h ⊢
  exact ⟨h.1.symm, by rw [← h.1, h.2]⟩

theorem shader_bin_key_compare_func_trans {a b c : anv_shader_bin_key}
    (h1 : shader_bin_key_compare_func a b = true)
    (h2 : shader_bin_key_compare_func b c = true) :
    shader_bin_key_compare_func a c = true := by
  rw [shader_bin_key_compare_func_iff] at h1 h2 ⊢
  exact ⟨h1.1.trans h2.1, by rw [h1.2, h1.1, h2.2, h2.1]⟩

theorem anv_search_insert_absent (E : mesa_env)
    {ht : List (hash_entry anv_shader_bin_key Nat)} {k k2 : anv_shader_bin_key}
    {e : hash_entry anv_shader_bin_key Nat} (d : Nat)
    (hnone : _mesa_hash_table_search (shader_bin_key_hash_func E)
      shader_bin_key_compare_func ht k2 = none)
    (h : _mesa_hash_table_search (shader_bin_key_hash_func E)
      shader_bin_key_compare_func ht k = some e) :
    _mesa_hash_table_search (shader_bin_key_hash_func E) shader_bin_key_compare_func
      (_mesa_hash_table_insert (shader_bin_key_hash_func E) shader_bin_key_compare_func
        ht k2 d) k = some e := by
  rw [hash_table_insert_of_search_none _ _ d hnone]
  exact hash_table_search_append_of_some _ _ _ h

/-! ## Lemmas on shader binaries -/

theorem anv_shader_bin_ref_length (device : anv_device) (shader : Nat) :
    (anv_shader_bin_ref device shader).bins.length = device.bins.length := by
  simp [anv_shader_bin_ref]

theorem anv_shader_bin_ref_get_self (device : anv_device) (shader : Nat) :
    (anv_shader_bin_ref device shader).bins[shader]? =
      (device.bins[shader]?).map (fun b => { b with ref_cnt := b.ref_cnt + 1 }) := by
  simp [anv_shader_bin_ref]

theorem anv_shader_bin_ref_get_ne (device : anv_device) {shader p : Nat}
    (h : p ≠ shader) :
    (anv_shader_bin_ref device shader).bins[p]? = device.bins[p]? := by
  simp [anv_shader_bin_ref, List.getElem?_modify_ne _ _ (Ne.symm h)]

theorem anv_shader_bin_ref_key (device : anv_device) (shader p : Nat) :
    ((anv_shader_bin_ref device shader).bins[p]?).map (fun b => b.key) =
      (device.bins[p]?).map (fun b => b.key) := by
  by_cases h : p = shader
  · subst h
    rw [anv_shader_bin_ref_get_self]
    cases device.bins[p]? <;> rfl
  · rw [anv_shader_bin_ref_get_ne device h]

theorem anv_shader_bin_create_cases (E : mesa_env) (device : anv_device)
    (key_data : List Nat) (key_size : Nat)
    (kernel_data : List Nat) (kernel_size : Nat)
    (constant_data : List Nat) (constant_data_size : Nat)
    (prog_data_in : List Nat) (prog_data_size : Nat)
    (prog_data_param_in : List Nat)
    (xfb_info_in : Option (List Nat))
    (bind_map : anv_pipeline_bind_map) :
    let r := anv_shader_bin_create E device key_data key_size kernel_data kernel_size
      constant_data constant_data_size prog_data_in prog_data_size prog_data_param_in
      xfb_info_in bind_map
    (r.1 = none ∧ r.2.bins = device.bins) ∨
    (r.1 = some device.bins.length ∧
      ∃ b : anv_shader_bin, r.2.bins = device.bins ++ [b] ∧ b.ref_cnt = 1 ∧
        b.key = { size := key_size, data := memcpy key_data key_size } ∧
        b.kernel.map = memcpy kernel_data kernel_size ∧
        b.kernel_size = kernel_size ∧
        b.constant_data.map = memcpy constant_data constant_data_size ∧
        b.constant_data_size = constant_data_size ∧
        b.prog_data = store_bytes (memcpy prog_data_in prog_data_size) E.param_offset
          (pointer_bytes E.sizeof_pointer
            (E.prog_data_param_address device.bins.length)) ∧
        b.prog_data_size = prog_data_size ∧
        b.prog_data_param = memcpy prog_data_param_in
          (load_uint32 (memcpy prog_data_in prog_data_size) E.nr_params_offset * 4) ∧
        b.xfb_info = xfb_info_in.map (fun x =>
          memcpy x (nir_xfb_info_size E (load_uint16 x E.output_count_offset))) ∧
        b.bind_map.surface_count = bind_map.surface_count ∧
        b.bind_map.sampler_count = bind_map.sampler_count ∧
        b.bind_map.surface_to_descriptor = memcpy bind_map.surface_to_descriptor
          (bind_map.surface_count * E.sizeof_pipeline_binding) ∧
        b.bind_map.sampler_to_descriptor = memcpy bind_map.sampler_to_descriptor
          (bind_map.sampler_count * E.sizeof_pipeline_binding)) := by
  intro r
  simp only [r, anv_shader_bin_create]
  rcases halloc : anv_multialloc_alloc device.alloc with ⟨ok, rest⟩
  cases ok
  · left
    simp
  · right
    refine ⟨rfl, _, rfl, rfl, rfl, rfl, rfl, ?_, rfl, rfl, rfl, rfl, ?_, rfl, rfl, rfl, rfl⟩
    · by_cases hc : constant_data_size = 0
      · simp [hc, ANV_STATE_NULL, memcpy]
      · simp [hc]
    · cases xfb_info_in <;> rfl

/-- A call of `anv_shader_bin_create` with program data that holds the field
`param` records no store out of bounds. -/
theorem anv_shader_bin_create_in_bounds (E : mesa_env) (device : anv_device)
    (key_data : List Nat) (key_size : Nat)
    (kernel_data : List Nat) (kernel_size : Nat)
    (constant_data : List Nat) (constant_data_size : Nat)
    (prog_data_in : List Nat) (prog_data_size : Nat)
    (prog_data_param_in : List Nat)
    (xfb_info_in : Option (List Nat))
    (bind_map : anv_pipeline_bind_map)
    (hfield : E.param_offset + E.sizeof_pointer ≤ prog_data_size) :
    (anv_shader_bin_create E device key_data key_size kernel_data kernel_size
      constant_data constant_data_size prog_data_in prog_data_size prog_data_param_in
      xfb_info_in bind_map).2.out_of_bounds = device.out_of_bounds := by
  unfold anv_shader_bin_create
  rcases h : anv_multialloc_alloc device.alloc with ⟨ok, rest⟩
  cases ok
  · rfl
  · simp only [if_pos hfield]

/-! ## Lemmas on search and upload -/

theorem anv_search_locked_eq (E : mesa_env) {cache : anv_pipeline_cache}
    {ht : List (hash_entry anv_shader_bin_key Nat)} (h : cache.cache = some ht)
    (key_data : List Nat) (key_size : Nat) :
    anv_pipeline_cache_search_locked E cache key_data key_size =
      (_mesa_hash_table_search (shader_bin_key_hash_func E) shader_bin_key_compare_func
        ht { size := key_size, data := memcpy key_data key_size }).map (fun e => e.data) := by
  unfold anv_pipeline_cache_search_locked
  simp only [h]
  cases _mesa_hash_table_search (shader_bin_key_hash_func E) shader_bin_key_compare_func
    ht { size := key_size, data := memcpy key_data key_size } <;> rfl

theorem anv_search_locked_disabled (E : mesa_env) {cache : anv_pipeline_cache}
    (h : cache.cache = none) (key_data : List Nat) (key_size : Nat) :
    anv_pipeline_cache_search_locked E cache key_data key_size = none := by
  unfold anv_pipeline_cache_search_locked
  simp only [h]

theorem anv_search_hit (E : mesa_env) (device : anv_device) {cache : anv_pipeline_cache}
    {key_data : List Nat} {key_size : Nat} {shader : Nat}
    (h : anv_pipeline_cache_search_locked E cache key_data key_size = some shader) :
    anv_pipeline_cache_search E device cache key_data key_size =
      (some shader, anv_shader_bin_ref device shader, cache) := by
  unfold anv_pipeline_cache_search
  cases hc : cache.cache with
  | none => rw [anv_search_locked_disabled E hc] at h; cases h
  | some ht => simp only [h]

theorem anv_search_miss (E : mesa_env) (device : anv_device) {cache : anv_pipeline_cache}
    {key_data : List Nat} {key_size : Nat}
    (h : anv_pipeline_cache_search_locked E cache key_data key_size = none) :
    anv_pipeline_cache_search E device cache key_data key_size = (none, device, cache) := by
  unfold anv_pipeline_cache_search
  cases hc : cache.cache with
  | none => rfl
  | some ht => simp only [h]

theorem anv_upload_hit (E : mesa_env) (device : anv_device) {cache : anv_pipeline_cache}
    {key_data : List Nat} {key_size : Nat} {shader : Nat}
    (kernel_data : List Nat) (kernel_size : Nat)
    (constant_data : List Nat) (constant_data_size : Nat)
    (prog_data : brw_stage_prog_data) (prog_data_size : Nat)
    (xfb_info : Option (List Nat)) (bind_map : anv_pipeline_bind_map)
    (h : anv_pipeline_cache_search_locked E cache key_data key_size = some shader) :
    anv_pipeline_cache_upload_kernel E device cache key_data key_size kernel_data
      kernel_size constant_data constant_data_size prog_data prog_data_size xfb_info
      bind_map = (some shader, anv_shader_bin_ref device shader, cache) := by
  unfold anv_pipeline_cache_upload_kernel
  cases hc : cache.cache with
  | none => rw [anv_search_locked_disabled E hc] at h; cases h
  | some ht => simp only [anv_pipeline_cache_add_shader_locked, h]

theorem anv_upload_miss (E : mesa_env) (device : anv_device) {cache : anv_pipeline_cache}
    {ht : List (hash_entry anv_shader_bin_key Nat)} (hc : cache.cache = some ht)
    {key_data : List Nat} {key_size : Nat}
    (kernel_data : List Nat) (kernel_size : Nat)
    (constant_data : List Nat) (constant_data_size : Nat)
    (prog_data : brw_stage_prog_data) (prog_data_size : Nat)
    (xfb_info : Option (List Nat)) (bind_map : anv_pipeline_bind_map)
    (h : anv_pipeline_cache_search_locked E cache key_data key_size = none) :
    let c := anv_shader_bin_create E device key_data key_size kernel_data kernel_size
      constant_data constant_data_size prog_data.bytes prog_data_size prog_data.param
      xfb_info bind_map
    let r := anv_pipeline_cache_upload_kernel E device cache key_data key_size kernel_data
      kernel_size constant_data constant_data_size prog_data prog_data_size xfb_info
      bind_map
    (c.1 = none ∧ r = (none, c.2, cache)) ∨
    (c.1 = some device.bins.length ∧
      r = (some device.bins.length, anv_shader_bin_ref c.2 device.bins.length,
           { cache with cache := some (ht ++
              [⟨{ size := key_size, data := memcpy key_data key_size },
                device.bins.length⟩]) })) := by
  intro c r
  have hcases := anv_shader_bin_create_cases E device key_data key_size kernel_data
    kernel_size constant_data constant_data_size prog_data.bytes prog_data_size
    prog_data.param xfb_info bind_map
  have hs := anv_search_locked_eq E hc key_data key_size
  rw [h] at hs
  have hnone : _mesa_hash_table_search (shader_bin_key_hash_func E)
      shader_bin_key_compare_func ht
      { size := key_size, data := memcpy key_data key_size } = none := by
    cases hx : _mesa_hash_table_search (shader_bin_key_hash_func E)
      shader_bin_key_compare_func ht
      { size := key_size, data := memcpy key_data key_size } with
    | none => rfl
    | some e => rw [hx] at hs; cases hs
  simp only [r, c, anv_pipeline_cache_upload_kernel, hc,
    anv_pipeline_cache_add_shader_locked, h]
  generalize anv_shader_bin_create E device key_data key_size kernel_data kernel_size
    constant_data constant_data_size prog_data.bytes prog_data_size prog_data.param
    xfb_info bind_map = cr at hcases ⊢
  rcases cr with ⟨p, d1⟩
  rcases hcases with ⟨h1, _⟩ | ⟨h1, b, hb, _, hkey, _⟩
  · left
    simp only at h1
    subst h1
    simp
  · right
    simp only at h1 hb
    subst h1
    have hget : d1.bins[device.bins.length]? = some b := by
      rw [hb]
      simp
    simp only [hget]
    rw [hkey, hash_table_insert_of_search_none _ _ _ hnone]
    simp

theorem anv_search_cache (E : mesa_env) (device : anv_device) (cache : anv_pipeline_cache)
    (key_data : List Nat) (key_size : Nat) :
    (anv_pipeline_cache_search E device cache key_data key_size).2.2 = cache := by
  cases h : anv_pipeline_cache_search_locked E cache key_data key_size with
  | none => rw [anv_search_miss E device h]
  | some s => rw [anv_search_hit E device h]

theorem anv_upload_keeps_lookup (E : mesa_env) (device : anv_device)
    (cache : anv_pipeline_cache)
    (key_data : List Nat) (key_size : Nat)
    (kernel_data : List Nat) (kernel_size : Nat)
    (constant_data : List Nat) (constant_data_size : Nat)
    (prog_data : brw_stage_prog_data) (prog_data_size : Nat)
    (xfb_info : Option (List Nat)) (bind_map : anv_pipeline_bind_map)
    {K : List Nat} {ks A : Nat}
    (h : anv_pipeline_cache_search_locked E cache K ks = some A) :
    anv_pipeline_cache_search_locked E
      (anv_pipeline_cache_upload_kernel E device cache key_data key_size kernel_data
        kernel_size constant_data constant_data_size prog_data prog_data_size xfb_info
        bind_map).2.2 K ks = some A := by
  cases hc : cache.cache with
  | none => rw [anv_search_locked_disabled E hc] at h; cases h
  | some ht =>
    cases hs : anv_pipeline_cache_search_locked E cache key_data key_size with
    | some s =>
      rw [anv_upload_hit E device kernel_data kernel_size constant_data constant_data_size
        prog_data prog_data_size xfb_info bind_map hs]
      exact h
    | none =>
      rcases anv_upload_miss E device hc kernel_data kernel_size constant_data
        constant_data_size prog_data prog_data_size xfb_info bind_map hs with
        ⟨_, hr⟩ | ⟨_, hr⟩
      · rw [hr]
        exact h
      · rw [hr]
        rw [anv_search_locked_eq E hc] at h
        rw [@anv_search_locked_eq E _ (ht ++
          [⟨{ size := key_size, data := memcpy key_data key_size }, device.bins.length⟩])
          rfl]
        cases hx : _mesa_hash_table_search (shader_bin_key_hash_func E)
          shader_bin_key_compare_func ht { size := ks, data := memcpy K ks } with
        | none => rw [hx] at h; cases h
        | some e =>
          rw [hx] at h
          rw [hash_table_search_append_of_some _ _ _ hx]
          exact h

theorem anv_upload_establishes_lookup (E : mesa_env) (device : anv_device)
    (cache : anv_pipeline_cache)
    (key_data : List Nat) (key_size : Nat)
    (kernel_data : List Nat) (kernel_size : Nat)
    (constant_data : List Nat) (constant_data_size : Nat)
    (prog_data : brw_stage_prog_data) (prog_data_size : Nat)
    (xfb_info : Option (List Nat)) (bind_map : anv_pipeline_bind_map)
    {ht : List (hash_entry anv_shader_bin_key Nat)} (hc : cache.cache = some ht)
    {A : Nat}
    (h : (anv_pipeline_cache_upload_kernel E device cache key_data key_size kernel_data
        kernel_size constant_data constant_data_size prog_data prog_data_size xfb_info
        bind_map).1 = some A) :
    anv_pipeline_cache_search_locked E
      (anv_pipeline_cache_upload_kernel E device cache key_data key_size kernel_data
        kernel_size constant_data constant_data_size prog_data prog_data_size xfb_info
        bind_map).2.2 key_data key_size = some A := by
  cases hs : anv_pipeline_cache_search_locked E cache key_data key_size with
  | some s =>
    rw [anv_upload_hit E device kernel_data kernel_size constant_data constant_data_size
      prog_data prog_data_size xfb_info bind_map hs] at h ⊢
    simp only [Option.some.injEq] at h
    subst h
    exact hs
  | none =>
    have hs2 := anv_search_locked_eq E hc key_data key_size
    rw [hs] at hs2
    have hnone : _mesa_hash_table_search (shader_bin_key_hash_func E)
        shader_bin_key_compare_func ht
        { size := key_size, data := memcpy key_data key_size } = none := by
      cases hx : _mesa_hash_table_search (shader_bin_key_hash_func E)
        shader_bin_key_compare_func ht
        { size := key_size, data := memcpy key_data key_size } with
      | none => rfl
      | some e => rw [hx] at hs2; cases hs2
    rcases anv_upload_miss E device hc kernel_data kernel_size constant_data
      constant_data_size prog_data prog_data_size xfb_info bind_map hs with
      ⟨_, hr⟩ | ⟨_, hr⟩
    · rw [hr] at h
      cases h
    · rw [hr] at h ⊢
      simp only [Option.some.injEq] at h
      subst h
      rw [@anv_search_locked_eq E _ (ht ++
        [⟨{ size := key_size, data := memcpy key_data key_size }, device.bins.length⟩])
        rfl]
      rw [hash_table_search_append_of_none _ _ _ hnone]
      simp [anv_matches_refl]

theorem anv_caches_set_get {caches : List anv_pipeline_cache} {h : Nat}
    {c : anv_pipeline_cache} (hc : caches[h]? = some c) (i : Nat)
    (c1 : anv_pipeline_cache) :
    (caches.set i c1)[h]? = some (if i = h then c1 else c) := by
  have hlt : h < caches.length := by
    rcases List.getElem?_eq_some_iff.1 hc with ⟨hlt, _⟩
    exact hlt
  rw [List.getElem?_set]
  by_cases hi : i = h
  · subst hi
    simp [hlt]
  · simp [hi, hc]

theorem anv_step_keeps_lookup (E : mesa_env) (w : anv_world) (h : Nat)
    {K : List Nat} {ks A : Nat}
    (hl : ∃ c, w.caches[h]? = some c ∧
      anv_pipeline_cache_search_locked E c K ks = some A)
    (x : anv_call) (hx : x.is_search_or_upload = true) :
    ∃ c, (anv_call_step E w x).caches[h]? = some c ∧
      anv_pipeline_cache_search_locked E c K ks = some A := by
  rcases hl with ⟨c, hc, hA⟩
  cases x with
  | init en => cases hx
  | add_shader_bin i bin => cases hx
  | load i data size => cases hx
  | merge d n srcs => cases hx
  | search i key_data key_size =>
    simp only [anv_call_step]
    cases hi : w.caches[i]? with
    | none => exact ⟨c, hc, hA⟩
    | some ci =>
      simp only [anv_search_cache]
      refine ⟨_, anv_caches_set_get hc i ci, ?_⟩
      by_cases hih : i = h
      · subst hih
        rw [hc] at hi
        cases hi
        simpa using hA
      · simpa [hih] using hA
  | upload_kernel i key_data key_size kernel_data kernel_size constant_data
      constant_data_size prog_data prog_data_size xfb_info bind_map =>
    simp only [anv_call_step]
    cases hi : w.caches[i]? with
    | none => exact ⟨c, hc, hA⟩
    | some ci =>
      refine ⟨_, anv_caches_set_get hc i _, ?_⟩
      by_cases hih : i = h
      · subst hih
        rw [hc] at hi
        cases hi
        simp only [if_true]
        exact anv_upload_keeps_lookup E _ _ _ _ _ _ _ _ _ _ _ _ hA
      · simpa [hih] using hA

theorem anv_run_keeps_lookup (E : mesa_env) (h : Nat) {K : List Nat} {ks A : Nat}
    (calls : List anv_call) :
    ∀ (w : anv_world), (∃ c, w.caches[h]? = some c ∧
        anv_pipeline_cache_search_locked E c K ks = some A) →
      (∀ x ∈ calls, x.is_search_or_upload = true) →
      ∃ c, (anv_run E w calls).caches[h]? = some c ∧
        anv_pipeline_cache_search_locked E c K ks = some A := by
  induction calls with
  | nil => intro w hl _; exact hl
  | cons x xs ih =>
    intro w hl hx
    simp only [anv_run, List.foldl_cons]
    exact ih _ (anv_step_keeps_lookup E w h hl x (hx x (List.mem_cons_self _ _)))
      (fun y hy => hx y (List.mem_cons_of_mem _ hy))

theorem anv_search_locked_congr (E : mesa_env) (cache : anv_pipeline_cache)
    {K K1 : List Nat} {ks : Nat} (hK : ∀ i, i < ks → K1[i]? = K[i]?) :
    anv_pipeline_cache_search_locked E cache K1 ks =
      anv_pipeline_cache_search_locked E cache K ks := by
  have : memcpy K1 ks = memcpy K ks := by
    unfold memcpy
    apply List.ext_getElem?
    intro i
    by_cases hi : i < ks
    · simp [List.getElem?_take, hi, hK i hi]
    · simp [List.getElem?_take, hi]
  unfold anv_pipeline_cache_search_locked
  rw [this]

/-! ## Claims on key identity in the anv pipeline cache -/

/-- C1: in an enabled cache, once `anv_pipeline_cache_upload_kernel` has
returned the artifact `A` for the key `K`, every later
`anv_pipeline_cache_search` with a key of the same length and the same bytes
returns `A`, whatever searches and uploads (on this or on any other cache of
the device) were made in between. -/
theorem anv_search_after_upload_returns_same (E : mesa_env) (w : anv_world)
    (cache : Nat) (c : anv_pipeline_cache)
    (ht : List (hash_entry anv_shader_bin_key Nat))
    (hc : w.caches[cache]? = some c) (hen : c.cache = some ht)
    (key_data : List Nat) (key_size : Nat)
    (kernel_data : List Nat) (kernel_size : Nat)
    (constant_data : List Nat) (constant_data_size : Nat)
    (prog_data : brw_stage_prog_data) (prog_data_size : Nat)
    (xfb_info : Option (List Nat)) (bind_map : anv_pipeline_bind_map)
    (A : Nat)
    (hup : (anv_pipeline_cache_upload_kernel E w.device c key_data key_size kernel_data
      kernel_size constant_data constant_data_size prog_data prog_data_size xfb_info
      bind_map).1 = some A)
    (calls : List anv_call) (hcalls : ∀ x ∈ calls, x.is_search_or_upload = true)
    (key_data1 : List Nat) (hsame : ∀ i, i < key_size → key_data1[i]? = key_data[i]?) :
    ∃ c2,
      (anv_run E (anv_call_step E w (.upload_kernel cache key_data key_size kernel_data
        kernel_size constant_data constant_data_size prog_data prog_data_size xfb_info
        bind_map)) calls).caches[cache]? = some c2 ∧
      (anv_pipeline_cache_search E
        (anv_run E (anv_call_step E w (.upload_kernel cache key_data key_size kernel_data
          kernel_size constant_data constant_data_size prog_data prog_data_size xfb_info
          bind_map)) calls).device c2 key_data1 key_size).1 = some A := by
  have h1 : ∃ c1, (anv_call_step E w (.upload_kernel cache key_data key_size kernel_data
      kernel_size constant_data constant_data_size prog_data prog_data_size xfb_info
      bind_map)).caches[cache]? = some c1 ∧
      anv_pipeline_cache_search_locked E c1 key_data key_size = some A := by
    simp only [anv_call_step, hc]
    refine ⟨_, anv_caches_set_get hc cache _, ?_⟩
    simp only [if_true]
    exact anv_upload_establishes_lookup E _ _ _ _ _ _ _ _ _ _ _ _ hen hup
  rcases anv_run_keeps_lookup E cache calls _ h1 hcalls with ⟨c2, hc2, hA⟩
  refine ⟨c2, hc2, ?_⟩
  rw [← anv_search_locked_congr E c2 hsame] at hA
  rw [anv_search_hit E _ hA]

/-- Witness for C1: a key of three bytes is uploaded into the enabled cache
of the example device; a search of another key and an upload of a key that
shares two bytes follow; the search of the three bytes, read from a longer
buffer, returns the first artifact. -/
theorem anv_search_after_upload_returns_same_witness :
    ∃ c2,
      (anv_run example_env (anv_call_step example_env example_world
        (.upload_kernel 0 [1, 2, 3] 3 [9, 9] 2 [] 0 example_prog_data 0 none
          example_bind_map))
        [.search 0 [4] 1,
         .upload_kernel 0 [1, 2, 4] 3 [7] 1 [] 0 example_prog_data 0 none
           example_bind_map]).caches[0]? = some c2 ∧
      (anv_pipeline_cache_search example_env
        (anv_run example_env (anv_call_step example_env example_world
          (.upload_kernel 0 [1, 2, 3] 3 [9, 9] 2 [] 0 example_prog_data 0 none
            example_bind_map))
          [.search 0 [4] 1,
           .upload_kernel 0 [1, 2, 4] 3 [7] 1 [] 0 example_prog_data 0 none
             example_bind_map]).device c2 [1, 2, 3, 77] 3).1 = some 0 :=
  anv_search_after_upload_returns_same example_env example_world 0
    (anv_pipeline_cache_init true) [] rfl rfl [1, 2, 3] 3 [9, 9] 2 [] 0
    example_prog_data 0 none example_bind_map 0 rfl
    [.search 0 [4] 1,
     .upload_kernel 0 [1, 2, 4] 3 [7] 1 [] 0 example_prog_data 0 none example_bind_map]
    (by decide) [1, 2, 3, 77]
    (by
      intro i hi
      interval_cases i <;> rfl)

/-- C2: in an enabled cache a search with a key that differs from every
stored key, in length or in at least one byte, returns absent and changes
nothing; and `shader_bin_key_compare_func (a, b)` is true exactly when the
sizes are equal and the `size` bytes are identical. -/
theorem anv_search_of_different_key_absent (E : mesa_env) (device : anv_device)
    (cache : anv_pipeline_cache) (ht : List (hash_entry anv_shader_bin_key Nat))
    (hc : cache.cache = some ht) (key_data : List Nat) (key_size : Nat)
    (hdiff : ∀ e ∈ ht, e.key.size ≠ key_size ∨
      ∃ i, i < key_size ∧ e.key.data[i]? ≠ key_data[i]?) :
    anv_pipeline_cache_search E device cache key_data key_size = (none, device, cache) ∧
    ∀ a b : anv_shader_bin_key,
      shader_bin_key_compare_func a b = true ↔
        (a.size = b.size ∧ a.data.take a.size = b.data.take a.size) := by
  refine ⟨?_, shader_bin_key_compare_func_iff⟩
  apply anv_search_miss
  rw [anv_search_locked_eq E hc]
  have hnone : _mesa_hash_table_search (shader_bin_key_hash_func E)
      shader_bin_key_compare_func ht
      { size := key_size, data := memcpy key_data key_size } = none := by
    rw [hash_table_search_none_iff]
    intro e he
    cases hm : hash_entry_matches (shader_bin_key_hash_func E) shader_bin_key_compare_func
      { size := key_size, data := memcpy key_data key_size } e.key with
    | false => rfl
    | true =>
      exfalso
      rw [anv_matches_iff, shader_bin_key_compare_func_iff] at hm
      simp only [memcpy] at hm
      rcases hdiff e he with h1 | ⟨i, hi, h2⟩
      · exact h1 hm.1.symm
      · apply h2
        have h3 := congrArg (fun l => l[i]?) hm.2
        simp only [List.getElem?_take, hi, if_true] at h3
        exact h3.symm
  rw [hnone]
  rfl

/-- Witness for C2: the enabled cache holds the key `1 2 3`; the search of its
strict prefix `1 2` is answered with absent. -/
theorem anv_search_of_different_key_absent_witness :
    anv_pipeline_cache_search example_env example_device
        { cache := some [⟨⟨3, [1, 2, 3]⟩, 0⟩], nir_cache := some [] } [1, 2] 2 =
      (none, example_device,
        { cache := some [⟨⟨3, [1, 2, 3]⟩, 0⟩], nir_cache := some [] }) ∧
    ∀ a b : anv_shader_bin_key,
      shader_bin_key_compare_func a b = true ↔
        (a.size = b.size ∧ a.data.take a.size = b.data.take a.size) :=
  anv_search_of_different_key_absent example_env example_device
    { cache := some [⟨⟨3, [1, 2, 3]⟩, 0⟩], nir_cache := some [] }
    [⟨⟨3, [1, 2, 3]⟩, 0⟩] rfl [1, 2] 2
    (by
      intro e he
      simp only [List.mem_singleton] at he
      subst he
      exact Or.inl (by decide))

/-! ## Claims on key identity in the iris program cache -/

/-- C3: the function `keybox_equals` compares the sizes and the `size` data
bytes and nothing else: two key boxes with the same bytes and different
`cache_id` (`IRIS_CACHE_VS` and `IRIS_CACHE_FS`) compare equal, although
`keybox_hash` covers the `cache_id`. -/
theorem keybox_equals_ignores_cache_id :
    (∀ a b : keybox, keybox_equals a b = true ↔
      (a.size = b.size ∧ a.data.take a.size = b.data.take a.size)) ∧
    keybox_equals (make_keybox .IRIS_CACHE_VS [1, 2] 2)
      (make_keybox .IRIS_CACHE_FS [1, 2] 2) = true ∧
    (make_keybox .IRIS_CACHE_VS [1, 2] 2).cache_id ≠
      (make_keybox .IRIS_CACHE_FS [1, 2] 2).cache_id ∧
    keybox_hash example_env (make_keybox .IRIS_CACHE_VS [1, 2] 2) ≠
      keybox_hash example_env (make_keybox .IRIS_CACHE_FS [1, 2] 2) := by
  refine ⟨?_, by decide, by decide, by decide⟩
  intro a b
  unfold keybox_equals memcmp_eq
  by_cases h : a.size = b.size
  · simp [h]
  · simp [h]

/-- C4: the function `make_keybox` stores the 32 bit key size in a 16 bit
field: the key boxes of the one byte key `7` and of a key of 65537 bytes that
starts with `7` have the same `size` and compare equal under `keybox_equals`. -/
theorem make_keybox_truncates_key_size :
    (make_keybox .IRIS_CACHE_VS [7] 1).size = 1 ∧
    (make_keybox .IRIS_CACHE_VS (7 :: List.replicate 65536 0) 65537).size = 1 ∧
    keybox_equals (make_keybox .IRIS_CACHE_VS [7] 1)
      (make_keybox .IRIS_CACHE_VS (7 :: List.replicate 65536 0) 65537) = true :=
  ⟨rfl, rfl, by decide⟩

/-! ## Claims on upload and search in one cache -/

theorem anv_shader_bin_ref_eq_set (device : anv_device) {shader : Nat}
    {a : anv_shader_bin} (ha : device.bins[shader]? = some a) :
    anv_shader_bin_ref device shader =
      { device with bins := device.bins.set shader { a with ref_cnt := a.ref_cnt + 1 } } := by
  unfold anv_shader_bin_ref
  congr 1
  apply List.ext_getElem?
  intro i
  rw [List.getElem?_modify, List.getElem?_set]
  by_cases hi : shader = i
  · subst hi
    have hlt : shader < device.bins.length := (List.getElem?_eq_some_iff.1 ha).1
    simp [ha, hlt]
  · simp [hi]

/-- C5: when an enabled cache holds the artifact `A` under the key `K`, an
upload of `K` with any candidate code and metadata returns `A`, leaves the
cache as it was, and leaves the device as it was except that the reference
count of `A` is one higher: no artifact is created, no pool region is taken,
and no other field of any artifact changes. -/
theorem anv_upload_of_present_key_returns_existing (E : mesa_env)
    (device : anv_device) (cache : anv_pipeline_cache)
    (key_data : List Nat) (key_size : Nat) (A : Nat) (a : anv_shader_bin)
    (hA : anv_pipeline_cache_search_locked E cache key_data key_size = some A)
    (ha : device.bins[A]? = some a)
    (kernel_data : List Nat) (kernel_size : Nat)
    (constant_data : List Nat) (constant_data_size : Nat)
    (prog_data : brw_stage_prog_data) (prog_data_size : Nat)
    (xfb_info : Option (List Nat)) (bind_map : anv_pipeline_bind_map) :
    anv_pipeline_cache_upload_kernel E device cache key_data key_size kernel_data
        kernel_size constant_data constant_data_size prog_data prog_data_size xfb_info
        bind_map =
      (some A,
       { device with bins := device.bins.set A { a with ref_cnt := a.ref_cnt + 1 } },
       cache) := by
  rw [anv_upload_hit E device kernel_data kernel_size constant_data constant_data_size
    prog_data prog_data_size xfb_info bind_map hA, anv_shader_bin_ref_eq_set device ha]

/-- Witness for C5: the cache holds artifact 0 under the key `1 2 3`; a second
upload of that key with other code returns artifact 0 with one more
reference. -/
theorem anv_upload_of_present_key_returns_existing_witness :
    anv_pipeline_cache_upload_kernel example_env example_world_one.device
        example_cache_one [1, 2, 3] 3 [8, 8, 8] 3 [] 0 example_prog_data 0 none
        example_bind_map =
      (some 0,
       { example_world_one.device with
         bins := example_world_one.device.bins.set 0
           { example_bin with ref_cnt := example_bin.ref_cnt + 1 } },
       example_cache_one) :=
  anv_upload_of_present_key_returns_existing example_env example_world_one.device
    example_cache_one [1, 2, 3] 3 0 example_bin rfl rfl [8, 8, 8] 3 [] 0
    example_prog_data 0 none example_bind_map

/-- C7: the function `anv_pipeline_cache_search` never changes the cache.  On
a miss it changes nothing.  On a hit that returns `A` the heap keeps its
size, every artifact other than `A` is as before, `A` has its reference count
raised by exactly one and is otherwise as before, and no other part of the
device changes. -/
theorem anv_search_changes_only_ref_cnt (E : mesa_env) (device : anv_device)
    (cache : anv_pipeline_cache) (key_data : List Nat) (key_size : Nat) :
    (anv_pipeline_cache_search E device cache key_data key_size).2.2 = cache ∧
    match (anv_pipeline_cache_search E device cache key_data key_size).1 with
    | none => (anv_pipeline_cache_search E device cache key_data key_size).2.1 = device
    | some A =>
      anv_pipeline_cache_search_locked E cache key_data key_size = some A ∧
      (anv_pipeline_cache_search E device cache key_data key_size).2.1 =
        { device with
          bins := (anv_pipeline_cache_search E device cache key_data key_size).2.1.bins } ∧
      (anv_pipeline_cache_search E device cache key_data key_size).2.1.bins.length =
        device.bins.length ∧
      (∀ p, p ≠ A →
        (anv_pipeline_cache_search E device cache key_data key_size).2.1.bins[p]? =
          device.bins[p]?) ∧
      (anv_pipeline_cache_search E device cache key_data key_size).2.1.bins[A]? =
        (device.bins[A]?).map (fun a => { a with ref_cnt := a.ref_cnt + 1 }) := by
  refine ⟨anv_search_cache E device cache key_data key_size, ?_⟩
  cases h : anv_pipeline_cache_search_locked E cache key_data key_size with
  | none => rw [anv_search_miss E device h]
  | some A =>
    rw [anv_search_hit E device h]
    refine ⟨rfl, rfl, anv_shader_bin_ref_length device A, ?_,
      anv_shader_bin_ref_get_self device A⟩
    intro p hp
    exact anv_shader_bin_ref_get_ne device hp

/-- C9, amended: on a disabled cache an upload whose creation succeeds
bypasses the table: the result is a new artifact, at an address the heap did
not hold, with `ref_cnt = 1` and the given key, code, constant data and
metadata; the cache is as before (it still has no table); and a second upload
of the same key returns an artifact at another address.  The metadata are
carried as a copy of their own: the program data of the artifact are the given
bytes except for the pointer field `param`, which holds the address of the
artifact's parameter array, and that array holds the given parameters.  The
program data are taken to hold the field `param`, as every
`struct brw_stage_prog_data` does, so that no store falls out of bounds. -/
theorem anv_upload_on_disabled_cache (E : mesa_env) (device : anv_device)
    (cache : anv_pipeline_cache) (hdis : cache.cache = none)
    (key_data : List Nat) (key_size : Nat)
    (kernel_data : List Nat) (kernel_size : Nat)
    (constant_data : List Nat) (constant_data_size : Nat)
    (prog_data : brw_stage_prog_data) (prog_data_size : Nat)
    (hfield : E.param_offset + E.sizeof_pointer ≤ prog_data_size)
    (xfb_info : Option (List Nat)) (bind_map : anv_pipeline_bind_map)
    (A : Nat)
    (hup : (anv_pipeline_cache_upload_kernel E device cache key_data key_size kernel_data
      kernel_size constant_data constant_data_size prog_data prog_data_size xfb_info
      bind_map).1 = some A) :
    (anv_pipeline_cache_upload_kernel E device cache key_data key_size kernel_data
      kernel_size constant_data constant_data_size prog_data prog_data_size xfb_info
      bind_map).2.2 = cache ∧
    device.bins[A]? = none ∧
    (anv_pipeline_cache_upload_kernel E device cache key_data key_size kernel_data
      kernel_size constant_data constant_data_size prog_data prog_data_size xfb_info
      bind_map).2.1.out_of_bounds = device.out_of_bounds ∧
    (∃ b : anv_shader_bin,
      (anv_pipeline_cache_upload_kernel E device cache key_data key_size kernel_data
        kernel_size constant_data constant_data_size prog_data prog_data_size xfb_info
        bind_map).2.1.bins = device.bins ++ [b] ∧
      (anv_pipeline_cache_upload_kernel E device cache key_data key_size kernel_data
        kernel_size constant_data constant_data_size prog_data prog_data_size xfb_info
        bind_map).2.1.bins[A]? = some b ∧
      b.ref_cnt = 1 ∧
      b.key = { size := key_size, data := memcpy key_data key_size } ∧
      b.kernel.map = memcpy kernel_data kernel_size ∧
      b.kernel_size = kernel_size ∧
      b.constant_data.map = memcpy constant_data constant_data_size ∧
      b.constant_data_size = constant_data_size ∧
      b.prog_data = store_bytes (memcpy prog_data.bytes prog_data_size) E.param_offset
        (pointer_bytes E.sizeof_pointer (E.prog_data_param_address A)) ∧
      b.prog_data_size = prog_data_size ∧
      b.prog_data_param = memcpy prog_data.param
        (load_uint32 (memcpy prog_data.bytes prog_data_size) E.nr_params_offset * 4) ∧
      b.xfb_info = xfb_info.map (fun x =>
        memcpy x (nir_xfb_info_size E (load_uint16 x E.output_count_offset))) ∧
      b.bind_map.surface_count = bind_map.surface_count ∧
      b.bind_map.sampler_count = bind_map.sampler_count ∧
      b.bind_map.surface_to_descriptor = memcpy bind_map.surface_to_descriptor
        (bind_map.surface_count * E.sizeof_pipeline_binding) ∧
      b.bind_map.sampler_to_descriptor = memcpy bind_map.sampler_to_descriptor
        (bind_map.sampler_count * E.sizeof_pipeline_binding)) ∧
    ∀ (kernel_data2 : List Nat) (kernel_size2 : Nat)
      (constant_data2 : List Nat) (constant_data_size2 : Nat)
      (prog_data2 : brw_stage_prog_data) (prog_data_size2 : Nat)
      (xfb_info2 : Option (List Nat)) (bind_map2 : anv_pipeline_bind_map) (A2 : Nat),
      (anv_pipeline_cache_upload_kernel E
        (anv_pipeline_cache_upload_kernel E device cache key_data key_size kernel_data
          kernel_size constant_data constant_data_size prog_data prog_data_size xfb_info
          bind_map).2.1
        (anv_pipeline_cache_upload_kernel E device cache key_data key_size kernel_data
          kernel_size constant_data constant_data_size prog_data prog_data_size xfb_info
          bind_map).2.2
        key_data key_size kernel_data2 kernel_size2 constant_data2 constant_data_size2
        prog_data2 prog_data_size2 xfb_info2 bind_map2).1 = some A2 →
      A2 ≠ A := by
  have hcases := anv_shader_bin_create_cases E device key_data key_size kernel_data
    kernel_size constant_data constant_data_size prog_data.bytes prog_data_size
    prog_data.param xfb_info bind_map
  have hin := anv_shader_bin_create_in_bounds E device key_data key_size kernel_data
    kernel_size constant_data constant_data_size prog_data.bytes prog_data_size
    prog_data.param xfb_info bind_map hfield
  have hdef : anv_pipeline_cache_upload_kernel E device cache key_data key_size
      kernel_data kernel_size constant_data constant_data_size prog_data prog_data_size
      xfb_info bind_map =
      ((anv_shader_bin_create E device key_data key_size kernel_data kernel_size
          constant_data constant_data_size prog_data.bytes prog_data_size
          prog_data.param xfb_info bind_map).1,
       (anv_shader_bin_create E device key_data key_size kernel_data kernel_size
          constant_data constant_data_size prog_data.bytes prog_data_size
          prog_data.param xfb_info bind_map).2, cache) := by
    unfold anv_pipeline_cache_upload_kernel
    simp only [hdis]
  rw [hdef] at hup ⊢
  simp only at hup ⊢
  rcases hcases with ⟨h1, _⟩ | ⟨h1, b, hb, hrest⟩
  · rw [h1] at hup
    cases hup
  · rw [h1] at hup
    simp only [Option.some.injEq] at hup
    subst hup
    refine ⟨trivial, by simp, hin, ⟨b, hb, by rw [hb]; simp, hrest⟩, ?_⟩
    intro kernel_data2 kernel_size2 constant_data2 constant_data_size2 prog_data2
      prog_data_size2 xfb_info2 bind_map2 A2 h2
    have hdef2 : ∀ d : anv_device,
        (anv_pipeline_cache_upload_kernel E d cache key_data key_size
          kernel_data2 kernel_size2 constant_data2 constant_data_size2 prog_data2
          prog_data_size2 xfb_info2 bind_map2).1 =
        (anv_shader_bin_create E d key_data key_size kernel_data2 kernel_size2
          constant_data2 constant_data_size2 prog_data2.bytes prog_data_size2
          prog_data2.param xfb_info2 bind_map2).1 := by
      intro d
      unfold anv_pipeline_cache_upload_kernel
      simp only [hdis]
    rw [hdef2] at h2
    rcases anv_shader_bin_create_cases E _ key_data key_size kernel_data2
      kernel_size2 constant_data2 constant_data_size2 prog_data2.bytes prog_data_size2
      prog_data2.param xfb_info2 bind_map2 with ⟨h3, _⟩ | ⟨h3, _⟩
    · rw [h3] at h2
      cases h2
    · rw [h3] at h2
      simp only [Option.some.injEq] at h2
      rw [hb] at h2
      simp only [List.length_append, List.length_singleton] at h2
      omega

/-- Witness for C9: two uploads of the key `1 2 3` on a disabled cache of the
example device, with program data of 28 bytes that announce one parameter,
give the artifacts at addresses 0 and 1; the first holds the given program
data with the address 4096 of its parameter array in the bytes 16 to 23. -/
theorem anv_upload_on_disabled_cache_witness :
    (anv_pipeline_cache_upload_kernel example_env example_device
      (anv_pipeline_cache_init false) [1, 2, 3] 3 [9, 9] 2 [] 0
      example_prog_data_one_param 28 none example_bind_map).1 = some 0 ∧
    (anv_pipeline_cache_upload_kernel example_env
      (anv_pipeline_cache_upload_kernel example_env example_device
        (anv_pipeline_cache_init false) [1, 2, 3] 3 [9, 9] 2 [] 0
        example_prog_data_one_param 28 none example_bind_map).2.1
      (anv_pipeline_cache_upload_kernel example_env example_device
        (anv_pipeline_cache_init false) [1, 2, 3] 3 [9, 9] 2 [] 0
        example_prog_data_one_param 28 none example_bind_map).2.2
      [1, 2, 3] 3 [9, 9] 2 [] 0 example_prog_data_one_param 28 none
      example_bind_map).1 = some 1 ∧
    (anv_pipeline_cache_upload_kernel example_env example_device
      (anv_pipeline_cache_init false) [1, 2, 3] 3 [9, 9] 2 [] 0
      example_prog_data_one_param 28 none example_bind_map).2.1.bins =
      [example_bin_uploaded] ∧
    (1 : Nat) ≠ 0 :=
  ⟨rfl, rfl, by decide,
   (anv_upload_on_disabled_cache example_env example_device
      (anv_pipeline_cache_init false) rfl [1, 2, 3] 3 [9, 9] 2 [] 0
      example_prog_data_one_param 28 (by decide) none example_bind_map 0 rfl).2.2.2.2
      [9, 9] 2 [] 0 example_prog_data_one_param 28 none example_bind_map 1 rfl⟩

/-- The artifact of an upload does not hold the given program data byte for
byte (C9): on a disabled cache of the example device the upload of the key
`1 2 3` with the program data `example_prog_data_one_param` succeeds and
returns the artifact at address 0, whose program data hold the address 4096
of its own parameter array in the field `param` (bytes 16 to 23), where the
given program data hold the address 512 of the caller's array. -/
theorem anv_upload_on_disabled_cache_moves_param :
    ∃ device1 b,
      anv_pipeline_cache_upload_kernel example_env example_device
        (anv_pipeline_cache_init false) [1, 2, 3] 3 [9, 9] 2 [] 0
        example_prog_data_one_param 28 none example_bind_map =
        (some 0, device1, anv_pipeline_cache_init false) ∧
      device1.bins[0]? = some b ∧
      b.prog_data = List.replicate 16 0 ++ [0, 16, 0, 0, 0, 0, 0, 0] ++ [1, 0, 0, 0] ∧
      memcpy example_prog_data_one_param.bytes 28 =
        List.replicate 16 0 ++ [0, 2, 0, 0, 0, 0, 0, 0] ++ [1, 0, 0, 0] ∧
      b.prog_data ≠ memcpy example_prog_data_one_param.bytes 28 :=
  ⟨example_device_uploaded, example_bin_uploaded, by decide, rfl, rfl, rfl, by decide⟩

/-! ## The table invariant -/

theorem anv_heap_keeps_keys_refl (d : anv_device) : anv_heap_keeps_keys d d :=
  fun _ b h => ⟨b, h, rfl⟩

theorem anv_heap_keeps_keys_trans {d1 d2 d3 : anv_device}
    (h12 : anv_heap_keeps_keys d1 d2) (h23 : anv_heap_keeps_keys d2 d3) :
    anv_heap_keeps_keys d1 d3 := by
  intro p b hb
  rcases h12 p b hb with ⟨b2, hb2, hk2⟩
  rcases h23 p b2 hb2 with ⟨b3, hb3, hk3⟩
  exact ⟨b3, hb3, hk3.trans hk2⟩

theorem anv_heap_keeps_keys_of_bins {d d1 : anv_device} (h : d1.bins = d.bins) :
    anv_heap_keeps_keys d d1 := by
  intro p b hb
  exact ⟨b, by rw [h]; exact hb, rfl⟩

theorem anv_heap_keeps_keys_of_append {d d1 : anv_device} {b : anv_shader_bin}
    (h : d1.bins = d.bins ++ [b]) : anv_heap_keeps_keys d d1 := by
  intro p x hx
  refine ⟨x, ?_, rfl⟩
  rw [h, List.getElem?_append_left (List.getElem?_eq_some_iff.1 hx).1]
  exact hx

theorem anv_heap_keeps_keys_ref (d : anv_device) (shader : Nat) :
    anv_heap_keeps_keys d (anv_shader_bin_ref d shader) := by
  intro p b hb
  have h := anv_shader_bin_ref_key d shader p
  rw [hb] at h
  cases hx : (anv_shader_bin_ref d shader).bins[p]? with
  | none => rw [hx] at h; cases h
  | some b1 =>
    rw [hx] at h
    simp only [Option.map_some', Option.some.injEq] at h
    exact ⟨b1, rfl, h⟩

theorem anv_heap_keeps_keys_create (E : mesa_env) (device : anv_device)
    (key_data : List Nat) (key_size : Nat)
    (kernel_data : List Nat) (kernel_size : Nat)
    (constant_data : List Nat) (constant_data_size : Nat)
    (prog_data_in : List Nat) (prog_data_size : Nat)
    (prog_data_param_in : List Nat)
    (xfb_info_in : Option (List Nat))
    (bind_map : anv_pipeline_bind_map) :
    anv_heap_keeps_keys device
      (anv_shader_bin_create E device key_data key_size kernel_data kernel_size
        constant_data constant_data_size prog_data_in prog_data_size prog_data_param_in
        xfb_info_in bind_map).2 := by
  rcases anv_shader_bin_create_cases E device key_data key_size kernel_data kernel_size
    constant_data constant_data_size prog_data_in prog_data_size prog_data_param_in
    xfb_info_in bind_map with ⟨_, h⟩ | ⟨_, b, h, _⟩
  · exact anv_heap_keeps_keys_of_bins h
  · exact anv_heap_keeps_keys_of_append h

theorem anv_table_ok_mono {d d1 : anv_device}
    {ht : List (hash_entry anv_shader_bin_key Nat)}
    (hk : anv_heap_keeps_keys d d1) (h : anv_table_ok d ht) : anv_table_ok d1 ht := by
  refine ⟨h.1, ?_⟩
  intro e he
  rcases h.2 e he with ⟨b, hb, hkey⟩
  rcases hk _ b hb with ⟨b1, hb1, hk1⟩
  exact ⟨b1, hb1, hk1.trans hkey⟩

theorem anv_cache_ok_mono {d d1 : anv_device} {c : anv_pipeline_cache}
    (hk : anv_heap_keeps_keys d d1) (h : anv_cache_ok d c) : anv_cache_ok d1 c :=
  fun ht hht => anv_table_ok_mono hk (h ht hht)

theorem anv_pairwise_insert (E : mesa_env)
    (ht : List (hash_entry anv_shader_bin_key Nat)) (k : anv_shader_bin_key) (d : Nat)
    (h : ht.Pairwise (fun e1 e2 => shader_bin_key_compare_func e1.key e2.key = false)) :
    (_mesa_hash_table_insert (shader_bin_key_hash_func E) shader_bin_key_compare_func
      ht k d).Pairwise
      (fun e1 e2 => shader_bin_key_compare_func e1.key e2.key = false) := by
  induction ht with
  | nil => simp [_mesa_hash_table_insert]
  | cons e es ih =>
    rw [List.pairwise_cons] at h
    by_cases hm : hash_entry_matches (shader_bin_key_hash_func E)
        shader_bin_key_compare_func k e.key = true
    · rw [_mesa_hash_table_insert, if_pos hm, List.pairwise_cons]
      refine ⟨?_, h.2⟩
      intro x hx
      have hke := (anv_matches_iff E k e.key).1 hm
      cases hkx : shader_bin_key_compare_func k x.key with
      | false => rfl
      | true =>
        have hex := shader_bin_key_compare_func_trans
          (shader_bin_key_compare_func_symm hke) hkx
        rw [h.1 x hx] at hex
        cases hex
    · rw [_mesa_hash_table_insert, if_neg hm, List.pairwise_cons]
      refine ⟨?_, ih h.2⟩
      intro x hx
      rcases hash_table_mem_insert _ _ hx with hx1 | hx1
      · exact h.1 x hx1
      · subst hx1
        cases hek : shader_bin_key_compare_func e.key k with
        | false => rfl
        | true =>
          exact absurd ((anv_matches_iff E k e.key).2
            (shader_bin_key_compare_func_symm hek)) hm

theorem anv_table_ok_insert (E : mesa_env) {d : anv_device}
    {ht : List (hash_entry anv_shader_bin_key Nat)} {bin : Nat} {b : anv_shader_bin}
    (h : anv_table_ok d ht) (hb : d.bins[bin]? = some b) :
    anv_table_ok d (_mesa_hash_table_insert (shader_bin_key_hash_func E)
      shader_bin_key_compare_func ht b.key bin) := by
  refine ⟨anv_pairwise_insert E ht b.key bin h.1, ?_⟩
  intro e he
  rcases hash_table_mem_insert _ _ he with he1 | he1
  · exact h.2 e he1
  · subst he1
    exact ⟨b, hb, rfl⟩

theorem anv_search_locked_none_table (E : mesa_env) {cache : anv_pipeline_cache}
    {ht : List (hash_entry anv_shader_bin_key Nat)} (hc : cache.cache = some ht)
    {key_data : List Nat} {key_size : Nat}
    (h : anv_pipeline_cache_search_locked E cache key_data key_size = none) :
    _mesa_hash_table_search (shader_bin_key_hash_func E) shader_bin_key_compare_func ht
      { size := key_size, data := memcpy key_data key_size } = none := by
  have hs := anv_search_locked_eq E hc key_data key_size
  rw [h] at hs
  cases hx : _mesa_hash_table_search (shader_bin_key_hash_func E)
    shader_bin_key_compare_func ht
    { size := key_size, data := memcpy key_data key_size } with
  | none => rfl
  | some e => rw [hx] at hs; cases hs

theorem anv_cache_ok_disabled (d : anv_device) {c : anv_pipeline_cache}
    (h : c.cache = none) : anv_cache_ok d c := by
  intro ht hht
  rw [h] at hht
  cases hht

theorem anv_search_ok (E : mesa_env) (device : anv_device) (cache : anv_pipeline_cache)
    (key_data : List Nat) (key_size : Nat) (h : anv_cache_ok device cache) :
    anv_heap_keeps_keys device
      (anv_pipeline_cache_search E device cache key_data key_size).2.1 ∧
    anv_cache_ok (anv_pipeline_cache_search E device cache key_data key_size).2.1
      (anv_pipeline_cache_search E device cache key_data key_size).2.2 := by
  cases hs : anv_pipeline_cache_search_locked E cache key_data key_size with
  | none =>
    rw [anv_search_miss E device hs]
    exact ⟨anv_heap_keeps_keys_refl device, h⟩
  | some s =>
    rw [anv_search_hit E device hs]
    exact ⟨anv_heap_keeps_keys_ref device s,
      anv_cache_ok_mono (anv_heap_keeps_keys_ref device s) h⟩

theorem anv_upload_ok (E : mesa_env) (device : anv_device) (cache : anv_pipeline_cache)
    (key_data : List Nat) (key_size : Nat)
    (kernel_data : List Nat) (kernel_size : Nat)
    (constant_data : List Nat) (constant_data_size : Nat)
    (prog_data : brw_stage_prog_data) (prog_data_size : Nat)
    (xfb_info : Option (List Nat)) (bind_map : anv_pipeline_bind_map)
    (h : anv_cache_ok device cache) :
    anv_heap_keeps_keys device
      (anv_pipeline_cache_upload_kernel E device cache key_data key_size kernel_data
        kernel_size constant_data constant_data_size prog_data prog_data_size xfb_info
        bind_map).2.1 ∧
    anv_cache_ok
      (anv_pipeline_cache_upload_kernel E device cache key_data key_size kernel_data
        kernel_size constant_data constant_data_size prog_data prog_data_size xfb_info
        bind_map).2.1
      (anv_pipeline_cache_upload_kernel E device cache key_data key_size kernel_data
        kernel_size constant_data constant_data_size prog_data prog_data_size xfb_info
        bind_map).2.2 := by
  have hkc := anv_heap_keeps_keys_create E device key_data key_size kernel_data
    kernel_size constant_data constant_data_size prog_data.bytes prog_data_size
    prog_data.param xfb_info bind_map
  cases hc : cache.cache with
  | none =>
    have hdef : anv_pipeline_cache_upload_kernel E device cache key_data key_size
        kernel_data kernel_size constant_data constant_data_size prog_data prog_data_size
        xfb_info bind_map =
        ((anv_shader_bin_create E device key_data key_size kernel_data kernel_size
            constant_data constant_data_size prog_data.bytes prog_data_size
            prog_data.param xfb_info bind_map).1,
         (anv_shader_bin_create E device key_data key_size kernel_data kernel_size
            constant_data constant_data_size prog_data.bytes prog_data_size
            prog_data.param xfb_info bind_map).2, cache) := by
      unfold anv_pipeline_cache_upload_kernel
      simp only [hc]
    rw [hdef]
    exact ⟨hkc, anv_cache_ok_disabled _ hc⟩
  | some ht =>
    cases hs : anv_pipeline_cache_search_locked E cache key_data key_size with
    | some s =>
      rw [anv_upload_hit E device kernel_data kernel_size constant_data
        constant_data_size prog_data prog_data_size xfb_info bind_map hs]
      exact ⟨anv_heap_keeps_keys_ref device s,
        anv_cache_ok_mono (anv_heap_keeps_keys_ref device s) h⟩
    | none =>
      have hnone := anv_search_locked_none_table E hc hs
      rcases anv_upload_miss E device hc kernel_data kernel_size constant_data
        constant_data_size prog_data prog_data_size xfb_info bind_map hs with
        ⟨_, hr⟩ | ⟨h1, hr⟩
      · rw [hr]
        exact ⟨hkc, anv_cache_ok_mono hkc h⟩
      · rw [hr]
        have hk2 := anv_heap_keeps_keys_trans hkc
          (anv_heap_keeps_keys_ref _ device.bins.length)
        refine ⟨hk2, ?_⟩
        intro ht1 hht1
        simp only [Option.some.injEq] at hht1
        subst hht1
        rcases anv_shader_bin_create_cases E device key_data key_size kernel_data
          kernel_size constant_data constant_data_size prog_data.bytes prog_data_size
          prog_data.param xfb_info bind_map with ⟨h2, _⟩ | ⟨_, b, hb, _, hkey, _⟩
        · rw [h2] at h1
          cases h1
        · have hget : (anv_shader_bin_create E device key_data key_size kernel_data
              kernel_size constant_data constant_data_size prog_data.bytes prog_data_size
              prog_data.param xfb_info bind_map).2.bins[device.bins.length]? = some b := by
            rw [hb]
            simp
          have hins := anv_table_ok_insert E (anv_table_ok_mono hkc (h ht hc)) hget
          rw [hkey, hash_table_insert_of_search_none _ _ _ hnone] at hins
          exact anv_table_ok_mono (anv_heap_keeps_keys_ref _ device.bins.length) hins

theorem anv_add_shader_bin_ok (E : mesa_env) (device : anv_device)
    (cache : anv_pipeline_cache) (bin : Nat) (h : anv_cache_ok device cache) :
    anv_heap_keeps_keys device
      (anv_pipeline_cache_add_shader_bin E device cache bin).1 ∧
    anv_cache_ok (anv_pipeline_cache_add_shader_bin E device cache bin).1
      (anv_pipeline_cache_add_shader_bin E device cache bin).2 := by
  cases hc : cache.cache with
  | none =>
    have hdef : anv_pipeline_cache_add_shader_bin E device cache bin = (device, cache) := by
      simp only [anv_pipeline_cache_add_shader_bin, hc]
    rw [hdef]
    exact ⟨anv_heap_keeps_keys_refl device, h⟩
  | some ht =>
    cases hb : device.bins[bin]? with
    | none =>
      have hdef : anv_pipeline_cache_add_shader_bin E device cache bin =
          (device, cache) := by
        simp only [anv_pipeline_cache_add_shader_bin, hc, hb]
      rw [hdef]
      exact ⟨anv_heap_keeps_keys_refl device, h⟩
    | some b =>
      cases hs : _mesa_hash_table_search (shader_bin_key_hash_func E)
          shader_bin_key_compare_func ht b.key with
      | some e =>
        have hdef : anv_pipeline_cache_add_shader_bin E device cache bin =
            (device, cache) := by
          simp only [anv_pipeline_cache_add_shader_bin, hc, hb, hs]
        rw [hdef]
        exact ⟨anv_heap_keeps_keys_refl device, h⟩
      | none =>
        have hdef : anv_pipeline_cache_add_shader_bin E device cache bin =
            (anv_shader_bin_ref device bin,
             { cache with
               cache := some (_mesa_hash_table_insert (shader_bin_key_hash_func E)
                 shader_bin_key_compare_func ht b.key bin) }) := by
          simp only [anv_pipeline_cache_add_shader_bin, hc, hb, hs]
        rw [hdef]
        refine ⟨anv_heap_keeps_keys_ref device bin, ?_⟩
        intro ht1 hht1
        simp only [Option.some.injEq] at hht1
        subst hht1
        exact anv_table_ok_mono (anv_heap_keeps_keys_ref device bin)
          (anv_table_ok_insert E (h ht hc) hb)

theorem anv_shader_bin_create_heap (E : mesa_env) (device : anv_device)
    (key_data : List Nat) (key_size : Nat)
    (kernel_data : List Nat) (kernel_size : Nat)
    (constant_data : List Nat) (constant_data_size : Nat)
    (prog_data_in : List Nat) (prog_data_size : Nat)
    (prog_data_param_in : List Nat)
    (xfb_info_in : Option (List Nat))
    (bind_map : anv_pipeline_bind_map) :
    ((anv_shader_bin_create E device key_data key_size kernel_data kernel_size
        constant_data constant_data_size prog_data_in prog_data_size prog_data_param_in
        xfb_info_in bind_map).1 = none ∧
      (anv_shader_bin_create E device key_data key_size kernel_data kernel_size
        constant_data constant_data_size prog_data_in prog_data_size prog_data_param_in
        xfb_info_in bind_map).2.bins = device.bins) ∨
    ((anv_shader_bin_create E device key_data key_size kernel_data kernel_size
        constant_data constant_data_size prog_data_in prog_data_size prog_data_param_in
        xfb_info_in bind_map).1 = some device.bins.length ∧
      ∃ b : anv_shader_bin,
        (anv_shader_bin_create E device key_data key_size kernel_data kernel_size
          constant_data constant_data_size prog_data_in prog_data_size prog_data_param_in
          xfb_info_in bind_map).2.bins = device.bins ++ [b]) := by
  rcases anv_shader_bin_create_cases E device key_data key_size kernel_data kernel_size
    constant_data constant_data_size prog_data_in prog_data_size prog_data_param_in
    xfb_info_in bind_map with h | ⟨h1, b, hb, _⟩
  · exact Or.inl h
  · exact Or.inr ⟨h1, b, hb⟩

theorem anv_shader_bin_create_from_blob_elim (E : mesa_env) (device : anv_device)
    (blob : blob_reader) (P : Option Nat × anv_device × blob_reader → Prop)
    (hnone : ∀ b : blob_reader, P (none, device, b))
    (hcreate : ∀ (key_data : List Nat) (key_size : Nat)
      (kernel_data : List Nat) (kernel_size : Nat)
      (constant_data : List Nat) (constant_data_size : Nat)
      (prog_data_in : List Nat) (prog_data_size : Nat)
      (prog_data_param_in : List Nat)
      (xfb_info_in : Option (List Nat))
      (bind_map : anv_pipeline_bind_map) (b : blob_reader),
      P ((anv_shader_bin_create E device key_data key_size kernel_data kernel_size
          constant_data constant_data_size prog_data_in prog_data_size prog_data_param_in
          xfb_info_in bind_map).1,
         (anv_shader_bin_create E device key_data key_size kernel_data kernel_size
          constant_data constant_data_size prog_data_in prog_data_size prog_data_param_in
          xfb_info_in bind_map).2, b)) :
    P (anv_shader_bin_create_from_blob E device blob) := by
  unfold anv_shader_bin_create_from_blob
  repeat' split
  all_goals first
    | exact hnone _
    | exact hcreate _ _ _ _ _ _ _ _ _ _ _ _

theorem anv_shader_bin_create_from_blob_heap (E : mesa_env) (device : anv_device)
    (blob : blob_reader) :
    ((anv_shader_bin_create_from_blob E device blob).1 = none ∧
      (anv_shader_bin_create_from_blob E device blob).2.1.bins = device.bins) ∨
    ((anv_shader_bin_create_from_blob E device blob).1 = some device.bins.length ∧
      ∃ b : anv_shader_bin,
        (anv_shader_bin_create_from_blob E device blob).2.1.bins = device.bins ++ [b]) := by
  apply anv_shader_bin_create_from_blob_elim E device blob
    (fun r => (r.1 = none ∧ r.2.1.bins = device.bins) ∨
      (r.1 = some device.bins.length ∧
        ∃ b : anv_shader_bin, r.2.1.bins = device.bins ++ [b]))
  · intro b
    exact Or.inl ⟨rfl, rfl⟩
  · intro key_data key_size kernel_data kernel_size constant_data constant_data_size
      prog_data_in prog_data_size prog_data_param_in xfb_info_in bind_map b
    exact anv_shader_bin_create_heap E device key_data key_size kernel_data kernel_size
      constant_data constant_data_size prog_data_in prog_data_size prog_data_param_in
      xfb_info_in bind_map

theorem anv_load_loop_ok (E : mesa_env) (count : Nat) :
    ∀ (device : anv_device) (ht : List (hash_entry anv_shader_bin_key Nat))
      (blob : blob_reader), anv_table_ok device ht →
      anv_heap_keeps_keys device (anv_pipeline_cache_load_loop E count device ht blob).1 ∧
      anv_table_ok (anv_pipeline_cache_load_loop E count device ht blob).1
        (anv_pipeline_cache_load_loop E count device ht blob).2 := by
  induction count with
  | zero =>
    intro device ht blob h
    exact ⟨anv_heap_keeps_keys_refl device, h⟩
  | succ n ih =>
    intro device ht blob h
    rw [anv_pipeline_cache_load_loop]
    have hheap := anv_shader_bin_create_from_blob_heap E device blob
    rcases hcr : anv_shader_bin_create_from_blob E device blob with ⟨r, d1, blob1⟩
    rw [hcr] at hheap
    simp only at hheap
    rcases hheap with ⟨h1, hb⟩ | ⟨h1, b, hb⟩
    · subst h1
      simp only
      have hk := anv_heap_keeps_keys_of_bins hb
      exact ⟨hk, anv_table_ok_mono hk h⟩
    · subst h1
      have hk := anv_heap_keeps_keys_of_append hb
      have hget : d1.bins[device.bins.length]? = some b := by
        rw [hb]
        simp
      simp only [hget]
      have h2 := ih d1 (_mesa_hash_table_insert (shader_bin_key_hash_func E)
        shader_bin_key_compare_func ht b.key device.bins.length) blob1
        (anv_table_ok_insert E (anv_table_ok_mono hk h) hget)
      exact ⟨anv_heap_keeps_keys_trans hk h2.1, h2.2⟩

theorem anv_load_ok (E : mesa_env) (device : anv_device) (cache : anv_pipeline_cache)
    (data : List Nat) (size : Nat) (h : anv_cache_ok device cache) :
    anv_heap_keeps_keys device (anv_pipeline_cache_load E device cache data size).1 ∧
    anv_cache_ok (anv_pipeline_cache_load E device cache data size).1
      (anv_pipeline_cache_load E device cache data size).2 := by
  unfold anv_pipeline_cache_load
  cases hc : cache.cache with
  | none => exact ⟨anv_heap_keeps_keys_refl device, h⟩
  | some ht =>
    dsimp only
    have hrefl : anv_heap_keeps_keys device device ∧ anv_cache_ok device cache :=
      ⟨anv_heap_keeps_keys_refl device, h⟩
    split
    · exact hrefl
    · split
      · exact hrefl
      · split
        · exact hrefl
        · split
          · exact hrefl
          · split
            · exact hrefl
            · split
              · exact hrefl
              · have h2 := anv_load_loop_ok E
                  (blob_read_uint32 (blob_copy_bytes (blob_reader_init data size)
                    sizeof_cache_header).2).1 device ht
                  (blob_read_uint32 (blob_copy_bytes (blob_reader_init data size)
                    sizeof_cache_header).2).2 (h ht hc)
                refine ⟨h2.1, ?_⟩
                intro ht1 hht1
                simp only [Option.some.injEq] at hht1
                subst hht1
                exact h2.2

theorem anv_merge_entry_ok (E : mesa_env)
    (st : anv_device × List (hash_entry anv_shader_bin_key Nat))
    (entry : hash_entry anv_shader_bin_key Nat) (h : anv_table_ok st.1 st.2) :
    anv_heap_keeps_keys st.1 (anv_merge_entry E st entry).1 ∧
    anv_table_ok (anv_merge_entry E st entry).1 (anv_merge_entry E st entry).2 := by
  cases hb : st.1.bins[entry.data]? with
  | none =>
    have hdef : anv_merge_entry E st entry = st := by
      simp only [anv_merge_entry, hb]
    rw [hdef]
    exact ⟨anv_heap_keeps_keys_refl _, h⟩
  | some bin =>
    cases hs : _mesa_hash_table_search (shader_bin_key_hash_func E)
        shader_bin_key_compare_func st.2 bin.key with
    | some e =>
      have hdef : anv_merge_entry E st entry = st := by
        simp only [anv_merge_entry, hb, hs]
      rw [hdef]
      exact ⟨anv_heap_keeps_keys_refl _, h⟩
    | none =>
      have hdef : anv_merge_entry E st entry =
          (anv_shader_bin_ref st.1 entry.data,
           _mesa_hash_table_insert (shader_bin_key_hash_func E)
             shader_bin_key_compare_func st.2 bin.key entry.data) := by
        simp only [anv_merge_entry, hb, hs]
      rw [hdef]
      exact ⟨anv_heap_keeps_keys_ref _ _,
        anv_table_ok_mono (anv_heap_keeps_keys_ref _ _) (anv_table_ok_insert E h hb)⟩

theorem anv_merge_entries_ok (E : mesa_env)
    (sht : List (hash_entry anv_shader_bin_key Nat)) :
    ∀ (st : anv_device × List (hash_entry anv_shader_bin_key Nat)),
      anv_table_ok st.1 st.2 →
      anv_heap_keeps_keys st.1 (sht.foldl (anv_merge_entry E) st).1 ∧
      anv_table_ok (sht.foldl (anv_merge_entry E) st).1
        (sht.foldl (anv_merge_entry E) st).2 := by
  induction sht with
  | nil => intro st h; exact ⟨anv_heap_keeps_keys_refl _, h⟩
  | cons x xs ih =>
    intro st h
    rw [List.foldl_cons]
    have h1 := anv_merge_entry_ok E st x h
    have h2 := ih _ h1.2
    exact ⟨anv_heap_keeps_keys_trans h1.1 h2.1, h2.2⟩

theorem anv_world_ok_set {w : anv_world} {d1 : anv_device} (i : Nat)
    {c1 : anv_pipeline_cache} (h : anv_world_ok w)
    (hk : anv_heap_keeps_keys w.device d1) (hc : anv_cache_ok d1 c1) :
    anv_world_ok { device := d1, caches := w.caches.set i c1 } := by
  intro c hmem
  rcases List.mem_or_eq_of_mem_set hmem with h1 | h1
  · exact anv_cache_ok_mono hk (h c h1)
  · subst h1
    exact hc

theorem anv_merge_source_ok (E : mesa_env) (destCache : Nat) (w : anv_world)
    (srcCache : Nat) (h : anv_world_ok w) :
    anv_heap_keeps_keys w.device (anv_merge_source E destCache w srcCache).device ∧
    anv_world_ok (anv_merge_source E destCache w srcCache) := by
  have hrefl : anv_heap_keeps_keys w.device w.device ∧ anv_world_ok w :=
    ⟨anv_heap_keeps_keys_refl _, h⟩
  cases hd : w.caches[destCache]? with
  | none =>
    have hdef : anv_merge_source E destCache w srcCache = w := by
      simp only [anv_merge_source, hd]
    rw [hdef]
    exact hrefl
  | some dst =>
    cases hs : w.caches[srcCache]? with
    | none =>
      have hdef : anv_merge_source E destCache w srcCache = w := by
        simp only [anv_merge_source, hd, hs]
      rw [hdef]
      exact hrefl
    | some src =>
      cases hdc : dst.cache with
      | none =>
        have hdef : anv_merge_source E destCache w srcCache = w := by
          simp only [anv_merge_source, hd, hs, hdc]
        rw [hdef]
        exact hrefl
      | some dht =>
        cases hsc : src.cache with
        | none =>
          have hdef : anv_merge_source E destCache w srcCache = w := by
            simp only [anv_merge_source, hd, hs, hdc, hsc]
          rw [hdef]
          exact hrefl
        | some sht =>
          have hdef : anv_merge_source E destCache w srcCache =
              { device := (sht.foldl (anv_merge_entry E) (w.device, dht)).1
                caches := w.caches.set destCache
                  { dst with
                    cache := some (sht.foldl (anv_merge_entry E) (w.device, dht)).2 } } := by
            simp only [anv_merge_source, hd, hs, hdc, hsc]
          rw [hdef]
          have hdst : anv_table_ok w.device dht :=
            h dst (List.getElem?_mem hd) dht hdc
          have h1 := anv_merge_entries_ok E sht (w.device, dht) hdst
          refine ⟨h1.1, anv_world_ok_set destCache h h1.1 ?_⟩
          intro ht1 hht1
          simp only [Option.some.injEq] at hht1
          subst hht1
          exact h1.2

theorem anv_merge_sources_ok (E : mesa_env) (destCache : Nat) (srcs : List Nat) :
    ∀ w : anv_world, anv_world_ok w →
      anv_heap_keeps_keys w.device (srcs.foldl (anv_merge_source E destCache) w).device ∧
      anv_world_ok (srcs.foldl (anv_merge_source E destCache) w) := by
  induction srcs with
  | nil => intro w h; exact ⟨anv_heap_keeps_keys_refl _, h⟩
  | cons x xs ih =>
    intro w h
    rw [List.foldl_cons]
    have h1 := anv_merge_source_ok E destCache w x h
    have h2 := ih _ h1.2
    exact ⟨anv_heap_keeps_keys_trans h1.1 h2.1, h2.2⟩

theorem anv_merge_ok (E : mesa_env) (w : anv_world) (destCache srcCacheCount : Nat)
    (pSrcCaches : List Nat) (h : anv_world_ok w) :
    anv_heap_keeps_keys w.device
      (anv_MergePipelineCaches E w destCache srcCacheCount pSrcCaches).device ∧
    anv_world_ok (anv_MergePipelineCaches E w destCache srcCacheCount pSrcCaches) := by
  have hrefl : anv_heap_keeps_keys w.device w.device ∧ anv_world_ok w :=
    ⟨anv_heap_keeps_keys_refl _, h⟩
  cases hd : w.caches[destCache]? with
  | none =>
    have hdef : anv_MergePipelineCaches E w destCache srcCacheCount pSrcCaches = w := by
      simp only [anv_MergePipelineCaches, hd]
    rw [hdef]
    exact hrefl
  | some dst =>
    cases hdc : dst.cache with
    | none =>
      have hdef : anv_MergePipelineCaches E w destCache srcCacheCount pSrcCaches = w := by
        simp only [anv_MergePipelineCaches, hd, hdc]
      rw [hdef]
      exact hrefl
    | some dht =>
      have hdef : anv_MergePipelineCaches E w destCache srcCacheCount pSrcCaches =
          (pSrcCaches.take srcCacheCount).foldl (anv_merge_source E destCache) w := by
        simp only [anv_MergePipelineCaches, hd, hdc]
      rw [hdef]
      exact anv_merge_sources_ok E destCache _ w h

theorem anv_call_step_ok (E : mesa_env) (w : anv_world) (x : anv_call)
    (h : anv_world_ok w) :
    anv_heap_keeps_keys w.device (anv_call_step E w x).device ∧
    anv_world_ok (anv_call_step E w x) := by
  have hrefl : anv_heap_keeps_keys w.device w.device ∧ anv_world_ok w :=
    ⟨anv_heap_keeps_keys_refl _, h⟩
  cases x with
  | init en =>
    simp only [anv_call_step]
    refine ⟨anv_heap_keeps_keys_refl _, ?_⟩
    intro c hmem
    simp only [List.mem_append, List.mem_singleton] at hmem
    rcases hmem with h1 | h1
    · exact h c h1
    · subst h1
      intro ht hht
      cases en
      · simp [anv_pipeline_cache_init] at hht
      · simp only [anv_pipeline_cache_init, if_true, Option.some.injEq] at hht
        subst hht
        exact ⟨List.Pairwise.nil, fun e he => absurd he (List.not_mem_nil e)⟩
  | search i key_data key_size =>
    simp only [anv_call_step]
    cases hi : w.caches[i]? with
    | none => exact hrefl
    | some c =>
      have h1 := anv_search_ok E w.device c key_data key_size
        (h c (List.getElem?_mem hi))
      exact ⟨h1.1, anv_world_ok_set i h h1.1 h1.2⟩
  | upload_kernel i key_data key_size kernel_data kernel_size constant_data
      constant_data_size prog_data prog_data_size xfb_info bind_map =>
    simp only [anv_call_step]
    cases hi : w.caches[i]? with
    | none => exact hrefl
    | some c =>
      have h1 := anv_upload_ok E w.device c key_data key_size kernel_data kernel_size
        constant_data constant_data_size prog_data prog_data_size xfb_info bind_map
        (h c (List.getElem?_mem hi))
      exact ⟨h1.1, anv_world_ok_set i h h1.1 h1.2⟩
  | add_shader_bin i bin =>
    simp only [anv_call_step]
    cases hi : w.caches[i]? with
    | none => exact hrefl
    | some c =>
      have h1 := anv_add_shader_bin_ok E w.device c bin (h c (List.getElem?_mem hi))
      exact ⟨h1.1, anv_world_ok_set i h h1.1 h1.2⟩
  | load i data size =>
    simp only [anv_call_step]
    cases hi : w.caches[i]? with
    | none => exact hrefl
    | some c =>
      have h1 := anv_load_ok E w.device c data size (h c (List.getElem?_mem hi))
      exact ⟨h1.1, anv_world_ok_set i h h1.1 h1.2⟩
  | merge d n srcs =>
    simp only [anv_call_step]
    exact anv_merge_ok E w d n srcs h

theorem anv_run_ok (E : mesa_env) (calls : List anv_call) :
    ∀ w : anv_world, anv_world_ok w → anv_world_ok (anv_run E w calls) := by
  induction calls with
  | nil => intro w h; exact h
  | cons x xs ih =>
    intro w h
    simp only [anv_run, List.foldl_cons]
    exact ih _ (anv_call_step_ok E w x h).2

/-! ## Claims on the table invariant, the disabled cache and merging -/

/-- C6: in every state reached from an empty set of caches by any sequence of
`init`, `upload_kernel`, `search`, `add_shader_bin`, `load` and merge calls,
every cache satisfies the table invariant: no two entries of its table have
keys that compare equal, and every entry holds a live artifact and is keyed by
the key stored in that artifact. -/
theorem anv_table_invariant (E : mesa_env) (device : anv_device)
    (calls : List anv_call) (c : anv_pipeline_cache)
    (hc : c ∈ (anv_run E { device := device, caches := [] } calls).caches) :
    anv_keys_distinct c ∧
    anv_entries_keyed_by_bin (anv_run E { device := device, caches := [] } calls).device c := by
  have h0 : anv_world_ok { device := device, caches := [] } := by
    intro c0 hc0
    cases hc0
  have h := anv_run_ok E calls _ h0 c hc
  exact ⟨fun ht hht => (h ht hht).1, fun ht hht => (h ht hht).2⟩

/-- Witness for C6: after an upload and the load of a buffer with two entries
under one key, the one cache of the example device satisfies the invariant. -/
theorem anv_table_invariant_witness :
    anv_keys_distinct example_cache_loaded ∧
    anv_entries_keyed_by_bin
      (anv_run example_env { device := example_device, caches := [] } example_calls).device
      example_cache_loaded :=
  anv_table_invariant example_env example_device example_calls example_cache_loaded
    (by decide)

theorem anv_upload_disabled_cache (E : mesa_env) (device : anv_device)
    {cache : anv_pipeline_cache} (hdis : cache.cache = none)
    (key_data : List Nat) (key_size : Nat)
    (kernel_data : List Nat) (kernel_size : Nat)
    (constant_data : List Nat) (constant_data_size : Nat)
    (prog_data : brw_stage_prog_data) (prog_data_size : Nat)
    (xfb_info : Option (List Nat)) (bind_map : anv_pipeline_bind_map) :
    (anv_pipeline_cache_upload_kernel E device cache key_data key_size kernel_data
      kernel_size constant_data constant_data_size prog_data prog_data_size xfb_info
      bind_map).2.2 = cache := by
  unfold anv_pipeline_cache_upload_kernel
  simp only [hdis]

theorem anv_add_shader_bin_disabled_cache (E : mesa_env) (device : anv_device)
    {cache : anv_pipeline_cache} (hdis : cache.cache = none) (bin : Nat) :
    (anv_pipeline_cache_add_shader_bin E device cache bin).2 = cache := by
  unfold anv_pipeline_cache_add_shader_bin
  simp only [hdis]

theorem anv_load_disabled_cache (E : mesa_env) (device : anv_device)
    {cache : anv_pipeline_cache} (hdis : cache.cache = none) (data : List Nat)
    (size : Nat) :
    (anv_pipeline_cache_load E device cache data size).2 = cache := by
  unfold anv_pipeline_cache_load
  simp only [hdis]

theorem anv_merge_source_keeps_disabled (E : mesa_env) (destCache : Nat) (w : anv_world)
    (srcCache : Nat) (h : Nat)
    (hd : ∃ c, w.caches[h]? = some c ∧ c.cache = none) :
    ∃ c, (anv_merge_source E destCache w srcCache).caches[h]? = some c ∧
      c.cache = none := by
  rcases hd with ⟨c, hc, hnone⟩
  cases hdst : w.caches[destCache]? with
  | none =>
    have hdef : anv_merge_source E destCache w srcCache = w := by
      simp only [anv_merge_source, hdst]
    rw [hdef]
    exact ⟨c, hc, hnone⟩
  | some dst =>
    cases hs : w.caches[srcCache]? with
    | none =>
      have hdef : anv_merge_source E destCache w srcCache = w := by
        simp only [anv_merge_source, hdst, hs]
      rw [hdef]
      exact ⟨c, hc, hnone⟩
    | some src =>
      cases hdc : dst.cache with
      | none =>
        have hdef : anv_merge_source E destCache w srcCache = w := by
          simp only [anv_merge_source, hdst, hs, hdc]
        rw [hdef]
        exact ⟨c, hc, hnone⟩
      | some dht =>
        cases hsc : src.cache with
        | none =>
          have hdef : anv_merge_source E destCache w srcCache = w := by
            simp only [anv_merge_source, hdst, hs, hdc, hsc]
          rw [hdef]
          exact ⟨c, hc, hnone⟩
        | some sht =>
          have hdef : anv_merge_source E destCache w srcCache =
              { device := (sht.foldl (anv_merge_entry E) (w.device, dht)).1
                caches := w.caches.set destCache
                  { dst with
                    cache := some (sht.foldl (anv_merge_entry E) (w.device, dht)).2 } } := by
            simp only [anv_merge_source, hdst, hs, hdc, hsc]
          rw [hdef]
          have hne : destCache ≠ h := by
            intro heq
            subst heq
            rw [hc] at hdst
            cases hdst
            rw [hnone] at hdc
            cases hdc
          refine ⟨c, ?_, hnone⟩
          simp only
          rw [anv_caches_set_get hc destCache _, if_neg hne]

theorem anv_call_step_keeps_disabled (E : mesa_env) (w : anv_world) (h : Nat)
    (hd : ∃ c, w.caches[h]? = some c ∧ c.cache = none) (x : anv_call) :
    ∃ c, (anv_call_step E w x).caches[h]? = some c ∧ c.cache = none := by
  rcases hd with ⟨c, hc, hnone⟩
  have hset : ∀ (i : Nat) (ci c1 : anv_pipeline_cache) (d1 : anv_device),
      w.caches[i]? = some ci → (ci.cache = none → c1 = ci) →
      ∃ c2, ({ device := d1, caches := w.caches.set i c1 } : anv_world).caches[h]? =
        some c2 ∧ c2.cache = none := by
    intro i ci c1 d1 hi hsame
    refine ⟨_, anv_caches_set_get hc i c1, ?_⟩
    by_cases hih : i = h
    · subst hih
      rw [hc] at hi
      cases hi
      rw [if_pos rfl, hsame hnone]
      exact hnone
    · rw [if_neg hih]
      exact hnone
  cases x with
  | init en =>
    simp only [anv_call_step]
    refine ⟨c, ?_, hnone⟩
    rw [List.getElem?_append_left (List.getElem?_eq_some_iff.1 hc).1]
    exact hc
  | search i key_data key_size =>
    simp only [anv_call_step]
    cases hi : w.caches[i]? with
    | none => exact ⟨c, hc, hnone⟩
    | some ci =>
      exact hset i ci _ _ hi (fun _ => anv_search_cache E w.device ci key_data key_size)
  | upload_kernel i key_data key_size kernel_data kernel_size constant_data
      constant_data_size prog_data prog_data_size xfb_info bind_map =>
    simp only [anv_call_step]
    cases hi : w.caches[i]? with
    | none => exact ⟨c, hc, hnone⟩
    | some ci =>
      exact hset i ci _ _ hi (fun hdis => anv_upload_disabled_cache E w.device hdis
        key_data key_size kernel_data kernel_size constant_data constant_data_size
        prog_data prog_data_size xfb_info bind_map)
  | add_shader_bin i bin =>
    simp only [anv_call_step]
    cases hi : w.caches[i]? with
    | none => exact ⟨c, hc, hnone⟩
    | some ci =>
      exact hset i ci _ _ hi
        (fun hdis => anv_add_shader_bin_disabled_cache E w.device hdis bin)
  | load i data size =>
    simp only [anv_call_step]
    cases hi : w.caches[i]? with
    | none => exact ⟨c, hc, hnone⟩
    | some ci =>
      exact hset i ci _ _ hi
        (fun hdis => anv_load_disabled_cache E w.device hdis data size)
  | merge d n srcs =>
    simp only [anv_call_step]
    cases hdst : w.caches[d]? with
    | none =>
      have hdef : anv_MergePipelineCaches E w d n srcs = w := by
        simp only [anv_MergePipelineCaches, hdst]
      rw [hdef]
      exact ⟨c, hc, hnone⟩
    | some dst =>
      cases hdc : dst.cache with
      | none =>
        have hdef : anv_MergePipelineCaches E w d n srcs = w := by
          simp only [anv_MergePipelineCaches, hdst, hdc]
        rw [hdef]
        exact ⟨c, hc, hnone⟩
      | some dht =>
        have hdef : anv_MergePipelineCaches E w d n srcs =
            (srcs.take n).foldl (anv_merge_source E d) w := by
          simp only [anv_MergePipelineCaches, hdst, hdc]
        rw [hdef]
        have hfold : ∀ (l : List Nat) (w1 : anv_world),
            (∃ c1, w1.caches[h]? = some c1 ∧ c1.cache = none) →
            ∃ c1, (l.foldl (anv_merge_source E d) w1).caches[h]? = some c1 ∧
              c1.cache = none := by
          intro l
          induction l with
          | nil => intro w1 h1; exact h1
          | cons y ys ih =>
            intro w1 h1
            rw [List.foldl_cons]
            exact ih _ (anv_merge_source_keeps_disabled E d w1 y h h1)
        exact hfold _ w ⟨c, hc, hnone⟩

/-- C8: a cache set up by `anv_pipeline_cache_init` with `cache_enabled =
false` answers every search with absent, and the search changes nothing,
after any sequence of calls (uploads, loads, merges into it, and any calls on
other caches of the device). -/
theorem anv_disabled_cache_search_absent (E : mesa_env) (w : anv_world)
    (calls : List anv_call) (key_data : List Nat) (key_size : Nat) :
    ∃ c,
      (anv_run E (anv_call_step E w (.init false)) calls).caches[w.caches.length]? =
        some c ∧
      c.cache = none ∧
      anv_pipeline_cache_search E
          (anv_run E (anv_call_step E w (.init false)) calls).device c key_data key_size =
        (none, (anv_run E (anv_call_step E w (.init false)) calls).device, c) := by
  have h0 : ∃ c, (anv_call_step E w (.init false)).caches[w.caches.length]? = some c ∧
      c.cache = none := by
    refine ⟨anv_pipeline_cache_init false, ?_, rfl⟩
    simp [anv_call_step]
  have hrun : ∀ (l : List anv_call) (w1 : anv_world),
      (∃ c, w1.caches[w.caches.length]? = some c ∧ c.cache = none) →
      ∃ c, (anv_run E w1 l).caches[w.caches.length]? = some c ∧ c.cache = none := by
    intro l
    induction l with
    | nil => intro w1 h1; exact h1
    | cons y ys ih =>
      intro w1 h1
      simp only [anv_run, List.foldl_cons]
      exact ih _ (anv_call_step_keeps_disabled E w1 _ h1 y)
  rcases hrun calls _ h0 with ⟨c, hc, hnone⟩
  refine ⟨c, hc, hnone, ?_⟩
  exact anv_search_miss E _ (anv_search_locked_disabled E hnone key_data key_size)

theorem anv_matches_congr (E : mesa_env) {a b : anv_shader_bin_key}
    (hab : shader_bin_key_compare_func a b = true) (k : anv_shader_bin_key) :
    hash_entry_matches (shader_bin_key_hash_func E) shader_bin_key_compare_func a k =
      hash_entry_matches (shader_bin_key_hash_func E) shader_bin_key_compare_func b k := by
  rw [Bool.eq_iff_iff, anv_matches_iff, anv_matches_iff]
  constructor
  · intro h
    exact shader_bin_key_compare_func_trans (shader_bin_key_compare_func_symm hab) h
  · intro h
    exact shader_bin_key_compare_func_trans hab h

theorem anv_table_search_congr (E : mesa_env) {a b : anv_shader_bin_key}
    (hab : shader_bin_key_compare_func a b = true)
    (ht : List (hash_entry anv_shader_bin_key Nat)) :
    _mesa_hash_table_search (shader_bin_key_hash_func E) shader_bin_key_compare_func ht a =
      _mesa_hash_table_search (shader_bin_key_hash_func E) shader_bin_key_compare_func
        ht b := by
  unfold _mesa_hash_table_search
  congr 1
  funext e
  exact anv_matches_congr E hab e.key

theorem anv_merge_entry_keeps (E : mesa_env)
    (st : anv_device × List (hash_entry anv_shader_bin_key Nat))
    (entry : hash_entry anv_shader_bin_key Nat)
    {K : anv_shader_bin_key} {e0 : hash_entry anv_shader_bin_key Nat}
    {a0 : anv_shader_bin}
    (hs : _mesa_hash_table_search (shader_bin_key_hash_func E)
      shader_bin_key_compare_func st.2 K = some e0)
    (ha : st.1.bins[e0.data]? = some a0)
    (hk : shader_bin_key_compare_func K a0.key = true) :
    _mesa_hash_table_search (shader_bin_key_hash_func E) shader_bin_key_compare_func
      (anv_merge_entry E st entry).2 K = some e0 ∧
    (anv_merge_entry E st entry).1.bins[e0.data]? = some a0 := by
  cases hb : st.1.bins[entry.data]? with
  | none =>
    have hdef : anv_merge_entry E st entry = st := by
      simp only [anv_merge_entry, hb]
    rw [hdef]
    exact ⟨hs, ha⟩
  | some bin =>
    cases hx : _mesa_hash_table_search (shader_bin_key_hash_func E)
        shader_bin_key_compare_func st.2 bin.key with
    | some e =>
      have hdef : anv_merge_entry E st entry = st := by
        simp only [anv_merge_entry, hb, hx]
      rw [hdef]
      exact ⟨hs, ha⟩
    | none =>
      have hdef : anv_merge_entry E st entry =
          (anv_shader_bin_ref st.1 entry.data,
           _mesa_hash_table_insert (shader_bin_key_hash_func E)
             shader_bin_key_compare_func st.2 bin.key entry.data) := by
        simp only [anv_merge_entry, hb, hx]
      rw [hdef]
      have hne : e0.data ≠ entry.data := by
        intro heq
        rw [heq, hb] at ha
        simp only [Option.some.injEq] at ha
        subst ha
        rw [anv_table_search_congr E hk, hx] at hs
        cases hs
      exact ⟨anv_search_insert_absent E entry.data hx hs,
        by rw [anv_shader_bin_ref_get_ne st.1 hne]; exact ha⟩

theorem anv_merge_entries_keeps (E : mesa_env)
    (sht : List (hash_entry anv_shader_bin_key Nat))
    {K : anv_shader_bin_key} {e0 : hash_entry anv_shader_bin_key Nat}
    {a0 : anv_shader_bin} (hk : shader_bin_key_compare_func K a0.key = true) :
    ∀ (st : anv_device × List (hash_entry anv_shader_bin_key Nat)),
      _mesa_hash_table_search (shader_bin_key_hash_func E)
        shader_bin_key_compare_func st.2 K = some e0 →
      st.1.bins[e0.data]? = some a0 →
      _mesa_hash_table_search (shader_bin_key_hash_func E) shader_bin_key_compare_func
        (sht.foldl (anv_merge_entry E) st).2 K = some e0 ∧
      (sht.foldl (anv_merge_entry E) st).1.bins[e0.data]? = some a0 := by
  induction sht with
  | nil => intro st hs ha; exact ⟨hs, ha⟩
  | cons x xs ih =>
    intro st hs ha
    rw [List.foldl_cons]
    have h1 := anv_merge_entry_keeps E st x hs ha hk
    exact ih _ h1.1 h1.2

theorem anv_merge_source_keeps (E : mesa_env) (destCache : Nat) (w : anv_world)
    (srcCache : Nat)
    {K : anv_shader_bin_key} {e0 : hash_entry anv_shader_bin_key Nat}
    {a0 : anv_shader_bin} (hk : shader_bin_key_compare_func K a0.key = true)
    (hd : ∃ c ht, w.caches[destCache]? = some c ∧ c.cache = some ht ∧
      _mesa_hash_table_search (shader_bin_key_hash_func E)
        shader_bin_key_compare_func ht K = some e0)
    (ha : w.device.bins[e0.data]? = some a0) :
    (∃ c ht, (anv_merge_source E destCache w srcCache).caches[destCache]? = some c ∧
      c.cache = some ht ∧
      _mesa_hash_table_search (shader_bin_key_hash_func E)
        shader_bin_key_compare_func ht K = some e0) ∧
    (anv_merge_source E destCache w srcCache).device.bins[e0.data]? = some a0 := by
  rcases hd with ⟨c, ht, hc, hht, hs⟩
  cases hsrc : w.caches[srcCache]? with
  | none =>
    have hdef : anv_merge_source E destCache w srcCache = w := by
      simp only [anv_merge_source, hc, hsrc]
    rw [hdef]
    exact ⟨⟨c, ht, hc, hht, hs⟩, ha⟩
  | some src =>
    cases hsc : src.cache with
    | none =>
      have hdef : anv_merge_source E destCache w srcCache = w := by
        simp only [anv_merge_source, hc, hsrc, hht, hsc]
      rw [hdef]
      exact ⟨⟨c, ht, hc, hht, hs⟩, ha⟩
    | some sht =>
      have hdef : anv_merge_source E destCache w srcCache =
          { device := (sht.foldl (anv_merge_entry E) (w.device, ht)).1
            caches := w.caches.set destCache
              { c with
                cache := some (sht.foldl (anv_merge_entry E) (w.device, ht)).2 } } := by
        simp only [anv_merge_source, hc, hsrc, hht, hsc]
      rw [hdef]
      have h1 := anv_merge_entries_keeps E sht hk (w.device, ht) hs ha
      refine ⟨⟨{ c with
          cache := some (sht.foldl (anv_merge_entry E) (w.device, ht)).2 },
        (sht.foldl (anv_merge_entry E) (w.device, ht)).2, ?_, rfl, h1.1⟩, h1.2⟩
      simp only
      rw [anv_caches_set_get hc destCache _, if_pos rfl]

theorem anv_merge_sources_keeps (E : mesa_env) (destCache : Nat) (srcs : List Nat)
    {K : anv_shader_bin_key} {e0 : hash_entry anv_shader_bin_key Nat}
    {a0 : anv_shader_bin} (hk : shader_bin_key_compare_func K a0.key = true) :
    ∀ w : anv_world,
      (∃ c ht, w.caches[destCache]? = some c ∧ c.cache = some ht ∧
        _mesa_hash_table_search (shader_bin_key_hash_func E)
          shader_bin_key_compare_func ht K = some e0) →
      w.device.bins[e0.data]? = some a0 →
      (∃ c ht, (srcs.foldl (anv_merge_source E destCache) w).caches[destCache]? = some c ∧
        c.cache = some ht ∧
        _mesa_hash_table_search (shader_bin_key_hash_func E)
          shader_bin_key_compare_func ht K = some e0) ∧
      (srcs.foldl (anv_merge_source E destCache) w).device.bins[e0.data]? = some a0 := by
  induction srcs with
  | nil => intro w hd ha; exact ⟨hd, ha⟩
  | cons x xs ih =>
    intro w hd ha
    rw [List.foldl_cons]
    have h1 := anv_merge_source_keeps E destCache w x hk hd ha
    exact ih _ h1.1 h1.2

theorem anv_merge_keeps (E : mesa_env) (w : anv_world) (destCache srcCacheCount : Nat)
    (pSrcCaches : List Nat) (hw : anv_world_ok w)
    {c : anv_pipeline_cache} (hc : w.caches[destCache]? = some c)
    {key_data : List Nat} {key_size A : Nat}
    (hA : anv_pipeline_cache_search_locked E c key_data key_size = some A) :
    ∃ a : anv_shader_bin, w.device.bins[A]? = some a ∧
      (anv_MergePipelineCaches E w destCache srcCacheCount pSrcCaches).device.bins[A]? =
        some a ∧
      ∃ c1, (anv_MergePipelineCaches E w destCache srcCacheCount
          pSrcCaches).caches[destCache]? = some c1 ∧
        anv_pipeline_cache_search_locked E c1 key_data key_size = some A := by
  cases hht : c.cache with
  | none => rw [anv_search_locked_disabled E hht] at hA; cases hA
  | some ht =>
    rw [anv_search_locked_eq E hht] at hA
    cases hs : _mesa_hash_table_search (shader_bin_key_hash_func E)
        shader_bin_key_compare_func ht
        { size := key_size, data := memcpy key_data key_size } with
    | none => rw [hs] at hA; cases hA
    | some e0 =>
      rw [hs] at hA
      simp only [Option.map_some', Option.some.injEq] at hA
      subst hA
      have hmem := hash_table_search_mem _ _ hs
      rcases (hw c (List.getElem?_mem hc) ht hht).2 e0 hmem.1 with ⟨a0, ha0, hkey⟩
      have hk : shader_bin_key_compare_func
          { size := key_size, data := memcpy key_data key_size } a0.key = true := by
        rw [hkey]
        exact (anv_matches_iff E _ _).1 hmem.2
      have hdef : anv_MergePipelineCaches E w destCache srcCacheCount pSrcCaches =
          (pSrcCaches.take srcCacheCount).foldl (anv_merge_source E destCache) w := by
        simp only [anv_MergePipelineCaches, hc, hht]
      rw [hdef]
      have h1 := anv_merge_sources_keeps E destCache (pSrcCaches.take srcCacheCount) hk w
        ⟨c, ht, hc, hht, hs⟩ ha0
      rcases h1 with ⟨⟨c1, ht1, hc1, hht1, hs1⟩, ha1⟩
      refine ⟨a0, ha0, ha1, c1, hc1, ?_⟩
      rw [anv_search_locked_eq E hht1, hs1]
      rfl

/-- C10: merging is non-destructive.  In every state reached from an empty
set of caches by any sequence of calls, for every destination cache, every
list of source caches and every key that the destination maps to an artifact
`A`, the destination maps the key to `A` after `anv_MergePipelineCaches`, and
`A` is the same live artifact with the same reference count and contents as
before, whatever the sources hold under that key. -/
theorem anv_merge_keeps_destination_entries (E : mesa_env) (device : anv_device)
    (calls : List anv_call) (destCache srcCacheCount : Nat) (pSrcCaches : List Nat)
    (c : anv_pipeline_cache) (key_data : List Nat) (key_size A : Nat)
    (hc : (anv_run E { device := device, caches := [] } calls).caches[destCache]? = some c)
    (hA : anv_pipeline_cache_search_locked E c key_data key_size = some A) :
    ∃ a : anv_shader_bin,
      (anv_run E { device := device, caches := [] } calls).device.bins[A]? = some a ∧
      (anv_MergePipelineCaches E (anv_run E { device := device, caches := [] } calls)
        destCache srcCacheCount pSrcCaches).device.bins[A]? = some a ∧
      ∃ c1,
        (anv_MergePipelineCaches E (anv_run E { device := device, caches := [] } calls)
          destCache srcCacheCount pSrcCaches).caches[destCache]? = some c1 ∧
        anv_pipeline_cache_search_locked E c1 key_data key_size = some A := by
  have h0 : anv_world_ok { device := device, caches := [] } := by
    intro c0 hc0
    cases hc0
  exact anv_merge_keeps E _ destCache srcCacheCount pSrcCaches (anv_run_ok E calls _ h0)
    hc hA

/-- Witness for C10: cache 0 maps the key `1 2 3` to artifact 0 and cache 1
maps it to artifact 1; merging the caches 1 and 0 into cache 0 leaves the key
on artifact 0, which is unchanged. -/
theorem anv_merge_keeps_destination_entries_witness :
    ∃ a : anv_shader_bin,
      (anv_run example_env { device := example_device, caches := [] }
        example_calls_two).device.bins[0]? = some a ∧
      (anv_MergePipelineCaches example_env
        (anv_run example_env { device := example_device, caches := [] } example_calls_two)
        0 2 [1, 0]).device.bins[0]? = some a ∧
      ∃ c1,
        (anv_MergePipelineCaches example_env
          (anv_run example_env { device := example_device, caches := [] }
            example_calls_two) 0 2 [1, 0]).caches[0]? = some c1 ∧
        anv_pipeline_cache_search_locked example_env c1 [1, 2, 3] 3 = some 0 :=
  anv_merge_keeps_destination_entries example_env example_device example_calls_two
    0 2 [1, 0] example_cache_one [1, 2, 3] 3 0 rfl rfl

/-! ## Loading a serialised cache -/

theorem anv_create_from_blob_overrun (E : mesa_env) (device : anv_device)
    (blob : blob_reader)
    (h : (anv_shader_bin_create_from_blob E device blob).2.2.overrun = true) :
    (anv_shader_bin_create_from_blob E device blob).1 = none ∧
    (anv_shader_bin_create_from_blob E device blob).2.1 = device := by
  revert h
  unfold anv_shader_bin_create_from_blob
  repeat' split
  all_goals simp_all

theorem anv_load_reads_header (data : List Nat) (size : Nat) :
    (blob_read_uint32 (blob_copy_bytes (blob_reader_init data size) sizeof_cache_header).2 =
      if 36 ≤ size then
        (load_uint32 data 32, { data := data, end_ := size, current := 36, overrun := false })
      else
        (0, { data := data, end_ := size, current := if 32 ≤ size then 32 else 0,
              overrun := true })) ∧
    (36 ≤ size →
      (blob_copy_bytes (blob_reader_init data size) sizeof_cache_header).1 =
        memcpy data sizeof_cache_header) := by
  by_cases h32 : 32 ≤ size
  · have hcopy : blob_copy_bytes (blob_reader_init data size) sizeof_cache_header =
        (memcpy data sizeof_cache_header,
         { data := data, end_ := size, current := 32, overrun := false }) := by
      simp [blob_copy_bytes, blob_read_bytes, ensure_can_read, blob_reader_init,
        sizeof_cache_header, h32]
    rw [hcopy]
    refine ⟨?_, fun _ => rfl⟩
    by_cases h36 : 36 ≤ size
    · have h4 : 4 ≤ size - 32 := by omega
      simp [blob_read_uint32, ensure_can_read, ALIGN, h32, h36, h4]
    · have h4 : ¬ 4 ≤ size - 32 := by omega
      simp [blob_read_uint32, ensure_can_read, ALIGN, h32, h36, h4]
  · have h36 : ¬ 36 ≤ size := by omega
    have hcopy : blob_copy_bytes (blob_reader_init data size) sizeof_cache_header =
        ([], { data := data, end_ := size, current := 0, overrun := true }) := by
      simp [blob_copy_bytes, blob_read_bytes, ensure_can_read, blob_reader_init,
        sizeof_cache_header, h32]
    rw [hcopy]
    refine ⟨?_, fun h => absurd h h36⟩
    simp [blob_read_uint32, ensure_can_read, ALIGN, h32, h36]

theorem anv_load_eq (E : mesa_env) (device : anv_device) (cache : anv_pipeline_cache)
    (ht : List (hash_entry anv_shader_bin_key Nat)) (hc : cache.cache = some ht)
    (data : List Nat) (size : Nat) :
    anv_pipeline_cache_load E device cache data size =
      if size < 36 ∨
          (cache_header_of_bytes (memcpy data sizeof_cache_header)).header_size <
            sizeof_cache_header ∨
          (cache_header_of_bytes (memcpy data sizeof_cache_header)).header_version ≠
            VK_PIPELINE_CACHE_HEADER_VERSION_ONE ∨
          (cache_header_of_bytes (memcpy data sizeof_cache_header)).vendor_id ≠ 32902 ∨
          (cache_header_of_bytes (memcpy data sizeof_cache_header)).device_id ≠
            device.chipset_id ∨
          memcmp_eq (cache_header_of_bytes (memcpy data sizeof_cache_header)).uuid
            device.pipeline_cache_uuid VK_UUID_SIZE = false
      then (device, cache)
      else
        ((anv_pipeline_cache_load_loop E (load_uint32 data 32) device ht
            { data := data, end_ := size, current := 36, overrun := false }).1,
         { cache with
           cache := some (anv_pipeline_cache_load_loop E (load_uint32 data 32) device ht
            { data := data, end_ := size, current := 36, overrun := false }).2 }) := by
  have hh := anv_load_reads_header data size
  unfold anv_pipeline_cache_load
  simp only [hc]
  rw [hh.1]
  by_cases h36 : 36 ≤ size
  · have hlt : ¬ size < 36 := by omega
    simp only [h36, if_true, hh.2 h36, hlt, false_or]
    by_cases h1 : (cache_header_of_bytes (memcpy data sizeof_cache_header)).header_size <
        sizeof_cache_header
    · simp [h1]
    · by_cases h2 : (cache_header_of_bytes (memcpy data sizeof_cache_header)).header_version ≠
          VK_PIPELINE_CACHE_HEADER_VERSION_ONE
      · simp [h1, h2]
      · by_cases h3 : (cache_header_of_bytes (memcpy data sizeof_cache_header)).vendor_id ≠
            32902
        · simp [h1, h2, h3]
        · by_cases h4 : (cache_header_of_bytes (memcpy data sizeof_cache_header)).device_id ≠
              device.chipset_id
          · simp [h1, h2, h3, h4]
          · by_cases h5 : memcmp_eq
                (cache_header_of_bytes (memcpy data sizeof_cache_header)).uuid
                device.pipeline_cache_uuid VK_UUID_SIZE = false
            · simp [h1, h2, h3, h4, h5]
            · simp only [ne_eq, not_not] at h2 h3 h4
              simp only [Bool.not_eq_false] at h5
              simp [h1, h2, h3, h4, h5]
  · have hlt : size < 36 := by omega
    simp [h36, hlt]

theorem anv_load_disabled (E : mesa_env) (device : anv_device)
    {cache : anv_pipeline_cache} (hdis : cache.cache = none) (data : List Nat)
    (size : Nat) :
    anv_pipeline_cache_load E device cache data size = (device, cache) := by
  unfold anv_pipeline_cache_load
  simp only [hdis]

theorem memcmp_eq_false_of_byte {a b : List Nat} {n : Nat}
    (h : ∃ i, i < n ∧ a[i]? ≠ b[i]?) : memcmp_eq a b n = false := by
  rcases h with ⟨i, hi, hne⟩
  unfold memcmp_eq
  cases hx : (a.take n == b.take n) with
  | false => rfl
  | true =>
    exfalso
    apply hne
    have heq : a.take n = b.take n := by simpa using hx
    have h3 := congrArg (fun l => l[i]?) heq
    simpa [List.getElem?_take, hi] using h3

theorem anv_load_rejected (E : mesa_env) (device : anv_device)
    (cache : anv_pipeline_cache) (data : List Nat) (size : Nat)
    (h : size < 36 ∨
      (cache_header_of_bytes (memcpy data sizeof_cache_header)).header_size <
        sizeof_cache_header ∨
      (cache_header_of_bytes (memcpy data sizeof_cache_header)).header_version ≠
        VK_PIPELINE_CACHE_HEADER_VERSION_ONE ∨
      (cache_header_of_bytes (memcpy data sizeof_cache_header)).vendor_id ≠ 32902 ∨
      (cache_header_of_bytes (memcpy data sizeof_cache_header)).device_id ≠
        device.chipset_id ∨
      memcmp_eq (cache_header_of_bytes (memcpy data sizeof_cache_header)).uuid
        device.pipeline_cache_uuid VK_UUID_SIZE = false) :
    anv_pipeline_cache_load E device cache data size = (device, cache) := by
  cases hc : cache.cache with
  | none => exact anv_load_disabled E device hc data size
  | some ht => rw [anv_load_eq E device cache ht hc, if_pos h]

/-- C17: a buffer whose header has a `header_version` other than
`VK_PIPELINE_CACHE_HEADER_VERSION_ONE`, a `vendor_id` other than `0x8086`, a
`device_id` other than the `chipset_id` of the device, or a `uuid` that
differs from the `pipeline_cache_uuid` of the device in one of its 16 bytes,
is rejected by `anv_pipeline_cache_load`: the device and the cache are exactly
as before, whatever entry count and entry bytes follow the header. -/
theorem anv_load_rejects_header_mismatch (E : mesa_env) (device : anv_device)
    (cache : anv_pipeline_cache) (data : List Nat) (size : Nat)
    (h : (cache_header_of_bytes (memcpy data sizeof_cache_header)).header_version ≠
        VK_PIPELINE_CACHE_HEADER_VERSION_ONE ∨
      (cache_header_of_bytes (memcpy data sizeof_cache_header)).vendor_id ≠ 32902 ∨
      (cache_header_of_bytes (memcpy data sizeof_cache_header)).device_id ≠
        device.chipset_id ∨
      ∃ i, i < VK_UUID_SIZE ∧
        (cache_header_of_bytes (memcpy data sizeof_cache_header)).uuid[i]? ≠
          device.pipeline_cache_uuid[i]?) :
    anv_pipeline_cache_load E device cache data size = (device, cache) := by
  refine anv_load_rejected E device cache data size (Or.inr (Or.inr ?_))
  exact h.imp id (Or.imp id (Or.imp id (fun hx => memcmp_eq_false_of_byte hx)))

/-- Witness for C17: the example buffer with a changed byte of `vendor_id`
is loaded into the cache that holds the key `1 2 3`; nothing changes. -/
theorem anv_load_rejects_header_mismatch_witness :
    anv_pipeline_cache_load example_env example_world_one.device example_cache_one
      example_blob_bad_vendor 164 = (example_world_one.device, example_cache_one) :=
  anv_load_rejects_header_mismatch example_env example_world_one.device example_cache_one
    example_blob_bad_vendor 164 (Or.inr (Or.inl (by decide)))

/-- C18, the claim as stated fails: the header of this buffer has
`header_size = 33`, and `anv_pipeline_cache_load` applies its entries. -/
theorem anv_load_accepts_larger_header_size :
    (cache_header_of_bytes (memcpy example_blob_header_33 sizeof_cache_header)).header_size
      = 33 ∧
    (anv_pipeline_cache_load example_env example_device (anv_pipeline_cache_init true)
      example_blob_header_33 164).2 =
      { cache := some [⟨⟨4, [1, 2, 3, 4]⟩, 1⟩], nir_cache := some [] } := by
  decide

/-- C18 as amended: a buffer whose `header_size` field is smaller than
`sizeof (struct cache_header)`, 32 bytes, is rejected by
`anv_pipeline_cache_load`: the device and the cache are exactly as before.  A
`header_size` of 32 or more is not rejected: for every buffer of at least 36
bytes whose other header fields are those that the device expects, the load
into an enabled cache is the entry loop over the buffer from the offset 36,
with the entry count read at the offset 32, whatever the value of
`header_size`. -/
theorem anv_load_rejects_small_header_size (E : mesa_env) (device : anv_device)
    (cache : anv_pipeline_cache) (data : List Nat) (size : Nat) :
    ((cache_header_of_bytes (memcpy data sizeof_cache_header)).header_size <
        sizeof_cache_header →
      anv_pipeline_cache_load E device cache data size = (device, cache)) ∧
    (∀ ht : List (hash_entry anv_shader_bin_key Nat), cache.cache = some ht →
      sizeof_cache_header ≤
        (cache_header_of_bytes (memcpy data sizeof_cache_header)).header_size →
      36 ≤ size →
      (cache_header_of_bytes (memcpy data sizeof_cache_header)).header_version =
        VK_PIPELINE_CACHE_HEADER_VERSION_ONE →
      (cache_header_of_bytes (memcpy data sizeof_cache_header)).vendor_id = 32902 →
      (cache_header_of_bytes (memcpy data sizeof_cache_header)).device_id =
        device.chipset_id →
      memcmp_eq (cache_header_of_bytes (memcpy data sizeof_cache_header)).uuid
        device.pipeline_cache_uuid VK_UUID_SIZE = true →
      anv_pipeline_cache_load E device cache data size =
        ((anv_pipeline_cache_load_loop E (load_uint32 data 32) device ht
            { data := data, end_ := size, current := 36, overrun := false }).1,
         { cache with
           cache := some (anv_pipeline_cache_load_loop E (load_uint32 data 32) device ht
            { data := data, end_ := size, current := 36, overrun := false }).2 })) := by
  refine ⟨fun h => anv_load_rejected E device cache data size (Or.inr (Or.inl h)), ?_⟩
  intro ht hc hsize h36 hver hven hdev huuid
  rw [anv_load_eq E device cache ht hc, if_neg]
  intro h
  rcases h with h | h | h | h | h | h
  · exact absurd h (Nat.not_lt.2 h36)
  · exact absurd h (Nat.not_lt.2 hsize)
  · exact h hver
  · exact h hven
  · exact h hdev
  · rw [huuid] at h
    cases h

set_option maxRecDepth 4000 in
/-- Witness for C18 as amended: the example buffer with `header_size = 31` is
rejected, and the load of the example buffer with `header_size = 33` into a
freshly initialised enabled cache is the entry loop over its two entries. -/
theorem anv_load_rejects_small_header_size_witness :
    anv_pipeline_cache_load example_env example_device (anv_pipeline_cache_init true)
      example_blob_header_31 164 = (example_device, anv_pipeline_cache_init true) ∧
    (cache_header_of_bytes (memcpy example_blob_header_33 sizeof_cache_header)).header_size
      = 33 ∧
    anv_pipeline_cache_load example_env example_device (anv_pipeline_cache_init true)
      example_blob_header_33 164 =
      ((anv_pipeline_cache_load_loop example_env (load_uint32 example_blob_header_33 32)
          example_device []
          { data := example_blob_header_33, end_ := 164, current := 36,
            overrun := false }).1,
       { anv_pipeline_cache_init true with
         cache := some (anv_pipeline_cache_load_loop example_env
          (load_uint32 example_blob_header_33 32) example_device []
          { data := example_blob_header_33, end_ := 164, current := 36,
            overrun := false }).2 }) :=
  ⟨(anv_load_rejects_small_header_size example_env example_device
      (anv_pipeline_cache_init true) example_blob_header_31 164).1 (by decide),
   by decide,
   (anv_load_rejects_small_header_size example_env example_device
      (anv_pipeline_cache_init true) example_blob_header_33 164).2 [] rfl (by decide)
      (by decide) (by decide) (by decide) (by decide) (by decide)⟩

/-- C20, the claim as stated fails: the example buffer announces two
entries and is cut after 120 bytes, inside the second entry (the reads of the
second entry overrun the buffer); `anv_pipeline_cache_load` on a freshly
initialised cache keeps the first entry. -/
theorem anv_load_keeps_entries_before_truncation :
    (anv_shader_bin_create_from_blob example_env
      (anv_pipeline_cache_load example_env example_device (anv_pipeline_cache_init true)
        example_blob 120).1
      { data := example_blob, end_ := 120, current := 100, overrun := false }).2.2.overrun
      = true ∧
    (anv_pipeline_cache_load example_env example_device (anv_pipeline_cache_init true)
      example_blob 120).2 =
      { cache := some [⟨⟨4, [1, 2, 3, 4]⟩, 0⟩], nir_cache := some [] } := by
  decide

/-- C20 as amended: `anv_pipeline_cache_load` leaves the device and the cache
exactly as before (a freshly initialised cache stays empty) when the buffer is
shorter than the 36 bytes of header and entry count, when the header does not
match, or when the reads of the first entry overrun the buffer. -/
theorem anv_load_abandoned_when_nothing_read (E : mesa_env) (device : anv_device)
    (cache : anv_pipeline_cache) (data : List Nat) (size : Nat)
    (h : size < 36 ∨
      (cache_header_of_bytes (memcpy data sizeof_cache_header)).header_size <
        sizeof_cache_header ∨
      (cache_header_of_bytes (memcpy data sizeof_cache_header)).header_version ≠
        VK_PIPELINE_CACHE_HEADER_VERSION_ONE ∨
      (cache_header_of_bytes (memcpy data sizeof_cache_header)).vendor_id ≠ 32902 ∨
      (cache_header_of_bytes (memcpy data sizeof_cache_header)).device_id ≠
        device.chipset_id ∨
      memcmp_eq (cache_header_of_bytes (memcpy data sizeof_cache_header)).uuid
        device.pipeline_cache_uuid VK_UUID_SIZE = false ∨
      (anv_shader_bin_create_from_blob E device
        { data := data, end_ := size, current := 36, overrun := false }).2.2.overrun
        = true) :
    anv_pipeline_cache_load E device cache data size = (device, cache) := by
  cases hc : cache.cache with
  | none => exact anv_load_disabled E device hc data size
  | some ht =>
    rw [anv_load_eq E device cache ht hc]
    split
    · rfl
    · rename_i hno
      have hov : (anv_shader_bin_create_from_blob E device
          { data := data, end_ := size, current := 36, overrun := false }).2.2.overrun
          = true := by
        rcases h with h | h | h | h | h | h | h
        · exact absurd (Or.inl h) hno
        · exact absurd (Or.inr (Or.inl h)) hno
        · exact absurd (Or.inr (Or.inr (Or.inl h))) hno
        · exact absurd (Or.inr (Or.inr (Or.inr (Or.inl h)))) hno
        · exact absurd (Or.inr (Or.inr (Or.inr (Or.inr (Or.inl h))))) hno
        · exact absurd (Or.inr (Or.inr (Or.inr (Or.inr (Or.inr h))))) hno
        · exact h
      have hnone := anv_create_from_blob_overrun E device _ hov
      have hloop : ∀ n, anv_pipeline_cache_load_loop E n device ht
          { data := data, end_ := size, current := 36, overrun := false } =
          (device, ht) := by
        intro n
        cases n with
        | zero => rfl
        | succ m =>
          rw [anv_pipeline_cache_load_loop]
          rcases hcr : anv_shader_bin_create_from_blob E device
            { data := data, end_ := size, current := 36, overrun := false } with
            ⟨r, d1, b1⟩
          rw [hcr] at hnone
          simp only at hnone
          rcases hnone with ⟨h1, h2⟩
          subst h1
          subst h2
          rfl
      rw [hloop]
      simp only
      congr 1
      cases cache
      simp only at hc
      subst hc
      rfl

/-- Witness for C20 as amended: the example buffer cut after 60 bytes, inside
its first entry, leaves a freshly initialised cache empty. -/
theorem anv_load_abandoned_when_nothing_read_witness :
    anv_pipeline_cache_load example_env example_device (anv_pipeline_cache_init true)
      example_blob 60 = (example_device, anv_pipeline_cache_init true) :=
  anv_load_abandoned_when_nothing_read example_env example_device
    (anv_pipeline_cache_init true) example_blob 60
    (Or.inr (Or.inr (Or.inr (Or.inr (Or.inr (Or.inr (by decide)))))))

/-! ## Release of references: lemmas and claims -/

theorem anv_shader_bin_unref_eq (d : anv_device) {p : Nat} {b : anv_shader_bin}
    (hb : d.bins[p]? = some b) (h1 : 1 ≤ b.ref_cnt) :
    anv_shader_bin_unref d p =
      some { d with
        bins := d.bins.set p { b with ref_cnt := b.ref_cnt - 1 }
        destroyed := if b.ref_cnt = 1 then d.destroyed ++ [p] else d.destroyed } := by
  have hlt : p < d.bins.length := (List.getElem?_eq_some_iff.1 hb).1
  have hmod : d.bins.modify (fun x => { x with ref_cnt := x.ref_cnt - 1 }) p =
      d.bins.set p { b with ref_cnt := b.ref_cnt - 1 } := by
    apply List.ext_getElem?
    intro i
    rw [List.getElem?_modify, List.getElem?_set]
    by_cases hi : p = i
    · subst hi
      simp [hb, hlt]
    · simp [hi]
  unfold anv_shader_bin_unref
  simp only [hb, h1, if_true, hmod]
  by_cases h0 : b.ref_cnt = 1
  · have h00 : b.ref_cnt - 1 = 0 := by omega
    simp only [h00, if_true, h0]
    unfold anv_shader_bin_destroy
    simp [hlt, anv_state_pool_free]
  · have h00 : ¬ b.ref_cnt - 1 = 0 := by omega
    simp only [h00, if_false, h0]

theorem anv_table_ok_data_nodup {d : anv_device}
    {ht : List (hash_entry anv_shader_bin_key Nat)} (h : anv_table_ok d ht) :
    (ht.map (fun e => e.data)).Nodup := by
  rcases h with ⟨hp, hk⟩
  induction ht with
  | nil => simp
  | cons e es ih =>
    rw [List.pairwise_cons] at hp
    rw [List.map_cons, List.nodup_cons]
    refine ⟨?_, ih hp.2 (fun x hx => hk x (List.mem_cons_of_mem _ hx))⟩
    intro hmem
    rcases List.mem_map.1 hmem with ⟨x, hx, hxe⟩
    rcases hk e (List.mem_cons_self _ _) with ⟨b, hb, hbk⟩
    rcases hk x (List.mem_cons_of_mem _ hx) with ⟨b1, hb1, hbk1⟩
    rw [hxe, hb] at hb1
    simp only [Option.some.injEq] at hb1
    subst hb1
    have hcmp := hp.1 x hx
    rw [← hbk, ← hbk1] at hcmp
    have hrefl := (shader_bin_key_compare_func_iff b.key b.key).2 ⟨rfl, rfl⟩
    rw [hrefl] at hcmp
    cases hcmp

theorem anv_finish_loop_eq (ps : List (hash_entry anv_shader_bin_key Nat)) :
    ∀ (d : anv_device), (ps.map (fun e => e.data)).Nodup →
      (∀ e ∈ ps, ∃ b, d.bins[e.data]? = some b ∧ 1 ≤ b.ref_cnt) →
      ∃ d1, anv_pipeline_cache_finish_loop ps d = some d1 ∧
        d1 = { d with bins := d1.bins, destroyed := d1.destroyed } ∧
        d1.bins.length = d.bins.length ∧
        (∀ p b, d.bins[p]? = some b →
          d1.bins[p]? = some (if p ∈ ps.map (fun e => e.data) then
            { b with ref_cnt := b.ref_cnt - 1 } else b)) ∧
        d1.destroyed = d.destroyed ++ (ps.map (fun e => e.data)).filter
          (fun p => decide ((d.bins[p]?).map (fun b => b.ref_cnt) = some 1)) := by
  induction ps with
  | nil =>
    intro d _ _
    exact ⟨d, rfl, rfl, rfl, fun p b hb => by simpa using hb, by simp⟩
  | cons e es ih =>
    intro d hnd hlive
    rw [List.map_cons, List.nodup_cons] at hnd
    rcases hlive e (List.mem_cons_self _ _) with ⟨b0, hb0, href0⟩
    have hstep := anv_shader_bin_unref_eq d hb0 href0
    have hlt : e.data < d.bins.length := (List.getElem?_eq_some_iff.1 hb0).1
    have hlive1 : ∀ x ∈ es, ∃ b,
        ({ d with
          bins := d.bins.set e.data { b0 with ref_cnt := b0.ref_cnt - 1 }
          destroyed := if b0.ref_cnt = 1 then d.destroyed ++ [e.data]
            else d.destroyed } : anv_device).bins[x.data]? = some b ∧ 1 ≤ b.ref_cnt := by
      intro x hx
      rcases hlive x (List.mem_cons_of_mem _ hx) with ⟨b, hb, href⟩
      refine ⟨b, ?_, href⟩
      have hne : e.data ≠ x.data := by
        intro heq
        apply hnd.1
        rw [heq]
        exact List.mem_map.2 ⟨x, hx, rfl⟩
      simp only
      rw [List.getElem?_set_ne hne]
      exact hb
    rcases ih _ hnd.2 hlive1 with ⟨d1, hrun, hsame, hlen, hbins, hdes⟩
    refine ⟨d1, ?_, ?_, ?_, ?_, ?_⟩
    · rw [anv_pipeline_cache_finish_loop, hstep]
      exact hrun
    · rw [hsame]
    · rw [hlen]
      simp
    · intro p b hb
      by_cases hp : p = e.data
      · subst hp
        rw [hb0] at hb
        simp only [Option.some.injEq] at hb
        subst hb
        have h2 := hbins e.data { b0 with ref_cnt := b0.ref_cnt - 1 }
          (by simp [hlt])
        rw [h2]
        simp [hnd.1]
      · have h2 := hbins p b (by
          simp only
          rw [List.getElem?_set_ne (Ne.symm hp)]
          exact hb)
        rw [h2]
        simp [hp]
    · rw [hdes]
      simp only [List.map_cons, List.filter_cons, hb0, Option.map_some']
      have hfilt : (es.map (fun e => e.data)).filter
          (fun p => decide ((((d.bins.set e.data
            { b0 with ref_cnt := b0.ref_cnt - 1 })[p]?).map (fun b => b.ref_cnt)) = some 1)) =
          (es.map (fun e => e.data)).filter
          (fun p => decide ((d.bins[p]?).map (fun b => b.ref_cnt) = some 1)) := by
        apply List.filter_congr
        intro p hp
        have hne : e.data ≠ p := by
          intro heq
          apply hnd.1
          rw [heq]
          exact hp
        rw [List.getElem?_set_ne hne]
      rw [hfilt]
      by_cases h1 : b0.ref_cnt = 1
      · simp [h1]
      · simp [h1]

theorem anv_world_ok_empty (device : anv_device) :
    anv_world_ok { device := device, caches := [] } := by
  intro c hc
  cases hc

/-- C13: `anv_pipeline_cache_finish` on a cache whose table satisfies the
table invariant and holds a reference on each of its artifacts releases
exactly one reference for every entry: the heap keeps its size, every
artifact stored in the table has its `ref_cnt` lowered by exactly one, every
other artifact is as before, the artifacts destroyed are those of the table
whose count was one, and nothing else of the device changes; no assertion
fails.  On a disabled cache the device is as before. -/
theorem anv_finish_releases_one_reference_per_entry (device : anv_device)
    (cache : anv_pipeline_cache) (hok : anv_cache_ok device cache)
    (href : ∀ ht, cache.cache = some ht → ∀ e ∈ ht, ∀ b,
      device.bins[e.data]? = some b → 1 ≤ b.ref_cnt) :
    ∃ d1, anv_pipeline_cache_finish device cache = some d1 ∧
      d1 = { device with bins := d1.bins, destroyed := d1.destroyed } ∧
      d1.bins.length = device.bins.length ∧
      (∀ p b, device.bins[p]? = some b →
        d1.bins[p]? = some (if p ∈ (cache.cache.getD []).map (fun e => e.data) then
          { b with ref_cnt := b.ref_cnt - 1 } else b)) ∧
      d1.destroyed = device.destroyed ++
        ((cache.cache.getD []).map (fun e => e.data)).filter
          (fun p => decide ((device.bins[p]?).map (fun b => b.ref_cnt) = some 1)) ∧
      (cache.cache = none → d1 = device) := by
  cases hc : cache.cache with
  | none =>
    refine ⟨device, ?_, rfl, rfl, ?_, ?_, fun _ => rfl⟩
    · simp only [anv_pipeline_cache_finish, hc]
    · intro p b hb
      simpa using hb
    · simp
  | some ht =>
    have hlive : ∀ e ∈ ht, ∃ b, device.bins[e.data]? = some b ∧ 1 ≤ b.ref_cnt := by
      intro e he
      rcases (hok ht hc).2 e he with ⟨b, hb, _⟩
      exact ⟨b, hb, href ht hc e he b hb⟩
    rcases anv_finish_loop_eq ht device (anv_table_ok_data_nodup (hok ht hc)) hlive with
      ⟨d1, hrun, hsame, hlen, hbins, hdes⟩
    refine ⟨d1, ?_, hsame, hlen, ?_, ?_, ?_⟩
    · simp only [anv_pipeline_cache_finish, hc]
      exact hrun
    · simpa using hbins
    · simpa using hdes
    · intro h
      cases h

/-- Witness for C13: the cache of the example world holds the artifacts 0 and
2 with the counts 2 and 1; `anv_pipeline_cache_finish` lowers both by one and
destroys artifact 2. -/
theorem anv_finish_releases_one_reference_per_entry_witness :
    ∃ d1, anv_pipeline_cache_finish example_world_loaded.device example_cache_loaded =
        some d1 ∧
      d1.bins.length = example_world_loaded.device.bins.length ∧
      d1.destroyed = example_world_loaded.device.destroyed ++
        ((example_cache_loaded.cache.getD []).map (fun e => e.data)).filter
          (fun p => decide ((example_world_loaded.device.bins[p]?).map
            (fun b => b.ref_cnt) = some 1)) :=
  (anv_finish_releases_one_reference_per_entry example_world_loaded.device
    example_cache_loaded
    (anv_run_ok example_env example_calls _ (anv_world_ok_empty example_device)
      example_cache_loaded (by decide))
    (by
      have key : ∀ e ∈ [(⟨⟨3, [1, 2, 3]⟩, 0⟩ : hash_entry anv_shader_bin_key Nat),
          ⟨⟨4, [1, 2, 3, 4]⟩, 2⟩], ∀ b ∈ example_world_loaded.device.bins[e.data]?,
          1 ≤ b.ref_cnt := by decide
      intro ht hht e he b hb
      simp only [example_cache_loaded, Option.some.injEq] at hht
      subst hht
      exact key e he b hb)).imp
    (fun _ h => ⟨h.1, h.2.2.1, h.2.2.2.2.1⟩)

theorem anv_search_times_spec (E : mesa_env) (c : anv_pipeline_cache)
    (key_data : List Nat) (key_size A : Nat)
    (hA : anv_pipeline_cache_search_locked E c key_data key_size = some A) (n : Nat) :
    ∀ d : anv_device,
      (anv_search_times E c key_data key_size n d).bins[A]? =
        (d.bins[A]?).map (fun b => { b with ref_cnt := b.ref_cnt + n }) ∧
      (∀ p, p ≠ A →
        (anv_search_times E c key_data key_size n d).bins[p]? = d.bins[p]?) ∧
      (anv_search_times E c key_data key_size n d).destroyed = d.destroyed := by
  induction n with
  | zero =>
    intro d
    refine ⟨?_, fun _ _ => rfl, rfl⟩
    simp only [anv_search_times]
    cases d.bins[A]? <;> rfl
  | succ m ih =>
    intro d
    rw [anv_search_times, anv_search_hit E d hA]
    rcases ih (anv_shader_bin_ref d A) with ⟨h1, h2, h3⟩
    refine ⟨?_, ?_, ?_⟩
    · rw [h1, anv_shader_bin_ref_get_self]
      cases d.bins[A]? with
      | none => rfl
      | some b =>
        simp only [Option.map_some', Option.some.injEq]
        congr 1
        omega
    · intro p hp
      rw [h2 p hp, anv_shader_bin_ref_get_ne d hp]
    · rw [h3]
      rfl

theorem anv_release_run_cons (c : anv_pipeline_cache) (d d1 : anv_device)
    (x : anv_release) (l : List anv_release)
    (h : anv_release_step c (some d) x = some d1) :
    anv_release_run c d (x :: l) = anv_release_run c d1 l := by
  unfold anv_release_run
  rw [List.foldl_cons, h]

theorem anv_release_unref_spec (c : anv_pipeline_cache) (d : anv_device) {A : Nat}
    {b : anv_shader_bin} (hb : d.bins[A]? = some b) (h1 : 1 ≤ b.ref_cnt) :
    ∃ d1, anv_release_step c (some d) (.unref A) = some d1 ∧
      d1.bins[A]? = some { b with ref_cnt := b.ref_cnt - 1 } ∧
      d1.destroyed.count A = d.destroyed.count A + (if b.ref_cnt = 1 then 1 else 0) ∧
      (∀ p, p ≠ A → d1.bins[p]? = d.bins[p]?) := by
  have hlt : A < d.bins.length := (List.getElem?_eq_some_iff.1 hb).1
  refine ⟨{ d with
      bins := d.bins.set A { b with ref_cnt := b.ref_cnt - 1 }
      destroyed := if b.ref_cnt = 1 then d.destroyed ++ [A] else d.destroyed },
    ?_, ?_, ?_, ?_⟩
  · simp only [anv_release_step]
    exact anv_shader_bin_unref_eq d hb h1
  · simp [hlt]
  · by_cases h : b.ref_cnt = 1
    · simp [h]
    · simp [h]
  · intro p hp
    simp only
    rw [List.getElem?_set_ne (Ne.symm hp)]

theorem anv_release_finish_spec (c : anv_pipeline_cache)
    {T : List (hash_entry anv_shader_bin_key Nat)} (hc : c.cache = some T)
    (d : anv_device) {A : Nat} {b : anv_shader_bin}
    (hnd : (T.map (fun e => e.data)).Nodup)
    (hlive : ∀ e ∈ T, ∃ x, d.bins[e.data]? = some x ∧ 1 ≤ x.ref_cnt)
    (hA : A ∈ T.map (fun e => e.data)) (hb : d.bins[A]? = some b) :
    ∃ d1, anv_release_step c (some d) .finish = some d1 ∧
      d1.bins[A]? = some { b with ref_cnt := b.ref_cnt - 1 } ∧
      d1.destroyed.count A = d.destroyed.count A + (if b.ref_cnt = 1 then 1 else 0) := by
  rcases anv_finish_loop_eq T d hnd hlive with ⟨d1, hrun, _, _, hbins, hdes⟩
  refine ⟨d1, ?_, ?_, ?_⟩
  · simp only [anv_release_step, anv_pipeline_cache_finish, hc]
    exact hrun
  · rw [hbins A b hb, if_pos hA]
  · rw [hdes, List.count_append]
    congr 1
    by_cases h : b.ref_cnt = 1
    · rw [if_pos h]
      apply List.count_eq_one_of_mem (hnd.filter _)
      rw [List.mem_filter]
      refine ⟨hA, ?_⟩
      simp [hb, h]
    · rw [if_neg h]
      apply List.count_eq_zero_of_not_mem
      rw [List.mem_filter]
      intro hx
      have := hx.2
      simp [hb, h] at this

theorem anv_release_run_spec (c : anv_pipeline_cache)
    {T : List (hash_entry anv_shader_bin_key Nat)} (hc : c.cache = some T) {A : Nat}
    (hA : A ∈ T.map (fun e => e.data)) (hnd : (T.map (fun e => e.data)).Nodup)
    (ops : List anv_release) :
    ∀ (d : anv_device) (b : anv_shader_bin), d.bins[A]? = some b →
      b.ref_cnt = ops.length →
      (∀ x ∈ ops, x = .unref A ∨ x = .finish) →
      ops.count .finish ≤ 1 →
      (anv_release.finish ∈ ops →
        ∀ e ∈ T, ∃ x, d.bins[e.data]? = some x ∧ 1 ≤ x.ref_cnt) →
      ∀ k, k ≤ ops.length →
        ∃ dk, anv_release_run c d (ops.take k) = some dk ∧
          (dk.bins[A]?).map (fun x => x.ref_cnt) = some (ops.length - k) ∧
          dk.destroyed.count A =
            d.destroyed.count A + (if k = ops.length ∧ 0 < k then 1 else 0) := by
  induction ops with
  | nil =>
    intro d b hb hr _ _ _ k hk
    have hk0 : k = 0 := by simpa using hk
    subst hk0
    refine ⟨d, rfl, ?_, by simp⟩
    rw [hb]
    simp [hr]
  | cons x xs ih =>
    intro d b hb hr hops hcnt hlive k hk
    cases k with
    | zero =>
      refine ⟨d, rfl, ?_, by simp⟩
      rw [hb]
      simp [hr]
    | succ k1 =>
      have hk1 : k1 ≤ xs.length := by simpa using hk
      have hr1 : 1 ≤ b.ref_cnt := by rw [hr]; simp
      have hstep : ∃ d1, anv_release_step c (some d) x = some d1 ∧
          d1.bins[A]? = some { b with ref_cnt := b.ref_cnt - 1 } ∧
          d1.destroyed.count A = d.destroyed.count A + (if b.ref_cnt = 1 then 1 else 0) ∧
          (x = .unref A → ∀ p, p ≠ A → d1.bins[p]? = d.bins[p]?) := by
        rcases hops x (List.mem_cons_self _ _) with hx | hx
        · subst hx
          rcases anv_release_unref_spec c d hb hr1 with ⟨d1, h1, h2, h3, h4⟩
          exact ⟨d1, h1, h2, h3, fun _ => h4⟩
        · subst hx
          rcases anv_release_finish_spec c hc d hnd
            (hlive (List.mem_cons_self _ _)) hA hb with ⟨d1, h1, h2, h3⟩
          exact ⟨d1, h1, h2, h3, fun h => by cases h⟩
      rcases hstep with ⟨d1, hs1, hb1, hdes1, hother⟩
      have hlive1 : anv_release.finish ∈ xs →
          ∀ e ∈ T, ∃ y, d1.bins[e.data]? = some y ∧ 1 ≤ y.ref_cnt := by
        intro hfin e he
        have hx : x = .unref A := by
          rcases hops x (List.mem_cons_self _ _) with hx | hx
          · exact hx
          · exfalso
            subst hx
            rw [List.count_cons_self] at hcnt
            have := List.count_pos_iff.2 hfin
            omega
        rcases hlive (List.mem_cons_of_mem _ hfin) e he with ⟨y, hy, hy1⟩
        by_cases hp : e.data = A
        · rw [hp] at hy ⊢
          rw [hb] at hy
          simp only [Option.some.injEq] at hy
          subst hy
          refine ⟨_, hb1, ?_⟩
          simp only
          have hxs : 1 ≤ xs.length := List.length_pos_of_mem hfin
          rw [hr]
          simp only [List.length_cons]
          omega
        · exact ⟨y, by rw [hother hx _ hp]; exact hy, hy1⟩
      have hcnt1 : xs.count .finish ≤ 1 :=
        le_trans (List.count_le_count_cons _ _ _) hcnt
      rcases ih d1 { b with ref_cnt := b.ref_cnt - 1 } hb1
        (by simp only; rw [hr]; simp)
        (fun y hy => hops y (List.mem_cons_of_mem _ hy)) hcnt1 hlive1 k1 hk1 with
        ⟨dk, hrun, href, hdes⟩
      refine ⟨dk, ?_, ?_, ?_⟩
      · rw [List.take_succ_cons, anv_release_run_cons c d d1 x _ hs1]
        exact hrun
      · rw [href]
        simp
      · rw [hdes, hdes1, hr]
        simp only [List.length_cons]
        by_cases hxs : xs.length = 0
        · have hk0 : k1 = 0 := by omega
          subst hk0
          simp [hxs]
        · by_cases hkk : k1 = xs.length
          · have : 0 < k1 := by omega
            simp [hkk, hxs, this]
          · simp [hkk, hxs]

/-- C14: an upload of a new key into an enabled cache whose table satisfies
the table invariant and holds a reference on each artifact, followed by `N`
searches of the key, leaves the artifact `A` with `ref_cnt = N + 2`.  The
`N + 1` releases of the caller and the release of the table by
`anv_pipeline_cache_finish`, in any order, all pass their assertions; after
`k` of them the count is `N + 2 - k`, so it is zero exactly after the last
one, and `A` is destroyed once, by the last release and not before. -/
theorem anv_refcount_reaches_zero_at_last_release (E : mesa_env)
    (device : anv_device) (cache : anv_pipeline_cache)
    (ht : List (hash_entry anv_shader_bin_key Nat)) (hc : cache.cache = some ht)
    (hok : anv_table_ok device ht)
    (href : ∀ e ∈ ht, ∀ b, device.bins[e.data]? = some b → 1 ≤ b.ref_cnt)
    (key_data : List Nat) (key_size : Nat)
    (kernel_data : List Nat) (kernel_size : Nat)
    (constant_data : List Nat) (constant_data_size : Nat)
    (prog_data : brw_stage_prog_data) (prog_data_size : Nat)
    (xfb_info : Option (List Nat)) (bind_map : anv_pipeline_bind_map)
    (hnew : anv_pipeline_cache_search_locked E cache key_data key_size = none)
    (A : Nat) (d1 : anv_device) (c1 : anv_pipeline_cache)
    (hup : anv_pipeline_cache_upload_kernel E device cache key_data key_size kernel_data
      kernel_size constant_data constant_data_size prog_data prog_data_size xfb_info
      bind_map = (some A, d1, c1))
    (N : Nat) (ops : List anv_release)
    (hperm : ops.Perm (.finish :: List.replicate (N + 1) (.unref A))) :
    (∀ d, (anv_pipeline_cache_search E d c1 key_data key_size).1 = some A) ∧
    ((anv_search_times E c1 key_data key_size N d1).bins[A]?).map (fun b => b.ref_cnt) =
      some (N + 2) ∧
    ∀ k, k ≤ N + 2 →
      ∃ dk,
        anv_release_run c1 (anv_search_times E c1 key_data key_size N d1) (ops.take k) =
          some dk ∧
        (dk.bins[A]?).map (fun b => b.ref_cnt) = some (N + 2 - k) ∧
        dk.destroyed.count A =
          (anv_search_times E c1 key_data key_size N d1).destroyed.count A +
            (if k = N + 2 then 1 else 0) := by
  have hcok : anv_cache_ok device cache := by
    intro ht1 hht1
    rw [hc] at hht1
    simp only [Option.some.injEq] at hht1
    subst hht1
    exact hok
  have hupok := anv_upload_ok E device cache key_data key_size kernel_data kernel_size
    constant_data constant_data_size prog_data prog_data_size xfb_info bind_map hcok
  have hlook := anv_upload_establishes_lookup E device cache key_data key_size kernel_data
    kernel_size constant_data constant_data_size prog_data prog_data_size xfb_info
    bind_map hc (by rw [hup])
  rw [hup] at hupok hlook
  simp only at hupok hlook
  have hcr := anv_shader_bin_create_cases E device key_data key_size kernel_data
    kernel_size constant_data constant_data_size prog_data.bytes prog_data_size
    prog_data.param xfb_info bind_map
  rcases anv_upload_miss E device hc kernel_data kernel_size constant_data
    constant_data_size prog_data prog_data_size xfb_info bind_map hnew with
    ⟨_, hr⟩ | ⟨h1, hr⟩
  · rw [hup] at hr
    simp only [Prod.mk.injEq] at hr
    cases hr.1
  · rw [hup] at hr
    simp only [Prod.mk.injEq, Option.some.injEq] at hr
    rcases hr with ⟨hA, hd1, hc1⟩
    rcases hcr with ⟨h2, _⟩ | ⟨_, b0, hb0, href0, _⟩
    · rw [h2] at h1
      cases h1
    · have hT1 : c1.cache = some (ht ++
          [⟨{ size := key_size, data := memcpy key_data key_size }, A⟩]) := by
        rw [hc1, hA]
      have hd1A : d1.bins[A]? = some { b0 with ref_cnt := 2 } := by
        rw [hd1, hA, anv_shader_bin_ref_get_self, hb0]
        simp [href0]
      have hd1p : ∀ p, p < A → d1.bins[p]? = device.bins[p]? := by
        intro p hp
        rw [hd1, anv_shader_bin_ref_get_ne _ (by omega), hb0,
          List.getElem?_append_left (by omega)]
      have hst := anv_search_times_spec E c1 key_data key_size A hlook N d1
      rcases hst with ⟨hsA, hsp, hsd⟩
      have hdNA : (anv_search_times E c1 key_data key_size N d1).bins[A]? =
          some { b0 with ref_cnt := 2 + N } := by
        rw [hsA, hd1A]
        rfl
      have hnd := anv_table_ok_data_nodup (hupok.2 _ hT1)
      have hAmem : A ∈ (ht ++ [(⟨{ size := key_size, data := memcpy key_data key_size },
          A⟩ : hash_entry anv_shader_bin_key Nat)]).map (fun e => e.data) := by
        simp
      have hlive : ∀ e ∈ ht ++ [(⟨{ size := key_size, data := memcpy key_data key_size },
          A⟩ : hash_entry anv_shader_bin_key Nat)],
          ∃ x, (anv_search_times E c1 key_data key_size N d1).bins[e.data]? = some x ∧
            1 ≤ x.ref_cnt := by
        intro e he
        rw [List.mem_append, List.mem_singleton] at he
        rcases he with he | he
        · rcases hok.2 e he with ⟨b, hb, _⟩
          have hlt : e.data < A := by
            rw [hA]
            exact (List.getElem?_eq_some_iff.1 hb).1
          refine ⟨b, ?_, href e he b hb⟩
          rw [hsp _ (by omega), hd1p _ hlt]
          exact hb
        · subst he
          exact ⟨_, hdNA, by simp only; omega⟩
      have hlen : ops.length = N + 2 := by
        rw [hperm.length_eq]
        simp
      have hops : ∀ x ∈ ops, x = anv_release.unref A ∨ x = anv_release.finish := by
        intro x hx
        have := hperm.mem_iff.1 hx
        rw [List.mem_cons] at this
        rcases this with h | h
        · exact Or.inr h
        · exact Or.inl (List.eq_of_mem_replicate h)
      have hcnt : ops.count anv_release.finish ≤ 1 := by
        rw [hperm.count_eq]
        simp [List.count_cons, List.count_replicate]
      refine ⟨fun d => by rw [anv_search_hit E d hlook], ?_, ?_⟩
      · rw [hdNA]
        simp
        omega
      · intro k hk
        rcases anv_release_run_spec c1 hT1 hAmem hnd ops _ _ hdNA
          (by simp only; omega) hops hcnt (fun _ => hlive) k (by omega) with
          ⟨dk, hrun, hrefk, hdesk⟩
        refine ⟨dk, hrun, ?_, ?_⟩
        · rw [hrefk, hlen]
        · rw [hdesk, hlen]
          congr 1
          by_cases hkk : k = N + 2
          · simp [hkk]
          · simp [hkk]

/-- Witness for C14: the key `1 2 3` is uploaded into the empty cache of the
example device and searched once; the count of artifact 0 is 3, and after
the releases `unref`, `finish`, `unref` it is 0 and the artifact has been
destroyed once. -/
theorem anv_refcount_reaches_zero_at_last_release_witness :
    ∃ dk,
      anv_release_run
        (anv_pipeline_cache_upload_kernel example_env example_device
          (anv_pipeline_cache_init true) [1, 2, 3] 3 [9, 9] 2 [] 0 example_prog_data 0
          none example_bind_map).2.2
        (anv_search_times example_env
          (anv_pipeline_cache_upload_kernel example_env example_device
            (anv_pipeline_cache_init true) [1, 2, 3] 3 [9, 9] 2 [] 0 example_prog_data 0
            none example_bind_map).2.2 [1, 2, 3] 3 1
          (anv_pipeline_cache_upload_kernel example_env example_device
            (anv_pipeline_cache_init true) [1, 2, 3] 3 [9, 9] 2 [] 0 example_prog_data 0
            none example_bind_map).2.1)
        [.unref 0, .finish, .unref 0] = some dk ∧
      (dk.bins[0]?).map (fun b => b.ref_cnt) = some 0 ∧
      dk.destroyed.count 0 = 1 :=
  (anv_refcount_reaches_zero_at_last_release example_env example_device
    (anv_pipeline_cache_init true) [] rfl ⟨List.Pairwise.nil, fun _ he => by cases he⟩
    (fun _ he => by cases he) [1, 2, 3] 3 [9, 9] 2 [] 0 example_prog_data 0 none
    example_bind_map rfl 0 _ _ rfl 1 [.unref 0, .finish, .unref 0]
    (List.Perm.swap _ _ _)).2.2 3 (by decide)

/-! ## Merging: the keys that a merge adds -/

theorem anv_merge_entry_heap (E : mesa_env)
    (st : anv_device × List (hash_entry anv_shader_bin_key Nat))
    (entry : hash_entry anv_shader_bin_key Nat) :
    anv_heap_keeps_keys st.1 (anv_merge_entry E st entry).1 := by
  unfold anv_merge_entry
  repeat' split
  all_goals first
    | exact anv_heap_keeps_keys_refl _
    | exact anv_heap_keeps_keys_ref _ _

theorem anv_entries_keyed_mono {d d1 : anv_device} (hk : anv_heap_keeps_keys d d1)
    {sht : List (hash_entry anv_shader_bin_key Nat)}
    (h : ∀ e ∈ sht, ∃ b, d.bins[e.data]? = some b ∧ b.key = e.key) :
    ∀ e ∈ sht, ∃ b, d1.bins[e.data]? = some b ∧ b.key = e.key := by
  intro e he
  rcases h e he with ⟨b, hb, hkey⟩
  rcases hk _ _ hb with ⟨b1, hb1, hkey1⟩
  exact ⟨b1, hb1, hkey1.trans hkey⟩

theorem anv_merge_entry_eq_of_present (E : mesa_env)
    (st : anv_device × List (hash_entry anv_shader_bin_key Nat))
    (entry : hash_entry anv_shader_bin_key Nat) {bin : anv_shader_bin}
    (hb : st.1.bins[entry.data]? = some bin)
    (hx : (_mesa_hash_table_search (shader_bin_key_hash_func E)
      shader_bin_key_compare_func st.2 bin.key).isSome = true) :
    anv_merge_entry E st entry = st := by
  cases hs : _mesa_hash_table_search (shader_bin_key_hash_func E)
      shader_bin_key_compare_func st.2 bin.key with
  | none => rw [hs] at hx; cases hx
  | some x => simp only [anv_merge_entry, hb, hs]

theorem anv_merge_entry_eq_of_absent (E : mesa_env)
    (st : anv_device × List (hash_entry anv_shader_bin_key Nat))
    (entry : hash_entry anv_shader_bin_key Nat) {bin : anv_shader_bin}
    (hb : st.1.bins[entry.data]? = some bin)
    (hx : _mesa_hash_table_search (shader_bin_key_hash_func E)
      shader_bin_key_compare_func st.2 bin.key = none) :
    anv_merge_entry E st entry =
      (anv_shader_bin_ref st.1 entry.data, st.2 ++ [⟨bin.key, entry.data⟩]) := by
  have hdef : anv_merge_entry E st entry =
      (anv_shader_bin_ref st.1 entry.data,
       _mesa_hash_table_insert (shader_bin_key_hash_func E)
         shader_bin_key_compare_func st.2 bin.key entry.data) := by
    simp only [anv_merge_entry, hb, hx]
  rw [hdef, hash_table_insert_of_search_none _ _ _ hx]

theorem anv_merge_entry_holds (E : mesa_env)
    (st : anv_device × List (hash_entry anv_shader_bin_key Nat))
    (entry : hash_entry anv_shader_bin_key Nat) (K : anv_shader_bin_key)
    {bin : anv_shader_bin} (hb : st.1.bins[entry.data]? = some bin)
    (hkey : bin.key = entry.key) :
    (_mesa_hash_table_search (shader_bin_key_hash_func E) shader_bin_key_compare_func
      (anv_merge_entry E st entry).2 K).isSome =
    ((_mesa_hash_table_search (shader_bin_key_hash_func E) shader_bin_key_compare_func
      st.2 K).isSome ||
     hash_entry_matches (shader_bin_key_hash_func E) shader_bin_key_compare_func
      K entry.key) := by
  cases hx : _mesa_hash_table_search (shader_bin_key_hash_func E)
      shader_bin_key_compare_func st.2 bin.key with
  | some x =>
    rw [anv_merge_entry_eq_of_present E st entry hb (by rw [hx]; rfl)]
    cases hm : hash_entry_matches (shader_bin_key_hash_func E)
        shader_bin_key_compare_func K entry.key with
    | false => simp
    | true =>
      rw [← hkey] at hm
      rw [anv_table_search_congr E ((anv_matches_iff E _ _).1 hm), hx]
      rfl
  | none =>
    rw [anv_merge_entry_eq_of_absent E st entry hb hx]
    cases hs : _mesa_hash_table_search (shader_bin_key_hash_func E)
        shader_bin_key_compare_func st.2 K with
    | some y =>
      simp only
      rw [hash_table_search_append_of_some _ _ _ hs]
      rfl
    | none =>
      simp only
      rw [hash_table_search_append_of_none _ _ _ hs, hkey]
      cases hash_entry_matches (shader_bin_key_hash_func E)
        shader_bin_key_compare_func K entry.key <;> rfl

theorem anv_merge_entries_holds (E : mesa_env)
    (sht : List (hash_entry anv_shader_bin_key Nat)) (K : anv_shader_bin_key) :
    ∀ (st : anv_device × List (hash_entry anv_shader_bin_key Nat)),
      (∀ e ∈ sht, ∃ b, st.1.bins[e.data]? = some b ∧ b.key = e.key) →
      (_mesa_hash_table_search (shader_bin_key_hash_func E) shader_bin_key_compare_func
        (sht.foldl (anv_merge_entry E) st).2 K).isSome =
      ((_mesa_hash_table_search (shader_bin_key_hash_func E) shader_bin_key_compare_func
        st.2 K).isSome ||
       (_mesa_hash_table_search (shader_bin_key_hash_func E) shader_bin_key_compare_func
        sht K).isSome) := by
  induction sht with
  | nil => intro st _; simp [hash_table_search_nil]
  | cons x xs ih =>
    intro st hkeyed
    rw [List.foldl_cons]
    rcases hkeyed x (List.mem_cons_self _ _) with ⟨b, hb, hkey⟩
    rw [ih _ (anv_entries_keyed_mono (anv_merge_entry_heap E st x)
      (fun e he => hkeyed e (List.mem_cons_of_mem _ he))),
      anv_merge_entry_holds E st x K hb hkey, hash_table_search_cons]
    cases hash_entry_matches (shader_bin_key_hash_func E)
      shader_bin_key_compare_func K x.key <;> simp

theorem anv_merge_entries_noop (E : mesa_env)
    (sht : List (hash_entry anv_shader_bin_key Nat))
    (st : anv_device × List (hash_entry anv_shader_bin_key Nat))
    (h : ∀ e ∈ sht, ∃ b, st.1.bins[e.data]? = some b ∧
      (_mesa_hash_table_search (shader_bin_key_hash_func E)
        shader_bin_key_compare_func st.2 b.key).isSome = true) :
    sht.foldl (anv_merge_entry E) st = st := by
  induction sht with
  | nil => rfl
  | cons x xs ih =>
    rw [List.foldl_cons]
    rcases h x (List.mem_cons_self _ _) with ⟨b, hb, hx⟩
    rw [anv_merge_entry_eq_of_present E st x hb hx]
    exact ih (fun e he => h e (List.mem_cons_of_mem _ he))

theorem anv_merge_entry_absent (E : mesa_env)
    (st : anv_device × List (hash_entry anv_shader_bin_key Nat))
    (entry : hash_entry anv_shader_bin_key Nat) (K : anv_shader_bin_key)
    {bin : anv_shader_bin} (hb : st.1.bins[entry.data]? = some bin)
    (hkey : bin.key = entry.key)
    (hm : hash_entry_matches (shader_bin_key_hash_func E) shader_bin_key_compare_func
      K entry.key = false)
    {B : Nat} {a : anv_shader_bin} (hB : st.1.bins[B]? = some a)
    (hk : shader_bin_key_compare_func K a.key = true) :
    (anv_merge_entry E st entry).1.bins[B]? = some a := by
  have hne : B ≠ entry.data := by
    intro heq
    rw [heq, hb] at hB
    simp only [Option.some.injEq] at hB
    subst hB
    rw [hkey] at hk
    rw [(anv_matches_iff E _ _).2 hk] at hm
    cases hm
  cases hx : _mesa_hash_table_search (shader_bin_key_hash_func E)
      shader_bin_key_compare_func st.2 bin.key with
  | some x =>
    rw [anv_merge_entry_eq_of_present E st entry hb (by rw [hx]; rfl)]
    exact hB
  | none =>
    rw [anv_merge_entry_eq_of_absent E st entry hb hx]
    simp only
    rw [anv_shader_bin_ref_get_ne _ hne]
    exact hB

theorem anv_merge_entries_absent (E : mesa_env)
    (sht : List (hash_entry anv_shader_bin_key Nat)) (K : anv_shader_bin_key)
    {B : Nat} {a : anv_shader_bin} (hk : shader_bin_key_compare_func K a.key = true) :
    ∀ (st : anv_device × List (hash_entry anv_shader_bin_key Nat)),
      (∀ e ∈ sht, ∃ b, st.1.bins[e.data]? = some b ∧ b.key = e.key) →
      _mesa_hash_table_search (shader_bin_key_hash_func E) shader_bin_key_compare_func
        sht K = none →
      st.1.bins[B]? = some a →
      (sht.foldl (anv_merge_entry E) st).1.bins[B]? = some a := by
  induction sht with
  | nil => intro st _ _ hB; exact hB
  | cons x xs ih =>
    intro st hkeyed hs hB
    rw [List.foldl_cons]
    rcases hkeyed x (List.mem_cons_self _ _) with ⟨b, hb, hkey⟩
    rw [hash_table_search_cons] at hs
    cases hm : hash_entry_matches (shader_bin_key_hash_func E)
        shader_bin_key_compare_func K x.key with
    | true => rw [hm] at hs; simp at hs
    | false =>
      rw [hm] at hs
      exact ih _ (anv_entries_keyed_mono (anv_merge_entry_heap E st x)
        (fun e he => hkeyed e (List.mem_cons_of_mem _ he))) hs
        (anv_merge_entry_absent E st x K hb hkey hm hB hk)

theorem anv_merge_entries_adds (E : mesa_env)
    (sht : List (hash_entry anv_shader_bin_key Nat)) (K : anv_shader_bin_key)
    {e : hash_entry anv_shader_bin_key Nat} :
    ∀ (st : anv_device × List (hash_entry anv_shader_bin_key Nat)),
      (∀ x ∈ sht, ∃ b, st.1.bins[x.data]? = some b ∧ b.key = x.key) →
      _mesa_hash_table_search (shader_bin_key_hash_func E) shader_bin_key_compare_func
        st.2 K = none →
      _mesa_hash_table_search (shader_bin_key_hash_func E) shader_bin_key_compare_func
        sht K = some e →
      ∃ b, st.1.bins[e.data]? = some b ∧ b.key = e.key ∧
        _mesa_hash_table_search (shader_bin_key_hash_func E) shader_bin_key_compare_func
          (sht.foldl (anv_merge_entry E) st).2 K = some e ∧
        (sht.foldl (anv_merge_entry E) st).1.bins[e.data]? =
          some { b with ref_cnt := b.ref_cnt + 1 } := by
  induction sht with
  | nil => intro st _ _ hs; cases hs
  | cons x xs ih =>
    intro st hkeyed hnone hs
    rw [List.foldl_cons]
    have hmem := hash_table_search_mem _ _ hs
    rcases hkeyed e hmem.1 with ⟨be, hbe, hkeye⟩
    rcases hkeyed x (List.mem_cons_self _ _) with ⟨b, hb, hkey⟩
    have hkeyed1 := anv_entries_keyed_mono (anv_merge_entry_heap E st x)
      (fun y hy => hkeyed y (List.mem_cons_of_mem _ hy))
    rw [hash_table_search_cons] at hs
    cases hm : hash_entry_matches (shader_bin_key_hash_func E)
        shader_bin_key_compare_func K x.key with
    | true =>
      rw [hm] at hs
      simp only [if_true, Option.some.injEq] at hs
      subst hs
      rw [hbe] at hb
      simp only [Option.some.injEq] at hb
      subst hb
      have hcmp : shader_bin_key_compare_func K be.key = true := by
        rw [hkey]
        exact (anv_matches_iff E _ _).1 hm
      have hx : _mesa_hash_table_search (shader_bin_key_hash_func E)
          shader_bin_key_compare_func st.2 be.key = none := by
        rw [← anv_table_search_congr E hcmp]
        exact hnone
      have hstep := anv_merge_entry_eq_of_absent E st x hbe hx
      have h1 : _mesa_hash_table_search (shader_bin_key_hash_func E)
          shader_bin_key_compare_func (anv_merge_entry E st x).2 K = some x := by
        rw [hstep]
        simp only
        rw [hash_table_search_append_of_none _ _ _ hnone, hkey, if_pos hm]
      have h2 : (anv_merge_entry E st x).1.bins[x.data]? =
          some { be with ref_cnt := be.ref_cnt + 1 } := by
        rw [hstep]
        simp only
        rw [anv_shader_bin_ref_get_self, hbe]
        rfl
      have h3 := anv_merge_entries_keeps E xs
        (show shader_bin_key_compare_func K
          ({ be with ref_cnt := be.ref_cnt + 1 } : anv_shader_bin).key = true from hcmp)
        _ h1 h2
      exact ⟨be, hbe, hkey, h3.1, h3.2⟩
    | false =>
      rw [hm] at hs
      simp only [Bool.false_eq_true, if_false] at hs
      have hnone1 : _mesa_hash_table_search (shader_bin_key_hash_func E)
          shader_bin_key_compare_func (anv_merge_entry E st x).2 K = none := by
        have := anv_merge_entry_holds E st x K hb hkey
        rw [hnone, hm] at this
        simpa using this
      have hcmp : shader_bin_key_compare_func K be.key = true := by
        rw [hkeye]
        exact (anv_matches_iff E _ _).1 hmem.2
      have hbe1 := anv_merge_entry_absent E st x K hb hkey hm hbe hcmp
      rcases ih _ hkeyed1 hnone1 hs with ⟨b1, hb1, _, hs1, hr1⟩
      rw [hbe1] at hb1
      simp only [Option.some.injEq] at hb1
      subst hb1
      exact ⟨be, hbe, hkeye, hs1, hr1⟩

theorem anv_world_holds_eq (E : mesa_env) {w : anv_world} {h : Nat}
    {c : anv_pipeline_cache} {ht : List (hash_entry anv_shader_bin_key Nat)}
    (hc : w.caches[h]? = some c) (hht : c.cache = some ht) (K : anv_shader_bin_key) :
    anv_world_holds E w h K =
      (_mesa_hash_table_search (shader_bin_key_hash_func E) shader_bin_key_compare_func
        ht K).isSome := by
  simp only [anv_world_holds, hc, hht]

theorem anv_world_holds_congr (E : mesa_env) {w w1 : anv_world} {h : Nat}
    (hc : w1.caches[h]? = w.caches[h]?) (K : anv_shader_bin_key) :
    anv_world_holds E w1 h K = anv_world_holds E w h K := by
  simp only [anv_world_holds, hc]

theorem anv_world_holds_iff (E : mesa_env) (w : anv_world) (h : Nat)
    (key_data : List Nat) (key_size : Nat) :
    anv_world_holds E w h { size := key_size, data := memcpy key_data key_size } = true ↔
      ∃ c, w.caches[h]? = some c ∧
        (anv_pipeline_cache_search_locked E c key_data key_size).isSome = true := by
  cases hc : w.caches[h]? with
  | none => simp [anv_world_holds, hc]
  | some c =>
    cases hht : c.cache with
    | none => simp [anv_world_holds, hc, hht, anv_search_locked_disabled E hht]
    | some ht =>
      rw [anv_world_holds_eq E hc hht]
      simp [anv_search_locked_eq E hht]

theorem anv_merge_source_eq (E : mesa_env) (destCache : Nat) (w : anv_world)
    (srcCache : Nat) {c : anv_pipeline_cache}
    {ht : List (hash_entry anv_shader_bin_key Nat)}
    (hc : w.caches[destCache]? = some c) (hht : c.cache = some ht) :
    ((w.caches[srcCache]? = none ∨
        ∃ src, w.caches[srcCache]? = some src ∧ src.cache = none) ∧
      anv_merge_source E destCache w srcCache = w) ∨
    ∃ src sht, w.caches[srcCache]? = some src ∧ src.cache = some sht ∧
      anv_merge_source E destCache w srcCache =
        { device := (sht.foldl (anv_merge_entry E) (w.device, ht)).1
          caches := w.caches.set destCache
            { c with cache := some (sht.foldl (anv_merge_entry E) (w.device, ht)).2 } } := by
  cases hsrc : w.caches[srcCache]? with
  | none =>
    refine Or.inl ⟨Or.inl rfl, ?_⟩
    simp only [anv_merge_source, hc, hsrc]
  | some src =>
    cases hsc : src.cache with
    | none =>
      refine Or.inl ⟨Or.inr ⟨src, rfl, hsc⟩, ?_⟩
      simp only [anv_merge_source, hc, hsrc, hht, hsc]
    | some sht =>
      refine Or.inr ⟨src, sht, rfl, hsc, ?_⟩
      simp only [anv_merge_source, hc, hsrc, hht, hsc]

theorem anv_world_set_self {w : anv_world} {h : Nat} {c : anv_pipeline_cache}
    {ht : List (hash_entry anv_shader_bin_key Nat)}
    (hc : w.caches[h]? = some c) (hht : c.cache = some ht) :
    ({ device := w.device
       caches := w.caches.set h { c with cache := some ht } } : anv_world) = w := by
  have h1 : ({ c with cache := some ht } : anv_pipeline_cache) = c := by
    cases c
    simp only at hht
    subst hht
    rfl
  rw [h1]
  have h2 : w.caches.set h c = w.caches := by
    apply List.ext_getElem?
    intro i
    rw [List.getElem?_set]
    by_cases hi : h = i
    · subst hi
      rw [if_pos rfl, hc]
      simp [(List.getElem?_eq_some_iff.1 hc).1]
    · rw [if_neg hi]
  rw [h2]

theorem anv_merge_source_spec (E : mesa_env) (destCache : Nat) (w : anv_world)
    (srcCache : Nat) (hw : anv_world_ok w) {c : anv_pipeline_cache}
    {ht : List (hash_entry anv_shader_bin_key Nat)}
    (hc : w.caches[destCache]? = some c) (hht : c.cache = some ht) :
    (∃ c1 ht1, (anv_merge_source E destCache w srcCache).caches[destCache]? = some c1 ∧
      c1.cache = some ht1) ∧
    (∀ h, h ≠ destCache →
      (anv_merge_source E destCache w srcCache).caches[h]? = w.caches[h]?) ∧
    (∀ K, anv_world_holds E (anv_merge_source E destCache w srcCache) destCache K =
      (anv_world_holds E w destCache K || anv_world_holds E w srcCache K)) ∧
    (∀ (K : anv_shader_bin_key) (B : Nat) (a : anv_shader_bin),
      anv_world_holds E w srcCache K = false → w.device.bins[B]? = some a →
      shader_bin_key_compare_func K a.key = true →
      (anv_merge_source E destCache w srcCache).device.bins[B]? = some a) := by
  rcases anv_merge_source_eq E destCache w srcCache hc hht with
    ⟨hsrc, hdef⟩ | ⟨src, sht, hsrc, hsc, hdef⟩
  · rw [hdef]
    refine ⟨⟨c, ht, hc, hht⟩, fun _ _ => rfl, ?_, fun _ _ _ _ hB _ => hB⟩
    intro K
    have : anv_world_holds E w srcCache K = false := by
      rcases hsrc with hsrc | ⟨src, hsrc, hsc⟩
      · simp only [anv_world_holds, hsrc]
      · simp only [anv_world_holds, hsrc, hsc]
    rw [this, Bool.or_false]
  · have hkeyed : ∀ e ∈ sht, ∃ b, w.device.bins[e.data]? = some b ∧ b.key = e.key :=
      (hw src (List.getElem?_mem hsrc) sht hsc).2
    have hget : (anv_merge_source E destCache w srcCache).caches[destCache]? =
        some { c with
          cache := some (sht.foldl (anv_merge_entry E) (w.device, ht)).2 } := by
      rw [hdef]
      simp only
      rw [anv_caches_set_get hc destCache _, if_pos rfl]
    refine ⟨⟨_, _, hget, rfl⟩, ?_, ?_, ?_⟩
    · intro h hne
      rw [hdef]
      simp only
      rw [List.getElem?_set_ne (Ne.symm hne)]
    · intro K
      rw [anv_world_holds_eq E hget rfl, anv_world_holds_eq E hc hht,
        anv_world_holds_eq E hsrc hsc]
      exact anv_merge_entries_holds E sht K (w.device, ht) hkeyed
    · intro K B a hnot hB hk
      rw [anv_world_holds_eq E hsrc hsc] at hnot
      rw [hdef]
      simp only
      refine anv_merge_entries_absent E sht K hk (w.device, ht) hkeyed ?_ hB
      cases hs : _mesa_hash_table_search (shader_bin_key_hash_func E)
          shader_bin_key_compare_func sht K with
      | none => rfl
      | some x => rw [hs] at hnot; cases hnot

theorem anv_merge_source_adds (E : mesa_env) (destCache : Nat) (w : anv_world)
    (srcCache : Nat) (hw : anv_world_ok w) {c : anv_pipeline_cache}
    {ht : List (hash_entry anv_shader_bin_key Nat)}
    (hc : w.caches[destCache]? = some c) (hht : c.cache = some ht)
    {K : anv_shader_bin_key}
    (hnone : _mesa_hash_table_search (shader_bin_key_hash_func E)
      shader_bin_key_compare_func ht K = none)
    {src : anv_pipeline_cache} {sht : List (hash_entry anv_shader_bin_key Nat)}
    {e : hash_entry anv_shader_bin_key Nat}
    (hsrc : w.caches[srcCache]? = some src) (hsc : src.cache = some sht)
    (hs : _mesa_hash_table_search (shader_bin_key_hash_func E)
      shader_bin_key_compare_func sht K = some e) :
    ∃ b, w.device.bins[e.data]? = some b ∧
      shader_bin_key_compare_func K b.key = true ∧
      (anv_merge_source E destCache w srcCache).device.bins[e.data]? =
        some { b with ref_cnt := b.ref_cnt + 1 } ∧
      ∃ c1 ht1, (anv_merge_source E destCache w srcCache).caches[destCache]? = some c1 ∧
        c1.cache = some ht1 ∧
        _mesa_hash_table_search (shader_bin_key_hash_func E)
          shader_bin_key_compare_func ht1 K = some e := by
  have hkeyed : ∀ e ∈ sht, ∃ b, w.device.bins[e.data]? = some b ∧ b.key = e.key :=
    (hw src (List.getElem?_mem hsrc) sht hsc).2
  have hdef : anv_merge_source E destCache w srcCache =
      { device := (sht.foldl (anv_merge_entry E) (w.device, ht)).1
        caches := w.caches.set destCache
          { c with cache := some (sht.foldl (anv_merge_entry E) (w.device, ht)).2 } } := by
    simp only [anv_merge_source, hc, hsrc, hht, hsc]
  rcases anv_merge_entries_adds E sht K (w.device, ht) hkeyed hnone hs with
    ⟨b, hb, hkey, hs1, hr1⟩
  refine ⟨b, hb, ?_, ?_, { c with
      cache := some (sht.foldl (anv_merge_entry E) (w.device, ht)).2 }, _, ?_, rfl, hs1⟩
  · rw [hkey]
    exact (anv_matches_iff E _ _).1 (hash_table_search_mem _ _ hs).2
  · rw [hdef]
    exact hr1
  · rw [hdef]
    simp only
    rw [anv_caches_set_get hc destCache _, if_pos rfl]

theorem anv_merge_source_noop (E : mesa_env) (destCache : Nat) (w : anv_world)
    (srcCache : Nat) (hw : anv_world_ok w)
    (hsub : ∀ K, anv_world_holds E w srcCache K = true →
      anv_world_holds E w destCache K = true) :
    anv_merge_source E destCache w srcCache = w := by
  cases hc : w.caches[destCache]? with
  | none => simp only [anv_merge_source, hc]
  | some c =>
    cases hht : c.cache with
    | none =>
      cases hsrc : w.caches[srcCache]? with
      | none => simp only [anv_merge_source, hc, hsrc]
      | some src => simp only [anv_merge_source, hc, hsrc, hht]
    | some ht =>
      rcases anv_merge_source_eq E destCache w srcCache hc hht with
        ⟨_, hdef⟩ | ⟨src, sht, hsrc, hsc, hdef⟩
      · exact hdef
      · rw [hdef, anv_merge_entries_noop E sht (w.device, ht)]
        · exact anv_world_set_self hc hht
        · intro e he
          rcases (hw src (List.getElem?_mem hsrc) sht hsc).2 e he with ⟨b, hb, hkey⟩
          refine ⟨b, hb, ?_⟩
          have h1 : anv_world_holds E w srcCache e.key = true := by
            rw [anv_world_holds_eq E hsrc hsc]
            cases hx : _mesa_hash_table_search (shader_bin_key_hash_func E)
                shader_bin_key_compare_func sht e.key with
            | some x => rfl
            | none =>
              have := (hash_table_search_none_iff _ _ _ _).1 hx e he
              rw [anv_matches_refl] at this
              cases this
          have h2 := hsub _ h1
          rw [anv_world_holds_eq E hc hht] at h2
          rw [hkey]
          exact h2

theorem anv_merge_sources_spec (E : mesa_env) (destCache : Nat) (srcs : List Nat) :
    ∀ w : anv_world, anv_world_ok w →
      (∃ c ht, w.caches[destCache]? = some c ∧ c.cache = some ht) →
      (∃ c1 ht1, (srcs.foldl (anv_merge_source E destCache) w).caches[destCache]? =
          some c1 ∧ c1.cache = some ht1) ∧
      (∀ h, h ≠ destCache →
        (srcs.foldl (anv_merge_source E destCache) w).caches[h]? = w.caches[h]?) ∧
      (∀ K, anv_world_holds E (srcs.foldl (anv_merge_source E destCache) w) destCache K =
        (anv_world_holds E w destCache K || srcs.any (fun s => anv_world_holds E w s K))) ∧
      (∀ (K : anv_shader_bin_key) (B : Nat) (a : anv_shader_bin),
        anv_world_holds E w destCache K = false →
        (∀ s ∈ srcs, anv_world_holds E w s K = false) →
        w.device.bins[B]? = some a →
        shader_bin_key_compare_func K a.key = true →
        (srcs.foldl (anv_merge_source E destCache) w).device.bins[B]? = some a) := by
  induction srcs with
  | nil =>
    intro w _ hd
    exact ⟨hd, fun _ _ => rfl, fun K => by simp, fun _ _ _ _ _ hB _ => hB⟩
  | cons x xs ih =>
    intro w hw hd
    rcases hd with ⟨c, ht, hc, hht⟩
    rw [List.foldl_cons]
    have hw1 := (anv_merge_source_ok E destCache w x hw).2
    rcases anv_merge_source_spec E destCache w x hw hc hht with ⟨hd1, hoth1, hholds1, habs1⟩
    rcases ih _ hw1 hd1 with ⟨hdN, hothN, hholdsN, habsN⟩
    have hany : ∀ (K : anv_shader_bin_key) (s : Nat),
        anv_world_holds E (anv_merge_source E destCache w x) s K =
          if s = destCache then
            (anv_world_holds E w destCache K || anv_world_holds E w x K)
          else anv_world_holds E w s K := by
      intro K s
      by_cases hs : s = destCache
      · subst hs
        rw [if_pos rfl, hholds1]
      · rw [if_neg hs]
        exact anv_world_holds_congr E (hoth1 s hs) K
    refine ⟨hdN, fun h hne => (hothN h hne).trans (hoth1 h hne), ?_, ?_⟩
    · intro K
      rw [hholdsN, hholds1, Bool.eq_iff_iff]
      simp only [Bool.or_eq_true, List.any_eq_true, List.mem_cons, hany]
      constructor
      · rintro (h | ⟨s, hs, h⟩)
        · rcases h with h | h
          · exact Or.inl h
          · exact Or.inr ⟨x, Or.inl rfl, h⟩
        · by_cases hsd : s = destCache
          · rw [if_pos hsd] at h
            simp only [Bool.or_eq_true] at h
            rcases h with h | h
            · exact Or.inl h
            · exact Or.inr ⟨x, Or.inl rfl, h⟩
          · rw [if_neg hsd] at h
            exact Or.inr ⟨s, Or.inr hs, h⟩
      · rintro (h | ⟨s, hs, h⟩)
        · exact Or.inl (Or.inl h)
        · rcases hs with hs | hs
          · subst hs
            exact Or.inl (Or.inr h)
          · by_cases hsd : s = destCache
            · subst hsd
              exact Or.inl (Or.inl h)
            · exact Or.inr ⟨s, hs, by rw [if_neg hsd]; exact h⟩
    · intro K B a hnd hns hB hk
      have hx : anv_world_holds E w x K = false := hns x (List.mem_cons_self _ _)
      refine habsN K B a ?_ ?_ (habs1 K B a hx hB hk) hk
      · rw [hholds1, hnd, hx]
        rfl
      · intro s hs
        rw [hany]
        by_cases hsd : s = destCache
        · rw [if_pos hsd, hnd, hx]
          rfl
        · rw [if_neg hsd]
          exact hns s (List.mem_cons_of_mem _ hs)

theorem anv_merge_sources_noop (E : mesa_env) (destCache : Nat) (srcs : List Nat)
    (w : anv_world) (hw : anv_world_ok w)
    (hsub : ∀ s ∈ srcs, ∀ K, anv_world_holds E w s K = true →
      anv_world_holds E w destCache K = true) :
    srcs.foldl (anv_merge_source E destCache) w = w := by
  induction srcs with
  | nil => rfl
  | cons x xs ih =>
    rw [List.foldl_cons,
      anv_merge_source_noop E destCache w x hw (hsub x (List.mem_cons_self _ _))]
    exact ih (fun s hs => hsub s (List.mem_cons_of_mem _ hs))

theorem anv_merge_eq_foldl (E : mesa_env) {w : anv_world} {destCache : Nat}
    {c : anv_pipeline_cache} {ht : List (hash_entry anv_shader_bin_key Nat)}
    (hc : w.caches[destCache]? = some c) (hht : c.cache = some ht)
    (srcCacheCount : Nat) (pSrcCaches : List Nat) :
    anv_MergePipelineCaches E w destCache srcCacheCount pSrcCaches =
      (pSrcCaches.take srcCacheCount).foldl (anv_merge_source E destCache) w := by
  simp only [anv_MergePipelineCaches, hc, hht]

theorem anv_merge_eq_of_disabled (E : mesa_env) {w : anv_world} {destCache : Nat}
    (h : ∀ c, w.caches[destCache]? = some c → c.cache = none)
    (srcCacheCount : Nat) (pSrcCaches : List Nat) :
    anv_MergePipelineCaches E w destCache srcCacheCount pSrcCaches = w := by
  cases hc : w.caches[destCache]? with
  | none => simp only [anv_MergePipelineCaches, hc]
  | some c => simp only [anv_MergePipelineCaches, hc, h c hc]

theorem anv_search_locked_isSome_iff (E : mesa_env) (c : anv_pipeline_cache)
    (key_data : List Nat) (key_size : Nat) {B : Nat} :
    anv_pipeline_cache_search_locked E c key_data key_size = some B ↔
      ∃ ht e, c.cache = some ht ∧
        _mesa_hash_table_search (shader_bin_key_hash_func E) shader_bin_key_compare_func
          ht { size := key_size, data := memcpy key_data key_size } = some e ∧
        e.data = B := by
  cases hht : c.cache with
  | none => simp [anv_search_locked_disabled E hht]
  | some ht =>
    rw [anv_search_locked_eq E hht]
    cases hx : _mesa_hash_table_search (shader_bin_key_hash_func E)
        shader_bin_key_compare_func ht
        { size := key_size, data := memcpy key_data key_size } with
    | none => simp [hx]
    | some x =>
      simp only [Option.map_some', Option.some.injEq]
      constructor
      · intro h
        exact ⟨ht, x, rfl, hx, h⟩
      · rintro ⟨ht1, e, h1, h2, h3⟩
        cases h1
        rw [hx] at h2
        cases h2
        exact h3

/-- C11: merging is additive.  In a world that satisfies the table invariant,
after `anv_MergePipelineCaches` into an enabled destination, a search of the
destination finds a key exactly when a search of the old destination or of
one of the sources found it; and a key that the old destination did not hold
and that `s` is the first source to hold, for the artifact `B`, resolves to
`B` in the destination, and `B` is as before with `ref_cnt` one higher. -/
theorem anv_merge_is_additive (E : mesa_env) (w : anv_world) (hw : anv_world_ok w)
    (destCache srcCacheCount : Nat) (pSrcCaches : List Nat)
    (dst : anv_pipeline_cache) (dht : List (hash_entry anv_shader_bin_key Nat))
    (hc : w.caches[destCache]? = some dst) (hen : dst.cache = some dht) :
    ∃ dst1,
      (anv_MergePipelineCaches E w destCache srcCacheCount pSrcCaches).caches[destCache]? =
        some dst1 ∧
      (∀ (key_data : List Nat) (key_size : Nat),
        (anv_pipeline_cache_search_locked E dst1 key_data key_size).isSome = true ↔
          (anv_pipeline_cache_search_locked E dst key_data key_size).isSome = true ∨
          ∃ s ∈ pSrcCaches.take srcCacheCount, ∃ src, w.caches[s]? = some src ∧
            (anv_pipeline_cache_search_locked E src key_data key_size).isSome = true) ∧
      (∀ (key_data : List Nat) (key_size : Nat) (S1 : List Nat) (s : Nat) (S2 : List Nat)
          (src : anv_pipeline_cache) (B : Nat),
        pSrcCaches.take srcCacheCount = S1 ++ s :: S2 →
        anv_pipeline_cache_search_locked E dst key_data key_size = none →
        (∀ s1 ∈ S1, ∀ src1, w.caches[s1]? = some src1 →
          anv_pipeline_cache_search_locked E src1 key_data key_size = none) →
        w.caches[s]? = some src →
        anv_pipeline_cache_search_locked E src key_data key_size = some B →
        anv_pipeline_cache_search_locked E dst1 key_data key_size = some B ∧
        ∃ b, w.device.bins[B]? = some b ∧
          (anv_MergePipelineCaches E w destCache srcCacheCount
            pSrcCaches).device.bins[B]? = some { b with ref_cnt := b.ref_cnt + 1 }) := by
  rw [anv_merge_eq_foldl E hc hen]
  rcases anv_merge_sources_spec E destCache (pSrcCaches.take srcCacheCount) w hw
    ⟨dst, dht, hc, hen⟩ with ⟨⟨dst1, dht1, hc1, hen1⟩, _, hholds, _⟩
  refine ⟨dst1, hc1, ?_, ?_⟩
  · intro key_data key_size
    have h := hholds { size := key_size, data := memcpy key_data key_size }
    rw [anv_world_holds_eq E hc1 hen1, anv_world_holds_eq E hc hen, Bool.eq_iff_iff] at h
    rw [anv_search_locked_eq E hen1, anv_search_locked_eq E hen, Option.isSome_map',
      Option.isSome_map', h]
    simp only [Bool.or_eq_true, List.any_eq_true, anv_world_holds_iff]
  · intro key_data key_size S1 s S2 src B hsplit hdnone hS1 hsrc hsB
    rcases (anv_search_locked_isSome_iff E src key_data key_size).1 hsB with
      ⟨sht, e, hsc, hse, heB⟩
    subst heB
    have hdn : _mesa_hash_table_search (shader_bin_key_hash_func E)
        shader_bin_key_compare_func dht
        { size := key_size, data := memcpy key_data key_size } = none := by
      rw [anv_search_locked_eq E hen] at hdnone
      cases hx : _mesa_hash_table_search (shader_bin_key_hash_func E)
          shader_bin_key_compare_func dht
          { size := key_size, data := memcpy key_data key_size } with
      | none => rfl
      | some x => rw [hx] at hdnone; cases hdnone
    have hsd : s ≠ destCache := by
      intro heq
      subst heq
      rw [hc] at hsrc
      simp only [Option.some.injEq] at hsrc
      subst hsrc
      rw [hen] at hsc
      simp only [Option.some.injEq] at hsc
      subst hsc
      rw [hdn] at hse
      cases hse
    rcases (hw src (List.getElem?_mem hsrc) sht hsc).2 e
      (hash_table_search_mem _ _ hse).1 with ⟨b, hb, hkey⟩
    have hk : shader_bin_key_compare_func
        { size := key_size, data := memcpy key_data key_size } b.key = true := by
      rw [hkey]
      exact (anv_matches_iff E _ _).1 (hash_table_search_mem _ _ hse).2
    rw [hsplit, List.foldl_append, List.foldl_cons] at hc1 ⊢
    have hw1 := (anv_merge_sources_ok E destCache S1 w hw).2
    rcases anv_merge_sources_spec E destCache S1 w hw ⟨dst, dht, hc, hen⟩ with
      ⟨⟨c1, ht1, hcc1, hht1⟩, hoth1, hholds1, habs1⟩
    have hd0 : anv_world_holds E w destCache
        { size := key_size, data := memcpy key_data key_size } = false := by
      rw [anv_world_holds_eq E hc hen, hdn]
      rfl
    have hs0 : ∀ s1 ∈ S1, anv_world_holds E w s1
        { size := key_size, data := memcpy key_data key_size } = false := by
      intro s1 hs1
      cases hx : anv_world_holds E w s1
          { size := key_size, data := memcpy key_data key_size } with
      | false => rfl
      | true =>
        rcases (anv_world_holds_iff E w s1 key_data key_size).1 hx with ⟨src1, h1, h2⟩
        rw [hS1 s1 hs1 src1 h1] at h2
        cases h2
    have hb1 := habs1 _ e.data b hd0 hs0 hb hk
    have hn1 : _mesa_hash_table_search (shader_bin_key_hash_func E)
        shader_bin_key_compare_func ht1
        { size := key_size, data := memcpy key_data key_size } = none := by
      have h := hholds1 { size := key_size, data := memcpy key_data key_size }
      rw [hd0, anv_world_holds_eq E hcc1 hht1] at h
      have hany : (S1.any fun s => anv_world_holds E w s
          { size := key_size, data := memcpy key_data key_size }) = false := by
        rw [List.any_eq_false]
        intro s1 hs1
        rw [hs0 s1 hs1]
        simp
      rw [hany] at h
      cases hx : _mesa_hash_table_search (shader_bin_key_hash_func E)
          shader_bin_key_compare_func ht1
          { size := key_size, data := memcpy key_data key_size } with
      | none => rfl
      | some x => rw [hx] at h; cases h
    have hsrc1 : (S1.foldl (anv_merge_source E destCache) w).caches[s]? = some src := by
      rw [hoth1 s hsd]
      exact hsrc
    rcases anv_merge_source_adds E destCache _ s hw1 hcc1 hht1 hn1 hsrc1 hsc hse with
      ⟨b2, hb2, hk2, hr2, c2, ht2, hc2, hht2, hs2⟩
    rw [hb1] at hb2
    simp only [Option.some.injEq] at hb2
    subst hb2
    have h3 := anv_merge_sources_keeps E destCache S2
      (show shader_bin_key_compare_func
        { size := key_size, data := memcpy key_data key_size }
        ({ b with ref_cnt := b.ref_cnt + 1 } : anv_shader_bin).key = true from hk) _
      ⟨c2, ht2, hc2, hht2, hs2⟩ hr2
    rcases h3 with ⟨⟨c3, ht3, hc3, hht3, hs3⟩, hr3⟩
    rw [hc1] at hc3
    simp only [Option.some.injEq] at hc3
    subst hc3
    refine ⟨?_, b, hb, hr3⟩
    rw [anv_search_locked_eq E hht3, hs3]
    rfl

/-- Witness for C11: merging the caches 1 and 0 into cache 0 of the example
world adds the key `5` of cache 1, for artifact 2 with one more reference. -/
theorem anv_merge_is_additive_witness :
    ∃ dst1,
      (anv_MergePipelineCaches example_env example_world_two 0 2 [1, 0]).caches[0]? =
        some dst1 ∧
      anv_pipeline_cache_search_locked example_env dst1 [5] 1 = some 2 ∧
      ∃ b, example_world_two.device.bins[2]? = some b ∧
        (anv_MergePipelineCaches example_env example_world_two 0 2
          [1, 0]).device.bins[2]? = some { b with ref_cnt := b.ref_cnt + 1 } :=
  (anv_merge_is_additive example_env example_world_two
    (anv_run_ok example_env example_calls_two _ (anv_world_ok_empty example_device))
    0 2 [1, 0] example_cache_one [⟨⟨3, [1, 2, 3]⟩, 0⟩] rfl rfl).imp
    (fun _ h =>
      ⟨h.1, h.2.2 [5] 1 [] 1 [0]
        { cache := some [⟨⟨3, [1, 2, 3]⟩, 1⟩, ⟨⟨1, [5]⟩, 2⟩], nir_cache := some [] } 2
        rfl rfl (fun _ h1 => by cases h1) rfl rfl⟩)

/-- C12: merging is a no-op in the degenerate cases.  In a world that
satisfies the table invariant, `anv_MergePipelineCaches` of a cache into
itself, and of a source that is disabled or has an empty table, leaves the
whole state as it was: every table and every artifact with its `ref_cnt`;
and a second merge of the same sources into the same destination leaves the
state that the first merge produced. -/
theorem anv_merge_degenerate_is_noop (E : mesa_env) (w : anv_world)
    (hw : anv_world_ok w) (C : Nat) :
    anv_MergePipelineCaches E w C 1 [C] = w ∧
    (∀ s : Nat,
      (∀ src, w.caches[s]? = some src → src.cache = none ∨ src.cache = some []) →
      anv_MergePipelineCaches E w C 1 [s] = w) ∧
    (∀ (srcCacheCount : Nat) (pSrcCaches : List Nat),
      anv_MergePipelineCaches E
        (anv_MergePipelineCaches E w C srcCacheCount pSrcCaches) C srcCacheCount
        pSrcCaches =
      anv_MergePipelineCaches E w C srcCacheCount pSrcCaches) := by
  cases hc : w.caches[C]? with
  | none =>
    have h0 : ∀ n l, anv_MergePipelineCaches E w C n l = w := fun n l =>
      anv_merge_eq_of_disabled E (fun c hcc => by rw [hc] at hcc; cases hcc) n l
    refine ⟨h0 _ _, fun _ _ => h0 _ _, fun n l => ?_⟩
    rw [h0, h0]
  | some c =>
    cases hht : c.cache with
    | none =>
      have h0 : ∀ n l, anv_MergePipelineCaches E w C n l = w := fun n l =>
        anv_merge_eq_of_disabled E (fun c1 hcc => by
          rw [hc] at hcc
          simp only [Option.some.injEq] at hcc
          subst hcc
          exact hht) n l
      refine ⟨h0 _ _, fun _ _ => h0 _ _, fun n l => ?_⟩
      rw [h0, h0]
    | some ht =>
      refine ⟨?_, ?_, ?_⟩
      · rw [anv_merge_eq_foldl E hc hht]
        exact anv_merge_sources_noop E C _ w hw (fun s hs K h => by
          simp only [List.take_succ_cons, List.take_zero, List.mem_singleton] at hs
          subst hs
          exact h)
      · intro s hs
        rw [anv_merge_eq_foldl E hc hht]
        refine anv_merge_sources_noop E C _ w hw (fun s1 hs1 K h => ?_)
        simp only [List.take_succ_cons, List.take_zero, List.mem_singleton] at hs1
        subst hs1
        exfalso
        cases hsrc : w.caches[s1]? with
        | none => simp [anv_world_holds, hsrc] at h
        | some src =>
          rcases hs src hsrc with h1 | h1
          · simp [anv_world_holds, hsrc, h1] at h
          · simp [anv_world_holds, hsrc, h1, hash_table_search_nil] at h
      · intro n l
        rw [anv_merge_eq_foldl E hc hht]
        rcases anv_merge_sources_spec E C (l.take n) w hw ⟨c, ht, hc, hht⟩ with
          ⟨⟨c1, ht1, hc1, hht1⟩, hoth, hholds, _⟩
        rw [anv_merge_eq_foldl E hc1 hht1]
        refine anv_merge_sources_noop E C _ _ (anv_merge_sources_ok E C _ w hw).2
          (fun s hs K h => ?_)
        by_cases hsC : s = C
        · subst hsC
          exact h
        · rw [anv_world_holds_congr E (hoth s hsC)] at h
          rw [hholds, Bool.or_eq_true, List.any_eq_true]
          exact Or.inr ⟨s, hs, h⟩

/-- Witness for C12: in the example world with two caches, merging cache 0
into itself changes nothing, and the merge of the caches 1 and 0 into cache
0 changes nothing when it is done a second time. -/
theorem anv_merge_degenerate_is_noop_witness :
    anv_MergePipelineCaches example_env example_world_two 0 1 [0] = example_world_two ∧
    anv_MergePipelineCaches example_env
      (anv_MergePipelineCaches example_env example_world_two 0 2 [1, 0]) 0 2 [1, 0] =
      anv_MergePipelineCaches example_env example_world_two 0 2 [1, 0] :=
  ⟨(anv_merge_degenerate_is_noop example_env example_world_two
      (anv_run_ok example_env example_calls_two _ (anv_world_ok_empty example_device))
      0).1,
   (anv_merge_degenerate_is_noop example_env example_world_two
      (anv_run_ok example_env example_calls_two _ (anv_world_ok_empty example_device))
      0).2.2 2 [1, 0]⟩

/-! ## Serialisation: one entry written and read back -/

theorem ALIGN_four_ge (n : Nat) : n ≤ ALIGN n 4 := by
  unfold ALIGN
  omega

theorem getD_append_mid (pre l post : List Nat) (i : Nat) (hi : i < l.length) :
    (pre ++ l ++ post).getD (pre.length + i) 0 = l.getD i 0 := by
  rw [List.getD_eq_getElem?_getD, List.getD_eq_getElem?_getD, List.append_assoc,
    List.getElem?_append_right (by omega), Nat.add_sub_cancel_left,
    List.getElem?_append_left hi]

theorem load_uint32_append_mid (pre l post : List Nat) (off : Nat)
    (h : off + 4 ≤ l.length) :
    load_uint32 (pre ++ l ++ post) (pre.length + off) = load_uint32 l off := by
  unfold load_uint32
  rw [Nat.add_assoc pre.length off 1, Nat.add_assoc pre.length off 2,
    Nat.add_assoc pre.length off 3,
    getD_append_mid pre l post off (by omega),
    getD_append_mid pre l post (off + 1) (by omega),
    getD_append_mid pre l post (off + 2) (by omega),
    getD_append_mid pre l post (off + 3) (by omega)]

theorem load_uint32_append_left (l post : List Nat) (off : Nat)
    (h : off + 4 ≤ l.length) :
    load_uint32 (l ++ post) off = load_uint32 l off := by
  have := load_uint32_append_mid [] l post off h
  simpa using this

theorem load_uint16_append_left (l post : List Nat) (off : Nat)
    (h : off + 2 ≤ l.length) :
    load_uint16 (l ++ post) off = load_uint16 l off := by
  unfold load_uint16
  have h0 := getD_append_mid [] l post off (by omega)
  have h1 := getD_append_mid [] l post (off + 1) (by omega)
  simp only [List.nil_append, List.length_nil, Nat.zero_add] at h0 h1
  rw [h0, h1]

theorem load_uint32_uint32_bytes (v : Nat) (hv : v < 4294967296) :
    load_uint32 (uint32_bytes v) 0 = v := by
  simp only [load_uint32, uint32_bytes, List.getD_cons_zero, List.getD_cons_succ,
    Nat.zero_add]
  omega

theorem uint32_bytes_length (v : Nat) : (uint32_bytes v).length = 4 := rfl

theorem blob_source_eq {bytes : List Nat} {n : Nat} (h : bytes.length = n) :
    blob_source bytes n = bytes := by
  unfold blob_source memcpy
  rw [← h, List.take_length, Nat.sub_self]
  simp

theorem blob_source_length (bytes : List Nat) (n : Nat) :
    (blob_source bytes n).length = n := by
  unfold blob_source memcpy
  rw [List.length_append, List.length_take, List.length_replicate]
  omega

theorem grow_to_fit_ok (b : blob) (n : Nat)
    (h : (grow_to_fit b n).2.out_of_memory = false) :
    b.out_of_memory = false ∧ (grow_to_fit b n).1 = true ∧
      (grow_to_fit b n).2.data = b.data := by
  unfold grow_to_fit at h ⊢
  repeat' split
  all_goals simp_all

theorem grow_to_fit_sticky (b : blob) (n : Nat) (h : (grow_to_fit b n).1 = false) :
    (grow_to_fit b n).2.out_of_memory = true := by
  by_cases h1 : b.out_of_memory = true
  · simp [grow_to_fit, h1]
  · by_cases h2 : b.size + n ≤ b.allocated
    · simp [grow_to_fit, h1, h2] at h
    · by_cases h3 : b.fixed_allocation = true
      · simp [grow_to_fit, h1, h2, h3]
      · simp [grow_to_fit, h1, h2, h3] at h

theorem blob_write_bytes_ok (b : blob) (bytes : List Nat) (n : Nat)
    (h : (blob_write_bytes b bytes n).2.out_of_memory = false) :
    b.out_of_memory = false ∧
      (blob_write_bytes b bytes n).2.data = b.data ++ blob_source bytes n := by
  unfold blob_write_bytes at h ⊢
  rcases hg : grow_to_fit b n with ⟨ok, b1⟩
  rw [hg] at h
  cases ok
  · simp only at h
    have := grow_to_fit_sticky b n (by rw [hg])
    rw [hg] at this
    simp only at this
    rw [this] at h
    cases h
  · simp only at h ⊢
    have := grow_to_fit_ok b n (by rw [hg]; exact h)
    rw [hg] at this
    simp only at this
    exact ⟨this.1, by rw [this.2.2]⟩

theorem align_blob_ok (b : blob)
    (h : (align_blob b 4).2.out_of_memory = false) :
    b.out_of_memory = false ∧
      (align_blob b 4).2.data = b.data ++ List.replicate (ALIGN b.size 4 - b.size) 0 := by
  unfold align_blob at h ⊢
  by_cases hlt : b.size < ALIGN b.size 4
  · rw [if_pos hlt] at h ⊢
    rcases hg : grow_to_fit b (ALIGN b.size 4 - b.size) with ⟨ok, b1⟩
    rw [hg] at h
    cases ok
    · simp only at h
      have := grow_to_fit_sticky b _ (by rw [hg])
      rw [hg] at this
      simp only at this
      rw [this] at h
      cases h
    · simp only at h ⊢
      have := grow_to_fit_ok b _ (by rw [hg]; exact h)
      rw [hg] at this
      simp only at this
      exact ⟨this.1, by rw [this.2.2]⟩
  · rw [if_neg hlt] at h ⊢
    have : ALIGN b.size 4 - b.size = 0 := by omega
    rw [this]
    simp only at h
    exact ⟨h, by simp⟩

theorem blob_write_uint32_ok (b : blob) (v : Nat)
    (h : (blob_write_uint32 b v).2.out_of_memory = false) :
    b.out_of_memory = false ∧
      (blob_write_uint32 b v).2.data =
        b.data ++ List.replicate (ALIGN b.size 4 - b.size) 0 ++ uint32_bytes v := by
  unfold blob_write_uint32 at h ⊢
  have h1 := blob_write_bytes_ok _ _ _ h
  have h2 := align_blob_ok b h1.1
  rw [h1.2, h2.2, blob_source_eq (uint32_bytes_length v)]
  exact ⟨h2.1, rfl⟩

theorem blob_read_bytes_ok (M : List Nat) (e cur n : Nat) (h : cur + n ≤ e) :
    blob_read_bytes { data := M, end_ := e, current := cur, overrun := false } n =
      (some cur, { data := M, end_ := e, current := cur + n, overrun := false }) := by
  have h1 : cur ≤ e ∧ n ≤ e - cur := by omega
  simp [blob_read_bytes, ensure_can_read, h1]

theorem blob_read_uint32_ok (M : List Nat) (e cur : Nat) (h : ALIGN cur 4 + 4 ≤ e) :
    blob_read_uint32 { data := M, end_ := e, current := cur, overrun := false } =
      (load_uint32 M (ALIGN cur 4),
       { data := M, end_ := e, current := ALIGN cur 4 + 4, overrun := false }) := by
  have h1 : ALIGN cur 4 ≤ e ∧ 4 ≤ e - ALIGN cur 4 := by omega
  simp [blob_read_uint32, ensure_can_read, h1]

theorem load_uint32_drop (M : List Nat) (lo off : Nat) :
    load_uint32 (M.drop lo) off = load_uint32 M (lo + off) := by
  unfold load_uint32
  simp only [List.getD_eq_getElem?_getD, List.getElem?_drop, Nat.add_assoc]

theorem drop_of_drop_eq {M pre l : List Nat} {lo n : Nat} (hlo : lo ≤ n)
    (hpre : pre.length = n - lo) (h : M.drop lo = pre ++ l) : M.drop n = l := by
  have h1 : M.drop n = (M.drop lo).drop (n - lo) := by
    rw [List.drop_drop]
    congr 1
    omega
  rw [h1, h, ← hpre]
  exact List.drop_left _ _

/-- A write of bytes that the blob took, seen from a reader whose memory
holds, from the offset `lo` on, the bytes of the blob: the reader at the
offset of the write reads the same bytes and ends at the size of the blob. -/
theorem blob_write_bytes_read (b : blob) (bytes : List Nat) (n : Nat)
    (M : List Nat) (e lo : Nat) (hlo : lo ≤ b.size)
    (h : (blob_write_bytes b bytes n).2.out_of_memory = false ∧
      (blob_write_bytes b bytes n).2.data.drop lo <+: M.drop lo ∧
      (blob_write_bytes b bytes n).2.size ≤ e) :
    (b.out_of_memory = false ∧ b.data.drop lo <+: M.drop lo ∧ b.size ≤ e) ∧
    blob_read_bytes { data := M, end_ := e, current := b.size, overrun := false } n =
      (some b.size,
       { data := M, end_ := e, current := (blob_write_bytes b bytes n).2.size,
         overrun := false }) ∧
    b.size ≤ (blob_write_bytes b bytes n).2.size ∧
    ∃ t, M.drop b.size = blob_source bytes n ++ t := by
  rcases h with ⟨hoom, ⟨t, ht⟩, hsz⟩
  have hw := blob_write_bytes_ok b bytes n hoom
  have hlen : (blob_write_bytes b bytes n).2.size = b.size + n := by
    unfold blob.size
    rw [hw.2, List.length_append, blob_source_length]
  unfold blob.size at hlo
  rw [hw.2, List.drop_append_of_le_length hlo, List.append_assoc] at ht
  refine ⟨⟨hw.1, ⟨blob_source bytes n ++ t, ht⟩, by omega⟩, ?_, by omega, ⟨t, ?_⟩⟩
  · rw [hlen]
    exact blob_read_bytes_ok M e b.size n (by omega)
  · exact drop_of_drop_eq hlo (by rw [List.length_drop]; rfl) ht.symm

/-- A write of a 32 bit value that the blob took, seen from a reader whose
memory holds, from the offset `lo` on, the bytes of the blob. -/
theorem blob_write_uint32_read (b : blob) (v : Nat) (hv : v < 4294967296)
    (M : List Nat) (e lo : Nat) (hlo : lo ≤ b.size)
    (h : (blob_write_uint32 b v).2.out_of_memory = false ∧
      (blob_write_uint32 b v).2.data.drop lo <+: M.drop lo ∧
      (blob_write_uint32 b v).2.size ≤ e) :
    (b.out_of_memory = false ∧ b.data.drop lo <+: M.drop lo ∧ b.size ≤ e) ∧
    blob_read_uint32 { data := M, end_ := e, current := b.size, overrun := false } =
      (v, { data := M, end_ := e, current := (blob_write_uint32 b v).2.size,
            overrun := false }) ∧
    b.size ≤ (blob_write_uint32 b v).2.size := by
  rcases h with ⟨hoom, ⟨t, ht⟩, hsz⟩
  have hw := blob_write_uint32_ok b v hoom
  have hge := ALIGN_four_ge b.size
  have hlen : (blob_write_uint32 b v).2.size = ALIGN b.size 4 + 4 := by
    unfold blob.size at hge ⊢
    rw [hw.2, List.length_append, List.length_append, List.length_replicate,
      uint32_bytes_length]
    unfold blob.size
    omega
  have hlo1 : lo ≤ b.data.length := hlo
  rw [hw.2, List.append_assoc, List.drop_append_of_le_length hlo1, List.append_assoc] at ht
  refine ⟨⟨hw.1, ⟨List.replicate (ALIGN b.size 4 - b.size) 0 ++ uint32_bytes v ++ t,
    by rw [← ht]⟩, by omega⟩, ?_, by omega⟩
  rw [hlen, blob_read_uint32_ok M e b.size (by omega)]
  have hl : load_uint32 M (ALIGN b.size 4) = v := by
    have h1 := load_uint32_append_mid
      (b.data.drop lo ++ List.replicate (ALIGN b.size 4 - b.size) 0) (uint32_bytes v) t 0
      (by rw [uint32_bytes_length])
    rw [load_uint32_uint32_bytes v hv] at h1
    have h2 : List.drop lo M =
        List.drop lo b.data ++ List.replicate (ALIGN b.size 4 - b.size) 0 ++
          uint32_bytes v ++ t := by
      rw [← ht]
      simp
    rw [← h2, load_uint32_drop] at h1
    rw [← h1]
    congr 1
    rw [List.length_append, List.length_replicate, List.length_drop]
    unfold blob.size at hge ⊢
    omega
  rw [hl]

theorem grow_to_fit_data (b : blob) (n : Nat) : (grow_to_fit b n).2.data = b.data := by
  unfold grow_to_fit
  repeat' split
  all_goals rfl

theorem blob_write_bytes_mono (b : blob) (bytes : List Nat) (n : Nat) :
    b.size ≤ (blob_write_bytes b bytes n).2.size := by
  have hg := grow_to_fit_data b n
  unfold blob_write_bytes blob.size
  rcases h : grow_to_fit b n with ⟨ok, b1⟩
  rw [h] at hg
  simp only at hg
  cases ok
  · simp only
    rw [hg]
  · simp only
    rw [hg, List.length_append]
    omega

theorem align_blob_mono (b : blob) : b.size ≤ (align_blob b 4).2.size := by
  unfold align_blob
  split
  · have hg := grow_to_fit_data b (ALIGN b.size 4 - b.size)
    unfold blob.size at hg ⊢
    rcases h : grow_to_fit b (ALIGN b.data.length 4 - b.data.length) with ⟨ok, b1⟩
    rw [h] at hg
    simp only at hg
    cases ok
    · simp only
      rw [hg]
    · simp only
      rw [hg, List.length_append]
      omega
  · exact Nat.le_refl _

theorem blob_write_uint32_mono (b : blob) (v : Nat) :
    b.size ≤ (blob_write_uint32 b v).2.size := by
  unfold blob_write_uint32
  exact Nat.le_trans (align_blob_mono b) (blob_write_bytes_mono _ _ _)

theorem memcpy_append_left (l t : List Nat) {n : Nat} (h : l.length = n) :
    memcpy (l ++ t) n = l := by
  unfold memcpy
  rw [← h, List.take_left]

theorem memcpy_self (l : List Nat) {n : Nat} (h : l.length = n) : memcpy l n = l := by
  unfold memcpy
  rw [← h, List.take_length]

/-- The result of `anv_shader_bin_create` depends on its array arguments
through the bytes that it copies. -/
theorem anv_shader_bin_create_congr (E : mesa_env) (device : anv_device)
    (key_size kernel_size constant_data_size prog_data_size : Nat)
    (surface_count sampler_count : Nat)
    (kd kd1 kn kn1 cd cd1 pd pd1 pp pp1 sd sd1 sm sm1 : List Nat)
    (xfb xfb1 : Option (List Nat))
    (hkd : memcpy kd key_size = memcpy kd1 key_size)
    (hkn : memcpy kn kernel_size = memcpy kn1 kernel_size)
    (hcd : memcpy cd constant_data_size = memcpy cd1 constant_data_size)
    (hpd : memcpy pd prog_data_size = memcpy pd1 prog_data_size)
    (hpp : memcpy pp (load_uint32 (memcpy pd1 prog_data_size) E.nr_params_offset * 4) =
      memcpy pp1 (load_uint32 (memcpy pd1 prog_data_size) E.nr_params_offset * 4))
    (hxfb : xfb.map (fun x =>
        memcpy x (nir_xfb_info_size E (load_uint16 x E.output_count_offset))) =
      xfb1.map (fun x =>
        memcpy x (nir_xfb_info_size E (load_uint16 x E.output_count_offset))))
    (hsd : memcpy sd (surface_count * E.sizeof_pipeline_binding) =
      memcpy sd1 (surface_count * E.sizeof_pipeline_binding))
    (hsm : memcpy sm (sampler_count * E.sizeof_pipeline_binding) =
      memcpy sm1 (sampler_count * E.sizeof_pipeline_binding)) :
    anv_shader_bin_create E device kd key_size kn kernel_size cd constant_data_size
      pd prog_data_size pp xfb
      { surface_count := surface_count, sampler_count := sampler_count
        surface_to_descriptor := sd, sampler_to_descriptor := sm } =
    anv_shader_bin_create E device kd1 key_size kn1 kernel_size cd1 constant_data_size
      pd1 prog_data_size pp1 xfb1
      { surface_count := surface_count, sampler_count := sampler_count
        surface_to_descriptor := sd1, sampler_to_descriptor := sm1 } := by
  cases xfb with
  | none =>
    cases xfb1 with
    | none =>
      unfold anv_shader_bin_create
      simp only [hkd, hkn, hcd, hpd, hpp, hsd, hsm]
    | some y => simp at hxfb
  | some x =>
    cases xfb1 with
    | none => simp at hxfb
    | some y =>
      simp only [Option.map_some', Option.some.injEq] at hxfb
      unfold anv_shader_bin_create
      simp only [hkd, hkn, hcd, hpd, hpp, hxfb, hsd, hsm]

/-- The two writes of the transform feedback data, seen from a reader whose
memory holds, from the offset `lo` on, the bytes of the blob. -/
theorem anv_xfb_write_read (E : mesa_env) (hE : mesa_env_wf E)
    (xfb : Option (List Nat))
    (b : blob) (M : List Nat) (e lo : Nat) (hlo : lo ≤ b.size) (b1 : blob)
    (hb1 : b1 =
      match xfb with
      | some x =>
        (blob_write_bytes
          (blob_write_uint32 b
            (nir_xfb_info_size E (load_uint16 x E.output_count_offset) % 4294967296)).2 x
          (nir_xfb_info_size E (load_uint16 x E.output_count_offset) % 4294967296)).2
      | none => (blob_write_uint32 b 0).2)
    (h : b1.out_of_memory = false ∧ b1.data.drop lo <+: M.drop lo ∧ b1.size ≤ e)
    (hwf : ∀ x, xfb = some x →
      x.length = nir_xfb_info_size E (load_uint16 x E.output_count_offset) ∧
      nir_xfb_info_size E (load_uint16 x E.output_count_offset) < 4294967296) :
    (b.out_of_memory = false ∧ b.data.drop lo <+: M.drop lo ∧ b.size ≤ e) ∧
    ∃ xs cur xoff,
      blob_read_uint32 { data := M, end_ := e, current := b.size, overrun := false } =
        (xs, { data := M, end_ := e, current := cur, overrun := false }) ∧
      (if xs ≠ 0 then
          blob_read_bytes { data := M, end_ := e, current := cur, overrun := false } xs
        else (none, { data := M, end_ := e, current := cur, overrun := false })) =
        (xoff, { data := M, end_ := e, current := b1.size, overrun := false }) ∧
      (match xoff with
        | some off => some (M.drop off)
        | none => none).map (fun x =>
          memcpy x (nir_xfb_info_size E (load_uint16 x E.output_count_offset))) = xfb := by
  cases xfb with
  | none =>
    simp only at hb1
    rw [hb1] at h
    have S := blob_write_uint32_read b 0 (by decide) M e lo hlo h
    rw [← hb1] at S
    exact ⟨S.1, 0, b1.size, none, S.2.1, by simp, rfl⟩
  | some x =>
    simp only at hb1
    rcases hwf x rfl with ⟨hlen, hlt⟩
    rw [Nat.mod_eq_of_lt hlt] at hb1
    rw [hb1] at h
    have S2 := blob_write_bytes_read _ x _ M e lo
      (Nat.le_trans hlo (blob_write_uint32_mono b _)) h
    rcases S2 with ⟨W1, R2, _, t, T2⟩
    have S1 := blob_write_uint32_read b _ hlt M e lo hlo W1
    rcases S1 with ⟨W0, R1, _⟩
    rw [← hb1] at R2
    have hpos : nir_xfb_info_size E (load_uint16 x E.output_count_offset) ≠ 0 := by
      unfold nir_xfb_info_size
      unfold mesa_env_wf at hE
      omega
    refine ⟨W0, nir_xfb_info_size E (load_uint16 x E.output_count_offset),
      (blob_write_uint32 b
        (nir_xfb_info_size E (load_uint16 x E.output_count_offset))).2.size,
      some (blob_write_uint32 b
        (nir_xfb_info_size E (load_uint16 x E.output_count_offset))).2.size,
      R1, ?_, ?_⟩
    · rw [if_pos hpos]
      exact R2
    · simp only [Option.map_some', Option.some.injEq]
      rw [T2, blob_source_eq hlen]
      have hl : load_uint16 (x ++ t) E.output_count_offset =
          load_uint16 x E.output_count_offset := by
        apply load_uint16_append_left
        rw [hlen]
        unfold nir_xfb_info_size
        unfold mesa_env_wf at hE
        omega
      rw [hl]
      exact memcpy_append_left x t hlen

/-- One entry written by `anv_shader_bin_write_to_blob` and read back: when
the write succeeds and the memory of the reader holds, from an offset `lo`
before the entry on, the bytes of the blob, `anv_shader_bin_create_from_blob`
at the offset of the entry reads the fields of the binary, ends at the size
of the blob, and creates the binary that `anv_shader_bin_create` makes of the
fields of the written one. -/
theorem anv_write_read_entry (E : mesa_env) (hE : mesa_env_wf E) (s : anv_shader_bin)
    (hs : anv_shader_bin_wf E s) (b : blob) (M : List Nat) (e lo : Nat)
    (hlo : lo ≤ b.size)
    (h1 : (anv_shader_bin_write_to_blob E s b).1 = true)
    (h2 : (anv_shader_bin_write_to_blob E s b).2.data.drop lo <+: M.drop lo)
    (h3 : (anv_shader_bin_write_to_blob E s b).2.size ≤ e)
    (device : anv_device) :
    (b.out_of_memory = false ∧ b.data.drop lo <+: M.drop lo ∧ b.size ≤ e) ∧
    b.size ≤ (anv_shader_bin_write_to_blob E s b).2.size ∧
    anv_shader_bin_create_from_blob E device
        { data := M, end_ := e, current := b.size, overrun := false } =
      ((anv_shader_bin_create E device s.key.data s.key.size s.kernel.map s.kernel_size
          s.constant_data.map s.constant_data_size s.prog_data s.prog_data_size
          s.prog_data_param s.xfb_info s.bind_map).1,
       (anv_shader_bin_create E device s.key.data s.key.size s.kernel.map s.kernel_size
          s.constant_data.map s.constant_data_size s.prog_data s.prog_data_size
          s.prog_data_param s.xfb_info s.bind_map).2,
       { data := M, end_ := e,
         current := (anv_shader_bin_write_to_blob E s b).2.size, overrun := false }) := by
  rcases hs with ⟨hk1, hk2, hn1, hn2, hc1, hc2, hp1, hp2, hp3, hpp, hx, hsc, hmc, hsd, hsm, hpf⟩
  obtain ⟨b1, hb1⟩ : ∃ x, x = (blob_write_uint32 b s.key.size).2 := ⟨_, rfl⟩
  obtain ⟨b2, hb2⟩ : ∃ x, x = (blob_write_bytes b1 s.key.data s.key.size).2 := ⟨_, rfl⟩
  obtain ⟨b3, hb3⟩ : ∃ x, x = (blob_write_uint32 b2 s.kernel_size).2 := ⟨_, rfl⟩
  obtain ⟨b4, hb4⟩ : ∃ x, x = (blob_write_bytes b3 s.kernel.map s.kernel_size).2 :=
    ⟨_, rfl⟩
  obtain ⟨b5, hb5⟩ : ∃ x, x = (blob_write_uint32 b4 s.constant_data_size).2 := ⟨_, rfl⟩
  obtain ⟨b6, hb6⟩ : ∃ x,
    x = (blob_write_bytes b5 s.constant_data.map s.constant_data_size).2 := ⟨_, rfl⟩
  obtain ⟨b7, hb7⟩ : ∃ x, x = (blob_write_uint32 b6 s.prog_data_size).2 := ⟨_, rfl⟩
  obtain ⟨b8, hb8⟩ : ∃ x, x = (blob_write_bytes b7 s.prog_data s.prog_data_size).2 :=
    ⟨_, rfl⟩
  obtain ⟨b9, hb9⟩ : ∃ x, x = (blob_write_bytes b8 s.prog_data_param
    (load_uint32 s.prog_data E.nr_params_offset * 4)).2 := ⟨_, rfl⟩
  obtain ⟨b10, hb10⟩ : ∃ y, y =
    (match s.xfb_info with
      | some x =>
        (blob_write_bytes
          (blob_write_uint32 b9
            (nir_xfb_info_size E (load_uint16 x E.output_count_offset) % 4294967296)).2 x
          (nir_xfb_info_size E (load_uint16 x E.output_count_offset) % 4294967296)).2
      | none => (blob_write_uint32 b9 0).2) := ⟨_, rfl⟩
  obtain ⟨b11, hb11⟩ : ∃ x, x = (blob_write_uint32 b10 s.bind_map.surface_count).2 :=
    ⟨_, rfl⟩
  obtain ⟨b12, hb12⟩ : ∃ x, x = (blob_write_uint32 b11 s.bind_map.sampler_count).2 :=
    ⟨_, rfl⟩
  obtain ⟨b13, hb13⟩ : ∃ x, x = (blob_write_bytes b12 s.bind_map.surface_to_descriptor
    (s.bind_map.surface_count * E.sizeof_pipeline_binding)).2 := ⟨_, rfl⟩
  obtain ⟨b14, hb14⟩ : ∃ x, x = (blob_write_bytes b13 s.bind_map.sampler_to_descriptor
    (s.bind_map.sampler_count * E.sizeof_pipeline_binding)).2 := ⟨_, rfl⟩
  have hfin : anv_shader_bin_write_to_blob E s b = (!b14.out_of_memory, b14) := by
    subst hb1 hb2 hb3 hb4 hb5 hb6 hb7 hb8 hb9 hb10 hb11 hb12 hb13 hb14
    rfl
  rw [hfin] at h1 h2 h3 ⊢
  simp only [Bool.not_eq_true'] at h1 h2 h3 ⊢
  have hmono : ∀ l, l ≤ b.size →
      l ≤ b1.size ∧ l ≤ b2.size ∧ l ≤ b3.size ∧ l ≤ b4.size ∧ l ≤ b5.size ∧
      l ≤ b6.size ∧ l ≤ b7.size ∧ l ≤ b8.size ∧ l ≤ b9.size ∧ l ≤ b10.size ∧
      l ≤ b11.size ∧ l ≤ b12.size ∧ l ≤ b13.size ∧ l ≤ b14.size := by
    intro l hl
    have L1 : l ≤ b1.size := Nat.le_trans hl (hb1 ▸ blob_write_uint32_mono _ _)
    have L2 : l ≤ b2.size := Nat.le_trans L1 (hb2 ▸ blob_write_bytes_mono _ _ _)
    have L3 : l ≤ b3.size := Nat.le_trans L2 (hb3 ▸ blob_write_uint32_mono _ _)
    have L4 : l ≤ b4.size := Nat.le_trans L3 (hb4 ▸ blob_write_bytes_mono _ _ _)
    have L5 : l ≤ b5.size := Nat.le_trans L4 (hb5 ▸ blob_write_uint32_mono _ _)
    have L6 : l ≤ b6.size := Nat.le_trans L5 (hb6 ▸ blob_write_bytes_mono _ _ _)
    have L7 : l ≤ b7.size := Nat.le_trans L6 (hb7 ▸ blob_write_uint32_mono _ _)
    have L8 : l ≤ b8.size := Nat.le_trans L7 (hb8 ▸ blob_write_bytes_mono _ _ _)
    have L9 : l ≤ b9.size := Nat.le_trans L8 (hb9 ▸ blob_write_bytes_mono _ _ _)
    have L10 : l ≤ b10.size := by
      refine Nat.le_trans L9 ?_
      rw [hb10]
      split
      · exact Nat.le_trans (blob_write_uint32_mono _ _) (blob_write_bytes_mono _ _ _)
      · exact blob_write_uint32_mono _ _
    have L11 : l ≤ b11.size := Nat.le_trans L10 (hb11 ▸ blob_write_uint32_mono _ _)
    have L12 : l ≤ b12.size := Nat.le_trans L11 (hb12 ▸ blob_write_uint32_mono _ _)
    have L13 : l ≤ b13.size := Nat.le_trans L12 (hb13 ▸ blob_write_bytes_mono _ _ _)
    have L14 : l ≤ b14.size := Nat.le_trans L13 (hb14 ▸ blob_write_bytes_mono _ _ _)
    exact ⟨L1, L2, L3, L4, L5, L6, L7, L8, L9, L10, L11, L12, L13, L14⟩
  obtain ⟨L1, L2, L3, L4, L5, L6, L7, L8, L9, L10, L11, L12, L13, L14⟩ := hmono lo hlo
  have hsize := (hmono b.size (Nat.le_refl _)).2.2.2.2.2.2.2.2.2.2.2.2.2
  have W14 : b14.out_of_memory = false ∧ b14.data.drop lo <+: M.drop lo ∧ b14.size ≤ e :=
    ⟨h1, h2, h3⟩
  have S14 := blob_write_bytes_read b13 s.bind_map.sampler_to_descriptor
    (s.bind_map.sampler_count * E.sizeof_pipeline_binding) M e lo L13
    (by rw [← hb14]; exact W14)
  rw [← hb14] at S14
  obtain ⟨W13, R14, _, t14, T14⟩ := S14
  have S13 := blob_write_bytes_read b12 s.bind_map.surface_to_descriptor
    (s.bind_map.surface_count * E.sizeof_pipeline_binding) M e lo L12
    (by rw [← hb13]; exact W13)
  rw [← hb13] at S13
  obtain ⟨W12, R13, _, t13, T13⟩ := S13
  have S12 := blob_write_uint32_read b11 s.bind_map.sampler_count hmc M e lo L11
    (by rw [← hb12]; exact W12)
  rw [← hb12] at S12
  obtain ⟨W11, R12, _⟩ := S12
  have S11 := blob_write_uint32_read b10 s.bind_map.surface_count hsc M e lo L10
    (by rw [← hb11]; exact W11)
  rw [← hb11] at S11
  obtain ⟨W10, R11, _⟩ := S11
  obtain ⟨W9, xs, cur, xoff, RX1, RX2, TX⟩ :=
    anv_xfb_write_read E hE s.xfb_info b9 M e lo L9 b10 hb10 W10 hx
  have S9 := blob_write_bytes_read b8 s.prog_data_param
    (load_uint32 s.prog_data E.nr_params_offset * 4) M e lo L8 (by rw [← hb9]; exact W9)
  rw [← hb9] at S9
  obtain ⟨W8, R9, _, t9, T9⟩ := S9
  have S8 := blob_write_bytes_read b7 s.prog_data s.prog_data_size M e lo L7
    (by rw [← hb8]; exact W8)
  rw [← hb8] at S8
  obtain ⟨W7, R8, _, t8, T8⟩ := S8
  have S7 := blob_write_uint32_read b6 s.prog_data_size hp2 M e lo L6
    (by rw [← hb7]; exact W7)
  rw [← hb7] at S7
  obtain ⟨W6, R7, _⟩ := S7
  have S6 := blob_write_bytes_read b5 s.constant_data.map s.constant_data_size M e lo L5
    (by rw [← hb6]; exact W6)
  rw [← hb6] at S6
  obtain ⟨W5, R6, _, t6, T6⟩ := S6
  have S5 := blob_write_uint32_read b4 s.constant_data_size hc2 M e lo L4
    (by rw [← hb5]; exact W5)
  rw [← hb5] at S5
  obtain ⟨W4, R5, _⟩ := S5
  have S4 := blob_write_bytes_read b3 s.kernel.map s.kernel_size M e lo L3
    (by rw [← hb4]; exact W4)
  rw [← hb4] at S4
  obtain ⟨W3, R4, _, t4, T4⟩ := S4
  have S3 := blob_write_uint32_read b2 s.kernel_size hn2 M e lo L2
    (by rw [← hb3]; exact W3)
  rw [← hb3] at S3
  obtain ⟨W2, R3, _⟩ := S3
  have S2 := blob_write_bytes_read b1 s.key.data s.key.size M e lo L1
    (by rw [← hb2]; exact W2)
  rw [← hb2] at S2
  obtain ⟨W1, R2, _, t2, T2⟩ := S2
  have S1 := blob_write_uint32_read b s.key.size hk2 M e lo hlo
    (by rw [← hb1]; exact W1)
  rw [← hb1] at S1
  obtain ⟨W0, R1, _⟩ := S1
  rw [blob_source_eq hk1] at T2
  rw [blob_source_eq hn1] at T4
  rw [blob_source_eq hc1] at T6
  rw [blob_source_eq hp1] at T8
  rw [blob_source_eq hpp] at T9
  rw [blob_source_eq hsd] at T13
  rw [blob_source_eq hsm] at T14
  have hnp : load_uint32 (List.drop b7.size M) E.nr_params_offset =
      load_uint32 s.prog_data E.nr_params_offset := by
    rw [T8]
    exact load_uint32_append_left _ _ _ (by omega)
  refine ⟨W0, hsize, ?_⟩
  have hc := anv_shader_bin_create_congr E device s.key.size s.kernel_size
    s.constant_data_size s.prog_data_size s.bind_map.surface_count
    s.bind_map.sampler_count
    (List.drop b1.size M) s.key.data (List.drop b3.size M) s.kernel.map
    (List.drop b5.size M) s.constant_data.map (List.drop b7.size M) s.prog_data
    (List.drop b8.size M) s.prog_data_param
    (List.drop b12.size M) s.bind_map.surface_to_descriptor
    (List.drop b13.size M) s.bind_map.sampler_to_descriptor
    _ s.xfb_info
    (by rw [T2, memcpy_append_left _ _ hk1, memcpy_self _ hk1])
    (by rw [T4, memcpy_append_left _ _ hn1, memcpy_self _ hn1])
    (by rw [T6, memcpy_append_left _ _ hc1, memcpy_self _ hc1])
    (by rw [T8, memcpy_append_left _ _ hp1, memcpy_self _ hp1])
    (by
      rw [memcpy_self _ hp1, T9, memcpy_append_left _ _ hpp, memcpy_self _ hpp])
    (TX.trans (by
      cases hxs : s.xfb_info with
      | none => rfl
      | some x =>
        simp only [Option.map_some']
        rw [memcpy_self _ (hx x hxs).1]))
    (by rw [T13, memcpy_append_left _ _ hsd, memcpy_self _ hsd])
    (by rw [T14, memcpy_append_left _ _ hsm, memcpy_self _ hsm])
  unfold anv_shader_bin_create_from_blob
  split
  rename_i v1 r1 heq
  rw [R1] at heq
  cases heq
  split
  rename_i v2 r2 heq
  rw [R2] at heq
  cases heq
  split
  rename_i v3 r3 heq
  rw [R3] at heq
  cases heq
  split
  rename_i v4 r4 heq
  rw [R4] at heq
  cases heq
  split
  rename_i v5 r5 heq
  rw [R5] at heq
  cases heq
  split
  rename_i v6 r6 heq
  rw [R6] at heq
  cases heq
  split
  rename_i v7 r7 heq
  rw [R7] at heq
  cases heq
  split
  rename_i v8 r8 heq
  rw [R8] at heq
  cases heq
  split
  · rename_i hov
    exact absurd hov (by simp)
  split
  rename_i v9 r9 heq
  simp only [blob_mem] at heq
  rw [hnp, R9] at heq
  cases heq
  split
  rename_i v10 r10 heq
  rw [RX1] at heq
  cases heq
  rw [RX2]
  split
  rename_i v11 r11 heq
  cases heq
  split
  rename_i v12 r12 heq
  rw [R11] at heq
  cases heq
  split
  rename_i v13 r13 heq
  rw [R12] at heq
  cases heq
  split
  rename_i v14 r14 heq
  rw [R13] at heq
  cases heq
  split
  rename_i v15 r15 heq
  rw [R14] at heq
  cases heq
  split
  · rename_i hov
    exact absurd hov (by simp)
  simp only [blob_mem]
  exact congrArg (fun r : Option Nat × anv_device =>
    (r.1, r.2,
     ({ data := M, end_ := e, current := b14.size, overrun := false } : blob_reader))) hc

theorem anv_shader_bin_create_alloc (E : mesa_env) (device : anv_device)
    (key_data : List Nat) (key_size : Nat)
    (kernel_data : List Nat) (kernel_size : Nat)
    (constant_data : List Nat) (constant_data_size : Nat)
    (prog_data_in : List Nat) (prog_data_size : Nat)
    (prog_data_param_in : List Nat)
    (xfb_info_in : Option (List Nat))
    (bind_map : anv_pipeline_bind_map)
    (halloc : (anv_multialloc_alloc device.alloc).1 = true) :
    (anv_shader_bin_create E device key_data key_size kernel_data kernel_size
      constant_data constant_data_size prog_data_in prog_data_size prog_data_param_in
      xfb_info_in bind_map).1 = some device.bins.length ∧
    (anv_shader_bin_create E device key_data key_size kernel_data kernel_size
      constant_data constant_data_size prog_data_in prog_data_size prog_data_param_in
      xfb_info_in bind_map).2.alloc = (anv_multialloc_alloc device.alloc).2 ∧
    (anv_shader_bin_create E device key_data key_size kernel_data kernel_size
      constant_data constant_data_size prog_data_in prog_data_size prog_data_param_in
      xfb_info_in bind_map).2.chipset_id = device.chipset_id ∧
    (anv_shader_bin_create E device key_data key_size kernel_data kernel_size
      constant_data constant_data_size prog_data_in prog_data_size prog_data_param_in
      xfb_info_in bind_map).2.pipeline_cache_uuid = device.pipeline_cache_uuid := by
  unfold anv_shader_bin_create
  rcases h : anv_multialloc_alloc device.alloc with ⟨ok, rest⟩
  rw [h] at halloc
  simp only at halloc
  subst halloc
  exact ⟨rfl, rfl, rfl, rfl⟩

/-- A store into memory at the offset of the field `param` leaves the memory
as it is outside the field. -/
theorem store_bytes_param_field (E : mesa_env) (m : List Nat) (p : Nat) :
    (store_bytes m E.param_offset (pointer_bytes E.sizeof_pointer p)).length = m.length ∧
    (store_bytes m E.param_offset (pointer_bytes E.sizeof_pointer p)).take E.param_offset =
      m.take E.param_offset ∧
    (store_bytes m E.param_offset (pointer_bytes E.sizeof_pointer p)).drop
        (E.param_offset + E.sizeof_pointer) =
      m.drop (E.param_offset + E.sizeof_pointer) := by
  refine ⟨store_bytes_length _ _ _, store_bytes_take _ _ _, ?_⟩
  have h := store_bytes_drop m E.param_offset (pointer_bytes E.sizeof_pointer p)
  rw [pointer_bytes_length] at h
  exact h

/-- The binary that `anv_shader_bin_create` makes of the fields of a binary
`s` has the contents of `s`: its program data are those of `s` with the
address of its own parameter array in the field `param`. -/
theorem anv_shader_bin_create_copy (E : mesa_env) (device : anv_device)
    (s : anv_shader_bin) (hs : anv_shader_bin_wf E s)
    (halloc : (anv_multialloc_alloc device.alloc).1 = true) :
    (anv_shader_bin_create E device s.key.data s.key.size s.kernel.map s.kernel_size
      s.constant_data.map s.constant_data_size s.prog_data s.prog_data_size
      s.prog_data_param s.xfb_info s.bind_map).1 = some device.bins.length ∧
    ∃ t, (anv_shader_bin_create E device s.key.data s.key.size s.kernel.map s.kernel_size
        s.constant_data.map s.constant_data_size s.prog_data s.prog_data_size
        s.prog_data_param s.xfb_info s.bind_map).2.bins = device.bins ++ [t] ∧
      t.ref_cnt = 1 ∧ anv_shader_bin_same_contents E t s ∧
      t.prog_data = store_bytes s.prog_data E.param_offset
        (pointer_bytes E.sizeof_pointer
          (E.prog_data_param_address device.bins.length)) := by
  rcases hs with ⟨hk1, hk2, hn1, hn2, hc1, hc2, hp1, hp2, hp3, hpp, hx, hsc, hmc, hsd, hsm, hpf⟩
  have ha := anv_shader_bin_create_alloc E device s.key.data s.key.size s.kernel.map
    s.kernel_size s.constant_data.map s.constant_data_size s.prog_data s.prog_data_size
    s.prog_data_param s.xfb_info s.bind_map halloc
  refine ⟨ha.1, ?_⟩
  rcases anv_shader_bin_create_cases E device s.key.data s.key.size s.kernel.map
    s.kernel_size s.constant_data.map s.constant_data_size s.prog_data s.prog_data_size
    s.prog_data_param s.xfb_info s.bind_map with ⟨hn, _⟩ | ⟨_, t, hb, hr, h1, h2, h3, h4, h5,
      h6, h7, h8, h9, h10, h11, h12, h13⟩
  · rw [ha.1] at hn
    cases hn
  · rw [memcpy_self _ hp1] at h6
    refine ⟨t, hb, hr, ⟨?_, ?_, h3, ?_, h5, ?_, h7, ?_, ?_, ?_⟩, h6⟩
    · rw [h1, memcpy_self _ hk1]
    · rw [h2, memcpy_self _ hn1]
    · rw [h4, memcpy_self _ hc1]
    · rw [h6]
      exact store_bytes_param_field E _ _
    · rw [h8, memcpy_self _ hp1, memcpy_self _ hpp]
    · rw [h9]
      cases hxs : s.xfb_info with
      | none => rfl
      | some x =>
        simp only [Option.map_some']
        rw [memcpy_self _ (hx x hxs).1]
    · rw [memcpy_self _ hsd] at h12
      rw [memcpy_self _ hsm] at h13
      cases hbt : t.bind_map
      cases hbs : s.bind_map
      rw [hbt, hbs] at h10 h11 h12 h13
      simp only at h10 h11 h12 h13
      rw [h10, h11, h12, h13]

/-- C16, amended: round trip of a single entry.  For a shader binary `s` that
is well formed (each array has the length of its size field, the sizes are 32
bit values, the program data holds `nr_params` and the pointer field `param`,
the transform feedback data has the size of its `output_count`), when
`anv_shader_bin_write_to_blob` returns `true` on a blob,
`anv_shader_bin_create_from_blob` on a buffer that starts with the bytes of the
blob, from the offset where the write began and with a successful host
allocation, returns a new binary, leaves the reader at the offset where the
write ended without overrun, and the new binary has `ref_cnt = 1` and the key,
code, constant data, parameters, transform feedback data and binding map of
`s`.  Its program data are those of `s` except for the bytes of the field
`param`, which hold the address of the parameter array of the new binary; no
store falls out of bounds. -/
theorem anv_shader_bin_round_trip (E : mesa_env) (hE : mesa_env_wf E)
    (s : anv_shader_bin) (hs : anv_shader_bin_wf E s) (b : blob)
    (hw : (anv_shader_bin_write_to_blob E s b).1 = true)
    (rest : List Nat) (size : Nat)
    (hsize : (anv_shader_bin_write_to_blob E s b).2.size ≤ size)
    (device : anv_device) (halloc : (anv_multialloc_alloc device.alloc).1 = true) :
    ∃ t device1,
      anv_shader_bin_create_from_blob E device
        { data := (anv_shader_bin_write_to_blob E s b).2.data ++ rest, end_ := size,
          current := b.size, overrun := false } =
        (some device.bins.length, device1,
         { data := (anv_shader_bin_write_to_blob E s b).2.data ++ rest, end_ := size,
           current := (anv_shader_bin_write_to_blob E s b).2.size, overrun := false }) ∧
      device1.bins = device.bins ++ [t] ∧ t.ref_cnt = 1 ∧
      anv_shader_bin_same_contents E t s ∧
      t.prog_data = store_bytes s.prog_data E.param_offset
        (pointer_bytes E.sizeof_pointer
          (E.prog_data_param_address device.bins.length)) ∧
      device1.out_of_bounds = device.out_of_bounds := by
  have h := (anv_write_read_entry E hE s hs b
    ((anv_shader_bin_write_to_blob E s b).2.data ++ rest) size 0 (Nat.zero_le _) hw
    (List.prefix_append _ rest) hsize device).2.2
  rcases anv_shader_bin_create_copy E device s hs halloc with ⟨h1, t, hb, hr, hc, hp⟩
  refine ⟨t, _, ?_, hb, hr, hc, hp, ?_⟩
  · rw [h, h1]
  · exact anv_shader_bin_create_in_bounds E device s.key.data s.key.size s.kernel.map
      s.kernel_size s.constant_data.map s.constant_data_size s.prog_data s.prog_data_size
      s.prog_data_param s.xfb_info s.bind_map hs.2.2.2.2.2.2.2.2.2.2.2.2.2.2.2

set_option maxRecDepth 4000 in
/-- Witness for C16: the artifact `example_bin_uploaded` written to an empty
blob over a buffer of 200 bytes and read back on the device that holds it. -/
theorem anv_shader_bin_round_trip_witness :
    ∃ t device1,
      anv_shader_bin_create_from_blob example_env example_device_uploaded
        { data := (anv_shader_bin_write_to_blob example_env example_bin_uploaded
            (blob_init_fixed 200)).2.data ++ [7, 7], end_ := 200,
          current := (blob_init_fixed 200).size, overrun := false } =
        (some example_device_uploaded.bins.length, device1,
         { data := (anv_shader_bin_write_to_blob example_env example_bin_uploaded
             (blob_init_fixed 200)).2.data ++ [7, 7], end_ := 200,
           current := (anv_shader_bin_write_to_blob example_env example_bin_uploaded
             (blob_init_fixed 200)).2.size, overrun := false }) ∧
      device1.bins = example_device_uploaded.bins ++ [t] ∧ t.ref_cnt = 1 ∧
      anv_shader_bin_same_contents example_env t example_bin_uploaded ∧
      t.prog_data = store_bytes example_bin_uploaded.prog_data example_env.param_offset
        (pointer_bytes example_env.sizeof_pointer
          (example_env.prog_data_param_address example_device_uploaded.bins.length)) ∧
      device1.out_of_bounds = example_device_uploaded.out_of_bounds :=
  anv_shader_bin_round_trip example_env (by unfold mesa_env_wf; decide)
    example_bin_uploaded
    (by
      unfold anv_shader_bin_wf
      refine ⟨rfl, by decide, rfl, by decide, rfl, by decide, rfl, by decide, by decide,
        rfl, ?_, by decide, by decide, rfl, rfl, by decide⟩
      intro x h
      cases h)
    (blob_init_fixed 200) (by decide) [7, 7] 200 (by decide) example_device_uploaded rfl

set_option maxRecDepth 4000 in
/-- The round trip of a single entry does not give back the program data byte
for byte (C16): the well formed artifact `example_bin_uploaded`, which lies at
address 0 of `example_device_uploaded`, is written to an empty blob over a
buffer of 200 bytes, the write returns `true`, and the 68 bytes written are
read back on that device.  The read yields the artifact at address 1, whose
program data hold the address 8192 in the field `param` (bytes 16 to 23) where
those of the written artifact hold 4096. -/
theorem anv_shader_bin_round_trip_moves_param :
    anv_shader_bin_wf example_env example_bin_uploaded ∧
    example_device_uploaded.bins[0]? = some example_bin_uploaded ∧
    (anv_shader_bin_write_to_blob example_env example_bin_uploaded
      (blob_init_fixed 200)).1 = true ∧
    ∃ t device1,
      anv_shader_bin_create_from_blob example_env example_device_uploaded
        { data := (anv_shader_bin_write_to_blob example_env example_bin_uploaded
            (blob_init_fixed 200)).2.data, end_ := 200, current := 0,
          overrun := false } =
        (some 1, device1,
         { data := (anv_shader_bin_write_to_blob example_env example_bin_uploaded
             (blob_init_fixed 200)).2.data, end_ := 200, current := 68,
           overrun := false }) ∧
      device1.bins[1]? = some t ∧
      t.prog_data =
        List.replicate 16 0 ++ [0, 32, 0, 0, 0, 0, 0, 0] ++ [1, 0, 0, 0] ∧
      example_bin_uploaded.prog_data =
        List.replicate 16 0 ++ [0, 16, 0, 0, 0, 0, 0, 0] ++ [1, 0, 0, 0] ∧
      t.prog_data ≠ example_bin_uploaded.prog_data := by
  have hwf : anv_shader_bin_wf example_env example_bin_uploaded := by
    unfold anv_shader_bin_wf
    refine ⟨rfl, by decide, rfl, by decide, rfl, by decide, rfl, by decide, by decide,
      rfl, ?_, by decide, by decide, rfl, rfl, by decide⟩
    intro x h
    cases h
  refine ⟨hwf, rfl, by decide,
    { example_bin_uploaded with
      kernel := { offset := 64, alloc_size := 2, map := [9, 9] }
      prog_data := List.replicate 16 0 ++ [0, 32, 0, 0, 0, 0, 0, 0] ++ [1, 0, 0, 0] },
    (anv_shader_bin_create_from_blob example_env example_device_uploaded
      { data := (anv_shader_bin_write_to_blob example_env example_bin_uploaded
          (blob_init_fixed 200)).2.data, end_ := 200, current := 0,
        overrun := false }).2.1,
    by decide, by decide, by decide, by decide, by decide⟩

/-! ## Serialisation: a whole cache written and loaded -/

theorem anv_create_from_blob_reader (E : mesa_env) (d d1 : anv_device)
    (blob : blob_reader) :
    (anv_shader_bin_create_from_blob E d blob).2.2 =
      (anv_shader_bin_create_from_blob E d1 blob).2.2 := by
  unfold anv_shader_bin_create_from_blob
  repeat' split
  all_goals rfl

theorem anv_write_to_blob_fst (E : mesa_env) (s : anv_shader_bin) (b : blob) :
    (anv_shader_bin_write_to_blob E s b).1 =
      !(anv_shader_bin_write_to_blob E s b).2.out_of_memory := rfl

theorem anv_write_to_blob_mono (E : mesa_env) (s : anv_shader_bin) (b : blob) :
    b.size ≤ (anv_shader_bin_write_to_blob E s b).2.size := by
  unfold anv_shader_bin_write_to_blob
  simp only []
  refine Nat.le_trans ?_ (blob_write_bytes_mono _ _ _)
  refine Nat.le_trans ?_ (blob_write_bytes_mono _ _ _)
  refine Nat.le_trans ?_ (blob_write_uint32_mono _ _)
  refine Nat.le_trans ?_ (blob_write_uint32_mono _ _)
  have h9 : b.size ≤ (blob_write_bytes (blob_write_bytes (blob_write_uint32
      (blob_write_bytes (blob_write_uint32 (blob_write_bytes (blob_write_uint32
        (blob_write_bytes (blob_write_uint32 b s.key.size).2 s.key.data s.key.size).2
        s.kernel_size).2 s.kernel.map s.kernel_size).2 s.constant_data_size).2
        s.constant_data.map s.constant_data_size).2 s.prog_data_size).2 s.prog_data
        s.prog_data_size).2 s.prog_data_param
        (load_uint32 s.prog_data E.nr_params_offset * 4)).2.size := by
    refine Nat.le_trans ?_ (blob_write_bytes_mono _ _ _)
    refine Nat.le_trans ?_ (blob_write_bytes_mono _ _ _)
    refine Nat.le_trans ?_ (blob_write_uint32_mono _ _)
    refine Nat.le_trans ?_ (blob_write_bytes_mono _ _ _)
    refine Nat.le_trans ?_ (blob_write_uint32_mono _ _)
    refine Nat.le_trans ?_ (blob_write_bytes_mono _ _ _)
    refine Nat.le_trans ?_ (blob_write_uint32_mono _ _)
    refine Nat.le_trans ?_ (blob_write_bytes_mono _ _ _)
    exact blob_write_uint32_mono _ _
  split
  · exact Nat.le_trans h9
      (Nat.le_trans (blob_write_uint32_mono _ _) (blob_write_bytes_mono _ _ _))
  · exact Nat.le_trans h9 (blob_write_uint32_mono _ _)

/-- The blobs that took a list of entries: when the blob after the last entry
is sound and its bytes from `lo` on are in the memory `M`, the same holds of
the blob before the first entry. -/
theorem anv_write_entries_within (E : mesa_env) (hE : mesa_env_wf E)
    (M : List Nat) (e lo : Nat) (ss : List anv_shader_bin)
    (hss : ∀ s ∈ ss, anv_shader_bin_wf E s) :
    ∀ b : blob, lo ≤ b.size →
      ((ss.foldl (fun b s => (anv_shader_bin_write_to_blob E s b).2) b).out_of_memory =
          false ∧
        (ss.foldl (fun b s => (anv_shader_bin_write_to_blob E s b).2) b).data.drop lo <+:
          M.drop lo ∧
        (ss.foldl (fun b s => (anv_shader_bin_write_to_blob E s b).2) b).size ≤ e) →
      (b.out_of_memory = false ∧ b.data.drop lo <+: M.drop lo ∧ b.size ≤ e) ∧
      b.size ≤ (ss.foldl (fun b s => (anv_shader_bin_write_to_blob E s b).2) b).size := by
  induction ss with
  | nil => intro b _ h; exact ⟨h, Nat.le_refl _⟩
  | cons s ss ih =>
    intro b hlo h
    rw [List.foldl_cons] at h ⊢
    have hm := anv_write_to_blob_mono E s b
    have h1 := ih (fun x hx => hss x (List.mem_cons_of_mem _ hx)) _
      (Nat.le_trans hlo hm) h
    have h2 := anv_write_read_entry E hE s (hss s (List.mem_cons_self _ _)) b M e lo hlo
      (by rw [anv_write_to_blob_fst, h1.1.1]; rfl) h1.1.2.1 h1.1.2.2
      { chipset_id := 0, pipeline_cache_uuid := [], alloc := [],
        instruction_state_pool := 0, dynamic_state_pool := 0, bins := [] }
    exact ⟨h2.1, Nat.le_trans hm h1.2⟩

theorem anv_multialloc_alloc_all (alloc : List Bool) (h : ∀ ok ∈ alloc, ok = true) :
    (anv_multialloc_alloc alloc).1 = true ∧
    ∀ ok ∈ (anv_multialloc_alloc alloc).2, ok = true := by
  cases alloc with
  | nil => exact ⟨rfl, fun _ hx => by cases hx⟩
  | cons x xs =>
    exact ⟨h x (List.mem_cons_self _ _), fun y hy => h y (List.mem_cons_of_mem _ hy)⟩

/-- The entry loop of `anv_pipeline_cache_load` on a buffer that holds, from
the offset of the reader on, the entries that `anv_shader_bin_write_to_blob`
wrote for the binaries `ss`: when the host allocations succeed, the first
`ss.length` rounds create one binary for each entry, with the contents of the
written one, and insert it under its key; the loop goes on behind the last
entry. -/
theorem anv_load_loop_entries (E : mesa_env) (hE : mesa_env_wf E)
    (M : List Nat) (e lo : Nat) (ss : List anv_shader_bin)
    (hss : ∀ s ∈ ss, anv_shader_bin_wf E s) :
    ∀ (b : blob) (device : anv_device) (ht : List (hash_entry anv_shader_bin_key Nat)),
      lo ≤ b.size →
      ((ss.foldl (fun b s => (anv_shader_bin_write_to_blob E s b).2) b).out_of_memory =
          false ∧
        (ss.foldl (fun b s => (anv_shader_bin_write_to_blob E s b).2) b).data.drop lo <+:
          M.drop lo ∧
        (ss.foldl (fun b s => (anv_shader_bin_write_to_blob E s b).2) b).size ≤ e) →
      (∀ ok ∈ device.alloc, ok = true) →
      ∃ ts d1,
        (∀ m : Nat,
          anv_pipeline_cache_load_loop E (ss.length + m) device ht
              { data := M, end_ := e, current := b.size, overrun := false } =
            anv_pipeline_cache_load_loop E m d1
              ((ts.enumFrom device.bins.length).foldl
                (fun T pt => _mesa_hash_table_insert (shader_bin_key_hash_func E)
                  shader_bin_key_compare_func T pt.2.key pt.1) ht)
              { data := M, end_ := e,
                current :=
                  (ss.foldl (fun b s => (anv_shader_bin_write_to_blob E s b).2) b).size,
                overrun := false }) ∧
        d1.bins = device.bins ++ ts ∧
        List.Forall₂ (fun t s => t.ref_cnt = 1 ∧ anv_shader_bin_same_contents E t s) ts ss ∧
        (∀ ok ∈ d1.alloc, ok = true) ∧
        d1.chipset_id = device.chipset_id ∧
        d1.pipeline_cache_uuid = device.pipeline_cache_uuid := by
  induction ss with
  | nil =>
    intro b device ht _ _ halloc
    refine ⟨[], device, ?_, by simp, List.Forall₂.nil, halloc, rfl, rfl⟩
    intro m
    simp
  | cons s ss ih =>
    intro b device ht hlo h halloc
    rw [List.foldl_cons] at h ⊢
    have hs := hss s (List.mem_cons_self _ _)
    have hss1 : ∀ x ∈ ss, anv_shader_bin_wf E x :=
      fun x hx => hss x (List.mem_cons_of_mem _ hx)
    have hm := anv_write_to_blob_mono E s b
    have hw := anv_write_entries_within E hE M e lo ss hss1 _ (Nat.le_trans hlo hm) h
    have hrd := (anv_write_read_entry E hE s hs b M e lo hlo
      (by rw [anv_write_to_blob_fst, hw.1.1]; rfl) hw.1.2.1 hw.1.2.2 device).2.2
    have hal := anv_multialloc_alloc_all device.alloc halloc
    rcases anv_shader_bin_create_copy E device s hs hal.1 with ⟨h1, t, hb, hr, hcn, _⟩
    have hca := anv_shader_bin_create_alloc E device s.key.data s.key.size s.kernel.map
      s.kernel_size s.constant_data.map s.constant_data_size s.prog_data s.prog_data_size
      s.prog_data_param s.xfb_info s.bind_map hal.1
    obtain ⟨d1, hd1⟩ : ∃ x, x = (anv_shader_bin_create E device s.key.data s.key.size
      s.kernel.map s.kernel_size s.constant_data.map s.constant_data_size s.prog_data
      s.prog_data_size s.prog_data_param s.xfb_info s.bind_map).2 := ⟨_, rfl⟩
    rw [← hd1] at hrd hb hca
    rw [h1] at hrd
    have hget : d1.bins[device.bins.length]? = some t := by
      rw [hb, List.getElem?_append_right (Nat.le_refl _), Nat.sub_self]
      rfl
    have hstep : ∀ m : Nat,
        anv_pipeline_cache_load_loop E ((s :: ss).length + m) device ht
        { data := M, end_ := e, current := b.size, overrun := false } =
        anv_pipeline_cache_load_loop E (ss.length + m) d1
          (_mesa_hash_table_insert (shader_bin_key_hash_func E)
            shader_bin_key_compare_func ht t.key device.bins.length)
          { data := M, end_ := e,
            current := (anv_shader_bin_write_to_blob E s b).2.size, overrun := false } := by
      intro m
      have hn : (s :: ss).length + m = (ss.length + m) + 1 := by
        rw [List.length_cons]
        omega
      rw [hn, anv_pipeline_cache_load_loop, hrd]
      simp only [hget]
    have hal1 : ∀ ok ∈ d1.alloc, ok = true := by
      rw [hca.2.1]
      exact hal.2
    rcases ih hss1 _ d1 (_mesa_hash_table_insert (shader_bin_key_hash_func E)
      shader_bin_key_compare_func ht t.key device.bins.length) (Nat.le_trans hlo hm) h
      hal1 with ⟨ts, d2, hloop, hbins, hfa, hal2, hch, hu⟩
    refine ⟨t :: ts, d2, ?_, ?_, List.Forall₂.cons ⟨hr, hcn⟩ hfa, hal2,
      hch.trans hca.2.2.1, hu.trans hca.2.2.2⟩
    · intro m
      rw [hstep, hloop, List.enumFrom_cons, List.foldl_cons]
      have hlen : d1.bins.length = device.bins.length + 1 := by
        rw [hb, List.length_append]
        rfl
      rw [hlen]
    · rw [hbins, hb, List.append_assoc]
      rfl

/-- C19: a partial load keeps the complete entries.  The buffer has a valid
header and announces more than `ss.length` entries; from offset 36 on it
holds the entries that `anv_shader_bin_write_to_blob` wrote for the well
formed binaries `ss`, and the parse of the entry behind them overruns the
buffer.  With successful host allocations, `anv_pipeline_cache_load` creates
one binary for each binary of `ss`, with its contents and `ref_cnt = 1`, and
inserts these in order under their keys; nothing else is created or inserted,
and the entry loop ends as it does when it runs for `ss.length` rounds. -/
theorem anv_load_keeps_complete_entries (E : mesa_env) (hE : mesa_env_wf E)
    (device : anv_device) (cache : anv_pipeline_cache)
    (ht : List (hash_entry anv_shader_bin_key Nat)) (hc : cache.cache = some ht)
    (data : List Nat) (size : Nat) (hsize : 36 ≤ size)
    (hhdr : sizeof_cache_header ≤
        (cache_header_of_bytes (memcpy data sizeof_cache_header)).header_size ∧
      (cache_header_of_bytes (memcpy data sizeof_cache_header)).header_version =
        VK_PIPELINE_CACHE_HEADER_VERSION_ONE ∧
      (cache_header_of_bytes (memcpy data sizeof_cache_header)).vendor_id = 32902 ∧
      (cache_header_of_bytes (memcpy data sizeof_cache_header)).device_id =
        device.chipset_id ∧
      memcmp_eq (cache_header_of_bytes (memcpy data sizeof_cache_header)).uuid
        device.pipeline_cache_uuid VK_UUID_SIZE = true)
    (ss : List anv_shader_bin) (hss : ∀ s ∈ ss, anv_shader_bin_wf E s)
    (b : blob) (hb : b.size = 36)
    (hwritten :
      (ss.foldl (fun b s => (anv_shader_bin_write_to_blob E s b).2) b).out_of_memory =
        false ∧
      (ss.foldl (fun b s => (anv_shader_bin_write_to_blob E s b).2) b).data.drop 36 <+:
        data.drop 36 ∧
      (ss.foldl (fun b s => (anv_shader_bin_write_to_blob E s b).2) b).size ≤ size)
    (hk : ss.length < load_uint32 data 32)
    (hov : (anv_shader_bin_create_from_blob E device
      { data := data, end_ := size,
        current := (ss.foldl (fun b s => (anv_shader_bin_write_to_blob E s b).2) b).size,
        overrun := false }).2.2.overrun = true)
    (halloc : ∀ ok ∈ device.alloc, ok = true) :
    ∃ ts,
      (anv_pipeline_cache_load E device cache data size).1.bins = device.bins ++ ts ∧
      List.Forall₂ (fun t s => t.ref_cnt = 1 ∧ anv_shader_bin_same_contents E t s) ts ss ∧
      (anv_pipeline_cache_load E device cache data size).2 =
        { cache with
          cache := some ((ts.enumFrom device.bins.length).foldl
            (fun T pt => _mesa_hash_table_insert (shader_bin_key_hash_func E)
              shader_bin_key_compare_func T pt.2.key pt.1) ht) } ∧
      anv_pipeline_cache_load_loop E (load_uint32 data 32) device ht
          { data := data, end_ := size, current := 36, overrun := false } =
        anv_pipeline_cache_load_loop E ss.length device ht
          { data := data, end_ := size, current := 36, overrun := false } := by
  rcases anv_load_loop_entries E hE data size 36 ss hss b device ht (by omega) hwritten
    halloc with ⟨ts, d1, hloop, hbins, hfa, _, _, _⟩
  rw [hb] at hloop
  have hcond : ¬ (size < 36 ∨
      (cache_header_of_bytes (memcpy data sizeof_cache_header)).header_size <
        sizeof_cache_header ∨
      (cache_header_of_bytes (memcpy data sizeof_cache_header)).header_version ≠
        VK_PIPELINE_CACHE_HEADER_VERSION_ONE ∨
      (cache_header_of_bytes (memcpy data sizeof_cache_header)).vendor_id ≠ 32902 ∨
      (cache_header_of_bytes (memcpy data sizeof_cache_header)).device_id ≠
        device.chipset_id ∨
      memcmp_eq (cache_header_of_bytes (memcpy data sizeof_cache_header)).uuid
        device.pipeline_cache_uuid VK_UUID_SIZE = false) := by
    rcases hhdr with ⟨h1, h2, h3, h4, h5⟩
    rintro (h | h | h | h | h | h)
    · omega
    · omega
    · exact h h2
    · exact h h3
    · exact h h4
    · rw [h5] at h
      cases h
  have hk0 : anv_pipeline_cache_load_loop E ss.length device ht
      { data := data, end_ := size, current := 36, overrun := false } =
      (d1, (ts.enumFrom device.bins.length).foldl
        (fun T pt => _mesa_hash_table_insert (shader_bin_key_hash_func E)
          shader_bin_key_compare_func T pt.2.key pt.1) ht) := by
    have := hloop 0
    rw [Nat.add_zero] at this
    rw [this, anv_pipeline_cache_load_loop]
  have hkc : anv_pipeline_cache_load_loop E (load_uint32 data 32) device ht
      { data := data, end_ := size, current := 36, overrun := false } =
      (d1, (ts.enumFrom device.bins.length).foldl
        (fun T pt => _mesa_hash_table_insert (shader_bin_key_hash_func E)
          shader_bin_key_compare_func T pt.2.key pt.1) ht) := by
    obtain ⟨m, hm⟩ : ∃ m, load_uint32 data 32 = ss.length + (m + 1) :=
      ⟨load_uint32 data 32 - ss.length - 1, by omega⟩
    rw [hm, hloop (m + 1), anv_pipeline_cache_load_loop]
    rw [anv_create_from_blob_reader E device d1] at hov
    have ho := anv_create_from_blob_overrun E d1 _ hov
    rcases hcr : anv_shader_bin_create_from_blob E d1
        { data := data, end_ := size,
          current :=
            (ss.foldl (fun b s => (anv_shader_bin_write_to_blob E s b).2) b).size,
          overrun := false } with ⟨r1, r2, r3⟩
    rw [hcr] at ho
    simp only at ho
    rw [ho.1, ho.2]
  rw [anv_load_eq E device cache ht hc, if_neg hcond, hkc, hk0]
  exact ⟨ts, hbins, hfa, rfl, rfl⟩

set_option maxRecDepth 4000 in
/-- Witness for C19: the example buffer announces two entries and is cut
after 120 bytes, inside the second entry; the load on a freshly initialised
cache keeps the first entry. -/
theorem anv_load_keeps_complete_entries_witness :
    ∃ ts,
      (anv_pipeline_cache_load example_env example_device (anv_pipeline_cache_init true)
        example_blob 120).1.bins = example_device.bins ++ ts ∧
      List.Forall₂ (fun t s => t.ref_cnt = 1 ∧ anv_shader_bin_same_contents example_env t s) ts
        [example_entry_bin] ∧
      (anv_pipeline_cache_load example_env example_device (anv_pipeline_cache_init true)
        example_blob 120).2 =
        { anv_pipeline_cache_init true with
          cache := some ((ts.enumFrom example_device.bins.length).foldl
            (fun T pt => _mesa_hash_table_insert (shader_bin_key_hash_func example_env)
              shader_bin_key_compare_func T pt.2.key pt.1) []) } :=
  (anv_load_keeps_complete_entries example_env (by unfold mesa_env_wf; decide)
    example_device (anv_pipeline_cache_init true) [] rfl example_blob 120 (by decide)
    (by decide) [example_entry_bin]
    (by
      intro s hs
      rw [List.mem_singleton] at hs
      subst hs
      unfold anv_shader_bin_wf
      refine ⟨rfl, by decide, rfl, by decide, rfl, by decide, rfl, by decide, by decide,
        rfl, ?_, by decide, by decide, rfl, rfl, by decide⟩
      intro x h
      cases h)
    example_blob_36 rfl
    ⟨rfl, ⟨List.drop 100 example_blob, rfl⟩,
      Nat.le_trans (Nat.le_of_eq (rfl : _ = 100)) (by decide)⟩
    (by decide) rfl
    (fun _ h => by cases h)).imp
    (fun _ h => ⟨h.1, h.2.1, h.2.2.1⟩)

/-! ## Serialisation: `anv_GetPipelineCacheData` and the load of its result -/

theorem grow_to_fit_true (b : blob) (n : Nat) (h : (grow_to_fit b n).1 = true) :
    b.out_of_memory = false ∧ (grow_to_fit b n).2.out_of_memory = false := by
  by_cases h1 : b.out_of_memory = true
  · simp [grow_to_fit, h1] at h
  · simp only [Bool.not_eq_true] at h1
    refine ⟨h1, ?_⟩
    unfold grow_to_fit
    rw [h1]
    simp only [Bool.false_eq_true, if_false]
    by_cases h2 : b.size + n ≤ b.allocated
    · simp [h2, h1]
    · by_cases h3 : b.fixed_allocation = true
      · simp [grow_to_fit, h1, h2, h3] at h
      · simp [h2, h3, h1]

theorem blob_reserve_uint32_some (b : blob) {off : Nat} {b2 : blob}
    (h : blob_reserve_uint32 b = (some off, b2)) :
    b.out_of_memory = false ∧ b2.out_of_memory = false ∧ off = ALIGN b.size 4 ∧
      b2.data = b.data ++ List.replicate (ALIGN b.size 4 - b.size) 0 ++
        List.replicate 4 0 := by
  unfold blob_reserve_uint32 blob_reserve_bytes at h
  rcases hg : grow_to_fit (align_blob b 4).2 4 with ⟨ok, g⟩
  rw [hg] at h
  cases ok
  · simp only [Prod.mk.injEq] at h
    cases h.1
  · simp only [Prod.mk.injEq, Option.some.injEq] at h
    have ht := grow_to_fit_true (align_blob b 4).2 4 (by rw [hg])
    have hd := grow_to_fit_data (align_blob b 4).2 4
    rw [hg] at ht hd
    simp only at ht hd
    have ha := align_blob_ok b ht.1
    have hge := ALIGN_four_ge b.size
    refine ⟨ha.1, ?_, ?_, ?_⟩
    · rw [← h.2]
      exact ht.2
    · rw [← h.1]
      show g.data.length = ALIGN b.size 4
      rw [hd, ha.2, List.length_append, List.length_replicate]
      have hbs : b.data.length = b.size := rfl
      omega
    · rw [← h.2]
      simp only
      rw [hd, ha.2]

theorem anv_write_entries_mono (E : mesa_env) (ss : List anv_shader_bin) :
    ∀ b : blob,
      b.size ≤ (ss.foldl (fun b s => (anv_shader_bin_write_to_blob E s b).2) b).size := by
  induction ss with
  | nil => intro b; exact Nat.le_refl _
  | cons s ss ih =>
    intro b
    rw [List.foldl_cons]
    exact Nat.le_trans (anv_write_to_blob_mono E s b) (ih _)

/-- The entry loop of `anv_GetPipelineCacheData` when it ends with
`VK_SUCCESS` on a table whose entries hold live binaries: every binary was
written whole, in the order of the table, and counted. -/
theorem anv_get_loop_success (E : mesa_env) (device : anv_device) :
    ∀ (ht : List (hash_entry anv_shader_bin_key Nat)) (b : blob) (count : Nat)
      (b1 : blob) (count1 : Nat),
      (∀ e ∈ ht, ∃ s, device.bins[e.data]? = some s) →
      b.out_of_memory = false →
      count + ht.length < 4294967296 →
      anv_GetPipelineCacheData_loop E device ht b count = (.VK_SUCCESS, b1, count1) →
      ∃ ss, List.Forall₂ (fun e s => device.bins[e.data]? = some s) ht ss ∧
        b1 = ss.foldl (fun b s => (anv_shader_bin_write_to_blob E s b).2) b ∧
        b1.out_of_memory = false ∧ count1 = count + ht.length := by
  intro ht
  induction ht with
  | nil =>
    intro b count b1 count1 _ hb _ h
    simp only [anv_GetPipelineCacheData_loop, Prod.mk.injEq, true_and] at h
    refine ⟨[], List.Forall₂.nil, h.1.symm, ?_, by simp [h.2]⟩
    rw [← h.1]
    exact hb
  | cons e es ih =>
    intro b count b1 count1 hlive hb hcount h
    rcases hlive e (List.mem_cons_self _ _) with ⟨s, hs⟩
    rw [List.length_cons] at hcount
    rcases hw : anv_shader_bin_write_to_blob E s b with ⟨ok, bw⟩
    cases ok
    · simp only [anv_GetPipelineCacheData_loop, hs, hw, Prod.mk.injEq] at h
      cases h.1
    · have hstep : anv_GetPipelineCacheData_loop E device (e :: es) b count =
          anv_GetPipelineCacheData_loop E device es bw ((count + 1) % 4294967296) := by
        simp only [anv_GetPipelineCacheData_loop, hs, hw]
      rw [hstep, Nat.mod_eq_of_lt (by omega)] at h
      have hbw : bw.out_of_memory = false := by
        have := anv_write_to_blob_fst E s b
        rw [hw] at this
        simpa using this
      rcases ih bw (count + 1) b1 count1
        (fun x hx => hlive x (List.mem_cons_of_mem _ hx)) hbw (by omega) h with
        ⟨ss, hfa, hfold, hoom, hc1⟩
      refine ⟨s :: ss, List.Forall₂.cons hs hfa, ?_, hoom, ?_⟩
      · rw [List.foldl_cons, hw]
        exact hfold
      · rw [hc1, List.length_cons]
        omega

theorem load_uint32_at (pre : List Nat) (v : Nat) (post : List Nat)
    (hv : v < 4294967296) (off : Nat) (hoff : off = pre.length) :
    load_uint32 (pre ++ uint32_bytes v ++ post) off = v := by
  have h := load_uint32_append_mid pre (uint32_bytes v) post 0 (by rw [uint32_bytes_length])
  rw [Nat.add_zero, load_uint32_uint32_bytes v hv] at h
  rw [hoff]
  exact h

theorem cache_header_bytes_length (h : cache_header) (hu : h.uuid.length = 16) :
    (cache_header_bytes h).length = 32 := by
  simp [cache_header_bytes, uint32_bytes_length, hu]

theorem cache_header_of_bytes_bytes (h : cache_header)
    (h1 : h.header_size < 4294967296) (h2 : h.header_version < 4294967296)
    (h3 : h.vendor_id < 4294967296) (h4 : h.device_id < 4294967296)
    (hu : h.uuid.length = 16) (rest : List Nat) :
    cache_header_of_bytes (memcpy (cache_header_bytes h ++ rest) sizeof_cache_header) =
      h := by
  rw [show sizeof_cache_header = 32 from rfl,
    memcpy_append_left _ _ (cache_header_bytes_length h hu)]
  have f1 : load_uint32 (cache_header_bytes h) 0 = h.header_size := by
    have := load_uint32_at [] h.header_size
      (uint32_bytes h.header_version ++ uint32_bytes h.vendor_id ++
        uint32_bytes h.device_id ++ h.uuid) h1 0 rfl
    simpa [cache_header_bytes, List.append_assoc] using this
  have f2 : load_uint32 (cache_header_bytes h) 4 = h.header_version := by
    have := load_uint32_at (uint32_bytes h.header_size) h.header_version
      (uint32_bytes h.vendor_id ++ uint32_bytes h.device_id ++ h.uuid) h2 4 rfl
    simpa [cache_header_bytes, List.append_assoc] using this
  have f3 : load_uint32 (cache_header_bytes h) 8 = h.vendor_id := by
    have := load_uint32_at (uint32_bytes h.header_size ++ uint32_bytes h.header_version)
      h.vendor_id (uint32_bytes h.device_id ++ h.uuid) h3 8 rfl
    simpa [cache_header_bytes, List.append_assoc] using this
  have f4 : load_uint32 (cache_header_bytes h) 12 = h.device_id := by
    have := load_uint32_at (uint32_bytes h.header_size ++ uint32_bytes h.header_version ++
      uint32_bytes h.vendor_id) h.device_id h.uuid h4 12 rfl
    simpa [cache_header_bytes, List.append_assoc] using this
  have f5 : ((cache_header_bytes h).drop 16).take VK_UUID_SIZE = h.uuid := by
    have e : cache_header_bytes h =
        (uint32_bytes h.header_size ++ uint32_bytes h.header_version ++
          uint32_bytes h.vendor_id ++ uint32_bytes h.device_id) ++ h.uuid := rfl
    rw [e, List.drop_left' (by simp [uint32_bytes_length])]
    unfold VK_UUID_SIZE
    rw [← hu, List.take_length]
  unfold cache_header_of_bytes
  rw [f1, f2, f3, f4, f5]

theorem anv_forall₂_mem_right {α β : Type} {R : α → β → Prop} {l1 : List α}
    {l2 : List β} (h : List.Forall₂ R l1 l2) {y : β} (hy : y ∈ l2) :
    ∃ x ∈ l1, R x y := by
  induction h with
  | nil => cases hy
  | cons hr _ ih =>
    rcases List.mem_cons.1 hy with h1 | h1
    · subst h1
      exact ⟨_, List.mem_cons_self _ _, hr⟩
    · rcases ih h1 with ⟨x, hx, hxy⟩
      exact ⟨x, List.mem_cons_of_mem _ hx, hxy⟩

/-- The result of `anv_GetPipelineCacheData` when it returns `VK_SUCCESS` for
a buffer and an enabled cache whose entries hold live binaries: the header,
the number of entries, and the binaries of the table as
`anv_shader_bin_write_to_blob` writes them from offset 36 on. -/
theorem anv_get_success (E : mesa_env) (hE : mesa_env_wf E) (device : anv_device)
    (cache : anv_pipeline_cache) (ht : List (hash_entry anv_shader_bin_key Nat))
    (hc : cache.cache = some ht)
    (hlive : ∀ e ∈ ht, ∃ s, device.bins[e.data]? = some s)
    (hwf : ∀ e ∈ ht, ∀ s, device.bins[e.data]? = some s → anv_shader_bin_wf E s)
    (hlen : ht.length < 4294967296)
    (hu : device.pipeline_cache_uuid.length = VK_UUID_SIZE)
    (pDataSize n : Nat) (data : List Nat)
    (hget : anv_GetPipelineCacheData E device cache pDataSize true =
      (.VK_SUCCESS, n, data)) :
    ∃ (b2 : blob) (ss : List anv_shader_bin),
      b2.size = 36 ∧
      List.Forall₂ (fun e s => device.bins[e.data]? = some s) ht ss ∧
      (ss.foldl (fun b s => (anv_shader_bin_write_to_blob E s b).2) b2).out_of_memory =
        false ∧
      n = (ss.foldl (fun b s => (anv_shader_bin_write_to_blob E s b).2) b2).size ∧
      data =
        cache_header_bytes
          { header_size := sizeof_cache_header
            header_version := VK_PIPELINE_CACHE_HEADER_VERSION_ONE
            vendor_id := 32902
            device_id := device.chipset_id
            uuid := memcpy device.pipeline_cache_uuid VK_UUID_SIZE } ++
        uint32_bytes ht.length ++
        (ss.foldl (fun b s => (anv_shader_bin_write_to_blob E s b).2) b2).data.drop 36 := by
  obtain ⟨hdr, hhdr⟩ : ∃ x, x = cache_header_bytes
      { header_size := sizeof_cache_header
        header_version := VK_PIPELINE_CACHE_HEADER_VERSION_ONE
        vendor_id := 32902
        device_id := device.chipset_id
        uuid := memcpy device.pipeline_cache_uuid VK_UUID_SIZE } := ⟨_, rfl⟩
  have hhl : hdr.length = 32 := by
    rw [hhdr]
    apply cache_header_bytes_length
    simp only
    rw [memcpy_self _ hu]
    exact hu
  obtain ⟨b1, hb1⟩ : ∃ x, x =
      (blob_write_bytes (blob_init_fixed pDataSize) hdr sizeof_cache_header).2 := ⟨_, rfl⟩
  have hdef : anv_GetPipelineCacheData E device cache pDataSize true =
      match blob_reserve_uint32 b1 with
      | (none, _) => (.VK_INCOMPLETE, 0, [])
      | (some count_offset, b2) =>
        match anv_GetPipelineCacheData_loop E device ht b2 0 with
        | (result, b3, count) =>
          (result, (blob_overwrite_uint32 b3 count_offset count).2.size,
            (blob_overwrite_uint32 b3 count_offset count).2.data) := by
    rw [hb1, hhdr]
    simp only [anv_GetPipelineCacheData, hc, if_true]
  rw [hdef] at hget
  rcases hres : blob_reserve_uint32 b1 with ⟨o, b2⟩
  rw [hres] at hget
  cases o with
  | none =>
    simp only [Prod.mk.injEq] at hget
    cases hget.1
  | some off =>
    simp only at hget
    rcases hloop : anv_GetPipelineCacheData_loop E device ht b2 0 with ⟨res, b3, cnt⟩
    rw [hloop] at hget
    simp only [Prod.mk.injEq] at hget
    rcases hget with ⟨hr, hn, hd⟩
    subst hr
    rcases blob_reserve_uint32_some b1 hres with ⟨ho1, ho2, hoff, hb2⟩
    have hw1 := blob_write_bytes_ok (blob_init_fixed pDataSize) hdr sizeof_cache_header
      (by rw [← hb1]; exact ho1)
    rw [← hb1] at hw1
    have hb1d : b1.data = hdr := by
      rw [hw1.2, show sizeof_cache_header = 32 from rfl, blob_source_eq hhl]
      rfl
    have hb1s : b1.size = 32 := by
      unfold blob.size
      rw [hb1d, hhl]
    have hal : ALIGN b1.size 4 = 32 := by
      rw [hb1s]
      rfl
    rw [hal, hb1s, hb1d] at hb2
    rw [hal] at hoff
    subst hoff
    have hb2s : b2.size = 36 := by
      unfold blob.size
      rw [hb2]
      simp [hhl]
    rcases anv_get_loop_success E device ht b2 0 b3 cnt hlive ho2 (by omega) hloop with
      ⟨ss, hfa, hfold, hoom, hcnt⟩
    rw [Nat.zero_add] at hcnt
    have hmono := anv_write_entries_mono E ss b2
    rw [← hfold, hb2s] at hmono
    have hov : blob_overwrite_uint32 b3 32 cnt =
        (true, { b3 with
          data := b3.data.take 32 ++ blob_source (uint32_bytes cnt) 4 ++
            b3.data.drop (32 + 4) }) := by
      unfold blob_overwrite_uint32 blob_overwrite_bytes
      rw [if_neg (by omega)]
    rw [hov] at hn hd
    simp only at hn hd
    have hss : ∀ s ∈ ss, anv_shader_bin_wf E s := by
      intro s hs
      rcases anv_forall₂_mem_right hfa hs with ⟨e, he, hes⟩
      exact hwf e he s hes
    have hpre : b3.data.take 32 = hdr := by
      have hin := (anv_write_entries_within E hE b3.data b3.size 0 ss hss b2
        (Nat.zero_le _) (by
          rw [← hfold]
          exact ⟨hoom, List.prefix_refl _, Nat.le_refl _⟩)).1.2.1
      rw [List.drop_zero, List.drop_zero, hb2] at hin
      rcases hin with ⟨t, ht3⟩
      rw [← ht3, List.append_assoc, List.append_assoc, ← hhl, List.take_left]
    refine ⟨b2, ss, hb2s, hfa, ?_, ?_, ?_⟩
    · rw [← hfold]
      exact hoom
    · rw [← hfold, ← hn]
      unfold blob.size
      simp only [List.length_append, List.length_take, List.length_drop,
        blob_source_length]
      unfold blob.size at hmono
      omega
    · rw [← hfold, ← hd, hpre, blob_source_eq (uint32_bytes_length cnt), hcnt, hhdr]

theorem shader_bin_key_compare_func_false_symm {a b : anv_shader_bin_key}
    (h : shader_bin_key_compare_func a b = false) :
    shader_bin_key_compare_func b a = false := by
  cases hx : shader_bin_key_compare_func b a with
  | false => rfl
  | true =>
    rw [shader_bin_key_compare_func_symm hx] at h
    cases h

/-- Inserting binaries with keys that differ from each other and from the
keys of the table adds one entry for each, in order. -/
theorem anv_insert_entries_append (E : mesa_env) :
    ∀ (ts : List anv_shader_bin) (p : Nat)
      (T0 : List (hash_entry anv_shader_bin_key Nat)),
      (T0.map (fun e => e.key) ++ ts.map (fun t => t.key)).Pairwise
        (fun k1 k2 => shader_bin_key_compare_func k1 k2 = false) →
      (ts.enumFrom p).foldl
        (fun T pt => _mesa_hash_table_insert (shader_bin_key_hash_func E)
          shader_bin_key_compare_func T pt.2.key pt.1) T0 =
      T0 ++ (ts.enumFrom p).map (fun pt => ⟨pt.2.key, pt.1⟩) := by
  intro ts
  induction ts with
  | nil => intro p T0 _; simp
  | cons t ts ih =>
    intro p T0 hpw
    rw [List.enumFrom_cons, List.foldl_cons, List.map_cons]
    have hnone : _mesa_hash_table_search (shader_bin_key_hash_func E)
        shader_bin_key_compare_func T0 t.key = none := by
      rw [hash_table_search_none_iff]
      intro e he
      cases hm : hash_entry_matches (shader_bin_key_hash_func E)
          shader_bin_key_compare_func t.key e.key with
      | false => rfl
      | true =>
        have h1 := (anv_matches_iff E _ _).1 hm
        rw [List.pairwise_append] at hpw
        have h2 := hpw.2.2 e.key (List.mem_map.2 ⟨e, he, rfl⟩) t.key
          (by simp)
        rw [shader_bin_key_compare_func_false_symm h2] at h1
        cases h1
    simp only
    rw [hash_table_insert_of_search_none _ _ _ hnone,
      ih (p + 1) (T0 ++ [(⟨t.key, p⟩ : hash_entry anv_shader_bin_key Nat)])]
    · simp
    · simpa [List.append_assoc] using hpw

/-- A search in the table that holds the entry `⟨t.key, p + i⟩` for the
`i`-th binary `t` of `ts`, compared with a search in a table `ht` whose
`i`-th entry has the key of `t`. -/
theorem anv_search_loaded (E : mesa_env) (K : anv_shader_bin_key)
    {W : anv_shader_bin → hash_entry anv_shader_bin_key Nat → Prop}
    (hkey : ∀ t e, W t e → t.key = e.key)
    {ts : List anv_shader_bin} {ht : List (hash_entry anv_shader_bin_key Nat)}
    (h : List.Forall₂ W ts ht) :
    ∀ p : Nat,
      (_mesa_hash_table_search (shader_bin_key_hash_func E) shader_bin_key_compare_func
          ht K = none →
        _mesa_hash_table_search (shader_bin_key_hash_func E) shader_bin_key_compare_func
          ((ts.enumFrom p).map (fun pt => (⟨pt.2.key, pt.1⟩ :
            hash_entry anv_shader_bin_key Nat))) K = none) ∧
      (∀ e, _mesa_hash_table_search (shader_bin_key_hash_func E)
          shader_bin_key_compare_func ht K = some e →
        ∃ i t, ts[i]? = some t ∧ W t e ∧
          _mesa_hash_table_search (shader_bin_key_hash_func E)
            shader_bin_key_compare_func
            ((ts.enumFrom p).map (fun pt => (⟨pt.2.key, pt.1⟩ :
              hash_entry anv_shader_bin_key Nat))) K = some ⟨t.key, p + i⟩) := by
  induction h with
  | nil =>
    intro p
    exact ⟨fun _ => rfl, fun e he => (by cases he)⟩
  | @cons t e ts es hw _ ih =>
    intro p
    rw [List.enumFrom_cons, List.map_cons, hash_table_search_cons,
      hash_table_search_cons]
    simp only
    rw [hkey t e hw]
    cases hm : hash_entry_matches (shader_bin_key_hash_func E)
        shader_bin_key_compare_func K e.key with
    | true =>
      rw [if_pos rfl, if_pos rfl]
      refine ⟨fun hn => (by cases hn), fun e1 he1 => ?_⟩
      simp only [Option.some.injEq] at he1
      subst he1
      exact ⟨0, t, List.getElem?_cons_zero, hw, by rw [hkey t e hw]; rfl⟩
    | false =>
      rw [if_neg (by decide), if_neg (by decide)]
      refine ⟨(ih (p + 1)).1, fun e1 he1 => ?_⟩
      rcases (ih (p + 1)).2 e1 he1 with ⟨i, t1, hi, hw1, hs⟩
      refine ⟨i + 1, t1, ?_, hw1, ?_⟩
      · rw [List.getElem?_cons_succ]
        exact hi
      · rw [hs]
        congr 2
        omega

theorem anv_forall₂_comp {α β γ : Type} {R : α → β → Prop} {S : γ → β → Prop}
    {l1 : List α} {l2 : List β} (h : List.Forall₂ R l1 l2) :
    ∀ {l3 : List γ}, List.Forall₂ S l3 l2 →
      List.Forall₂ (fun x z => ∃ y, S z y ∧ R x y) l1 l3 := by
  induction h with
  | nil =>
    intro l3 h3
    cases h3
    exact List.Forall₂.nil
  | cons hr _ ih =>
    intro l3 h3
    cases h3 with
    | cons hs ht => exact List.Forall₂.cons ⟨_, hs, hr⟩ (ih ht)

theorem anv_forall₂_map_eq {α β γ : Type} {R : α → β → Prop} {f : α → γ} {g : β → γ}
    (hfg : ∀ x y, R x y → f x = g y) {l1 : List α} {l2 : List β}
    (h : List.Forall₂ R l1 l2) : l1.map f = l2.map g := by
  induction h with
  | nil => rfl
  | cons hr _ ih => rw [List.map_cons, List.map_cons, hfg _ _ hr, ih]

theorem anv_forall₂_of_mem {α β : Type} {R S : α → β → Prop} {l1 : List α}
    {l2 : List β} (h : List.Forall₂ R l1 l2) :
    (∀ x ∈ l1, ∀ y, R x y → S x y) → List.Forall₂ S l1 l2 := by
  induction h with
  | nil => intro _; exact List.Forall₂.nil
  | cons hr _ ih =>
    intro hs
    exact List.Forall₂.cons (hs _ (List.mem_cons_self _ _) _ hr)
      (ih (fun x hx y hxy => hs x (List.mem_cons_of_mem _ hx) y hxy))

theorem anv_loaded_keys (ts : List anv_shader_bin) :
    ∀ p : Nat,
      ((ts.enumFrom p).map (fun pt => (⟨pt.2.key, pt.1⟩ :
        hash_entry anv_shader_bin_key Nat))).map (fun e => e.key) =
      ts.map (fun t => t.key) := by
  induction ts with
  | nil => intro p; rfl
  | cons t ts ih =>
    intro p
    rw [List.enumFrom_cons, List.map_cons, List.map_cons, List.map_cons, ih]

/-- C15, amended: round trip of a whole cache.  The cache is enabled, its
table satisfies the table invariant and holds well formed binaries, and
`anv_GetPipelineCacheData` returns `VK_SUCCESS` with `n` bytes `data` (the
buffer was large enough).  With successful host allocations,
`anv_pipeline_cache_load` of these bytes into a freshly initialised enabled
cache of the same device gives a table with the keys of the first one, in
the same order; a search that misses in the first cache misses in the loaded
one, and a search that hits the binary `a` in the first cache hits, in the
loaded one, a new binary with `ref_cnt = 1` and the key, code, constant data,
parameters, transform feedback data and binding map of `a`, and with the
program data of `a` outside the bytes of the pointer field `param`. -/
theorem anv_cache_round_trip (E : mesa_env) (hE : mesa_env_wf E) (device : anv_device)
    (cache : anv_pipeline_cache) (ht : List (hash_entry anv_shader_bin_key Nat))
    (hc : cache.cache = some ht) (hok : anv_table_ok device ht)
    (hwf : ∀ e ∈ ht, ∀ s, device.bins[e.data]? = some s → anv_shader_bin_wf E s)
    (hlen : ht.length < 4294967296) (hchip : device.chipset_id < 4294967296)
    (hu : device.pipeline_cache_uuid.length = VK_UUID_SIZE)
    (halloc : ∀ ok ∈ device.alloc, ok = true)
    (pDataSize n : Nat) (data : List Nat)
    (hget : anv_GetPipelineCacheData E device cache pDataSize true =
      (.VK_SUCCESS, n, data)) :
    ∃ ht1,
      (anv_pipeline_cache_load E device (anv_pipeline_cache_init true) data n).2.cache =
        some ht1 ∧
      ht1.map (fun e => e.key) = ht.map (fun e => e.key) ∧
      (∀ (key_data : List Nat) (key_size : Nat),
        anv_pipeline_cache_search_locked E cache key_data key_size = none →
        anv_pipeline_cache_search_locked E
          (anv_pipeline_cache_load E device (anv_pipeline_cache_init true) data n).2
          key_data key_size = none) ∧
      (∀ (key_data : List Nat) (key_size : Nat) (A : Nat),
        anv_pipeline_cache_search_locked E cache key_data key_size = some A →
        ∃ A1 a a1,
          anv_pipeline_cache_search_locked E
            (anv_pipeline_cache_load E device (anv_pipeline_cache_init true) data n).2
            key_data key_size = some A1 ∧
          device.bins[A]? = some a ∧
          (anv_pipeline_cache_load E device (anv_pipeline_cache_init true) data
            n).1.bins[A1]? = some a1 ∧
          a1.ref_cnt = 1 ∧ anv_shader_bin_same_contents E a1 a) := by
  have hlive : ∀ e ∈ ht, ∃ s, device.bins[e.data]? = some s := by
    intro e he
    rcases hok.2 e he with ⟨s, hs, _⟩
    exact ⟨s, hs⟩
  rcases anv_get_success E hE device cache ht hc hlive hwf hlen hu pDataSize n data hget
    with ⟨b2, ss, hb2s, hfa, hoom, hn, hdata⟩
  have hss : ∀ s ∈ ss, anv_shader_bin_wf E s := by
    intro s hs
    rcases anv_forall₂_mem_right hfa hs with ⟨e, he, hes⟩
    exact hwf e he s hes
  have hfa1 : List.Forall₂
      (fun e s => device.bins[e.data]? = some s ∧ s.key = e.key) ht ss := by
    refine anv_forall₂_of_mem hfa (fun e he s hes => ⟨hes, ?_⟩)
    rcases hok.2 e he with ⟨s1, hs1, hk1⟩
    rw [hes] at hs1
    simp only [Option.some.injEq] at hs1
    rw [hs1]
    exact hk1
  obtain ⟨hdr, hhdr⟩ : ∃ x : cache_header, x =
      { header_size := sizeof_cache_header
        header_version := VK_PIPELINE_CACHE_HEADER_VERSION_ONE
        vendor_id := 32902
        device_id := device.chipset_id
        uuid := memcpy device.pipeline_cache_uuid VK_UUID_SIZE } := ⟨_, rfl⟩
  rw [← hhdr] at hdata
  have hul : hdr.uuid.length = 16 := by
    rw [hhdr]
    simp only
    rw [memcpy_self _ hu]
    exact hu
  have hhl := cache_header_bytes_length hdr hul
  have hh : cache_header_of_bytes (memcpy data sizeof_cache_header) = hdr := by
    rw [hdata, List.append_assoc]
    exact cache_header_of_bytes_bytes hdr
      (by rw [hhdr]; exact (by decide : sizeof_cache_header < 4294967296))
      (by rw [hhdr]; exact (by decide : VK_PIPELINE_CACHE_HEADER_VERSION_ONE < 4294967296))
      (by rw [hhdr]; exact (by decide : 32902 < 4294967296))
      (by rw [hhdr]; exact hchip) hul _
  have hcount : load_uint32 data 32 = ht.length := by
    rw [hdata]
    exact load_uint32_at _ _ _ hlen 32 hhl.symm
  have hdrop : data.drop 36 =
      (ss.foldl (fun b s => (anv_shader_bin_write_to_blob E s b).2) b2).data.drop 36 := by
    rw [hdata]
    exact List.drop_left' (by rw [List.length_append, hhl, uint32_bytes_length])
  have hmono := anv_write_entries_mono E ss b2
  rw [hb2s, ← hn] at hmono
  have hcond : ¬ (n < 36 ∨
      (cache_header_of_bytes (memcpy data sizeof_cache_header)).header_size <
        sizeof_cache_header ∨
      (cache_header_of_bytes (memcpy data sizeof_cache_header)).header_version ≠
        VK_PIPELINE_CACHE_HEADER_VERSION_ONE ∨
      (cache_header_of_bytes (memcpy data sizeof_cache_header)).vendor_id ≠ 32902 ∨
      (cache_header_of_bytes (memcpy data sizeof_cache_header)).device_id ≠
        device.chipset_id ∨
      memcmp_eq (cache_header_of_bytes (memcpy data sizeof_cache_header)).uuid
        device.pipeline_cache_uuid VK_UUID_SIZE = false) := by
    rw [hh, hhdr]
    simp only [Nat.lt_irrefl, ne_eq, not_true_eq_false, false_or, not_or,
      Bool.not_eq_false]
    refine ⟨by omega, ?_⟩
    unfold memcmp_eq memcpy
    simp
  rcases anv_load_loop_entries E hE data n 36 ss hss b2 device [] (by omega)
    ⟨hoom, by rw [hdrop], by omega⟩ halloc with ⟨ts, d1, hloop, hbins, hfa2, _, _, _⟩
  have hW := anv_forall₂_comp hfa2 hfa1
  have hkey : ∀ (t : anv_shader_bin) (e : hash_entry anv_shader_bin_key Nat),
      (∃ s, (device.bins[e.data]? = some s ∧ s.key = e.key) ∧
        t.ref_cnt = 1 ∧ anv_shader_bin_same_contents E t s) → t.key = e.key := by
    rintro t e ⟨s, ⟨_, hk⟩, _, hsc⟩
    exact hsc.1.trans hk
  have hkeys : ts.map (fun t => t.key) = ht.map (fun e => e.key) :=
    anv_forall₂_map_eq hkey hW
  have hT := anv_insert_entries_append E ts device.bins.length [] (by
    rw [List.map_nil, List.nil_append, hkeys, List.pairwise_map]
    exact hok.1)
  rw [List.nil_append] at hT
  have hl0 := hloop 0
  rw [Nat.add_zero, hb2s, hfa.length_eq.symm, ← hcount, anv_pipeline_cache_load_loop,
    hT] at hl0
  have hload : anv_pipeline_cache_load E device (anv_pipeline_cache_init true) data n =
      (d1, { anv_pipeline_cache_init true with
        cache := some ((ts.enumFrom device.bins.length).map
          (fun pt => (⟨pt.2.key, pt.1⟩ : hash_entry anv_shader_bin_key Nat))) }) := by
    rw [anv_load_eq E device (anv_pipeline_cache_init true) [] rfl, if_neg hcond, hl0]
  rw [hload]
  refine ⟨_, rfl, ?_, ?_, ?_⟩
  · rw [← hkeys]
    exact anv_loaded_keys ts _
  · intro key_data key_size hnone
    rw [anv_search_locked_eq E hc] at hnone
    rw [anv_search_locked_eq E rfl]
    cases hs : _mesa_hash_table_search (shader_bin_key_hash_func E)
        shader_bin_key_compare_func ht
        { size := key_size, data := memcpy key_data key_size } with
    | some x => rw [hs] at hnone; cases hnone
    | none =>
      rw [(anv_search_loaded E _ hkey hW device.bins.length).1 hs]
      rfl
  · intro key_data key_size A hA
    rcases (anv_search_locked_isSome_iff E cache key_data key_size).1 hA with
      ⟨ht0, e, hc0, hs, heA⟩
    rw [hc] at hc0
    simp only [Option.some.injEq] at hc0
    subst hc0
    rcases (anv_search_loaded E _ hkey hW device.bins.length).2 e hs with
      ⟨i, t, hi, ⟨s, ⟨hes, _⟩, hr, hsc⟩, hsT⟩
    refine ⟨device.bins.length + i, s, t, ?_, ?_, ?_, hr, hsc⟩
    · rw [anv_search_locked_eq E rfl, hsT]
      rfl
    · rw [← heA]
      exact hes
    · simp only
      rw [hbins, List.getElem?_append_right (by omega), Nat.add_sub_cancel_left]
      exact hi

set_option maxRecDepth 8000 in
/-- Witness for C15: the example cache with two well formed binaries is
written into a buffer of 1000 bytes and loaded into a new cache, which holds
the two keys. -/
theorem anv_cache_round_trip_witness :
    ∃ ht1,
      (anv_pipeline_cache_load example_env example_device_wf (anv_pipeline_cache_init true)
        (anv_GetPipelineCacheData example_env example_device_wf example_cache_wf 1000
          true).2.2
        (anv_GetPipelineCacheData example_env example_device_wf example_cache_wf 1000
          true).2.1).2.cache = some ht1 ∧
      ht1.map (fun e => e.key) = [⟨3, [1, 2, 3]⟩, ⟨4, [1, 2, 3, 4]⟩] :=
  (anv_cache_round_trip example_env (by unfold mesa_env_wf; decide) example_device_wf
    example_cache_wf [⟨⟨3, [1, 2, 3]⟩, 0⟩, ⟨⟨4, [1, 2, 3, 4]⟩, 1⟩] rfl
    ⟨by decide, fun e he => by
      simp only [List.mem_cons, List.mem_singleton, List.not_mem_nil, or_false] at he
      rcases he with rfl | rfl
      · exact ⟨example_bin_wf, rfl, rfl⟩
      · exact ⟨example_entry_bin, rfl, rfl⟩⟩
    (by
      intro e he s hs
      simp only [List.mem_cons, List.mem_singleton, List.not_mem_nil, or_false] at he
      rcases he with rfl | rfl
      · obtain rfl : example_bin_wf = s := Option.some.inj hs
        unfold anv_shader_bin_wf
        refine ⟨rfl, by decide, rfl, by decide, rfl, by decide, rfl, by decide, by decide,
          rfl, ?_, by decide, by decide, rfl, rfl, by decide⟩
        intro x h
        cases h
      · obtain rfl : example_entry_bin = s := Option.some.inj hs
        unfold anv_shader_bin_wf
        refine ⟨rfl, by decide, rfl, by decide, rfl, by decide, rfl, by decide, by decide,
          rfl, ?_, by decide, by decide, rfl, rfl, by decide⟩
        intro x h
        cases h)
    (by decide) (by decide) rfl (fun _ h => by cases h) 1000
    (anv_GetPipelineCacheData example_env example_device_wf example_cache_wf 1000 true).2.1
    (anv_GetPipelineCacheData example_env example_device_wf example_cache_wf 1000 true).2.2
    rfl).imp (fun _ h => ⟨h.1, h.2.1⟩)

set_option maxRecDepth 8000 in
/-- The round trip of a whole cache does not give back the program data byte
for byte (C15): the enabled cache of `example_upload_one` holds the key
`1 2 3` for the artifact at address 0; `anv_GetPipelineCacheData` with a
buffer of 200 bytes returns `VK_SUCCESS` with 104 bytes; the load of these
bytes into a freshly initialised enabled cache of the same device makes the
key resolve to the new artifact at address 1, whose program data hold the
address 8192 in the field `param` (bytes 16 to 23) where those of the artifact
at address 0 hold 4096. -/
theorem anv_cache_round_trip_moves_param :
    ∃ data a a1,
      anv_GetPipelineCacheData example_env example_upload_one.2.1 example_upload_one.2.2
        200 true = (.VK_SUCCESS, 104, data) ∧
      anv_pipeline_cache_search_locked example_env example_upload_one.2.2 [1, 2, 3] 3 =
        some 0 ∧
      anv_pipeline_cache_search_locked example_env
        (anv_pipeline_cache_load example_env example_upload_one.2.1
          (anv_pipeline_cache_init true) data 104).2 [1, 2, 3] 3 = some 1 ∧
      example_upload_one.2.1.bins[0]? = some a ∧
      (anv_pipeline_cache_load example_env example_upload_one.2.1
        (anv_pipeline_cache_init true) data 104).1.bins[1]? = some a1 ∧
      a.prog_data = List.replicate 16 0 ++ [0, 16, 0, 0, 0, 0, 0, 0] ++ [1, 0, 0, 0] ∧
      a1.prog_data = List.replicate 16 0 ++ [0, 32, 0, 0, 0, 0, 0, 0] ++ [1, 0, 0, 0] ∧
      a1.prog_data ≠ a.prog_data :=
  ⟨(anv_GetPipelineCacheData example_env example_upload_one.2.1 example_upload_one.2.2
      200 true).2.2,
    { example_bin_uploaded with ref_cnt := 2 },
    { example_bin_uploaded with
      kernel := { offset := 64, alloc_size := 2, map := [9, 9] }
      prog_data := List.replicate 16 0 ++ [0, 32, 0, 0, 0, 0, 0, 0] ++ [1, 0, 0, 0] },
    by decide, by decide, by decide, by decide, by decide, by decide, by decide,
    by decide⟩

/-! ## Upload under allocation failure -/

/-- C30: for an enabled cache and a key that the table does not hold, when the
`anv_shader_bin_create` inside `anv_pipeline_cache_upload_kernel` fails, the
call returns `NULL`, the cache is the one before the call, the device differs
from the one before the call only in the used up outcome of the host allocator
(so every stored artifact, `ref_cnt` included, is as before), and a later
search of the key returns `NULL`. -/
theorem anv_upload_atomic_under_allocation_failure (E : mesa_env) (device : anv_device)
    (cache : anv_pipeline_cache) (ht : List (hash_entry anv_shader_bin_key Nat))
    (key_data : List Nat) (key_size : Nat)
    (kernel_data : List Nat) (kernel_size : Nat)
    (constant_data : List Nat) (constant_data_size : Nat)
    (prog_data : brw_stage_prog_data) (prog_data_size : Nat)
    (xfb_info : Option (List Nat)) (bind_map : anv_pipeline_bind_map)
    (henabled : cache.cache = some ht)
    (habsent : (anv_pipeline_cache_search E device cache key_data key_size).1 = none)
    (hfail : (anv_shader_bin_create E device key_data key_size kernel_data kernel_size
      constant_data constant_data_size prog_data.bytes prog_data_size prog_data.param
      xfb_info bind_map).1 = none) :
    ∃ device1 cache1,
      anv_pipeline_cache_upload_kernel E device cache key_data key_size kernel_data
        kernel_size constant_data constant_data_size prog_data prog_data_size xfb_info
        bind_map = (none, device1, cache1) ∧
      cache1 = cache ∧
      device1 = { device with alloc := device.alloc.tail } ∧
      device1.bins = device.bins ∧
      (anv_pipeline_cache_search E device1 cache1 key_data key_size).1 = none := by
  have hlocked : anv_pipeline_cache_search_locked E cache key_data key_size = none := by
    cases hs : anv_pipeline_cache_search_locked E cache key_data key_size with
    | none => rfl
    | some s => rw [anv_search_hit E device hs] at habsent; cases habsent
  have hdev : (anv_shader_bin_create E device key_data key_size kernel_data kernel_size
      constant_data constant_data_size prog_data.bytes prog_data_size prog_data.param
      xfb_info bind_map).2 = { device with alloc := device.alloc.tail } := by
    revert hfail
    unfold anv_shader_bin_create anv_multialloc_alloc
    rcases device.alloc with _ | ⟨ok, rest⟩
    · intro h; cases h
    · cases ok
      · intro _; rfl
      · intro h; cases h
  rcases anv_upload_miss E device henabled kernel_data kernel_size constant_data
    constant_data_size prog_data prog_data_size xfb_info bind_map hlocked with
    ⟨_, hr⟩ | ⟨hsome, _⟩
  · refine ⟨_, _, hr, rfl, hdev, ?_, ?_⟩
    · rw [hdev]
    · rw [anv_search_miss E _ hlocked]
  · rw [hfail] at hsome; cases hsome

/-- The statement C30 on a device whose next host allocation fails, for the
cache that holds the key `1 2 3` and an upload of the key `7`. -/
theorem anv_upload_atomic_under_allocation_failure_witness :
    ∃ device1 cache1,
      anv_pipeline_cache_upload_kernel example_env
        { example_device_wf with alloc := [false] } example_cache_one [7] 1 [6] 1 [] 0
        example_prog_data 0 none example_bind_map = (none, device1, cache1) ∧
      cache1 = example_cache_one ∧
      device1 = { example_device_wf with alloc := [] } ∧
      device1.bins = example_device_wf.bins ∧
      (anv_pipeline_cache_search example_env device1 cache1 [7] 1).1 = none :=
  anv_upload_atomic_under_allocation_failure example_env
    { example_device_wf with alloc := [false] } example_cache_one _ [7] 1 [6] 1 [] 0
    example_prog_data 0 none example_bind_map rfl (by decide) (by decide)

/-! ## A loaded entry under a key that the table holds -/

set_option maxRecDepth 4000 in
/-- C21: the load of `example_blob`, whose two entries have the key `1 2 3 4`,
into an empty enabled cache.  Both binaries are created, the first with the
code `9 9 9 9` at address 0 and the second with the code `8 8 8 8` at address
1; the table ends with one entry, which holds the second binary, and the first
binary is left with its reference and without an entry. -/
theorem anv_load_replaces_entry_of_same_key :
    (anv_pipeline_cache_load example_env example_device (anv_pipeline_cache_init true)
      example_blob 164).2.cache = some [⟨⟨4, [1, 2, 3, 4]⟩, 1⟩] ∧
    (anv_pipeline_cache_load example_env example_device (anv_pipeline_cache_init true)
      example_blob 164).1.bins.map (fun b => (b.key, b.kernel.map, b.ref_cnt)) =
      [(⟨4, [1, 2, 3, 4]⟩, [9, 9, 9, 9], 1), (⟨4, [1, 2, 3, 4]⟩, [8, 8, 8, 8], 1)] ∧
    (anv_pipeline_cache_load example_env example_device (anv_pipeline_cache_init true)
      example_blob 100).2.cache = some [⟨⟨4, [1, 2, 3, 4]⟩, 0⟩] := by
  refine ⟨?_, ?_, ?_⟩ <;> decide

/-! ## The blob writer over a buffer of fixed size -/

theorem blob_tracks_write_bytes {n : Nat} {out : List Nat} {c : blob}
    (h : blob_tracks n out c) (bytes : List Nat) (k : Nat) :
    blob_tracks n (out ++ blob_source bytes k) (blob_write_bytes c bytes k).2 := by
  rcases h with ⟨ha, hf, ⟨hl, hd, ho⟩ | ⟨hl, ho, hp⟩⟩
  · by_cases hfit : out.length + k ≤ n
    · have hdef : blob_write_bytes c bytes k =
          (true, { c with data := c.data ++ blob_source bytes k }) := by
        simp [blob_write_bytes, grow_to_fit, ho, blob.size, hd, ha, hfit]
      rw [hdef]
      refine ⟨ha, hf, Or.inl ⟨?_, ?_, ho⟩⟩
      · simp only [List.length_append, blob_source_length]; exact hfit
      · simp only [hd]
    · have hdef : blob_write_bytes c bytes k = (false, { c with out_of_memory := true }) := by
        simp [blob_write_bytes, grow_to_fit, ho, blob.size, hd, ha, hfit, hf]
      rw [hdef]
      refine ⟨ha, hf, Or.inr ⟨?_, rfl, ?_⟩⟩
      · simp only [List.length_append, blob_source_length]; omega
      · simp only [hd]; exact List.prefix_append _ _
  · have hdef : blob_write_bytes c bytes k = (false, c) := by
      simp [blob_write_bytes, grow_to_fit, ho]
    rw [hdef]
    refine ⟨ha, hf, Or.inr ⟨?_, ho, hp.trans (List.prefix_append _ _)⟩⟩
    simp only [List.length_append]; omega

theorem blob_tracks_align {n : Nat} {out : List Nat} {c : blob}
    (h : blob_tracks n out c) :
    blob_tracks n (out ++ List.replicate (ALIGN out.length 4 - out.length) 0)
      (align_blob c 4).2 := by
  rcases h with ⟨ha, hf, ⟨hl, hd, ho⟩ | ⟨hl, ho, hp⟩⟩
  · by_cases hal : out.length < ALIGN out.length 4
    · by_cases hfit : ALIGN out.length 4 ≤ n
      · have hdef : align_blob c 4 = (true, { c with
            data := c.data ++ List.replicate (ALIGN out.length 4 - out.length) 0 }) := by
          have h1 : out.length + (ALIGN out.length 4 - out.length) ≤ n := by omega
          simp [align_blob, grow_to_fit, ho, blob.size, hd, ha, hal, h1]
        rw [hdef]
        refine ⟨ha, hf, Or.inl ⟨?_, ?_, ho⟩⟩
        · simp only [List.length_append, List.length_replicate]; omega
        · simp only [hd]
      · have hdef : align_blob c 4 = (false, { c with out_of_memory := true }) := by
          have h1 : ¬ out.length + (ALIGN out.length 4 - out.length) ≤ n := by omega
          simp [align_blob, grow_to_fit, ho, blob.size, hd, ha, hal, h1, hf]
        rw [hdef]
        refine ⟨ha, hf, Or.inr ⟨?_, rfl, ?_⟩⟩
        · simp only [List.length_append, List.length_replicate]; omega
        · simp only [hd]; exact List.prefix_append _ _
    · have hdef : align_blob c 4 = (true, c) := by
        simp [align_blob, blob.size, hd, hal]
      have hz : ALIGN out.length 4 - out.length = 0 := by omega
      rw [hdef, hz]
      refine ⟨ha, hf, Or.inl ⟨?_, ?_, ho⟩⟩
      · simpa using hl
      · simpa using hd
  · have hdef : (align_blob c 4).2 = c := by
      unfold align_blob
      split
      · simp [grow_to_fit, ho]
      · rfl
    rw [hdef]
    refine ⟨ha, hf, Or.inr ⟨?_, ho, hp.trans (List.prefix_append _ _)⟩⟩
    simp only [List.length_append]; omega

theorem blob_tracks_write_uint32 {n : Nat} {out : List Nat} {c : blob}
    (h : blob_tracks n out c) (v : Nat) :
    blob_tracks n (out ++ serialised_uint32 out.length v) (blob_write_uint32 c v).2 := by
  have h1 := blob_tracks_write_bytes (blob_tracks_align h) (uint32_bytes v) 4
  have hs : blob_source (uint32_bytes v) 4 = uint32_bytes v := blob_source_eq rfl
  rw [hs, List.append_assoc] at h1
  exact h1
theorem blob_tracks_entry (E : mesa_env) (s : anv_shader_bin) {n : Nat} {out : List Nat}
    {c : blob} (h : blob_tracks n out c) :
    blob_tracks n (out ++ serialised_entry E s out.length)
      (anv_shader_bin_write_to_blob E s c).2 := by
  have h1 := blob_tracks_write_bytes (blob_tracks_write_uint32 h s.key.size)
    s.key.data s.key.size
  have h2 := blob_tracks_write_bytes (blob_tracks_write_uint32 h1 s.kernel_size)
    s.kernel.map s.kernel_size
  have h3 := blob_tracks_write_bytes (blob_tracks_write_uint32 h2 s.constant_data_size)
    s.constant_data.map s.constant_data_size
  have h4 := blob_tracks_write_bytes
    (blob_tracks_write_bytes (blob_tracks_write_uint32 h3 s.prog_data_size)
      s.prog_data s.prog_data_size)
    s.prog_data_param (load_uint32 s.prog_data E.nr_params_offset * 4)
  cases hx : s.xfb_info with
  | none =>
    have h5 := blob_tracks_write_uint32 h4 0
    have h7 := blob_tracks_write_uint32
      (blob_tracks_write_uint32 h5 s.bind_map.surface_count) s.bind_map.sampler_count
    have h9 := blob_tracks_write_bytes
      (blob_tracks_write_bytes h7 s.bind_map.surface_to_descriptor
        (s.bind_map.surface_count * E.sizeof_pipeline_binding))
      s.bind_map.sampler_to_descriptor
      (s.bind_map.sampler_count * E.sizeof_pipeline_binding)
    unfold anv_shader_bin_write_to_blob serialised_entry
    simp only [hx, List.append_assoc, List.length_append, Nat.add_assoc] at h9 ⊢
    exact h9
  | some x =>
    have h5 := blob_tracks_write_bytes
      (blob_tracks_write_uint32 h4
        (nir_xfb_info_size E (load_uint16 x E.output_count_offset) % 4294967296)) x
      (nir_xfb_info_size E (load_uint16 x E.output_count_offset) % 4294967296)
    have h7 := blob_tracks_write_uint32
      (blob_tracks_write_uint32 h5 s.bind_map.surface_count) s.bind_map.sampler_count
    have h9 := blob_tracks_write_bytes
      (blob_tracks_write_bytes h7 s.bind_map.surface_to_descriptor
        (s.bind_map.surface_count * E.sizeof_pipeline_binding))
      s.bind_map.sampler_to_descriptor
      (s.bind_map.sampler_count * E.sizeof_pipeline_binding)
    unfold anv_shader_bin_write_to_blob serialised_entry
    simp only [hx, List.append_assoc, List.length_append, Nat.add_assoc] at h9 ⊢
    exact h9
theorem serialised_entries_take_succ (E : mesa_env) :
    ∀ (ss : List anv_shader_bin) (off k : Nat),
      (serialised_entries E (ss.take k) off).length ≤
        (serialised_entries E (ss.take (k + 1)) off).length := by
  intro ss
  induction ss with
  | nil => intro off k; simp
  | cons s ss ih =>
    intro off k
    cases k with
    | zero => simp [serialised_entries]
    | succ k =>
      simp only [List.take_succ_cons, serialised_entries, List.length_append]
      exact Nat.add_le_add_left (ih _ k) _

theorem serialised_entries_take_le (E : mesa_env) (ss : List anv_shader_bin) (off : Nat) :
    ∀ (j k : Nat), j ≤ k →
      (serialised_entries E (ss.take j) off).length ≤
        (serialised_entries E (ss.take k) off).length := by
  intro j k hjk
  induction k with
  | zero =>
    have : j = 0 := by omega
    subst this
    exact Nat.le_refl _
  | succ k ih =>
    by_cases h : j = k + 1
    · subst h; exact Nat.le_refl _
    · exact Nat.le_trans (ih (by omega)) (serialised_entries_take_succ E ss off k)

/-- The entry loop of `anv_GetPipelineCacheData` over a buffer of `n` bytes
that holds the bytes `out`: the loop leaves `out` and the entries of the first
`k` live binaries, whole, and counts them; it ends with `VK_SUCCESS` when
these are all, and with `VK_INCOMPLETE` when the entry of the next binary does
not fit in the `n` bytes. -/
theorem anv_get_loop_tracks (E : mesa_env) (device : anv_device) (n : Nat) :
    ∀ (ht : List (hash_entry anv_shader_bin_key Nat)) (c : blob) (out : List Nat)
      (cnt : Nat),
      c.allocated = n → c.fixed_allocation = true → c.out_of_memory = false →
      c.data = out → out.length ≤ n → cnt < 4294967296 →
      ∃ k, k ≤ (ht.filterMap (fun e => device.bins[e.data]?)).length ∧
        (anv_GetPipelineCacheData_loop E device ht c cnt).2.1.data =
          out ++ serialised_entries E
            ((ht.filterMap (fun e => device.bins[e.data]?)).take k) out.length ∧
        (out ++ serialised_entries E
            ((ht.filterMap (fun e => device.bins[e.data]?)).take k) out.length).length ≤ n ∧
        (anv_GetPipelineCacheData_loop E device ht c cnt).2.2 = (cnt + k) % 4294967296 ∧
        (((anv_GetPipelineCacheData_loop E device ht c cnt).1 = .VK_SUCCESS ∧
            k = (ht.filterMap (fun e => device.bins[e.data]?)).length) ∨
          ((anv_GetPipelineCacheData_loop E device ht c cnt).1 = .VK_INCOMPLETE ∧
            k < (ht.filterMap (fun e => device.bins[e.data]?)).length ∧
            n < (out ++ serialised_entries E
              ((ht.filterMap (fun e => device.bins[e.data]?)).take (k + 1))
              out.length).length)) := by
  intro ht
  induction ht with
  | nil =>
    intro c out cnt ha hf ho hd hl hcnt
    refine ⟨0, Nat.le_refl _, ?_, ?_, ?_, Or.inl ⟨rfl, rfl⟩⟩
    · simp [anv_GetPipelineCacheData_loop, serialised_entries, hd]
    · simpa [serialised_entries] using hl
    · simp only [anv_GetPipelineCacheData_loop, Nat.add_zero]
      exact (Nat.mod_eq_of_lt hcnt).symm
  | cons e rest ih =>
    intro c out cnt ha hf ho hd hl hcnt
    cases hb : device.bins[e.data]? with
    | none =>
      have hloop : anv_GetPipelineCacheData_loop E device (e :: rest) c cnt =
          anv_GetPipelineCacheData_loop E device rest c cnt := by
        simp only [anv_GetPipelineCacheData_loop, hb]
      have hfm : (e :: rest).filterMap (fun e => device.bins[e.data]?) =
          rest.filterMap (fun e => device.bins[e.data]?) := by
        simp only [List.filterMap_cons, hb]
      rw [hloop, hfm]
      exact ih c out cnt ha hf ho hd hl hcnt
    | some s =>
      have hfm : (e :: rest).filterMap (fun e => device.bins[e.data]?) =
          s :: rest.filterMap (fun e => device.bins[e.data]?) := by
        simp only [List.filterMap_cons, hb]
      have T := blob_tracks_entry E s
        (show blob_tracks n out c from ⟨ha, hf, Or.inl ⟨hl, hd, ho⟩⟩)
      have hfst := anv_write_to_blob_fst E s c
      have hmono := anv_write_to_blob_mono E s c
      rcases hwr : anv_shader_bin_write_to_blob E s c with ⟨ok, c1⟩
      rw [hwr] at T hfst hmono
      simp only at T hfst hmono
      rw [hfm]
      rcases T with ⟨ha1, hf1, ⟨hl1, hd1, ho1⟩ | ⟨hl1, ho1, hp1⟩⟩
      · have hok : ok = true := by rw [hfst, ho1]; rfl
        subst hok
        have hloop : anv_GetPipelineCacheData_loop E device (e :: rest) c cnt =
            anv_GetPipelineCacheData_loop E device rest c1 ((cnt + 1) % 4294967296) := by
          simp only [anv_GetPipelineCacheData_loop, hb, hwr]
        rw [hloop]
        obtain ⟨k, hk, hdat, hlen, hc, hres⟩ := ih c1 _ ((cnt + 1) % 4294967296) ha1 hf1
          ho1 hd1 hl1 (Nat.mod_lt _ (by decide))
        have hoff : (out ++ serialised_entry E s out.length).length =
            out.length + (serialised_entry E s out.length).length := List.length_append _ _
        rw [hoff] at hdat hlen hres
        refine ⟨k + 1, Nat.succ_le_succ hk, ?_, ?_, ?_, ?_⟩
        · rw [hdat]
          simp only [List.take_succ_cons, serialised_entries, List.append_assoc]
        · simp only [List.take_succ_cons, serialised_entries]
          simp only [List.append_assoc] at hlen
          exact hlen
        · rw [hc]
          omega
        · rcases hres with ⟨h1, h2⟩ | ⟨h1, h2, h3⟩
          · exact Or.inl ⟨h1, by rw [h2]; rfl⟩
          · refine Or.inr ⟨h1, Nat.succ_lt_succ h2, ?_⟩
            simp only [List.take_succ_cons, serialised_entries]
            simp only [List.append_assoc] at h3
            exact h3
      · have hok : ok = false := by rw [hfst, ho1]; rfl
        subst hok
        have hloop : anv_GetPipelineCacheData_loop E device (e :: rest) c cnt =
            (.VK_INCOMPLETE, { c1 with data := c1.data.take c.size }, cnt) := by
          simp only [anv_GetPipelineCacheData_loop, hb, hwr]
        rw [hloop]
        refine ⟨0, Nat.zero_le _, ?_, ?_, ?_, Or.inr ⟨rfl, Nat.succ_pos _, ?_⟩⟩
        · simp only [List.take_zero, serialised_entries, List.append_nil]
          obtain ⟨t, ht⟩ := hp1
          have hcs : c.size = out.length := by rw [← hd]; rfl
          have hge : out.length ≤ c1.data.length := by
            rw [← hcs]; exact hmono
          rw [hcs]
          have h1 : (c1.data ++ t).take out.length = c1.data.take out.length :=
            List.take_append_of_le_length hge
          rw [← h1, ht, List.take_left']
          rfl
        · simpa [serialised_entries] using hl
        · simp only [Nat.add_zero]
          exact (Nat.mod_eq_of_lt hcnt).symm
        · simpa [serialised_entries] using hl1
theorem uint32_bytes_mod (v : Nat) : uint32_bytes (v % 4294967296) = uint32_bytes v := by
  simp only [uint32_bytes, List.cons.injEq, and_true]
  refine ⟨by omega, by omega, by omega, by omega⟩

theorem anv_cache_header_length (device : anv_device)
    (hu : device.pipeline_cache_uuid.length = 16) :
    (cache_header_bytes (anv_cache_header device)).length = 32 :=
  cache_header_bytes_length _ hu

theorem serialised_cache_length (E : mesa_env) (device : anv_device)
    (hu : device.pipeline_cache_uuid.length = 16) (ss : List anv_shader_bin) :
    (serialised_cache E device ss).length = 36 + (serialised_entries E ss 36).length := by
  unfold serialised_cache
  rw [List.length_append, List.length_append, anv_cache_header_length device hu,
    uint32_bytes_length]

/-- The call of `anv_GetPipelineCacheData` with room for the header and the
count: the output is the serialised cache of the first `k` live binaries, it
fits in the room, and the call ends with `VK_SUCCESS` when these are all the
binaries and with `VK_INCOMPLETE` when the next entry does not fit. -/
theorem anv_get_tracks (E : mesa_env) (device : anv_device) (cache : anv_pipeline_cache)
    (n : Nat) (pData : Bool) (hu : device.pipeline_cache_uuid.length = 16)
    (hcap : 36 ≤ (if pData = true then n else SIZE_MAX)) :
    ∃ k, k ≤ (anv_cache_bins device cache).length ∧
      (anv_GetPipelineCacheData E device cache n pData).2.1 =
        (serialised_cache E device ((anv_cache_bins device cache).take k)).length ∧
      (anv_GetPipelineCacheData E device cache n pData).2.2 =
        (if pData = true then
          serialised_cache E device ((anv_cache_bins device cache).take k) else []) ∧
      (serialised_cache E device ((anv_cache_bins device cache).take k)).length ≤
        (if pData = true then n else SIZE_MAX) ∧
      (((anv_GetPipelineCacheData E device cache n pData).1 = .VK_SUCCESS ∧
          k = (anv_cache_bins device cache).length) ∨
        ((anv_GetPipelineCacheData E device cache n pData).1 = .VK_INCOMPLETE ∧
          k < (anv_cache_bins device cache).length ∧
          (if pData = true then n else SIZE_MAX) <
            (serialised_cache E device
              ((anv_cache_bins device cache).take (k + 1))).length)) := by
  obtain ⟨cap, hcapdef⟩ : ∃ x, x = (if pData = true then n else SIZE_MAX) := ⟨_, rfl⟩
  rw [← hcapdef] at hcap ⊢
  obtain ⟨H, hHdef⟩ : ∃ x, x = cache_header_bytes (anv_cache_header device) := ⟨_, rfl⟩
  have hH : H.length = 32 := by rw [hHdef]; exact anv_cache_header_length device hu
  have hhdr : cache_header_bytes
      { header_size := sizeof_cache_header
        header_version := VK_PIPELINE_CACHE_HEADER_VERSION_ONE
        vendor_id := 32902
        device_id := device.chipset_id
        uuid := memcpy device.pipeline_cache_uuid VK_UUID_SIZE } = H := by
    have hm : memcpy device.pipeline_cache_uuid VK_UUID_SIZE =
        device.pipeline_cache_uuid := memcpy_self _ hu
    rw [hHdef, hm]
    rfl
  have hb0 : (if pData = true then blob_init_fixed n else blob_init_fixed SIZE_MAX) =
      blob_init_fixed cap := by
    rw [hcapdef]
    cases pData <;> rfl
  have hb1 : (blob_write_bytes (blob_init_fixed cap) H sizeof_cache_header).2 =
      { data := H, allocated := cap, fixed_allocation := true, out_of_memory := false } := by
    have h32 : 32 ≤ cap := by omega
    simp [blob_write_bytes, grow_to_fit, blob_init_fixed, blob.size, sizeof_cache_header,
      h32, blob_source_eq hH]
  obtain ⟨b2, hb2def⟩ : ∃ x : blob, x =
      { data := H ++ List.replicate 4 0, allocated := cap, fixed_allocation := true,
        out_of_memory := false } := ⟨_, rfl⟩
  have hres : blob_reserve_uint32
      { data := H, allocated := cap, fixed_allocation := true, out_of_memory := false } =
      (some 32, b2) := by
    have hal : ALIGN 32 4 = 32 := rfl
    have h36 : 32 + 4 ≤ cap := by omega
    rw [hb2def]
    simp [blob_reserve_uint32, blob_reserve_bytes, align_blob, grow_to_fit, blob.size, hH,
      hal, h36]
  have hdef : anv_GetPipelineCacheData E device cache n pData =
      match (match cache.cache with
        | some ht => anv_GetPipelineCacheData_loop E device ht b2 0
        | none => (.VK_SUCCESS, b2, 0)) with
      | (result, b3, count) =>
        (result, (blob_overwrite_uint32 b3 32 count).2.size,
          if pData = true then (blob_overwrite_uint32 b3 32 count).2.data else []) := by
    simp only [anv_GetPipelineCacheData, hb0, hhdr, hb1, hres]
    try rfl
  rw [hdef]
  have hloop : ∃ k, k ≤ (anv_cache_bins device cache).length ∧
      (match cache.cache with
        | some ht => anv_GetPipelineCacheData_loop E device ht b2 0
        | none => (.VK_SUCCESS, b2, 0)).2.1.data =
        (H ++ List.replicate 4 0) ++ serialised_entries E
          ((anv_cache_bins device cache).take k) 36 ∧
      36 + (serialised_entries E ((anv_cache_bins device cache).take k) 36).length ≤ cap ∧
      (match cache.cache with
        | some ht => anv_GetPipelineCacheData_loop E device ht b2 0
        | none => (.VK_SUCCESS, b2, 0)).2.2 = k % 4294967296 ∧
      (((match cache.cache with
        | some ht => anv_GetPipelineCacheData_loop E device ht b2 0
        | none => (.VK_SUCCESS, b2, 0)).1 = .VK_SUCCESS ∧
          k = (anv_cache_bins device cache).length) ∨
        ((match cache.cache with
        | some ht => anv_GetPipelineCacheData_loop E device ht b2 0
        | none => (.VK_SUCCESS, b2, 0)).1 = .VK_INCOMPLETE ∧
          k < (anv_cache_bins device cache).length ∧
          cap < 36 + (serialised_entries E
            ((anv_cache_bins device cache).take (k + 1)) 36).length)) := by
    have hlen36 : (H ++ List.replicate 4 0).length = 36 := by
      simp [hH]
    cases hc : cache.cache with
    | none =>
      refine ⟨0, Nat.zero_le _, ?_, ?_, rfl, Or.inl ⟨rfl, ?_⟩⟩
      · simp [serialised_entries, hb2def]
      · simpa [serialised_entries] using hcap
      · simp [anv_cache_bins, hc]
    | some ht =>
      have hbins : anv_cache_bins device cache =
          ht.filterMap (fun e => device.bins[e.data]?) := by
        simp only [anv_cache_bins, hc]
      obtain ⟨k, hk, hdat, hl, hcnt, hr⟩ := anv_get_loop_tracks E device cap ht b2
        (H ++ List.replicate 4 0) 0 (by rw [hb2def]) (by rw [hb2def]) (by rw [hb2def])
        (by rw [hb2def]) (by rw [hlen36]; exact hcap) (by decide)
      rw [hlen36] at hdat
      rw [List.length_append, hlen36] at hl
      rw [List.length_append, hlen36] at hr
      rw [Nat.zero_add] at hcnt
      rw [← hbins] at hk hdat hl hr
      exact ⟨k, hk, hdat, hl, hcnt, hr⟩
  generalize (match cache.cache with
    | some ht => anv_GetPipelineCacheData_loop E device ht b2 0
    | none => (VkResult.VK_SUCCESS, b2, 0)) = lr at hloop ⊢
  rcases lr with ⟨res, b3, cnt⟩
  obtain ⟨k, hk, hdat, hl, hcnt, hr⟩ := hloop
  simp only at hdat hcnt hr ⊢
  have hsz : 36 ≤ b3.size := by
    unfold blob.size
    rw [hdat, List.length_append, List.length_append, hH, List.length_replicate]
    omega
  have hov : blob_overwrite_uint32 b3 32 cnt =
      (true, { b3 with
        data := b3.data.take 32 ++ blob_source (uint32_bytes cnt) 4 ++
          b3.data.drop (32 + 4) }) := by
    unfold blob_overwrite_uint32 blob_overwrite_bytes
    rw [if_neg (by omega)]
  have htk : ((anv_cache_bins device cache).take k).length = k := by
    rw [List.length_take]
    omega
  have hdata : b3.data.take 32 ++ blob_source (uint32_bytes cnt) 4 ++ b3.data.drop (32 + 4) =
      serialised_cache E device ((anv_cache_bins device cache).take k) := by
    rw [hdat, blob_source_eq (uint32_bytes_length cnt), hcnt, uint32_bytes_mod]
    unfold serialised_cache
    rw [htk, ← hHdef]
    have h1 : (H ++ List.replicate 4 0 ++ serialised_entries E
        ((anv_cache_bins device cache).take k) 36).take 32 = H := by
      rw [List.append_assoc, ← hH, List.take_left]
    have h2 : (H ++ List.replicate 4 0 ++ serialised_entries E
        ((anv_cache_bins device cache).take k) 36).drop (32 + 4) =
        serialised_entries E ((anv_cache_bins device cache).take k) 36 := by
      have : (H ++ List.replicate 4 0).length = 32 + 4 := by simp [hH]
      rw [← this, List.drop_left]
    rw [h1, h2]
  rw [hov]
  simp only
  rw [← serialised_cache_length E device hu] at hl hr
  refine ⟨k, hk, ?_, ?_, hl, hr⟩
  · unfold blob.size
    simp only
    rw [hdata]
  · rw [hdata]
theorem blob_tracks_reserve_none {n : Nat} {out : List Nat} {c : blob}
    (h : blob_tracks n out c) (hlt : n < out.length + 4) :
    (blob_reserve_bytes c 4).1 = none := by
  rcases h with ⟨ha, hf, ⟨_, hd, ho⟩ | ⟨_, ho, _⟩⟩
  · have hfit : ¬ out.length + 4 ≤ n := by omega
    simp [blob_reserve_bytes, grow_to_fit, ho, blob.size, hd, ha, hfit, hf]
  · simp [blob_reserve_bytes, grow_to_fit, ho]

theorem anv_get_reserve_none (n : Nat) (h : n < 36) (hdr : List Nat) :
    (blob_reserve_uint32
      (blob_write_bytes (blob_init_fixed n) hdr sizeof_cache_header).2).1 = none := by
  have T0 : blob_tracks n [] (blob_init_fixed n) :=
    ⟨rfl, rfl, Or.inl ⟨Nat.zero_le _, rfl, rfl⟩⟩
  have T2 := blob_tracks_align (blob_tracks_write_bytes T0 hdr sizeof_cache_header)
  refine blob_tracks_reserve_none T2 ?_
  simp only [List.nil_append, List.length_append, blob_source_length, sizeof_cache_header]
  omega

/-- The call of `anv_GetPipelineCacheData` with a buffer that has no room for
the header and the count: `VK_INCOMPLETE` and the size 0. -/
theorem anv_get_small (E : mesa_env) (device : anv_device) (cache : anv_pipeline_cache)
    (n : Nat) (h : n < 36) :
    anv_GetPipelineCacheData E device cache n true = (.VK_INCOMPLETE, 0, []) := by
  obtain ⟨b1, hb1⟩ : ∃ x, x = (blob_write_bytes (blob_init_fixed n) (cache_header_bytes
      { header_size := sizeof_cache_header
        header_version := VK_PIPELINE_CACHE_HEADER_VERSION_ONE
        vendor_id := 32902
        device_id := device.chipset_id
        uuid := memcpy device.pipeline_cache_uuid VK_UUID_SIZE })
      sizeof_cache_header).2 := ⟨_, rfl⟩
  have hn : (blob_reserve_uint32 b1).1 = none := by
    rw [hb1]
    exact anv_get_reserve_none n h _
  rcases hr : blob_reserve_uint32 b1 with ⟨o, b2⟩
  rw [hr] at hn
  simp only at hn
  subst hn
  rw [hb1] at hr
  simp only [anv_GetPipelineCacheData, if_true, hr]

theorem serialised_cache_take_le (E : mesa_env) (device : anv_device)
    (hu : device.pipeline_cache_uuid.length = 16) (ss : List anv_shader_bin) (k : Nat) :
    (serialised_cache E device (ss.take k)).length ≤ (serialised_cache E device ss).length := by
  rw [serialised_cache_length E device hu, serialised_cache_length E device hu]
  have h := serialised_entries_take_le E ss 36 k (max k ss.length) (Nat.le_max_left _ _)
  rw [List.take_of_length_le (Nat.le_max_right k ss.length)] at h
  omega

theorem load_uint32_serialised_cache (E : mesa_env) (device : anv_device)
    (hu : device.pipeline_cache_uuid.length = 16) (ss : List anv_shader_bin)
    (hlen : ss.length < 4294967296) :
    load_uint32 (serialised_cache E device ss) 32 = ss.length := by
  unfold serialised_cache
  exact load_uint32_at _ _ _ hlen 32 (anv_cache_header_length device hu).symm

/-! ## The serialised cache -/

/-- C22: when `anv_GetPipelineCacheData`, called with a buffer, reports a size
that is not zero, the output is the 32 byte header {`header_size = 32`,
`header_version = VK_PIPELINE_CACHE_HEADER_VERSION_ONE`, `vendor_id = 0x8086`,
`device_id = chipset_id`, `uuid = pipeline_cache_uuid`}, then the 32 bit entry
count `k`, then the entries of the first `k` live binaries of the table, each
whole and with its fields in the order of `serialised_entry` (every 32 bit
field at the next multiple of four bytes); the reported size is the length of
this output; for a disabled cache and for an empty table the output is the 36
bytes of the header and the count 0. -/
theorem anv_get_data_layout (E : mesa_env) (device : anv_device)
    (cache : anv_pipeline_cache) (n : Nat)
    (hu : device.pipeline_cache_uuid.length = 16)
    (hlen : (anv_cache_bins device cache).length < 4294967296)
    (hsize : (anv_GetPipelineCacheData E device cache n true).2.1 ≠ 0) :
    ∃ k, k ≤ (anv_cache_bins device cache).length ∧
      (anv_GetPipelineCacheData E device cache n true).2.2 =
        cache_header_bytes
          { header_size := 32
            header_version := VK_PIPELINE_CACHE_HEADER_VERSION_ONE
            vendor_id := 0x8086
            device_id := device.chipset_id
            uuid := device.pipeline_cache_uuid } ++
        uint32_bytes k ++
        serialised_entries E ((anv_cache_bins device cache).take k) 36 ∧
      load_uint32 (anv_GetPipelineCacheData E device cache n true).2.2 32 = k ∧
      (anv_GetPipelineCacheData E device cache n true).2.1 =
        (anv_GetPipelineCacheData E device cache n true).2.2.length ∧
      (cache.cache = none ∨ cache.cache = some [] →
        k = 0 ∧ (anv_GetPipelineCacheData E device cache n true).2.1 = 36 ∧
        (anv_GetPipelineCacheData E device cache n true).2.2.drop 32 = [0, 0, 0, 0]) := by
  have hcap : 36 ≤ n := by
    by_cases h : 36 ≤ n
    · exact h
    · rw [anv_get_small E device cache n (by omega)] at hsize
      exact absurd rfl hsize
  obtain ⟨k, hk, hsz, hdat, _, _⟩ := anv_get_tracks E device cache n true hu
    (by rw [if_pos rfl]; exact hcap)
  rw [if_pos rfl] at hdat
  have htk : ((anv_cache_bins device cache).take k).length = k := by
    rw [List.length_take]
    omega
  refine ⟨k, hk, ?_, ?_, ?_, ?_⟩
  · rw [hdat]
    unfold serialised_cache
    rw [htk]
    rfl
  · rw [hdat, load_uint32_serialised_cache E device hu _ (by rw [htk]; omega), htk]
  · rw [hsz, hdat]
  · intro hc
    have hbins : anv_cache_bins device cache = [] := by
      rcases hc with hc | hc <;> simp [anv_cache_bins, hc]
    have hk0 : k = 0 := by
      rw [hbins] at hk
      exact Nat.le_zero.mp hk
    subst hk0
    refine ⟨rfl, ?_, ?_⟩
    · rw [hsz, serialised_cache_length E device hu]
      simp [serialised_entries]
    · rw [hdat]
      unfold serialised_cache
      rw [List.append_assoc, ← anv_cache_header_length device hu, List.drop_left]
      simp [serialised_entries, uint32_bytes]

set_option maxRecDepth 8000 in
/-- The statement C22 for the example cache of two binaries and a buffer of
120 bytes, which has room for the first entry only. -/
theorem anv_get_data_layout_witness :
    ∃ k, k ≤ (anv_cache_bins example_device_wf example_cache_wf).length ∧
      (anv_GetPipelineCacheData example_env example_device_wf example_cache_wf 120 true).2.2 =
        cache_header_bytes
          { header_size := 32
            header_version := VK_PIPELINE_CACHE_HEADER_VERSION_ONE
            vendor_id := 0x8086
            device_id := example_device_wf.chipset_id
            uuid := example_device_wf.pipeline_cache_uuid } ++
        uint32_bytes k ++
        serialised_entries example_env
          ((anv_cache_bins example_device_wf example_cache_wf).take k) 36 ∧
      load_uint32
        (anv_GetPipelineCacheData example_env example_device_wf example_cache_wf 120 true).2.2
        32 = k :=
  (anv_get_data_layout example_env example_device_wf example_cache_wf 120 rfl (by decide)
    (by decide)).imp (fun _ h => ⟨h.1, h.2.1, h.2.2.1⟩)

/-- C23: for a buffer of at least 36 bytes `anv_GetPipelineCacheData` leaves
the serialised cache of the first `k` live binaries of the table: whole
entries only and the count `k`; the reported size is the length of this
output and is at most the capacity; the call returns `VK_SUCCESS` when these
are all the binaries, and `VK_INCOMPLETE` when the entry of the next binary
does not fit in the buffer behind them; it returns `VK_INCOMPLETE` exactly
when the serialised cache of all the binaries does not fit. -/
theorem anv_get_leaves_whole_entries (E : mesa_env) (device : anv_device)
    (cache : anv_pipeline_cache) (n : Nat)
    (hu : device.pipeline_cache_uuid.length = 16)
    (hlen : (anv_cache_bins device cache).length < 4294967296)
    (hcap : 36 ≤ n) :
    ∃ k, k ≤ (anv_cache_bins device cache).length ∧
      (anv_GetPipelineCacheData E device cache n true).2.2 =
        serialised_cache E device ((anv_cache_bins device cache).take k) ∧
      (anv_GetPipelineCacheData E device cache n true).2.1 =
        (serialised_cache E device ((anv_cache_bins device cache).take k)).length ∧
      (anv_GetPipelineCacheData E device cache n true).2.1 ≤ n ∧
      load_uint32 (anv_GetPipelineCacheData E device cache n true).2.2 32 = k ∧
      (((anv_GetPipelineCacheData E device cache n true).1 = .VK_SUCCESS ∧
          k = (anv_cache_bins device cache).length) ∨
        ((anv_GetPipelineCacheData E device cache n true).1 = .VK_INCOMPLETE ∧
          k < (anv_cache_bins device cache).length ∧
          n < (serialised_cache E device
            ((anv_cache_bins device cache).take (k + 1))).length)) ∧
      ((anv_GetPipelineCacheData E device cache n true).1 = .VK_INCOMPLETE ↔
        n < (serialised_cache E device (anv_cache_bins device cache)).length) := by
  obtain ⟨k, hk, hsz, hdat, hle, hr⟩ := anv_get_tracks E device cache n true hu
    (by rw [if_pos rfl]; exact hcap)
  rw [if_pos rfl] at hdat hle hr
  have htk : ((anv_cache_bins device cache).take k).length = k := by
    rw [List.length_take]
    omega
  refine ⟨k, hk, hdat, hsz, by rw [hsz]; exact hle, ?_, hr, ?_⟩
  · rw [hdat, load_uint32_serialised_cache E device hu _ (by rw [htk]; omega), htk]
  · rcases hr with ⟨h1, h2⟩ | ⟨h1, h2, h3⟩
    · rw [h1]
      rw [h2, List.take_length] at hle
      constructor
      · intro hx; cases hx
      · intro hx; omega
    · rw [h1]
      have := serialised_cache_take_le E device hu (anv_cache_bins device cache) (k + 1)
      constructor
      · intro _; omega
      · intro _; rfl

/-- The statement C23 for the example cache of two binaries and a buffer of
120 bytes, which has room for the first entry only. -/
theorem anv_get_leaves_whole_entries_witness :
    ∃ k, k ≤ (anv_cache_bins example_device_wf example_cache_wf).length ∧
      (anv_GetPipelineCacheData example_env example_device_wf example_cache_wf 120 true).2.2 =
        serialised_cache example_env example_device_wf
          ((anv_cache_bins example_device_wf example_cache_wf).take k) ∧
      (anv_GetPipelineCacheData example_env example_device_wf example_cache_wf 120 true).2.1 =
        (serialised_cache example_env example_device_wf
          ((anv_cache_bins example_device_wf example_cache_wf).take k)).length ∧
      (anv_GetPipelineCacheData example_env example_device_wf example_cache_wf 120 true).2.1
        ≤ 120 :=
  (anv_get_leaves_whole_entries example_env example_device_wf example_cache_wf 120 rfl (by decide)
    (by decide)).imp (fun _ h => ⟨h.1, h.2.1, h.2.2.1, h.2.2.2.1⟩)

/-- C24: when the call of `anv_GetPipelineCacheData` without a buffer returns
`VK_SUCCESS` and reports the size `S`, the call with a buffer of `n` bytes
returns `VK_SUCCESS` and reports the size `S` if `S ≤ n`, and returns
`VK_INCOMPLETE` if `n < S`. -/
theorem anv_get_incomplete_iff_too_small (E : mesa_env) (device : anv_device)
    (cache : anv_pipeline_cache) (m n : Nat)
    (hu : device.pipeline_cache_uuid.length = 16)
    (hS : (anv_GetPipelineCacheData E device cache m false).1 = .VK_SUCCESS) :
    ((anv_GetPipelineCacheData E device cache m false).2.1 ≤ n →
      (anv_GetPipelineCacheData E device cache n true).1 = .VK_SUCCESS ∧
      (anv_GetPipelineCacheData E device cache n true).2.1 =
        (anv_GetPipelineCacheData E device cache m false).2.1) ∧
    (n < (anv_GetPipelineCacheData E device cache m false).2.1 →
      (anv_GetPipelineCacheData E device cache n true).1 = .VK_INCOMPLETE) := by
  obtain ⟨k0, hk0, hsz0, _, _, hr0⟩ := anv_get_tracks E device cache m false hu
    (by rw [if_neg (by decide)]; decide)
  have hall : k0 = (anv_cache_bins device cache).length := by
    rcases hr0 with ⟨_, h2⟩ | ⟨h1, _, _⟩
    · exact h2
    · rw [hS] at h1; cases h1
  rw [hall, List.take_length] at hsz0
  rw [hsz0]
  have h36 : 36 ≤ (serialised_cache E device (anv_cache_bins device cache)).length := by
    rw [serialised_cache_length E device hu]
    omega
  by_cases hcap : 36 ≤ n
  · obtain ⟨k, hk, hsz, _, hle, hr⟩ := anv_get_tracks E device cache n true hu
      (by rw [if_pos rfl]; exact hcap)
    rw [if_pos rfl] at hle hr
    have hmono := serialised_cache_take_le E device hu (anv_cache_bins device cache) (k + 1)
    rcases hr with ⟨h1, h2⟩ | ⟨h1, h2, h3⟩
    · rw [h2, List.take_length] at hsz hle
      refine ⟨fun _ => ⟨h1, hsz⟩, fun hlt => ?_⟩
      omega
    · refine ⟨fun hge => ?_, fun _ => h1⟩
      omega
  · rw [anv_get_small E device cache n (by omega)]
    refine ⟨fun hge => ?_, fun _ => rfl⟩
    omega

set_option maxRecDepth 8000 in
/-- The statement C24 for the example cache of two binaries, whose serialised
form has 164 bytes, and a buffer of 120 bytes. -/
theorem anv_get_incomplete_iff_too_small_witness :
    ((anv_GetPipelineCacheData example_env example_device_wf example_cache_wf 0 false).2.1
        ≤ 120 →
      (anv_GetPipelineCacheData example_env example_device_wf example_cache_wf 120 true).1 =
        .VK_SUCCESS ∧
      (anv_GetPipelineCacheData example_env example_device_wf example_cache_wf 120 true).2.1 =
        (anv_GetPipelineCacheData example_env example_device_wf example_cache_wf 0
          false).2.1) ∧
    (120 <
        (anv_GetPipelineCacheData example_env example_device_wf example_cache_wf 0 false).2.1 →
      (anv_GetPipelineCacheData example_env example_device_wf example_cache_wf 120 true).1 =
        .VK_INCOMPLETE) :=
  anv_get_incomplete_iff_too_small example_env example_device_wf example_cache_wf 0 120 rfl
    (by decide)

/-! ## Lemmas on the iris program cache -/

theorem keybox_matches_refl (E : mesa_env) (k : keybox) :
    hash_entry_matches (keybox_hash E) keybox_equals k k = true := by
  simp [hash_entry_matches, keybox_equals, memcmp_eq]

theorem find_existing_assembly_some (E : mesa_env) (compiled : List iris_compiled_shader)
    (assembly : List Nat) (n : Nat) :
    ∀ (cache : List (hash_entry keybox Nat)) (p : Nat),
      find_existing_assembly E compiled cache assembly n = some p →
      ∃ ex, compiled[p]? = some ex ∧
        load_uint32 ex.prog_data.bytes E.program_size_offset = n ∧
        memcmp_eq ex.map assembly n = true := by
  intro cache
  induction cache with
  | nil => intro p h; cases h
  | cons e es ih =>
    intro p h
    unfold find_existing_assembly at h
    cases hc : compiled[e.data]? with
    | none =>
      rw [hc] at h
      exact ih p h
    | some ex =>
      rw [hc] at h
      simp only at h
      split at h
      · rename_i hm
        cases h
        exact ⟨ex, hc, hm.1, hm.2⟩
      · exact ih p h

/-- The result of `iris_upload_shader`: the new shader is at the next address
and holds the metadata that the caller passed; it is placed in a new region of
the uploader when `find_existing_assembly` finds nothing, and in the region of
the shader that `find_existing_assembly` finds otherwise. -/
theorem iris_upload_shader_eq (E : mesa_env) (vtbl : iris_vtbl) (ice : iris_context)
    (cache_id : iris_program_cache_id) (key_size : Nat) (key : List Nat)
    (assembly : List Nat) (prog_data : brw_stage_prog_data)
    (streamout : Option (List Nat)) (system_values : Option (List Nat))
    (num_system_values num_cbufs : Nat) :
    ∃ sh : iris_compiled_shader,
      iris_upload_shader E vtbl ice cache_id key_size key assembly prog_data streamout
        system_values num_system_values num_cbufs =
        (ice.compiled.length,
         { shaders_cache := _mesa_hash_table_insert (keybox_hash E) keybox_equals
             ice.shaders_cache (make_keybox cache_id key key_size) ice.compiled.length
           shaders_uploader :=
             if (find_existing_assembly E ice.compiled ice.shaders_cache assembly
               (load_uint32 prog_data.bytes E.program_size_offset)).isSome then
               ice.shaders_uploader
             else (u_upload_alloc ice.shaders_uploader 0
               (load_uint32 prog_data.bytes E.program_size_offset) 64).2
           compiled := ice.compiled ++ [sh]
           keyboxes := ice.keyboxes ++ [make_keybox cache_id key key_size] }) ∧
      sh.prog_data = prog_data ∧ sh.streamout = streamout ∧
      sh.system_values = system_values ∧ sh.num_system_values = num_system_values ∧
      sh.num_cbufs = num_cbufs ∧
      ((find_existing_assembly E ice.compiled ice.shaders_cache assembly
          (load_uint32 prog_data.bytes E.program_size_offset) = none ∧
        sh.assembly = (u_upload_alloc ice.shaders_uploader 0
          (load_uint32 prog_data.bytes E.program_size_offset) 64).1 ∧
        sh.map = memcpy assembly (load_uint32 prog_data.bytes E.program_size_offset)) ∨
       (∃ p ex, find_existing_assembly E ice.compiled ice.shaders_cache assembly
          (load_uint32 prog_data.bytes E.program_size_offset) = some p ∧
        ice.compiled[p]? = some ex ∧
        load_uint32 ex.prog_data.bytes E.program_size_offset =
          load_uint32 prog_data.bytes E.program_size_offset ∧
        memcmp_eq ex.map assembly (load_uint32 prog_data.bytes E.program_size_offset) = true ∧
        sh.assembly = ex.assembly ∧ sh.map = ex.map)) := by
  cases hf : find_existing_assembly E ice.compiled ice.shaders_cache assembly
    (load_uint32 prog_data.bytes E.program_size_offset) with
  | none =>
    refine ⟨{ assembly := (u_upload_alloc ice.shaders_uploader 0
                (load_uint32 prog_data.bytes E.program_size_offset) 64).1
              map := memcpy assembly (load_uint32 prog_data.bytes E.program_size_offset)
              prog_data := prog_data
              system_values := system_values
              num_system_values := num_system_values
              num_cbufs := num_cbufs
              streamout := streamout
              derived_data := vtbl.store_derived_program_state cache_id
                { assembly := (u_upload_alloc ice.shaders_uploader 0
                    (load_uint32 prog_data.bytes E.program_size_offset) 64).1
                  map := memcpy assembly
                    (load_uint32 prog_data.bytes E.program_size_offset)
                  prog_data := prog_data
                  system_values := system_values
                  num_system_values := num_system_values
                  num_cbufs := num_cbufs
                  streamout := streamout
                  derived_data :=
                    List.replicate (vtbl.derived_program_state_size cache_id) 0 } },
      ?_, rfl, rfl, rfl, rfl, rfl, Or.inl ⟨rfl, rfl, rfl⟩⟩
    simp only [iris_upload_shader, hf, Option.none_bind, Option.isSome_none,
      Bool.false_eq_true, if_false]
  | some p =>
    obtain ⟨ex, hex, hsz, hcmp⟩ := find_existing_assembly_some E ice.compiled assembly _
      ice.shaders_cache p hf
    refine ⟨{ assembly := ex.assembly
              map := ex.map
              prog_data := prog_data
              system_values := system_values
              num_system_values := num_system_values
              num_cbufs := num_cbufs
              streamout := streamout
              derived_data := vtbl.store_derived_program_state cache_id
                { assembly := ex.assembly
                  map := ex.map
                  prog_data := prog_data
                  system_values := system_values
                  num_system_values := num_system_values
                  num_cbufs := num_cbufs
                  streamout := streamout
                  derived_data :=
                    List.replicate (vtbl.derived_program_state_size cache_id) 0 } },
      ?_, rfl, rfl, rfl, rfl, rfl, Or.inr ⟨p, ex, rfl, hex, hsz, hcmp, rfl, rfl⟩⟩
    simp only [iris_upload_shader, hf, Option.some_bind, hex, Option.isSome_some, if_true]

theorem memcmp_eq_iff (a b : List Nat) (n : Nat) :
    memcmp_eq a b n = true ↔ a.take n = b.take n := by
  simp [memcmp_eq]

theorem find_existing_assembly_congr (E : mesa_env) (compiled : List iris_compiled_shader)
    {a b : List Nat} {n : Nat} (hab : a.take n = b.take n) :
    ∀ cache : List (hash_entry keybox Nat),
      find_existing_assembly E compiled cache a n =
        find_existing_assembly E compiled cache b n := by
  intro cache
  induction cache with
  | nil => rfl
  | cons e es ih =>
    unfold find_existing_assembly
    cases compiled[e.data]? with
    | none => exact ih
    | some ex =>
      simp only [memcmp_eq, hab, ih]

theorem find_existing_assembly_cons (E : mesa_env) (compiled : List iris_compiled_shader)
    (e : hash_entry keybox Nat) (es : List (hash_entry keybox Nat)) (a : List Nat) (n : Nat) :
    find_existing_assembly E compiled (e :: es) a n =
      match compiled[e.data]? with
      | none => find_existing_assembly E compiled es a n
      | some existing =>
        if load_uint32 existing.prog_data.bytes E.program_size_offset = n ∧
            memcmp_eq existing.map a n = true then some e.data
        else find_existing_assembly E compiled es a n := by
  rw [find_existing_assembly]

/-- The scan of `find_existing_assembly` after the insertion of a new shader
`sh` whose assembly is the one looked for: the scan finds the new shader, or
the shader that the scan found before the insertion. -/
theorem find_existing_assembly_after_insert (E : mesa_env)
    (compiled : List iris_compiled_shader) (sh : iris_compiled_shader) (a : List Nat)
    (n : Nat) (kb : keybox)
    (hsz : load_uint32 sh.prog_data.bytes E.program_size_offset = n)
    (hcmp : memcmp_eq sh.map a n = true) :
    ∀ cache : List (hash_entry keybox Nat),
      find_existing_assembly E (compiled ++ [sh])
        (_mesa_hash_table_insert (keybox_hash E) keybox_equals cache kb compiled.length)
        a n = some compiled.length ∨
      ∃ p, find_existing_assembly E compiled cache a n = some p ∧
        find_existing_assembly E (compiled ++ [sh])
          (_mesa_hash_table_insert (keybox_hash E) keybox_equals cache kb compiled.length)
          a n = some p := by
  have hnew : (compiled ++ [sh])[compiled.length]? = some sh := by simp
  intro cache
  induction cache with
  | nil =>
    left
    simp only [_mesa_hash_table_insert, find_existing_assembly_cons, hnew, hsz, hcmp,
      and_self, if_true]
  | cons e es ih =>
    by_cases hm : hash_entry_matches (keybox_hash E) keybox_equals kb e.key = true
    · left
      simp only [_mesa_hash_table_insert, hm, if_true, find_existing_assembly_cons, hnew,
        hsz, hcmp, and_self]
    · have hins : _mesa_hash_table_insert (keybox_hash E) keybox_equals (e :: es) kb
          compiled.length =
          e :: _mesa_hash_table_insert (keybox_hash E) keybox_equals es kb
            compiled.length := by
        simp only [_mesa_hash_table_insert, hm, if_false]
        rfl
      rw [hins, find_existing_assembly_cons, find_existing_assembly_cons]
      rcases Nat.lt_trichotomy e.data compiled.length with hlt | heq | hgt
      · have h1 : (compiled ++ [sh])[e.data]? = compiled[e.data]? :=
          List.getElem?_append_left hlt
        rw [h1]
        cases hc : compiled[e.data]? with
        | none => exact ih
        | some x =>
          simp only
          by_cases hx : load_uint32 x.prog_data.bytes E.program_size_offset = n ∧
              memcmp_eq x.map a n = true
          · right
            exact ⟨e.data, by rw [if_pos hx], by rw [if_pos hx]⟩
          · rw [if_neg hx, if_neg hx]
            exact ih
      · left
        rw [heq, hnew]
        simp only [hsz, hcmp, and_self, if_true]
      · have h1 : (compiled ++ [sh])[e.data]? = none := by
          rw [List.getElem?_eq_none_iff]
          simp only [List.length_append, List.length_singleton]
          omega
        have h2 : compiled[e.data]? = none := by
          rw [List.getElem?_eq_none_iff]
          omega
        rw [h1, h2]
        exact ih

theorem hash_table_insert_length_of_search_some {κ δ : Type} (hf : κ → Nat)
    (eq : κ → κ → Bool) (key : κ) (data : δ) :
    ∀ ht : List (hash_entry κ δ), (_mesa_hash_table_search hf eq ht key).isSome = true →
      (_mesa_hash_table_insert hf eq ht key data).length = ht.length := by
  intro ht
  induction ht with
  | nil => intro h; cases h
  | cons e es ih =>
    intro h
    rw [hash_table_search_cons] at h
    by_cases hm : hash_entry_matches hf eq key e.key = true
    · simp [_mesa_hash_table_insert, hm]
    · simp only [hm, if_false] at h
      simp [_mesa_hash_table_insert, hm, ih h]

theorem iris_find_cached_shader_eq (E : mesa_env) (ice : iris_context)
    (cache_id : iris_program_cache_id) (key_size : Nat) (key : List Nat) :
    iris_find_cached_shader E ice cache_id key_size key =
      ((_mesa_hash_table_search (keybox_hash E) keybox_equals ice.shaders_cache
        (make_keybox cache_id key key_size)).map (fun e => e.data), ice) := by
  unfold iris_find_cached_shader
  have h : (ice.keyboxes ++ [make_keybox cache_id key key_size]).eraseIdx
      ice.keyboxes.length = ice.keyboxes := by
    rw [List.eraseIdx_append_of_length_le (Nat.le_refl _), Nat.sub_self]
    simp
  simp only [h]

/-! ## Claims on the iris program cache -/

/-- C25: two uploads with `iris_upload_shader`, one after the other, of
assemblies with the same `program_size` and the same bytes: the second shader
has the `assembly.res`, the `assembly.offset` and the `map` of the first, and
the second upload leaves the uploader as it was.  The keys of the two uploads
are any two keys. -/
theorem iris_upload_shares_identical_assembly (E : mesa_env) (vtbl : iris_vtbl)
    (ice : iris_context)
    (cache_id1 : iris_program_cache_id) (key_size1 : Nat) (key1 : List Nat)
    (assembly1 : List Nat) (prog_data1 : brw_stage_prog_data)
    (streamout1 system_values1 : Option (List Nat)) (num_system_values1 num_cbufs1 : Nat)
    (cache_id2 : iris_program_cache_id) (key_size2 : Nat) (key2 : List Nat)
    (assembly2 : List Nat) (prog_data2 : brw_stage_prog_data)
    (streamout2 system_values2 : Option (List Nat)) (num_system_values2 num_cbufs2 : Nat)
    (hsize : load_uint32 prog_data1.bytes E.program_size_offset =
      load_uint32 prog_data2.bytes E.program_size_offset)
    (hbytes : memcmp_eq assembly1 assembly2
      (load_uint32 prog_data1.bytes E.program_size_offset) = true) :
    ∃ (s1 s2 : Nat) (ice1 ice2 : iris_context) (sh1 sh2 : iris_compiled_shader),
      iris_upload_shader E vtbl ice cache_id1 key_size1 key1 assembly1 prog_data1
        streamout1 system_values1 num_system_values1 num_cbufs1 = (s1, ice1) ∧
      iris_upload_shader E vtbl ice1 cache_id2 key_size2 key2 assembly2 prog_data2
        streamout2 system_values2 num_system_values2 num_cbufs2 = (s2, ice2) ∧
      ice2.compiled[s1]? = some sh1 ∧ ice2.compiled[s2]? = some sh2 ∧ s1 ≠ s2 ∧
      sh2.assembly.res = sh1.assembly.res ∧ sh2.assembly.offset = sh1.assembly.offset ∧
      sh2.map = sh1.map ∧
      ice2.shaders_uploader = ice1.shaders_uploader := by
  obtain ⟨n, hn⟩ : ∃ n, n = load_uint32 prog_data1.bytes E.program_size_offset := ⟨_, rfl⟩
  rw [← hn] at hsize hbytes
  have hab := (memcmp_eq_iff _ _ _).mp hbytes
  obtain ⟨sh1, hu1, hpd1, _, _, _, _, hplace1⟩ := iris_upload_shader_eq E vtbl ice cache_id1
    key_size1 key1 assembly1 prog_data1 streamout1 system_values1 num_system_values1
    num_cbufs1
  rw [← hn] at hu1 hplace1
  obtain ⟨ice1, hice1⟩ : ∃ x, x = (iris_upload_shader E vtbl ice cache_id1 key_size1 key1
    assembly1 prog_data1 streamout1 system_values1 num_system_values1 num_cbufs1).2 :=
    ⟨_, rfl⟩
  have hc1 : ice1.compiled = ice.compiled ++ [sh1] := by rw [hice1, hu1]
  have ht1 : ice1.shaders_cache = _mesa_hash_table_insert (keybox_hash E) keybox_equals
      ice.shaders_cache (make_keybox cache_id1 key1 key_size1) ice.compiled.length := by
    rw [hice1, hu1]
  have hsz1 : load_uint32 sh1.prog_data.bytes E.program_size_offset = n := by
    rw [hpd1, hn]
  have hcmp1 : memcmp_eq sh1.map assembly2 n = true := by
    rw [memcmp_eq_iff, ← hab]
    rcases hplace1 with ⟨_, _, hmap⟩ | ⟨p, ex, _, _, _, hcmp, _, hmap⟩
    · rw [hmap]
      simp [memcpy]
    · rw [hmap]
      exact (memcmp_eq_iff _ _ _).mp hcmp
  obtain ⟨sh2, hu2, _, _, _, _, _, hplace2⟩ := iris_upload_shader_eq E vtbl ice1 cache_id2
    key_size2 key2 assembly2 prog_data2 streamout2 system_values2 num_system_values2
    num_cbufs2
  rw [← hsize] at hu2 hplace2
  have hscan := find_existing_assembly_after_insert E ice.compiled sh1 assembly2 n
    (make_keybox cache_id1 key1 key_size1) hsz1 hcmp1 ice.shaders_cache
  rw [← hc1, ← ht1] at hscan
  have hget1 : ice1.compiled[ice.compiled.length]? = some sh1 := by
    rw [hc1]
    simp
  have hshare : sh2.assembly = sh1.assembly ∧ sh2.map = sh1.map ∧
      (find_existing_assembly E ice1.compiled ice1.shaders_cache assembly2 n).isSome =
        true := by
    rcases hplace2 with ⟨hnone, _, _⟩ | ⟨q, ex, hq, hex, _, _, hasm, hmap⟩
    · rcases hscan with h | ⟨p, _, h⟩ <;> rw [hnone] at h <;> cases h
    · rw [hq]
      refine ⟨?_, ?_, rfl⟩
      · rcases hscan with h | ⟨p, hp0, h⟩
        · rw [hq] at h
          cases h
          rw [hget1] at hex
          cases hex
          exact hasm
        · rw [hq] at h
          cases h
          rw [← find_existing_assembly_congr E ice.compiled hab] at hp0
          rcases hplace1 with ⟨hnone, _, _⟩ | ⟨p1, ex1, hp1, hex1, _, _, hasm1, _⟩
          · rw [hnone] at hp0; cases hp0
          · have hpp := Option.some.inj (hp1.symm.trans hp0)
            subst hpp
            have hlt : p1 < ice.compiled.length := by
              rcases Nat.lt_or_ge p1 ice.compiled.length with h | h
              · exact h
              · rw [List.getElem?_eq_none_iff.mpr h] at hex1; cases hex1
            rw [hc1, List.getElem?_append_left hlt, hex1] at hex
            cases hex
            rw [hasm, hasm1]
      · rcases hscan with h | ⟨p, hp0, h⟩
        · rw [hq] at h
          cases h
          rw [hget1] at hex
          cases hex
          exact hmap
        · rw [hq] at h
          cases h
          rw [← find_existing_assembly_congr E ice.compiled hab] at hp0
          rcases hplace1 with ⟨hnone, _, _⟩ | ⟨p1, ex1, hp1, hex1, _, _, _, hmap1⟩
          · rw [hnone] at hp0; cases hp0
          · have hpp := Option.some.inj (hp1.symm.trans hp0)
            subst hpp
            have hlt : p1 < ice.compiled.length := by
              rcases Nat.lt_or_ge p1 ice.compiled.length with h | h
              · exact h
              · rw [List.getElem?_eq_none_iff.mpr h] at hex1; cases hex1
            rw [hc1, List.getElem?_append_left hlt, hex1] at hex
            cases hex
            rw [hmap, hmap1]
  refine ⟨ice.compiled.length, ice1.compiled.length, ice1, _, sh1, sh2, ?_, hu2, ?_, ?_, ?_,
    ?_, ?_, hshare.2.1, ?_⟩
  · rw [hice1, hu1]
  · show (ice1.compiled ++ [sh2])[ice.compiled.length]? = some sh1
    rw [List.getElem?_append_left (by rw [hc1]; simp), hget1]
  · show (ice1.compiled ++ [sh2])[ice1.compiled.length]? = some sh2
    simp
  · rw [hc1]
    simp
  · rw [hshare.1]
  · rw [hshare.1]
  · simp only [hshare.2.2, if_true]

/-- The statement C25 for the uploads, into the context after
`iris_init_program_cache`, of the assembly `9 9 9 9` under the key `1` of
`IRIS_CACHE_VS` and then under the key `2` of `IRIS_CACHE_FS`. -/
theorem iris_upload_shares_identical_assembly_witness :
    ∃ (s1 s2 : Nat) (ice1 ice2 : iris_context) (sh1 sh2 : iris_compiled_shader),
      iris_upload_shader example_env example_vtbl iris_init_program_cache .IRIS_CACHE_VS 1 [1]
        [9, 9, 9, 9] (example_iris_prog_data 4 []) none none 0 0 = (s1, ice1) ∧
      iris_upload_shader example_env example_vtbl ice1 .IRIS_CACHE_FS 1 [2]
        [9, 9, 9, 9] (example_iris_prog_data 4 [7]) (some [3]) none 0 1 = (s2, ice2) ∧
      ice2.compiled[s1]? = some sh1 ∧ ice2.compiled[s2]? = some sh2 ∧ s1 ≠ s2 ∧
      sh2.assembly.res = sh1.assembly.res ∧ sh2.assembly.offset = sh1.assembly.offset ∧
      sh2.map = sh1.map ∧
      ice2.shaders_uploader = ice1.shaders_uploader :=
  iris_upload_shares_identical_assembly example_env example_vtbl iris_init_program_cache
    .IRIS_CACHE_VS 1 [1] [9, 9, 9, 9] (example_iris_prog_data 4 []) none none 0 0
    .IRIS_CACHE_FS 1 [2] [9, 9, 9, 9] (example_iris_prog_data 4 [7]) (some [3]) none 0 1
    (by decide) (by decide)

/-- C26: when the scan of `iris_upload_shader` finds a shader with the same
assembly, the new shader has the storage of that shader and the `prog_data`,
`streamout`, `system_values`, `num_system_values` and `num_cbufs` that the
caller passed, and the shader that was found, like every shader allocated
before the call, is left as it was. -/
theorem iris_dedup_keeps_metadata_apart (E : mesa_env) (vtbl : iris_vtbl)
    (ice : iris_context) (cache_id : iris_program_cache_id) (key_size : Nat)
    (key : List Nat) (assembly : List Nat) (prog_data : brw_stage_prog_data)
    (streamout system_values : Option (List Nat)) (num_system_values num_cbufs : Nat)
    (p : Nat)
    (hfound : find_existing_assembly E ice.compiled ice.shaders_cache assembly
      (load_uint32 prog_data.bytes E.program_size_offset) = some p) :
    ∃ (s : Nat) (ice1 : iris_context) (existing sh : iris_compiled_shader),
      iris_upload_shader E vtbl ice cache_id key_size key assembly prog_data streamout
        system_values num_system_values num_cbufs = (s, ice1) ∧
      ice.compiled[p]? = some existing ∧ ice1.compiled[s]? = some sh ∧ s ≠ p ∧
      sh.assembly = existing.assembly ∧ sh.map = existing.map ∧
      sh.prog_data = prog_data ∧ sh.streamout = streamout ∧
      sh.system_values = system_values ∧ sh.num_system_values = num_system_values ∧
      sh.num_cbufs = num_cbufs ∧
      ice1.compiled[p]? = some existing ∧
      (∀ q, q < ice.compiled.length → ice1.compiled[q]? = ice.compiled[q]?) := by
  obtain ⟨sh, hu, h1, h2, h3, h4, h5, hplace⟩ := iris_upload_shader_eq E vtbl ice cache_id
    key_size key assembly prog_data streamout system_values num_system_values num_cbufs
  rcases hplace with ⟨hnone, _, _⟩ | ⟨q, ex, hq, hex, _, _, hasm, hmap⟩
  · rw [hfound] at hnone; cases hnone
  · have hpq := Option.some.inj (hfound.symm.trans hq)
    subst hpq
    have hlt : p < ice.compiled.length := by
      rcases Nat.lt_or_ge p ice.compiled.length with h | h
      · exact h
      · rw [List.getElem?_eq_none_iff.mpr h] at hex; cases hex
    refine ⟨_, _, ex, sh, hu, hex, ?_, ?_, hasm, hmap, h1, h2, h3, h4, h5, ?_, ?_⟩
    · show (ice.compiled ++ [sh])[ice.compiled.length]? = some sh
      simp
    · omega
    · show (ice.compiled ++ [sh])[p]? = some ex
      rw [List.getElem?_append_left hlt, hex]
    · intro q hq
      show (ice.compiled ++ [sh])[q]? = ice.compiled[q]?
      rw [List.getElem?_append_left hq]

/-- The statement C26 for the upload of the assembly `9 9 9 9` under the key
`2` of `IRIS_CACHE_FS`, with metadata of its own, into the context that holds
the shader of this assembly under the key `1` of `IRIS_CACHE_VS`. -/
theorem iris_dedup_keeps_metadata_apart_witness :
    ∃ (s : Nat) (ice1 : iris_context) (existing sh : iris_compiled_shader),
      iris_upload_shader example_env example_vtbl example_ice_one .IRIS_CACHE_FS 1 [2]
        [9, 9, 9, 9] (example_iris_prog_data 4 [7]) (some [3]) (some [5]) 1 2 = (s, ice1) ∧
      example_ice_one.compiled[0]? = some existing ∧ ice1.compiled[s]? = some sh ∧ s ≠ 0 ∧
      sh.assembly = existing.assembly ∧ sh.map = existing.map ∧
      sh.prog_data = example_iris_prog_data 4 [7] ∧ sh.streamout = some [3] ∧
      sh.system_values = some [5] ∧ sh.num_system_values = 1 ∧
      sh.num_cbufs = 2 ∧
      ice1.compiled[0]? = some existing ∧
      (∀ q, q < example_ice_one.compiled.length →
        ice1.compiled[q]? = example_ice_one.compiled[q]?) :=
  iris_dedup_keeps_metadata_apart example_env example_vtbl example_ice_one .IRIS_CACHE_FS 1
    [2] [9, 9, 9, 9] (example_iris_prog_data 4 [7]) (some [3]) (some [5]) 1 2 0 (by decide)

/-- The upload of a key that the table holds (C27): after the upload of the
key `1` of `IRIS_CACHE_VS` the table holds the shader at address 0 for this
key; a second upload of this key returns the new shader at address 1, not the
shader at address 0, and a search of the key then returns the shader at
address 1. -/
theorem iris_upload_replaces_shader_of_present_key :
    (iris_find_cached_shader example_env example_ice_one .IRIS_CACHE_VS 1 [1]).1 = some 0 ∧
    (iris_upload_shader example_env example_vtbl example_ice_one .IRIS_CACHE_VS 1 [1]
      [8, 8, 8, 8] (example_iris_prog_data 4 []) none none 0 0).1 = 1 ∧
    (iris_find_cached_shader example_env example_ice_two .IRIS_CACHE_VS 1 [1]).1 = some 1 ∧
    (example_ice_two.compiled.map (fun sh => sh.map)) = [[9, 9, 9, 9], [8, 8, 8, 8]] := by
  decide

/-- C27, amended: when `iris_upload_shader` is called with a key for which the
table holds a shader, it makes a new shader, returns it and registers it under
the key in the place of the shader that was there: the table keeps its number
of entries, a later `iris_find_cached_shader` of the key returns the new
shader, and the record of the shader that was there is left as it was. -/
theorem iris_upload_of_present_key_registers_new_shader (E : mesa_env) (vtbl : iris_vtbl)
    (ice : iris_context) (cache_id : iris_program_cache_id) (key_size : Nat)
    (key : List Nat) (assembly : List Nat) (prog_data : brw_stage_prog_data)
    (streamout system_values : Option (List Nat)) (num_system_values num_cbufs : Nat)
    (old : Nat) (existing : iris_compiled_shader)
    (hheld : (iris_find_cached_shader E ice cache_id key_size key).1 = some old)
    (hold : ice.compiled[old]? = some existing) :
    ∃ (s : Nat) (ice1 : iris_context),
      iris_upload_shader E vtbl ice cache_id key_size key assembly prog_data streamout
        system_values num_system_values num_cbufs = (s, ice1) ∧
      s = ice.compiled.length ∧ s ≠ old ∧
      ice1.shaders_cache.length = ice.shaders_cache.length ∧
      (iris_find_cached_shader E ice1 cache_id key_size key).1 = some s ∧
      ice1.compiled[old]? = some existing := by
  obtain ⟨sh, hu, _⟩ := iris_upload_shader_eq E vtbl ice cache_id key_size key assembly
    prog_data streamout system_values num_system_values num_cbufs
  have hlt : old < ice.compiled.length := by
    rcases Nat.lt_or_ge old ice.compiled.length with h | h
    · exact h
    · rw [List.getElem?_eq_none_iff.mpr h] at hold; cases hold
  rw [iris_find_cached_shader_eq] at hheld
  simp only at hheld
  refine ⟨_, _, hu, rfl, by omega, ?_, ?_, ?_⟩
  · apply hash_table_insert_length_of_search_some
    cases hs : _mesa_hash_table_search (keybox_hash E) keybox_equals ice.shaders_cache
      (make_keybox cache_id key key_size) with
    | none => rw [hs] at hheld; cases hheld
    | some e => rfl
  · rw [iris_find_cached_shader_eq]
    simp only
    rw [hash_table_search_insert_self _ _ (keybox_matches_refl E)]
    rfl
  · show (ice.compiled ++ [sh])[old]? = some existing
    rw [List.getElem?_append_left hlt, hold]

/-- The statement C27, amended, for a second upload of the key `1` of
`IRIS_CACHE_VS`, with the assembly `8 8 8 8`. -/
theorem iris_upload_of_present_key_registers_new_shader_witness :
    ∃ (s : Nat) (ice1 : iris_context),
      iris_upload_shader example_env example_vtbl example_ice_one .IRIS_CACHE_VS 1 [1]
        [8, 8, 8, 8] (example_iris_prog_data 4 []) none none 0 0 = (s, ice1) ∧
      s = example_ice_one.compiled.length ∧ s ≠ 0 ∧
      ice1.shaders_cache.length = example_ice_one.shaders_cache.length ∧
      (iris_find_cached_shader example_env ice1 .IRIS_CACHE_VS 1 [1]).1 = some s ∧
      ice1.compiled[0]? = some
        { assembly := { offset := 0, res := some 0 }
          map := [9, 9, 9, 9]
          prog_data := example_iris_prog_data 4 []
          system_values := none
          num_system_values := 0
          num_cbufs := 0
          streamout := none
          derived_data := [] } :=
  iris_upload_of_present_key_registers_new_shader example_env example_vtbl example_ice_one
    .IRIS_CACHE_VS 1 [1] [8, 8, 8, 8] (example_iris_prog_data 4 []) none none 0 0 0 _
    (by decide) (by decide)

/-- C28: after `iris_upload_shader` returns the shader `s` for a key,
`iris_find_cached_shader` with the same `cache_id`, `key_size` and key returns
`s`, for every `key_size`; and every call of `iris_find_cached_shader`, hit or
miss, leaves the context, and so the entries of the table, as they were. -/
theorem iris_find_after_upload (E : mesa_env) (vtbl : iris_vtbl)
    (ice : iris_context) (cache_id : iris_program_cache_id) (key_size : Nat)
    (key : List Nat) (assembly : List Nat) (prog_data : brw_stage_prog_data)
    (streamout system_values : Option (List Nat)) (num_system_values num_cbufs : Nat) :
    (iris_find_cached_shader E
      (iris_upload_shader E vtbl ice cache_id key_size key assembly prog_data streamout
        system_values num_system_values num_cbufs).2 cache_id key_size key).1 =
      some (iris_upload_shader E vtbl ice cache_id key_size key assembly prog_data
        streamout system_values num_system_values num_cbufs).1 ∧
    (∀ (ice0 : iris_context) (cache_id0 : iris_program_cache_id) (key_size0 : Nat)
      (key0 : List Nat),
      (iris_find_cached_shader E ice0 cache_id0 key_size0 key0).2 = ice0 ∧
      (iris_find_cached_shader E ice0 cache_id0 key_size0 key0).2.shaders_cache =
        ice0.shaders_cache) := by
  constructor
  · obtain ⟨sh, hu, _⟩ := iris_upload_shader_eq E vtbl ice cache_id key_size key assembly
      prog_data streamout system_values num_system_values num_cbufs
    rw [hu, iris_find_cached_shader_eq]
    simp only
    rw [hash_table_search_insert_self _ _ (keybox_matches_refl E)]
    rfl
  · intro ice0 cache_id0 key_size0 key0
    rw [iris_find_cached_shader_eq]
    exact ⟨rfl, rfl⟩

/-- C29: for every call of `iris_upload_shader`, the first `program_size`
bytes behind the `map` of the shader that it returns are the first
`program_size` bytes of the assembly that the caller passed, both when the
scan finds a shader with the same assembly and when a new region is
allocated. -/
theorem iris_upload_map_holds_assembly (E : mesa_env) (vtbl : iris_vtbl)
    (ice : iris_context) (cache_id : iris_program_cache_id) (key_size : Nat)
    (key : List Nat) (assembly : List Nat) (prog_data : brw_stage_prog_data)
    (streamout system_values : Option (List Nat)) (num_system_values num_cbufs : Nat) :
    ∃ sh : iris_compiled_shader,
      (iris_upload_shader E vtbl ice cache_id key_size key assembly prog_data streamout
        system_values num_system_values num_cbufs).2.compiled[
          (iris_upload_shader E vtbl ice cache_id key_size key assembly prog_data
            streamout system_values num_system_values num_cbufs).1]? = some sh ∧
      sh.map.take (load_uint32 prog_data.bytes E.program_size_offset) =
        assembly.take (load_uint32 prog_data.bytes E.program_size_offset) ∧
      memcmp_eq sh.map assembly (load_uint32 prog_data.bytes E.program_size_offset) =
        true := by
  obtain ⟨sh, hu, _, _, _, _, _, hplace⟩ := iris_upload_shader_eq E vtbl ice cache_id
    key_size key assembly prog_data streamout system_values num_system_values num_cbufs
  have htake : sh.map.take (load_uint32 prog_data.bytes E.program_size_offset) =
      assembly.take (load_uint32 prog_data.bytes E.program_size_offset) := by
    rcases hplace with ⟨_, _, hmap⟩ | ⟨p, ex, _, _, _, hcmp, _, hmap⟩
    · rw [hmap]
      simp [memcpy]
    · rw [hmap]
      exact (memcmp_eq_iff _ _ _).mp hcmp
  refine ⟨sh, ?_, htake, (memcmp_eq_iff _ _ _).mpr htake⟩
  rw [hu]
  show (ice.compiled ++ [sh])[ice.compiled.length]? = some sh
  simp

/-! ## Kernel regions of uploaded binaries -/

theorem ALIGN_64_ge (n : Nat) : n ≤ ALIGN n 64 := by
  unfold ALIGN
  omega

theorem anv_shader_bin_create_kernel (E : mesa_env) (device : anv_device)
    (key_data : List Nat) (key_size : Nat)
    (kernel_data : List Nat) (kernel_size : Nat)
    (constant_data : List Nat) (constant_data_size : Nat)
    (prog_data_in : List Nat) (prog_data_size : Nat)
    (prog_data_param_in : List Nat)
    (xfb_info_in : Option (List Nat))
    (bind_map : anv_pipeline_bind_map)
    (halloc : (anv_multialloc_alloc device.alloc).1 = true) :
    (anv_shader_bin_create E device key_data key_size kernel_data kernel_size
      constant_data constant_data_size prog_data_in prog_data_size prog_data_param_in
      xfb_info_in bind_map).2.instruction_state_pool =
      ALIGN device.instruction_state_pool 64 + kernel_size ∧
    ∃ b : anv_shader_bin,
      (anv_shader_bin_create E device key_data key_size kernel_data kernel_size
        constant_data constant_data_size prog_data_in prog_data_size prog_data_param_in
        xfb_info_in bind_map).2.bins = device.bins ++ [b] ∧
      b.kernel = { offset := ALIGN device.instruction_state_pool 64
                   alloc_size := kernel_size
                   map := memcpy kernel_data kernel_size } := by
  unfold anv_shader_bin_create
  rcases h : anv_multialloc_alloc device.alloc with ⟨ok, rest⟩
  rw [h] at halloc
  simp only at halloc
  subst halloc
  exact ⟨rfl, _, rfl, rfl⟩

/-- The upload of a key that the table does not hold, with a host allocation
that succeeds: the new binary has a kernel region of its own, which starts at
the next multiple of 64 in the instruction state pool. -/
theorem anv_upload_miss_kernel (E : mesa_env) (device : anv_device)
    {cache : anv_pipeline_cache}
    {ht : List (hash_entry anv_shader_bin_key Nat)} (hc : cache.cache = some ht)
    {key_data : List Nat} {key_size : Nat}
    (kernel_data : List Nat) (kernel_size : Nat)
    (constant_data : List Nat) (constant_data_size : Nat)
    (prog_data : brw_stage_prog_data) (prog_data_size : Nat)
    (xfb_info : Option (List Nat)) (bind_map : anv_pipeline_bind_map)
    (h : anv_pipeline_cache_search_locked E cache key_data key_size = none)
    (halloc : (anv_multialloc_alloc device.alloc).1 = true) :
    ∃ d1 : anv_device,
      anv_pipeline_cache_upload_kernel E device cache key_data key_size kernel_data
        kernel_size constant_data constant_data_size prog_data prog_data_size xfb_info
        bind_map =
        (some device.bins.length, d1,
         { cache with cache := some (ht ++
            [⟨{ size := key_size, data := memcpy key_data key_size },
              device.bins.length⟩]) }) ∧
      d1.instruction_state_pool = ALIGN device.instruction_state_pool 64 + kernel_size ∧
      d1.alloc = (anv_multialloc_alloc device.alloc).2 ∧
      d1.bins.length = device.bins.length + 1 ∧
      (∀ p, p < device.bins.length → d1.bins[p]? = device.bins[p]?) ∧
      (d1.bins[device.bins.length]?).map (fun b => b.kernel) =
        some { offset := ALIGN device.instruction_state_pool 64
               alloc_size := kernel_size
               map := memcpy kernel_data kernel_size } := by
  have ha := anv_shader_bin_create_alloc E device key_data key_size kernel_data kernel_size
    constant_data constant_data_size prog_data.bytes prog_data_size prog_data.param
    xfb_info bind_map halloc
  obtain ⟨hpool, b, hbins, hker⟩ := anv_shader_bin_create_kernel E device key_data key_size
    kernel_data kernel_size constant_data constant_data_size prog_data.bytes
    prog_data_size prog_data.param xfb_info bind_map halloc
  rcases anv_upload_miss E device hc kernel_data kernel_size constant_data
    constant_data_size prog_data prog_data_size xfb_info bind_map h with
    ⟨hnone, _⟩ | ⟨_, hr⟩
  · rw [ha.1] at hnone; cases hnone
  · refine ⟨_, hr, ?_, ?_, ?_, ?_, ?_⟩
    · exact hpool
    · exact ha.2.1
    · rw [anv_shader_bin_ref_length, hbins]
      simp
    · intro p hp
      rw [anv_shader_bin_ref_get_ne _ (by omega), hbins, List.getElem?_append_left hp]
    · rw [anv_shader_bin_ref_get_self, hbins]
      simp [hker]

/-- The uploads (C31), into an empty enabled cache of the example device, of
the code `9 9` under the key `1` and then under the key `2`: the two binaries
have the kernel regions at the offsets 0 and 64, and each upload moves the
instruction state pool. -/
theorem anv_upload_identical_code_allocates_twice :
    (anv_pipeline_cache_upload_kernel example_env example_device
      (anv_pipeline_cache_init true) [1] 1 [9, 9] 2 [] 0 example_prog_data 0 none
      example_bind_map).2.1.instruction_state_pool = 2 ∧
    (anv_pipeline_cache_upload_kernel example_env
      (anv_pipeline_cache_upload_kernel example_env example_device
        (anv_pipeline_cache_init true) [1] 1 [9, 9] 2 [] 0 example_prog_data 0 none
        example_bind_map).2.1
      (anv_pipeline_cache_upload_kernel example_env example_device
        (anv_pipeline_cache_init true) [1] 1 [9, 9] 2 [] 0 example_prog_data 0 none
        example_bind_map).2.2
      [2] 1 [9, 9] 2 [] 0 example_prog_data 0 none
      example_bind_map).2.1.instruction_state_pool = 66 ∧
    (anv_pipeline_cache_upload_kernel example_env
      (anv_pipeline_cache_upload_kernel example_env example_device
        (anv_pipeline_cache_init true) [1] 1 [9, 9] 2 [] 0 example_prog_data 0 none
        example_bind_map).2.1
      (anv_pipeline_cache_upload_kernel example_env example_device
        (anv_pipeline_cache_init true) [1] 1 [9, 9] 2 [] 0 example_prog_data 0 none
        example_bind_map).2.2
      [2] 1 [9, 9] 2 [] 0 example_prog_data 0 none
      example_bind_map).2.1.bins.map (fun b => (b.key.data, b.kernel.offset, b.kernel.map)) =
      [([1], 0, [9, 9]), ([2], 64, [9, 9])] := by
  decide

/-- C31, amended: two uploads with `anv_pipeline_cache_upload_kernel`, one
after the other, of the same kernel code under two keys that the table does
not hold, with host allocations that succeed: the two binaries hold the same
kernel bytes, each in a kernel region of its own; the second upload takes a
new region from the instruction state pool, which starts at or behind the end
of the region of the first. -/
theorem anv_upload_identical_code_has_own_region (E : mesa_env) (device : anv_device)
    (cache : anv_pipeline_cache) (ht : List (hash_entry anv_shader_bin_key Nat))
    (key_data1 : List Nat) (key_size1 : Nat) (key_data2 : List Nat) (key_size2 : Nat)
    (kernel_data : List Nat) (kernel_size : Nat)
    (constant_data1 : List Nat) (constant_data_size1 : Nat)
    (prog_data1 : brw_stage_prog_data) (prog_data_size1 : Nat)
    (xfb_info1 : Option (List Nat)) (bind_map1 : anv_pipeline_bind_map)
    (constant_data2 : List Nat) (constant_data_size2 : Nat)
    (prog_data2 : brw_stage_prog_data) (prog_data_size2 : Nat)
    (xfb_info2 : Option (List Nat)) (bind_map2 : anv_pipeline_bind_map)
    (henabled : cache.cache = some ht)
    (halloc : ∀ ok ∈ device.alloc, ok = true)
    (habsent1 : anv_pipeline_cache_search_locked E cache key_data1 key_size1 = none)
    (habsent2 : anv_pipeline_cache_search_locked E
      (anv_pipeline_cache_upload_kernel E device cache key_data1 key_size1 kernel_data
        kernel_size constant_data1 constant_data_size1 prog_data1 prog_data_size1 xfb_info1
        bind_map1).2.2 key_data2 key_size2 = none) :
    ∃ (A1 A2 : Nat) (d1 d2 : anv_device) (c1 c2 : anv_pipeline_cache),
      anv_pipeline_cache_upload_kernel E device cache key_data1 key_size1 kernel_data
        kernel_size constant_data1 constant_data_size1 prog_data1 prog_data_size1 xfb_info1
        bind_map1 = (some A1, d1, c1) ∧
      anv_pipeline_cache_upload_kernel E d1 c1 key_data2 key_size2 kernel_data
        kernel_size constant_data2 constant_data_size2 prog_data2 prog_data_size2 xfb_info2
        bind_map2 = (some A2, d2, c2) ∧
      A1 ≠ A2 ∧
      (d2.bins[A1]?).map (fun b => b.kernel) =
        some { offset := ALIGN device.instruction_state_pool 64
               alloc_size := kernel_size
               map := memcpy kernel_data kernel_size } ∧
      (d2.bins[A2]?).map (fun b => b.kernel) =
        some { offset := ALIGN d1.instruction_state_pool 64
               alloc_size := kernel_size
               map := memcpy kernel_data kernel_size } ∧
      d1.instruction_state_pool = ALIGN device.instruction_state_pool 64 + kernel_size ∧
      d2.instruction_state_pool = ALIGN d1.instruction_state_pool 64 + kernel_size ∧
      ALIGN device.instruction_state_pool 64 + kernel_size ≤
        ALIGN d1.instruction_state_pool 64 := by
  have hall := anv_multialloc_alloc_all device.alloc halloc
  obtain ⟨d1, hu1, hp1, ha1, hl1, hold1, hk1⟩ := anv_upload_miss_kernel E device henabled
    kernel_data kernel_size constant_data1 constant_data_size1 prog_data1 prog_data_size1
    xfb_info1 bind_map1 habsent1 hall.1
  rw [hu1] at habsent2
  simp only at habsent2
  have hall2 := anv_multialloc_alloc_all d1.alloc (by rw [ha1]; exact hall.2)
  obtain ⟨d2, hu2, hp2, _, _, hold2, hk2⟩ := anv_upload_miss_kernel E d1
    (show ({ cache with cache := some (ht ++
      [⟨{ size := key_size1, data := memcpy key_data1 key_size1 },
        device.bins.length⟩]) } : anv_pipeline_cache).cache = some _ from rfl)
    kernel_data kernel_size constant_data2 constant_data_size2 prog_data2 prog_data_size2
    xfb_info2 bind_map2 habsent2 hall2.1
  refine ⟨_, _, d1, d2, _, _, hu1, hu2, by omega, ?_, hk2, hp1, hp2, ?_⟩
  · rw [hold2 _ (by omega), hk1]
  · rw [hp1]
    exact ALIGN_64_ge _

/-- The statement C31, amended, for the uploads of the code `9 9` under the
keys `1` and `2` into an empty enabled cache of the example device. -/
theorem anv_upload_identical_code_has_own_region_witness :
    ∃ (A1 A2 : Nat) (d1 d2 : anv_device) (c1 c2 : anv_pipeline_cache),
      anv_pipeline_cache_upload_kernel example_env example_device
        (anv_pipeline_cache_init true) [1] 1 [9, 9] 2 [] 0 example_prog_data 0 none
        example_bind_map = (some A1, d1, c1) ∧
      anv_pipeline_cache_upload_kernel example_env d1 c1 [2] 1 [9, 9] 2 [] 0
        example_prog_data 0 none example_bind_map = (some A2, d2, c2) ∧
      A1 ≠ A2 ∧
      (d2.bins[A1]?).map (fun b => b.kernel) =
        some { offset := ALIGN example_device.instruction_state_pool 64
               alloc_size := 2
               map := memcpy [9, 9] 2 } ∧
      (d2.bins[A2]?).map (fun b => b.kernel) =
        some { offset := ALIGN d1.instruction_state_pool 64
               alloc_size := 2
               map := memcpy [9, 9] 2 } ∧
      d1.instruction_state_pool = ALIGN example_device.instruction_state_pool 64 + 2 ∧
      d2.instruction_state_pool = ALIGN d1.instruction_state_pool 64 + 2 ∧
      ALIGN example_device.instruction_state_pool 64 + 2 ≤
        ALIGN d1.instruction_state_pool 64 :=
  anv_upload_identical_code_has_own_region example_env example_device
    (anv_pipeline_cache_init true) [] [1] 1 [2] 1 [9, 9] 2 [] 0 example_prog_data 0 none
    example_bind_map [] 0 example_prog_data 0 none example_bind_map rfl
    (fun _ h => by cases h) (by decide) (by decide)

/-! ## Hash and equality of the iris key box -/

/-- C34: the key boxes of the key `1 2` for `IRIS_CACHE_VS` and for
`IRIS_CACHE_FS` compare equal under `keybox_equals` and have different hashes
under `keybox_hash` (with the byte sum as `_mesa_hash_data`), and the search
of a table that holds the first does not find it with the second; two key
boxes that compare equal and have the same `cache_id` have the same hash. -/
theorem keybox_equal_keys_hash_apart :
    keybox_equals (make_keybox .IRIS_CACHE_VS [1, 2] 2)
      (make_keybox .IRIS_CACHE_FS [1, 2] 2) = true ∧
    keybox_hash example_env (make_keybox .IRIS_CACHE_VS [1, 2] 2) = 3 ∧
    keybox_hash example_env (make_keybox .IRIS_CACHE_FS [1, 2] 2) = 7 ∧
    _mesa_hash_table_search (keybox_hash example_env) keybox_equals
      [(⟨make_keybox .IRIS_CACHE_VS [1, 2] 2, 0⟩ : hash_entry keybox Nat)]
      (make_keybox .IRIS_CACHE_FS [1, 2] 2) = none ∧
    (∀ (E : mesa_env) (a b : keybox), keybox_equals a b = true →
      a.cache_id = b.cache_id → keybox_hash E a = keybox_hash E b) := by
  refine ⟨by decide, by decide, by decide, by decide, ?_⟩
  intro E a b heq hid
  unfold keybox_equals at heq
  by_cases hs : a.size = b.size
  · simp only [hs, ne_eq, not_true_eq_false, if_false] at heq
    unfold keybox_hash
    rw [hid, hs]
    rw [memcmp_eq_iff] at heq
    rw [heq]
  · simp [hs] at heq

/-! ## Buffers below the size of header and count -/

/-- C36: with a buffer of less than 36 bytes `anv_GetPipelineCacheData`
returns `VK_INCOMPLETE`, sets `*pDataSize` to 0 and leaves no byte of output,
and `anv_pipeline_cache_load` of a buffer of less than 36 bytes leaves the
device and the cache as they were. -/
theorem anv_get_and_load_below_header_and_count (E : mesa_env) (device : anv_device)
    (cache : anv_pipeline_cache) (n : Nat) (data : List Nat) (hn : n < 36) :
    anv_GetPipelineCacheData E device cache n true = (.VK_INCOMPLETE, 0, []) ∧
    anv_pipeline_cache_load E device cache data n = (device, cache) :=
  ⟨anv_get_small E device cache n hn, anv_load_rejected E device cache data n (Or.inl hn)⟩

/-- The statement C36 for the example cache of two binaries and the first 35
bytes of `example_blob`. -/
theorem anv_get_and_load_below_header_and_count_witness :
    anv_GetPipelineCacheData example_env example_device_wf example_cache_wf 35 true =
      (.VK_INCOMPLETE, 0, []) ∧
    anv_pipeline_cache_load example_env example_device_wf example_cache_wf example_blob 35 =
      (example_device_wf, example_cache_wf) :=
  anv_get_and_load_below_header_and_count example_env example_device_wf example_cache_wf 35
    example_blob (by decide)

/-! ## Reads of the loader outside the bytes it checked -/

set_option maxRecDepth 8000 in
/-- C32: `anv_pipeline_cache_load` reads bytes that no checked read of the
blob reader covered.  The 68 byte buffer `example_blob_no_prog_data` holds one
entry with `prog_data_size = 0`; the loader reads `prog_data->nr_params` at
the offsets 80 to 83, behind the buffer: with zero bytes there the entry is
loaded, with the bytes `1 0 0 0` there it is not, although the 68 bytes of the
buffer are the same.  The 100 byte buffer `example_blob_short_xfb` holds one
entry with 4 bytes of transform feedback data; the binary gets transform
feedback data of `nir_xfb_info_size (output_count)` bytes, which are taken
from the buffer behind these 4 bytes and from the memory behind the buffer. -/
theorem anv_load_reads_behind_checked_bytes :
    (example_blob_no_prog_data ++ List.replicate 12 0 ++ [1, 0, 0, 0]).take 68 =
      example_blob_no_prog_data.take 68 ∧
    (anv_pipeline_cache_load example_env example_device (anv_pipeline_cache_init true)
      example_blob_no_prog_data 68).2.cache = some [⟨⟨1, [7]⟩, 0⟩] ∧
    (anv_pipeline_cache_load example_env example_device (anv_pipeline_cache_init true)
      (example_blob_no_prog_data ++ List.replicate 12 0 ++ [1, 0, 0, 0]) 68).2.cache =
      some [] ∧
    (example_blob_short_xfb ++ List.replicate 20 9).take 100 =
      example_blob_short_xfb.take 100 ∧
    (anv_pipeline_cache_load example_env example_device (anv_pipeline_cache_init true)
      example_blob_short_xfb 100).1.bins.map (fun b => b.xfb_info) =
      [some [1, 1, 1, 1, 0, 0, 0, 0, 0, 0, 0, 0]] ∧
    (anv_pipeline_cache_load example_env example_device (anv_pipeline_cache_init true)
      (example_blob_short_xfb ++ List.replicate 20 9) 100).1.bins.map
        (fun b => b.xfb_info) =
      [some ([1, 1, 1, 1, 0, 0, 0, 0, 0, 0, 0, 0] ++ List.replicate 20 9)] := by
  refine ⟨?_, ?_, ?_, ?_, ?_, ?_⟩ <;> decide

/-! ## The device level search -/

/-- The call of `iris_find_previous_compile` with `IRIS_CACHE_BLORP`, which
the code excludes, on a table that holds an entry of `IRIS_CACHE_BLORP`: the
call of `get_program_string_id` for that entry reaches `unreachable`, so the
function returns neither `NULL` nor a key. -/
theorem iris_find_previous_compile_blorp_unreachable :
    iris_find_previous_compile example_key_layout example_table_blorp .IRIS_CACHE_BLORP 1 =
      none ∧
    (∃ e ∈ example_table_blorp, e.key.cache_id = .IRIS_CACHE_BLORP) := by
  refine ⟨rfl, ⟨_, List.mem_singleton.mpr rfl, rfl⟩⟩

/-- The bytes that `anv_GetPipelineCacheData` returns with `VK_SUCCESS` for a
table that satisfies the table invariant, loaded into a freshly initialised
enabled cache of the same device: the loaded table has the keys of the first
one, a search that misses in the first cache misses in the loaded one, and a
search that hits in the first cache hits a new binary with the same contents
in the loaded one. -/
theorem anv_round_trip_of_success (E : mesa_env) (hE : mesa_env_wf E) (device : anv_device)
    (cache : anv_pipeline_cache) (ht : List (hash_entry anv_shader_bin_key Nat))
    (hc : cache.cache = some ht) (hok : anv_table_ok device ht)
    (hwf : ∀ e ∈ ht, ∀ s, device.bins[e.data]? = some s → anv_shader_bin_wf E s)
    (hlen : ht.length < 4294967296) (hchip : device.chipset_id < 4294967296)
    (hu : device.pipeline_cache_uuid.length = VK_UUID_SIZE)
    (halloc : ∀ ok ∈ device.alloc, ok = true)
    (pDataSize n : Nat) (data : List Nat)
    (hget : anv_GetPipelineCacheData E device cache pDataSize true =
      (.VK_SUCCESS, n, data)) :
    ∃ ht1,
      (anv_pipeline_cache_load E device (anv_pipeline_cache_init true) data n).2.cache =
        some ht1 ∧
      ht1.map (fun e => e.key) = ht.map (fun e => e.key) ∧
      (∀ (key_data : List Nat) (key_size : Nat),
        anv_pipeline_cache_search_locked E cache key_data key_size = none →
        anv_pipeline_cache_search_locked E
          (anv_pipeline_cache_load E device (anv_pipeline_cache_init true) data n).2
          key_data key_size = none) ∧
      (∀ (key_data : List Nat) (key_size : Nat) (A : Nat),
        anv_pipeline_cache_search_locked E cache key_data key_size = some A →
        ∃ A1 a a1,
          anv_pipeline_cache_search_locked E
            (anv_pipeline_cache_load E device (anv_pipeline_cache_init true) data n).2
            key_data key_size = some A1 ∧
          device.bins[A]? = some a ∧
          (anv_pipeline_cache_load E device (anv_pipeline_cache_init true) data
            n).1.bins[A1]? = some a1 ∧
          a1.ref_cnt = 1 ∧ anv_shader_bin_same_contents E a1 a) := by
  have hlive : ∀ e ∈ ht, ∃ s, device.bins[e.data]? = some s := by
    intro e he
    rcases hok.2 e he with ⟨s, hs, _⟩
    exact ⟨s, hs⟩
  rcases anv_get_success E hE device cache ht hc hlive hwf hlen hu pDataSize n data hget
    with ⟨b2, ss, hb2s, hfa, hoom, hn, hdata⟩
  have hss : ∀ s ∈ ss, anv_shader_bin_wf E s := by
    intro s hs
    rcases anv_forall₂_mem_right hfa hs with ⟨e, he, hes⟩
    exact hwf e he s hes
  have hfa1 : List.Forall₂
      (fun e s => device.bins[e.data]? = some s ∧ s.key = e.key) ht ss := by
    refine anv_forall₂_of_mem hfa (fun e he s hes => ⟨hes, ?_⟩)
    rcases hok.2 e he with ⟨s1, hs1, hk1⟩
    rw [hes] at hs1
    simp only [Option.some.injEq] at hs1
    rw [hs1]
    exact hk1
  obtain ⟨hdr, hhdr⟩ : ∃ x : cache_header, x =
      { header_size := sizeof_cache_header
        header_version := VK_PIPELINE_CACHE_HEADER_VERSION_ONE
        vendor_id := 32902
        device_id := device.chipset_id
        uuid := memcpy device.pipeline_cache_uuid VK_UUID_SIZE } := ⟨_, rfl⟩
  rw [← hhdr] at hdata
  have hul : hdr.uuid.length = 16 := by
    rw [hhdr]
    simp only
    rw [memcpy_self _ hu]
    exact hu
  have hhl := cache_header_bytes_length hdr hul
  have hh : cache_header_of_bytes (memcpy data sizeof_cache_header) = hdr := by
    rw [hdata, List.append_assoc]
    exact cache_header_of_bytes_bytes hdr
      (by rw [hhdr]; exact (by decide : sizeof_cache_header < 4294967296))
      (by rw [hhdr]; exact (by decide : VK_PIPELINE_CACHE_HEADER_VERSION_ONE < 4294967296))
      (by rw [hhdr]; exact (by decide : 32902 < 4294967296))
      (by rw [hhdr]; exact hchip) hul _
  have hcount : load_uint32 data 32 = ht.length := by
    rw [hdata]
    exact load_uint32_at _ _ _ hlen 32 hhl.symm
  have hdrop : data.drop 36 =
      (ss.foldl (fun b s => (anv_shader_bin_write_to_blob E s b).2) b2).data.drop 36 := by
    rw [hdata]
    exact List.drop_left' (by rw [List.length_append, hhl, uint32_bytes_length])
  have hmono := anv_write_entries_mono E ss b2
  rw [hb2s, ← hn] at hmono
  have hcond : ¬ (n < 36 ∨
      (cache_header_of_bytes (memcpy data sizeof_cache_header)).header_size <
        sizeof_cache_header ∨
      (cache_header_of_bytes (memcpy data sizeof_cache_header)).header_version ≠
        VK_PIPELINE_CACHE_HEADER_VERSION_ONE ∨
      (cache_header_of_bytes (memcpy data sizeof_cache_header)).vendor_id ≠ 32902 ∨
      (cache_header_of_bytes (memcpy data sizeof_cache_header)).device_id ≠
        device.chipset_id ∨
      memcmp_eq (cache_header_of_bytes (memcpy data sizeof_cache_header)).uuid
        device.pipeline_cache_uuid VK_UUID_SIZE = false) := by
    rw [hh, hhdr]
    simp only [Nat.lt_irrefl, ne_eq, not_true_eq_false, false_or, not_or,
      Bool.not_eq_false]
    refine ⟨by omega, ?_⟩
    unfold memcmp_eq memcpy
    simp
  rcases anv_load_loop_entries E hE data n 36 ss hss b2 device [] (by omega)
    ⟨hoom, by rw [hdrop], by omega⟩ halloc with ⟨ts, d1, hloop, hbins, hfa2, _, _, _⟩
  have hW := anv_forall₂_comp hfa2 hfa1
  have hkey : ∀ (t : anv_shader_bin) (e : hash_entry anv_shader_bin_key Nat),
      (∃ s, (device.bins[e.data]? = some s ∧ s.key = e.key) ∧
        t.ref_cnt = 1 ∧ anv_shader_bin_same_contents E t s) → t.key = e.key := by
    rintro t e ⟨s, ⟨_, hk⟩, _, hsc⟩
    exact hsc.1.trans hk
  have hkeys : ts.map (fun t => t.key) = ht.map (fun e => e.key) :=
    anv_forall₂_map_eq hkey hW
  have hT := anv_insert_entries_append E ts device.bins.length [] (by
    rw [List.map_nil, List.nil_append, hkeys, List.pairwise_map]
    exact hok.1)
  rw [List.nil_append] at hT
  have hl0 := hloop 0
  rw [Nat.add_zero, hb2s, hfa.length_eq.symm, ← hcount, anv_pipeline_cache_load_loop,
    hT] at hl0
  have hload : anv_pipeline_cache_load E device (anv_pipeline_cache_init true) data n =
      (d1, { anv_pipeline_cache_init true with
        cache := some ((ts.enumFrom device.bins.length).map
          (fun pt => (⟨pt.2.key, pt.1⟩ : hash_entry anv_shader_bin_key Nat))) }) := by
    rw [anv_load_eq E device (anv_pipeline_cache_init true) [] rfl, if_neg hcond, hl0]
  rw [hload]
  refine ⟨_, rfl, ?_, ?_, ?_⟩
  · rw [← hkeys]
    exact anv_loaded_keys ts _
  · intro key_data key_size hnone
    rw [anv_search_locked_eq E hc] at hnone
    rw [anv_search_locked_eq E rfl]
    cases hs : _mesa_hash_table_search (shader_bin_key_hash_func E)
        shader_bin_key_compare_func ht
        { size := key_size, data := memcpy key_data key_size } with
    | some x => rw [hs] at hnone; cases hnone
    | none =>
      rw [(anv_search_loaded E _ hkey hW device.bins.length).1 hs]
      rfl
  · intro key_data key_size A hA
    rcases (anv_search_locked_isSome_iff E cache key_data key_size).1 hA with
      ⟨ht0, e, hc0, hs, heA⟩
    rw [hc] at hc0
    simp only [Option.some.injEq] at hc0
    subst hc0
    rcases (anv_search_loaded E _ hkey hW device.bins.length).2 e hs with
      ⟨i, t, hi, ⟨s, ⟨hes, _⟩, hr, hsc⟩, hsT⟩
    refine ⟨device.bins.length + i, s, t, ?_, ?_, ?_, hr, hsc⟩
    · rw [anv_search_locked_eq E rfl, hsT]
      rfl
    · rw [← heA]
      exact hes
    · simp only
      rw [hbins, List.getElem?_append_right (by omega), Nat.add_sub_cancel_left]
      exact hi

theorem anv_filterMap_take_of_live {α β : Type} (f : α → Option β) :
    ∀ (l : List α) (k : Nat), (∀ e ∈ l, ∃ s, f e = some s) →
      (l.take k).filterMap f = (l.filterMap f).take k ∧
      (l.filterMap f).length = l.length := by
  intro l
  induction l with
  | nil => intro k _; simp
  | cons x xs ih =>
    intro k h
    obtain ⟨s, hs⟩ := h x (List.mem_cons_self _ _)
    have hxs : ∀ e ∈ xs, ∃ s, f e = some s := fun e he => h e (List.mem_cons_of_mem _ he)
    cases k with
    | zero =>
      refine ⟨by simp, ?_⟩
      rw [List.filterMap_cons, hs]
      simp [(ih 0 hxs).2]
    | succ k =>
      constructor
      · rw [List.take_succ_cons, List.filterMap_cons, List.filterMap_cons, hs]
        simp only [List.take_succ_cons]
        rw [(ih k hxs).1]
      · rw [List.filterMap_cons, hs]
        simp [(ih 0 hxs).2]

theorem hash_table_search_take {κ δ : Type} (hf : κ → Nat) (eq : κ → κ → Bool)
    (ht : List (hash_entry κ δ)) (k : Nat) (key : κ) (e : hash_entry κ δ)
    (h : _mesa_hash_table_search hf eq (ht.take k) key = some e) :
    _mesa_hash_table_search hf eq ht key = some e := by
  unfold _mesa_hash_table_search at h ⊢
  rw [← List.take_append_drop k ht, List.find?_append, h]
  rfl

/-- The call of `anv_GetPipelineCacheData` that returns `VK_INCOMPLETE` with a
size that is not zero, for a table whose entries hold live binaries: the bytes
are those that the call returns with `VK_SUCCESS` for the cache that holds
the first `k` entries of the table only, and `k` is the stored count. -/
theorem anv_get_incomplete_eq_success_of_take (E : mesa_env) (device : anv_device)
    (cache : anv_pipeline_cache) (ht : List (hash_entry anv_shader_bin_key Nat))
    (hc : cache.cache = some ht)
    (hlive : ∀ e ∈ ht, ∃ s, device.bins[e.data]? = some s)
    (hlen : ht.length < 4294967296)
    (hu : device.pipeline_cache_uuid.length = 16)
    (pDataSize n : Nat) (data : List Nat)
    (hget : anv_GetPipelineCacheData E device cache pDataSize true =
      (.VK_INCOMPLETE, n, data))
    (hn : n ≠ 0) :
    ∃ k, k < ht.length ∧ load_uint32 data 32 = k ∧
      anv_GetPipelineCacheData E device { cache with cache := some (ht.take k) } n true =
        (.VK_SUCCESS, n, data) := by
  have hcap : 36 ≤ pDataSize := by
    by_cases h : 36 ≤ pDataSize
    · exact h
    · rw [anv_get_small E device cache pDataSize (by omega)] at hget
      simp only [Prod.mk.injEq] at hget
      exact absurd hget.2.1.symm hn
  obtain ⟨k, hk, hsz, hdat, hle, hr⟩ := anv_get_tracks E device cache pDataSize true hu
    (by rw [if_pos rfl]; exact hcap)
  rw [hget] at hsz hdat hr
  rw [if_pos rfl] at hdat
  simp only at hsz hdat hr
  have hbins : anv_cache_bins device cache =
      ht.filterMap (fun e => device.bins[e.data]?) := by
    simp only [anv_cache_bins, hc]
  have hfm := anv_filterMap_take_of_live (fun e : hash_entry anv_shader_bin_key Nat =>
    device.bins[e.data]?) ht k hlive
  have hklt : k < ht.length := by
    rcases hr with ⟨h1, _⟩ | ⟨_, h2, _⟩
    · cases h1
    · rw [hbins, hfm.2] at h2
      exact h2
  have hbins1 : anv_cache_bins device { cache with cache := some (ht.take k) } =
      (anv_cache_bins device cache).take k := by
    rw [hbins, ← hfm.1]
    rfl
  have htk : ((anv_cache_bins device cache).take k).length = k := by
    rw [List.length_take]
    omega
  have hn36 : 36 ≤ n := by
    rw [hsz, serialised_cache_length E device hu]
    omega
  refine ⟨k, hklt, ?_, ?_⟩
  · rw [hdat, load_uint32_serialised_cache E device hu _ (by rw [htk]; omega), htk]
  · obtain ⟨k1, hk1, hsz1, hdat1, hle1, hr1⟩ := anv_get_tracks E device
      { cache with cache := some (ht.take k) } n true hu (by rw [if_pos rfl]; exact hn36)
    rw [if_pos rfl] at hdat1 hle1 hr1
    rw [hbins1] at hk1 hsz1 hdat1 hle1 hr1
    have hmono := serialised_cache_take_le E device hu
      ((anv_cache_bins device cache).take k) (k1 + 1)
    rcases hr1 with ⟨h1, h2⟩ | ⟨_, _, h3⟩
    · rw [h2, List.take_length] at hsz1 hdat1
      refine Prod.ext h1 (Prod.ext ?_ ?_)
      · rw [hsz1, hsz]
      · rw [hdat1, hdat]
    · rw [← hsz] at hmono
      omega

/-- C35, amended: the bytes that `anv_GetPipelineCacheData` returns with
`VK_INCOMPLETE` and a size that is not zero, for a table that satisfies the
table invariant and holds well formed binaries, loaded with successful host
allocations into a freshly initialised enabled cache of the same device: the
loaded table has `k` entries, where `k` is the count stored in the bytes, with
the keys of the first `k` entries of the first table; every key that a search
finds in the loaded cache is found in the first cache, and the binary found
in the loaded cache is a new one with `ref_cnt = 1` and the key, code,
constant data, parameters, transform feedback data and binding map of the
binary found in the first cache, and with its program data outside the bytes
of the pointer field `param`. -/
theorem anv_truncated_serialisation_loads (E : mesa_env) (hE : mesa_env_wf E)
    (device : anv_device)
    (cache : anv_pipeline_cache) (ht : List (hash_entry anv_shader_bin_key Nat))
    (hc : cache.cache = some ht) (hok : anv_table_ok device ht)
    (hwf : ∀ e ∈ ht, ∀ s, device.bins[e.data]? = some s → anv_shader_bin_wf E s)
    (hlen : ht.length < 4294967296) (hchip : device.chipset_id < 4294967296)
    (hu : device.pipeline_cache_uuid.length = VK_UUID_SIZE)
    (halloc : ∀ ok ∈ device.alloc, ok = true)
    (pDataSize n : Nat) (data : List Nat)
    (hget : anv_GetPipelineCacheData E device cache pDataSize true =
      (.VK_INCOMPLETE, n, data))
    (hn : n ≠ 0) :
    ∃ k ht1, k < ht.length ∧ load_uint32 data 32 = k ∧
      (anv_pipeline_cache_load E device (anv_pipeline_cache_init true) data n).2.cache =
        some ht1 ∧
      ht1.length = k ∧
      ht1.map (fun e => e.key) = (ht.take k).map (fun e => e.key) ∧
      (∀ (key_data : List Nat) (key_size : Nat) (A1 : Nat),
        anv_pipeline_cache_search_locked E
          (anv_pipeline_cache_load E device (anv_pipeline_cache_init true) data n).2
          key_data key_size = some A1 →
        ∃ A a a1,
          anv_pipeline_cache_search_locked E cache key_data key_size = some A ∧
          device.bins[A]? = some a ∧
          (anv_pipeline_cache_load E device (anv_pipeline_cache_init true) data
            n).1.bins[A1]? = some a1 ∧
          a1.ref_cnt = 1 ∧ anv_shader_bin_same_contents E a1 a) := by
  have hlive : ∀ e ∈ ht, ∃ s, device.bins[e.data]? = some s := by
    intro e he
    rcases hok.2 e he with ⟨s, hs, _⟩
    exact ⟨s, hs⟩
  obtain ⟨k, hk, hcount, hget1⟩ := anv_get_incomplete_eq_success_of_take E device cache ht
    hc hlive hlen hu pDataSize n data hget hn
  have hsub : ∀ e ∈ ht.take k, e ∈ ht := fun e he => List.mem_of_mem_take he
  have hok1 : anv_table_ok device (ht.take k) :=
    ⟨List.Pairwise.sublist (List.take_sublist k ht) hok.1, fun e he => hok.2 e (hsub e he)⟩
  obtain ⟨ht1, hload, hkeys, hmiss, hhit⟩ := anv_round_trip_of_success E hE device
    { cache with cache := some (ht.take k) } (ht.take k) rfl hok1
    (fun e he => hwf e (hsub e he))
    (by rw [List.length_take]; omega) hchip hu halloc n n data hget1
  refine ⟨k, ht1, hk, hcount, hload, ?_, hkeys, ?_⟩
  · have := congrArg List.length hkeys
    rw [List.length_map, List.length_map, List.length_take] at this
    omega
  · intro key_data key_size A1 hA1
    cases hs : anv_pipeline_cache_search_locked E { cache with cache := some (ht.take k) }
        key_data key_size with
    | none =>
      rw [hmiss key_data key_size hs] at hA1
      cases hA1
    | some A =>
      obtain ⟨A2, a, a1, hA2, ha, ha1, href, hsame⟩ := hhit key_data key_size A hs
      rw [hA1] at hA2
      obtain rfl := Option.some.inj hA2
      refine ⟨A, a, a1, ?_, ha, ha1, href, hsame⟩
      rcases (anv_search_locked_isSome_iff E _ key_data key_size).1 hs with
        ⟨ht0, e, hc0, hse, heA⟩
      simp only [Option.some.injEq] at hc0
      subst hc0
      exact (anv_search_locked_isSome_iff E cache key_data key_size).2
        ⟨ht, e, hc, hash_table_search_take _ _ ht k _ e hse, heA⟩

set_option maxRecDepth 8000 in
/-- The statement C35, amended, for the example cache of two binaries and a
buffer of 120 bytes, which has room for the first entry only. -/
theorem anv_truncated_serialisation_loads_witness :
    ∃ k ht1, k < 2 ∧
      load_uint32 (anv_GetPipelineCacheData example_env example_device_wf example_cache_wf
        120 true).2.2 32 = k ∧
      (anv_pipeline_cache_load example_env example_device_wf (anv_pipeline_cache_init true)
        (anv_GetPipelineCacheData example_env example_device_wf example_cache_wf 120
          true).2.2
        (anv_GetPipelineCacheData example_env example_device_wf example_cache_wf 120
          true).2.1).2.cache = some ht1 ∧
      ht1.length = k :=
  (anv_truncated_serialisation_loads example_env (by unfold mesa_env_wf; decide)
    example_device_wf example_cache_wf [⟨⟨3, [1, 2, 3]⟩, 0⟩, ⟨⟨4, [1, 2, 3, 4]⟩, 1⟩] rfl
    ⟨by decide, fun e he => by
      simp only [List.mem_cons, List.mem_singleton, List.not_mem_nil, or_false] at he
      rcases he with rfl | rfl
      · exact ⟨example_bin_wf, rfl, rfl⟩
      · exact ⟨example_entry_bin, rfl, rfl⟩⟩
    (by
      intro e he s hs
      simp only [List.mem_cons, List.mem_singleton, List.not_mem_nil, or_false] at he
      rcases he with rfl | rfl
      · obtain rfl : example_bin_wf = s := Option.some.inj hs
        unfold anv_shader_bin_wf
        refine ⟨rfl, by decide, rfl, by decide, rfl, by decide, rfl, by decide, by decide,
          rfl, ?_, by decide, by decide, rfl, rfl, by decide⟩
        intro x h
        cases h
      · obtain rfl : example_entry_bin = s := Option.some.inj hs
        unfold anv_shader_bin_wf
        refine ⟨rfl, by decide, rfl, by decide, rfl, by decide, rfl, by decide, by decide,
          rfl, ?_, by decide, by decide, rfl, rfl, by decide⟩
        intro x h
        cases h)
    (by decide) (by decide) rfl (fun _ h => by cases h) 120
    (anv_GetPipelineCacheData example_env example_device_wf example_cache_wf 120 true).2.1
    (anv_GetPipelineCacheData example_env example_device_wf example_cache_wf 120 true).2.2
    (by decide) (by decide)).imp
    (fun _ h => h.imp (fun _ h2 => ⟨h2.1, h2.2.1, h2.2.2.1, h2.2.2.2.1⟩))

set_option maxRecDepth 8000 in
/-- A truncated serialisation does not give back the program data byte for
byte (C35): the enabled cache of `example_upload_two` holds the key `1 2 3`
for the artifact at address 0 and the key `5` for the artifact at address 1;
`anv_GetPipelineCacheData` with a buffer of 120 bytes, which has room for the
first entry only, returns `VK_INCOMPLETE` with 104 bytes; the load of these
bytes into a freshly initialised enabled cache of the same device makes the
key `1 2 3` resolve to the new artifact at address 2, whose program data hold
the address 12288 in the field `param` (bytes 16 to 23) where those of the
artifact at address 0 hold 4096. -/
theorem anv_truncated_serialisation_moves_param :
    ∃ data a a1,
      anv_GetPipelineCacheData example_env example_upload_two.2.1 example_upload_two.2.2
        120 true = (.VK_INCOMPLETE, 104, data) ∧
      anv_pipeline_cache_search_locked example_env example_upload_two.2.2 [1, 2, 3] 3 =
        some 0 ∧
      anv_pipeline_cache_search_locked example_env
        (anv_pipeline_cache_load example_env example_upload_two.2.1
          (anv_pipeline_cache_init true) data 104).2 [1, 2, 3] 3 = some 2 ∧
      example_upload_two.2.1.bins[0]? = some a ∧
      (anv_pipeline_cache_load example_env example_upload_two.2.1
        (anv_pipeline_cache_init true) data 104).1.bins[2]? = some a1 ∧
      a.prog_data = List.replicate 16 0 ++ [0, 16, 0, 0, 0, 0, 0, 0] ++ [1, 0, 0, 0] ∧
      a1.prog_data = List.replicate 16 0 ++ [0, 48, 0, 0, 0, 0, 0, 0] ++ [1, 0, 0, 0] ∧
      a1.prog_data ≠ a.prog_data :=
  ⟨(anv_GetPipelineCacheData example_env example_upload_two.2.1 example_upload_two.2.2
      120 true).2.2,
    { example_bin_uploaded with ref_cnt := 2 },
    { example_bin_uploaded with
      kernel := { offset := 128, alloc_size := 2, map := [9, 9] }
      prog_data := List.replicate 16 0 ++ [0, 48, 0, 0, 0, 0, 0, 0] ++ [1, 0, 0, 0] },
    by decide, by decide, by decide, by decide, by decide, by decide, by decide,
    by decide⟩
